import Mathlib

/-!
# card_game: rules engine, shallow embedding

Embedding of the Go packages `models`, `effects`, `game` and `services`.

Conventions of the embedding

* A Go `int` is a 64-bit signed integer: it is an `Int` here and every
  arithmetic result goes through `wrapInt` (wrap-around modulo 2^64).
* A Go `error` is an `Option String`: `none` is `nil`, `some msg` an error.
* A Go map is an association list; the order of the list stands for the
  order in which a `range` loop visits the entries. Nothing is assumed about
  that order, so every theorem holds for every iteration order.
* A pointer that may be `nil` is an `Option`. A function that dereferences a
  `nil` pointer panics; such a function returns an `Option` whose `none` is
  the panic.
* A mutating method returns the state after the call next to its result.
* The `gorm.Model` header and the two time stamps of a `Game` carry no game
  logic and are left out.
-/

namespace CardGame

/-! ## Machine integers -/

/-- Wrap-around of a Go `int`: the representative of `x` modulo 2^64 in the
range of a 64-bit signed integer. -/
def wrapInt (x : Int) : Int := (x + 2 ^ 63) % 2 ^ 64 - 2 ^ 63

/-- Largest Go `int`. -/
def maxInt : Int := 2 ^ 63 - 1

/-- Smallest Go `int`. -/
def minInt : Int := -(2 ^ 63)

/-! ## models/game.go -/

abbrev GamePhase := String
abbrev GameStatus := String

def PhaseStart : GamePhase := "start"
def PhaseDraw : GamePhase := "draw"
def PhaseEnergy : GamePhase := "energy"
def PhaseMain : GamePhase := "main"
def PhaseEnd : GamePhase := "end"

def StatusWaiting : GameStatus := "waiting"
def StatusPlaying : GameStatus := "playing"
def StatusFinished : GameStatus := "finished"

structure Friend where
  CardNo : String
  Power : Int
  IsRest : Bool
  TurnPlayed : Int
  deriving DecidableEq, Repr

structure EnergyCard where
  CardNo : String
  Color : String
  IsRest : Bool
  deriving DecidableEq, Repr

/-- The state of a player. `BattleArea` is the Go map `map[string]Friend` as
the list of its entries. `BattleAreaNil` tells that the map is nil, as it is
after decoding a record whose `battle_area` is `null` or missing: a nil map has
no entry and reads like an empty map, and an assignment to one of its keys
panics. -/
structure PlayerState where
  Deck : List String
  Hand : List String
  BattleArea : List (String × Friend)
  EnergyArea : List EnergyCard
  NegativeEnergy : List String
  Trash : List String
  FieldCard : Option String
  BattleAreaNil : Bool := false
  deriving DecidableEq, Repr

structure GameState where
  Player1State : PlayerState
  Player2State : PlayerState
  deriving DecidableEq, Repr

structure Game where
  GameID : String
  Player1ID : Nat
  Player2ID : Nat
  CurrentTurn : Int
  CurrentPhase : GamePhase
  ActivePlayer : Int
  Status : GameStatus
  WinnerID : Option Nat
  GameState : Option GameState
  deriving DecidableEq, Repr

/-- The part of `models.Card` the engine reads. The Go field `Type` is `Kind`
here; a literal that does not name it leaves it at the zero value. -/
structure Card where
  CardNo : String
  Power : Int
  Kind : String := ""
  deriving DecidableEq, Repr

/-! ## effects/types.go -/

abbrev TriggerType := String

def TriggerOnPlay : TriggerType := "on_play"
def TriggerOnAttack : TriggerType := "on_attack"
def TriggerOnBlock : TriggerType := "on_block"
def TriggerOnDestroy : TriggerType := "on_destroy"
def TriggerOnDamageDealt : TriggerType := "on_damage_dealt"
def TriggerPersistent : TriggerType := "persistent"
def TriggerStartPhase : TriggerType := "start_phase"
def TriggerEndPhase : TriggerType := "end_phase"
def TriggerMain : TriggerType := "main"
def TriggerCounter : TriggerType := "counter"

abbrev EffectScope := String

def ScopeSelf : EffectScope := "self"
def ScopeOpponent : EffectScope := "opponent"
def ScopeAllFriends : EffectScope := "all_friends"
def ScopeMyFriends : EffectScope := "my_friends"
def ScopeOppFriends : EffectScope := "opp_friends"
def ScopeTarget : EffectScope := "target"

/-- A target of an effect. The Go field `Type` is `Kind` here (`Type` is a
reserved word). `Data` is an empty interface in the source; the only value
ever stored in it is a `models.Friend`. -/
structure Target where
  Kind : String
  ID : String
  Location : String
  Data : Option Friend
  deriving DecidableEq, Repr

/-- The mutable part of `effects.GameContext`: the game the context points at
and the player the context is evaluated for. The function-valued fields of
the Go struct are filled in once, by `createGameContext`; they are the
definitions of the namespace `createGameContext` below. -/
structure GameContext where
  Game : Game
  ActivePlayer : Int
  deriving DecidableEq, Repr

/-- The interface `effects.Effect`. `none` is a panic of the method. `Apply`
returns the context after the call and the error. -/
structure Effect where
  GetTrigger : TriggerType
  CanActivate : GameContext → Card → Option Bool
  GetTargets : GameContext → Card → Option (List Target)
  Apply : GameContext → Card → List Target → Option (GameContext × Option String)
  GetDescription : String

/-! ## game/events.go: createGameContext -/

/-- The loop `for pos, friend := range battleArea` that rewrites the first
visited friend whose card number is `cardNo` and stops; `none` when the loop
ends without a match. -/
def rangeUpdate (cardNo : String) (f : Friend → Friend) :
    List (String × Friend) → Option (List (String × Friend))
  | [] => none
  | (pos, friend) :: rest =>
    if friend.CardNo = cardNo then some ((pos, f friend) :: rest)
    else (rangeUpdate cardNo f rest).map (fun r => (pos, friend) :: r)

/-- The shared frame of `RestFriend`, `ActiveFriend` and `ModifyPower`. -/
def updateFriend (game : Game) (player : Int) (cardNo : String) (f : Friend → Friend) :
    Game × Option String :=
  match game.GameState with
  | none => (game, some "no game state")
  | some gs =>
    let playerState := if player = 1 then gs.Player1State else gs.Player2State
    match rangeUpdate cardNo f playerState.BattleArea with
    | some ba =>
      let ps := { playerState with BattleArea := ba }
      let gs1 := if player = 1 then { gs with Player1State := ps } else { gs with Player2State := ps }
      ({ game with GameState := some gs1 }, none)
    | none => (game, some "friend not found")

namespace createGameContext

def DrawCards (game : Game) (_player : Int) (_count : Int) : Game × Option String :=
  (game, none)

def DestroyFriend (game : Game) (_player : Int) (_cardNo : String) : Game × Option String :=
  (game, none)

def ReturnToHand (game : Game) (_player : Int) (_cardNo : String) : Game × Option String :=
  (game, none)

def RestFriend (game : Game) (player : Int) (cardNo : String) : Game × Option String :=
  updateFriend game player cardNo (fun friend => { friend with IsRest := true })

def ActiveFriend (game : Game) (player : Int) (cardNo : String) : Game × Option String :=
  updateFriend game player cardNo (fun friend => { friend with IsRest := false })

/-- The body of the match in `ModifyPower`: add, then floor at zero. -/
def addPower (amount : Int) (friend : Friend) : Friend :=
  let power := wrapInt (friend.Power + amount)
  { friend with Power := if power < 0 then 0 else power }

def ModifyPower (game : Game) (player : Int) (cardNo : String) (amount : Int) :
    Game × Option String :=
  updateFriend game player cardNo (addPower amount)

def RevealNegEnergy (game : Game) (_player : Int) (_count : Int) : Game × Option String :=
  (game, none)

def PlaceFieldCard (game : Game) (_player : Int) (_cardNo : String) : Game × Option String :=
  (game, none)

def MoveToTrash (game : Game) (_player : Int) (_cardNo : String) (_from : String) :
    Game × Option String :=
  (game, none)

def MoveCardToDeck (game : Game) (_player : Int) (_cardNo : String) (_position : String) :
    Game × Option String :=
  (game, none)

def DealDamage (game : Game) (_player : Int) (_amount : Int) : Game × Option String :=
  (game, none)

def AddToEnergyArea (game : Game) (_player : Int) (_cardNo : String) : Game × Option String :=
  (game, none)

def GetPlayerState (game : Game) (player : Int) : Option PlayerState :=
  match game.GameState with
  | none => none
  | some gs => if player = 1 then some gs.Player1State else some gs.Player2State

def GetOpponentPlayer (player : Int) : Int :=
  if player = 1 then 2 else 1

end createGameContext

/-! ## fmt: the two format strings of effects/base_effects.go -/

/-- Decimal rendering of a natural number, most significant digit first
(`fuel` bounds the number of digits). -/
def natDigits : Nat → Nat → List Char
  | 0, _ => []
  | fuel + 1, n =>
    if n < 10 then [Char.ofNat (48 + n)]
    else natDigits fuel (n / 10) ++ [Char.ofNat (48 + n % 10)]

/-- The verb `%d` of `fmt.Sprintf` on an `int`. -/
def fmtInt (n : Int) : String :=
  if n < 0 then String.mk ('-' :: natDigits 20 n.natAbs) else String.mk (natDigits 20 n.natAbs)

/-- The call `fmt.Sprintf("battle_area_%d_%s", player, pos)`. -/
def battleAreaLocation (player : Int) (pos : String) : String :=
  "battle_area_" ++ fmtInt player ++ "_" ++ pos

/-- The space characters of package `fmt` (`isSpace` in fmt/scan.go). -/
def isSpace (r : Char) : Bool :=
  let c := r.toNat
  (0x0009 ≤ c && c ≤ 0x000d) || c == 0x0020 || c == 0x0085 || c == 0x00a0 || c == 0x1680 ||
  (0x2000 ≤ c && c ≤ 0x200a) || c == 0x2028 || c == 0x2029 || c == 0x202f || c == 0x205f ||
  c == 0x3000

/-- The method `ss.SkipSpace` in the mode of `Sscanf` (a newline is an error): the rest
of the input after the leading spaces, `none` on the error. -/
def skipSpace : List Char → Option (List Char)
  | [] => some []
  | r :: rest =>
    if r = '\n' then none
    else if isSpace r then skipSpace rest
    else some (r :: rest)

/-- Value of a run of decimal digits. -/
def digitsValue (digits : List Char) : Nat :=
  digits.foldl (fun acc d => 10 * acc + (d.toNat - 48)) 0

/-- The verb `%d` of `fmt.Sscanf` into an `int`: leading spaces, one optional
sign, at least one decimal digit, and the value must fit 64 bits. `none` is a
scan error, in which case the operand keeps its old value. -/
def scanInt (input : List Char) : Option Int :=
  match skipSpace input with
  | none => none
  | some [] => none
  | some (r :: rest) =>
    let negative := r = '-'
    let body := if r = '+' ∨ r = '-' then rest else r :: rest
    let digits := body.takeWhile Char.isDigit
    if digits = [] then none
    else
      let v : Int := if negative then -(digitsValue digits : Int) else (digitsValue digits : Int)
      if minInt ≤ v ∧ v ≤ maxInt then some v else none

/-- Matching of the literal text of a format against the input. -/
def matchLiteral : List Char → List Char → Option (List Char)
  | [], input => some input
  | _ :: _, [] => none
  | c :: lit, r :: input => if c = r then matchLiteral lit input else none

/-- The value of `player` after `var player int` and
`fmt.Sscanf(location, "battle_area_%d_", &player)` (the error is dropped by the
caller, so a failed scan leaves the zero value). The same value results from
the format `"battle_area_%d_%s"`, whose first operand is scanned the same way. -/
def scanPlayer (location : String) : Int :=
  match matchLiteral "battle_area_".toList location.toList with
  | none => 0
  | some rest =>
    match scanInt rest with
    | none => 0
    | some n => n

/-! ## effects/base_effects.go -/

structure BaseEffect where
  Trigger : TriggerType
  Description : String

/-- The loop `for pos, friend := range battleArea` that appends one target
for every visited friend passing the test `keep`. -/
def collectTargets (keep : Friend → Bool) (mk : String → Friend → Target) :
    List (String × Friend) → List Target
  | [] => []
  | (pos, friend) :: rest =>
    if keep friend then mk pos friend :: collectTargets keep mk rest
    else collectTargets keep mk rest

structure PowerModifierEffect extends BaseEffect where
  Scope : EffectScope
  Amount : Int
  Duration : String
  Condition : Option (GameContext → Card → Option Bool)

namespace PowerModifierEffect

def CanActivate (e : PowerModifierEffect) (game : GameContext) (source : Card) : Option Bool :=
  match e.Condition with
  | some cond => cond game source
  | none => some true

def GetTargets (e : PowerModifierEffect) (game : GameContext) (source : Card) :
    Option (List Target) :=
  let playerState := createGameContext.GetPlayerState game.Game game.ActivePlayer
  if e.Scope = ScopeSelf then
    playerState.map fun ps =>
      collectTargets (fun friend => friend.CardNo = source.CardNo)
        (fun pos friend =>
          { Kind := "friend", ID := friend.CardNo,
            Location := battleAreaLocation game.ActivePlayer pos, Data := none })
        ps.BattleArea
  else if e.Scope = ScopeMyFriends then
    playerState.map fun ps =>
      collectTargets (fun _ => true)
        (fun pos friend =>
          { Kind := "friend", ID := friend.CardNo,
            Location := battleAreaLocation game.ActivePlayer pos, Data := none })
        ps.BattleArea
  else if e.Scope = ScopeOppFriends then
    let oppPlayer := createGameContext.GetOpponentPlayer game.ActivePlayer
    (createGameContext.GetPlayerState game.Game oppPlayer).map fun oppState =>
      collectTargets (fun _ => true)
        (fun pos friend =>
          { Kind := "friend", ID := friend.CardNo,
            Location := battleAreaLocation oppPlayer pos, Data := none })
        oppState.BattleArea
  else some []

def Apply (e : PowerModifierEffect) (game : GameContext) (source : Card) :
    List Target → GameContext × Option String
  | [] => (game, none)
  | target :: rest =>
    let player := scanPlayer target.Location
    match createGameContext.ModifyPower game.Game player target.ID e.Amount with
    | (g, some err) => ({ game with Game := g }, some err)
    | (g, none) => Apply e { game with Game := g } source rest

end PowerModifierEffect

structure DrawCardEffect extends BaseEffect where
  Count : Int

namespace DrawCardEffect

def CanActivate (_e : DrawCardEffect) (_game : GameContext) (_source : Card) : Option Bool :=
  some true

def GetTargets (_e : DrawCardEffect) (_game : GameContext) (_source : Card) :
    Option (List Target) :=
  some []

def Apply (e : DrawCardEffect) (game : GameContext) (_source : Card) (_targets : List Target) :
    GameContext × Option String :=
  match createGameContext.DrawCards game.Game game.ActivePlayer e.Count with
  | (g, err) => ({ game with Game := g }, err)

end DrawCardEffect

structure ReturnToHandEffect extends BaseEffect where
  Scope : EffectScope
  MaxCost : Int
  RequireTarget : Bool

namespace ReturnToHandEffect

def GetTargets (e : ReturnToHandEffect) (game : GameContext) (_source : Card) :
    Option (List Target) :=
  if e.Scope = ScopeOppFriends then
    let oppPlayer := createGameContext.GetOpponentPlayer game.ActivePlayer
    (createGameContext.GetPlayerState game.Game oppPlayer).map fun oppState =>
      collectTargets (fun _ => true)
        (fun pos friend =>
          { Kind := "friend", ID := friend.CardNo,
            Location := battleAreaLocation oppPlayer pos, Data := none })
        oppState.BattleArea
  else some []

def CanActivate (e : ReturnToHandEffect) (game : GameContext) (source : Card) : Option Bool :=
  (e.GetTargets game source).map fun targets => decide (targets.length > 0) || !e.RequireTarget

/-- The loop of `Apply` over the targets. -/
def applyLoop (game : GameContext) : List Target → GameContext × Option String
  | [] => (game, none)
  | target :: rest =>
    let player := scanPlayer target.Location
    match createGameContext.ReturnToHand game.Game player target.ID with
    | (g, some err) => ({ game with Game := g }, some err)
    | (g, none) => applyLoop { game with Game := g } rest

def Apply (e : ReturnToHandEffect) (game : GameContext) (_source : Card)
    (targets : List Target) : GameContext × Option String :=
  if targets.length = 0 ∧ e.RequireTarget = true then (game, some "no target selected")
  else applyLoop game targets

end ReturnToHandEffect

structure DestroyFriendEffect extends BaseEffect where
  MaxPower : Int
  RequireTarget : Bool

namespace DestroyFriendEffect

def GetTargets (e : DestroyFriendEffect) (game : GameContext) (_source : Card) :
    Option (List Target) :=
  let oppPlayer := createGameContext.GetOpponentPlayer game.ActivePlayer
  (createGameContext.GetPlayerState game.Game oppPlayer).map fun oppState =>
    collectTargets (fun friend => friend.Power ≤ e.MaxPower)
      (fun pos friend =>
        { Kind := "friend", ID := friend.CardNo,
          Location := battleAreaLocation oppPlayer pos, Data := some friend })
      oppState.BattleArea

def CanActivate (e : DestroyFriendEffect) (game : GameContext) (source : Card) : Option Bool :=
  (e.GetTargets game source).map fun targets => decide (targets.length > 0) || !e.RequireTarget

/-- The loop of `Apply` over the targets. -/
def applyLoop (game : GameContext) : List Target → GameContext × Option String
  | [] => (game, none)
  | target :: rest =>
    let player := scanPlayer target.Location
    match createGameContext.DestroyFriend game.Game player target.ID with
    | (g, some err) => ({ game with Game := g }, some err)
    | (g, none) => applyLoop { game with Game := g } rest

def Apply (e : DestroyFriendEffect) (game : GameContext) (_source : Card)
    (targets : List Target) : GameContext × Option String :=
  if targets.length = 0 ∧ e.RequireTarget = true then (game, some "no target selected")
  else applyLoop game targets

end DestroyFriendEffect

structure RestFriendEffect extends BaseEffect where
  Action : String

namespace RestFriendEffect

def GetTargets (e : RestFriendEffect) (game : GameContext) (_source : Card) :
    Option (List Target) :=
  if e.Action = "rest" then
    let oppPlayer := createGameContext.GetOpponentPlayer game.ActivePlayer
    (createGameContext.GetPlayerState game.Game oppPlayer).map fun oppState =>
      collectTargets (fun friend => !friend.IsRest)
        (fun pos friend =>
          { Kind := "friend", ID := friend.CardNo,
            Location := battleAreaLocation oppPlayer pos, Data := none })
        oppState.BattleArea
  else if e.Action = "active" then
    (createGameContext.GetPlayerState game.Game game.ActivePlayer).map fun playerState =>
      collectTargets (fun friend => friend.IsRest)
        (fun pos friend =>
          { Kind := "friend", ID := friend.CardNo,
            Location := battleAreaLocation game.ActivePlayer pos, Data := none })
        playerState.BattleArea
  else some []

def CanActivate (e : RestFriendEffect) (game : GameContext) (source : Card) : Option Bool :=
  (e.GetTargets game source).map fun targets => decide (targets.length > 0)

def Apply (e : RestFriendEffect) (game : GameContext) (source : Card) :
    List Target → GameContext × Option String
  | [] => (game, none)
  | target :: rest =>
    let player := scanPlayer target.Location
    if e.Action = "rest" then
      match createGameContext.RestFriend game.Game player target.ID with
      | (g, some err) => ({ game with Game := g }, some err)
      | (g, none) => Apply e { game with Game := g } source rest
    else if e.Action = "active" then
      match createGameContext.ActiveFriend game.Game player target.ID with
      | (g, some err) => ({ game with Game := g }, some err)
      | (g, none) => Apply e { game with Game := g } source rest
    else Apply e game source rest

end RestFriendEffect

/-- A `*PowerModifierEffect` seen through the interface `Effect`. -/
def PowerModifierEffect.toEffect (e : PowerModifierEffect) : Effect where
  GetTrigger := e.Trigger
  CanActivate := e.CanActivate
  GetTargets := e.GetTargets
  Apply := fun game source targets => some (e.Apply game source targets)
  GetDescription := e.Description

/-- A `*DrawCardEffect` seen through the interface `Effect`. -/
def DrawCardEffect.toEffect (e : DrawCardEffect) : Effect where
  GetTrigger := e.Trigger
  CanActivate := e.CanActivate
  GetTargets := e.GetTargets
  Apply := fun game source targets => some (e.Apply game source targets)
  GetDescription := e.Description

/-- A `*ReturnToHandEffect` seen through the interface `Effect`. -/
def ReturnToHandEffect.toEffect (e : ReturnToHandEffect) : Effect where
  GetTrigger := e.Trigger
  CanActivate := e.CanActivate
  GetTargets := e.GetTargets
  Apply := fun game source targets => some (e.Apply game source targets)
  GetDescription := e.Description

/-- A `*DestroyFriendEffect` seen through the interface `Effect`. -/
def DestroyFriendEffect.toEffect (e : DestroyFriendEffect) : Effect where
  GetTrigger := e.Trigger
  CanActivate := e.CanActivate
  GetTargets := e.GetTargets
  Apply := fun game source targets => some (e.Apply game source targets)
  GetDescription := e.Description

/-- A `*RestFriendEffect` seen through the interface `Effect`. -/
def RestFriendEffect.toEffect (e : RestFriendEffect) : Effect where
  GetTrigger := e.Trigger
  CanActivate := e.CanActivate
  GetTargets := e.GetTargets
  Apply := fun game source targets => some (e.Apply game source targets)
  GetDescription := e.Description

/-! ## effects/types.go: the registry -/

/-- The map `effects` of the registry, card number to effect. -/
structure EffectRegistry where
  effects : List (String × Effect)

namespace EffectRegistry

def GetEffect (r : EffectRegistry) (cardNo : String) : Option Effect :=
  (r.effects.find? (fun entry => entry.1 = cardNo)).map Prod.snd

def NewEffectRegistry : EffectRegistry := { effects := [] }

/-- The assignment `r.effects[cardNo] = effect`: the entry of the key is
replaced when the key is present, a new entry is added when it is not. -/
def Register (r : EffectRegistry) (cardNo : String) (effect : Effect) : EffectRegistry :=
  if r.effects.any (fun entry => entry.1 = cardNo) then
    { effects := r.effects.map fun entry => if entry.1 = cardNo then (cardNo, effect) else entry }
  else { effects := r.effects ++ [(cardNo, effect)] }

def GetEffectsForTrigger (r : EffectRegistry) (trigger : TriggerType) : List String :=
  (r.effects.filter (fun entry => entry.2.GetTrigger = trigger)).map Prod.fst

end EffectRegistry

/-! ## game/target_validator.go -/

/-- The key `fmt.Sprintf("%s_%s_%s", target.Type, target.ID, target.Location)`. -/
def targetKey (target : Target) : String :=
  target.Kind ++ "_" ++ target.ID ++ "_" ++ target.Location

/-- The second loop of `ValidateTargets`; `validMap` is the set of keys that
the first loop has stored. -/
def checkSelected (validMap : List String) : List Target → Option String
  | [] => none
  | selected :: rest =>
    if targetKey selected ∈ validMap then checkSelected validMap rest
    else some ("invalid target: " ++ targetKey selected)

/-- The method `TargetValidator.ValidateTargets`; the validator holds the context. The
outer `none` is a panic of `GetTargets`. -/
def ValidateTargets (context : GameContext) (effect : Effect) (source : Card)
    (selectedTargets : List Target) : Option (Option String) :=
  match effect.GetTargets context source with
  | none => none
  | some validTargets => some (checkSelected (validTargets.map targetKey) selectedTargets)

def FilterTargetsByType (targets : List Target) (targetType : String) : List Target :=
  targets.filter (fun target => target.Kind = targetType)

/-- The loop of `FilterFriendsByCost`: a target of type `friend` is appended to
`filtered`; the cost is not looked up. -/
def filterFriendsLoop (filtered : List Target) : List Target → List Target
  | [] => filtered
  | target :: rest =>
    if target.Kind = "friend" then filterFriendsLoop (filtered ++ [target]) rest
    else filterFriendsLoop filtered rest

def FilterFriendsByCost (targets : List Target) (_maxCost : Int) : List Target :=
  filterFriendsLoop [] targets

/-! ## game/effect_stack.go -/

/-- An effect waiting on the stack. `Source` is the card the pointer refers to. -/
structure EffectStackItem where
  Effect : Effect
  Source : Card
  Targets : List Target
  Player : Int
  Priority : Int

/-- The slice `items`: the last element is the top of the stack. -/
structure EffectStack where
  items : List EffectStackItem

namespace EffectStack

def NewEffectStack : EffectStack := { items := [] }

def Push (s : EffectStack) (item : EffectStackItem) : EffectStack :=
  { items := s.items ++ [item] }

/-- The stack after the call and the popped item; `none` stands for the
result `(EffectStackItem{}, false)`. -/
def Pop (s : EffectStack) : EffectStack × Option EffectStackItem :=
  match s.items.getLast? with
  | none => (s, none)
  | some item => ({ items := s.items.dropLast }, some item)

def IsEmpty (s : EffectStack) : Bool := s.items.length = 0

def Size (s : EffectStack) : Nat := s.items.length

end EffectStack

/-- The resolver: its stack and the context it works on. -/
structure EffectResolver where
  stack : EffectStack
  context : GameContext

namespace EffectResolver

/-- The outer `none` is a panic of a method of the effect. -/
def QueueEffect (r : EffectResolver) (effect : Effect) (source : Card) (player : Int) :
    Option (EffectResolver × Option String) :=
  let r1 : EffectResolver := { r with context := { r.context with ActivePlayer := player } }
  match effect.CanActivate r1.context source with
  | none => none
  | some false => some (r1, some "effect cannot activate")
  | some true =>
    match effect.GetTargets r1.context source with
    | none => none
    | some targets =>
      let item : EffectStackItem :=
        { Effect := effect, Source := source, Targets := targets, Player := player,
          Priority := 0 }
      some ({ r1 with stack := r1.stack.Push item }, none)

/-- The loop of `ResolveAll`, at most `fuel` iterations. `checkTriggeredEffects`
has an empty body. The outer `none` is a panic of `Apply`. -/
def resolveLoop : Nat → EffectResolver → Option (EffectResolver × Option String)
  | 0, r => some (r, none)
  | fuel + 1, r =>
    if r.stack.IsEmpty then some (r, none)
    else
      match r.stack.Pop with
      | (_, none) => some (r, none)
      | (stack, some item) =>
        let context := { r.context with ActivePlayer := item.Player }
        match item.Effect.Apply context item.Source item.Targets with
        | none => none
        | some (context1, some err) =>
          some ({ stack := stack, context := context1 },
            some ("failed to apply effect " ++ item.Effect.GetDescription ++ ": " ++ err))
        | some (context1, none) => resolveLoop fuel { stack := stack, context := context1 }

/-- The method `ResolveAll`. An `Apply` has no access to the stack, so every iteration
shortens the stack by one and `Size` iterations empty it. -/
def ResolveAll (r : EffectResolver) : Option (EffectResolver × Option String) :=
  resolveLoop r.stack.Size r

end EffectResolver

/-! ## game/events.go: the event handler -/

abbrev EventType := String

def EventFriendPlayed : EventType := "friend_played"
def EventFriendAttacks : EventType := "friend_attacks"
def EventFriendBlocks : EventType := "friend_blocks"
def EventFriendDestroyed : EventType := "friend_destroyed"
def EventDamageDealt : EventType := "damage_dealt"
def EventPhaseStart : EventType := "phase_start"
def EventPhaseEnd : EventType := "phase_end"
def EventSupportPlayed : EventType := "support_played"
def EventFieldPlayed : EventType := "field_played"
def EventTurnStart : EventType := "turn_start"
def EventTurnEnd : EventType := "turn_end"

/-- A game event. The Go field `Type` is `Kind` here. The only entry ever
stored in `Data` is the list of target names of a support card. -/
structure GameEvent where
  Kind : EventType
  Player : Int
  CardNo : String
  Target : String
  Phase : GamePhase
  Data : List (String × List String)
  deriving DecidableEq, Repr

/-- The event handler. Its fields `game` and `context.Game` are one pointer:
the game is `context.Game`. -/
structure EventHandler where
  effectRegistry : EffectRegistry
  eventQueue : List GameEvent
  context : GameContext

/-- The context `createGameContext(game)`: the active player starts as the zero
value. -/
def createGameContext (game : Game) : GameContext :=
  { Game := game, ActivePlayer := 0 }

/-- The constructor `NewEventHandler(game)`; `registry` is
`effects.GetGlobalRegistry()`. -/
def NewEventHandler (registry : EffectRegistry) (game : Game) : EventHandler :=
  { effectRegistry := registry, eventQueue := [], context := createGameContext game }

namespace EventHandler

def isCardOnField (h : EventHandler) (cardNo : String) : Bool :=
  match h.context.Game.GameState with
  | none => false
  | some gs =>
    gs.Player1State.BattleArea.any (fun entry => entry.2.CardNo = cardNo) ||
    gs.Player2State.BattleArea.any (fun entry => entry.2.CardNo = cardNo) ||
    gs.Player1State.FieldCard = some cardNo ||
    gs.Player2State.FieldCard = some cardNo

def isCardRelevant (h : EventHandler) (cardNo : String) (event : GameEvent) : Bool :=
  if event.CardNo = cardNo then true
  else
    match h.context.Game.GameState with
    | none => false
    | some gs =>
      gs.Player1State.BattleArea.any (fun entry => entry.2.CardNo = cardNo) ||
      gs.Player2State.BattleArea.any (fun entry => entry.2.CardNo = cardNo) ||
      gs.Player1State.FieldCard = some cardNo ||
      gs.Player2State.FieldCard = some cardNo

def getCardController (h : EventHandler) (cardNo : String) : Int :=
  match h.context.Game.GameState with
  | none => 0
  | some gs =>
    if gs.Player1State.BattleArea.any (fun entry => entry.2.CardNo = cardNo) then 1
    else if gs.Player1State.FieldCard = some cardNo then 1
    else if gs.Player2State.BattleArea.any (fun entry => entry.2.CardNo = cardNo) then 2
    else if gs.Player2State.FieldCard = some cardNo then 2
    else 0

/-- The method `loadCard` is a placeholder that never fails: a card with the number set
and every other field zero. -/
def loadCard (cardNo : String) : Card := { CardNo := cardNo, Power := 0 }

/-- The loop of `processPersistentEffects` over the card numbers. The error
of `Apply` is dropped. `none` is a panic. -/
def persistentLoop (h : EventHandler) : List String → Option EventHandler
  | [] => some h
  | cardNo :: rest =>
    if h.isCardOnField cardNo then
      match h.effectRegistry.GetEffect cardNo with
      | none => none
      | some effect =>
        let card := loadCard cardNo
        let player := h.getCardController cardNo
        let h1 := { h with context := { h.context with ActivePlayer := player } }
        match effect.CanActivate h1.context card with
        | none => none
        | some false => persistentLoop h1 rest
        | some true =>
          match effect.GetTargets h1.context card with
          | none => none
          | some targets =>
            match effect.Apply h1.context card targets with
            | none => none
            | some (context, _) => persistentLoop { h1 with context := context } rest
    else persistentLoop h rest

def processPersistentEffects (h : EventHandler) : Option EventHandler :=
  persistentLoop h (h.effectRegistry.GetEffectsForTrigger TriggerPersistent)

/-- The trigger a one-shot pass looks up for an event, `none` for the
`default` branch of the switch. -/
def triggerFor (h : EventHandler) (event : GameEvent) : Option TriggerType :=
  if event.Kind = EventFriendPlayed then some TriggerOnPlay
  else if event.Kind = EventFriendAttacks then some TriggerOnAttack
  else if event.Kind = EventFriendBlocks then some TriggerOnBlock
  else if event.Kind = EventFriendDestroyed then some TriggerOnDestroy
  else if event.Kind = EventDamageDealt then some TriggerOnDamageDealt
  else if event.Kind = EventPhaseStart then some TriggerStartPhase
  else if event.Kind = EventPhaseEnd then some TriggerEndPhase
  else if event.Kind = EventSupportPlayed then
    if h.context.Game.CurrentPhase = PhaseMain then some TriggerMain else some TriggerCounter
  else none

/-- The loop of `processEvent` over the candidate card numbers. `none` is a
panic; the error of an `Apply` ends the loop. -/
def triggerLoop (h : EventHandler) (event : GameEvent) :
    List String → Option (EventHandler × Option String)
  | [] => some (h, none)
  | cardNo :: rest =>
    if h.isCardRelevant cardNo event then
      match h.effectRegistry.GetEffect cardNo with
      | none => none
      | some effect =>
        let card := loadCard cardNo
        let h1 := { h with context := { h.context with ActivePlayer := event.Player } }
        match effect.CanActivate h1.context card with
        | none => none
        | some false => triggerLoop h1 event rest
        | some true =>
          match effect.GetTargets h1.context card with
          | none => none
          | some targets =>
            match effect.Apply h1.context card targets with
            | none => none
            | some (context, some err) =>
              some ({ h1 with context := context },
                some ("failed to apply effect for " ++ cardNo ++ ": " ++ err))
            | some (context, none) => triggerLoop { h1 with context := context } event rest
    else triggerLoop h event rest

def processEvent (h : EventHandler) (event : GameEvent) :
    Option (EventHandler × Option String) :=
  match h.triggerFor event with
  | none => some (h, none)
  | some triggerType =>
    match triggerLoop h event (h.effectRegistry.GetEffectsForTrigger triggerType) with
    | none => none
    | some (h1, some err) => some (h1, some err)
    | some (h1, none) => (processPersistentEffects h1).map fun h2 => (h2, none)

def TriggerEvent (h : EventHandler) (event : GameEvent) :
    Option (EventHandler × Option String) :=
  processEvent { h with eventQueue := h.eventQueue ++ [event] } event

end EventHandler

/-! ## services/game_service.go -/

/-- The card service. game_service.go calls its method `GetCardByNo`, which
card_service.go does not declare (it declares `GetCardByNumber`, a lookup of
the row of the card number); the method is a parameter here: the card of a
number, or the error of the lookup. -/
structure CardService where
  GetCardByNo : String → Except String Card

/-- The service: the table of games by game id, the card service, the handlers
by game id, and the global effect registry that a new handler receives. The
store is reliable: `First` fails on a missing row only and `Save` succeeds. -/
structure GameService where
  db : String → Option Game
  cardService : CardService
  eventHandler : String → Option EventHandler
  registry : EffectRegistry

/-- The local state of one call of the service: the record `gameModel` read
from the store and the handler of the game. `shared` tells that the handler was
created in this call, from `&gameModel`: its game and `gameModel` are then one
object. A handler found in the table points at the record of an earlier call. -/
structure Call where
  gameModel : Game
  handler : EventHandler
  shared : Bool

namespace Call

/-- An assignment to fields of `gameModel`. -/
def setGame (c : Call) (g : Game) : Call :=
  { c with
    gameModel := g
    handler := if c.shared then { c.handler with context := { c.handler.context with Game := g } }
               else c.handler }

/-- The call `handler.TriggerEvent(event)`. -/
def TriggerEvent (c : Call) (event : GameEvent) : Option (Call × Option String) :=
  (c.handler.TriggerEvent event).map fun res =>
    ({ c with
       handler := res.1
       gameModel := if c.shared then res.1.context.Game else c.gameModel }, res.2)

end Call

namespace GameService

/-- The lines `handler, exists := s.eventHandler[gameID]` and the creation of a
handler when there is none. -/
def getHandler (s : GameService) (gameID : String) (gameModel : Game) : Call :=
  match s.eventHandler gameID with
  | some handler => { gameModel := gameModel, handler := handler, shared := false }
  | none => { gameModel := gameModel, handler := NewEventHandler s.registry gameModel,
              shared := true }

/-- The table of handlers after the call has stored or updated its handler. -/
def putHandler (s : GameService) (gameID : String) (c : Call) : GameService :=
  { s with eventHandler := fun k => if k = gameID then some c.handler else s.eventHandler k }

/-- The call `s.db.Save(&gameModel)`. -/
def save (s : GameService) (gameID : String) (c : Call) : GameService :=
  { putHandler s gameID c with db := fun k => if k = gameID then some c.gameModel else s.db k }

/-- The `switch` of `ChangePhase` with the two turn events of its last case.
`none` is a panic; the errors of the two turn events are dropped. -/
def movePhase (c : Call) : Option Call :=
  let g := c.gameModel
  if g.CurrentPhase = PhaseStart then some (c.setGame { g with CurrentPhase := PhaseDraw })
  else if g.CurrentPhase = PhaseDraw then some (c.setGame { g with CurrentPhase := PhaseEnergy })
  else if g.CurrentPhase = PhaseEnergy then some (c.setGame { g with CurrentPhase := PhaseMain })
  else if g.CurrentPhase = PhaseMain then some (c.setGame { g with CurrentPhase := PhaseEnd })
  else if g.CurrentPhase = PhaseEnd then
    let c1 := c.setGame
      { g with
        CurrentPhase := PhaseStart
        CurrentTurn := wrapInt (g.CurrentTurn + 1)
        ActivePlayer := if g.ActivePlayer = 1 then 2 else 1 }
    let turnEndEvent : GameEvent :=
      { Kind := EventTurnEnd, Player := c1.gameModel.ActivePlayer, CardNo := "", Target := "",
        Phase := c1.gameModel.CurrentPhase, Data := [] }
    match c1.TriggerEvent turnEndEvent with
    | none => none
    | some (c2, _) =>
      let turnStartEvent : GameEvent :=
        { Kind := EventTurnStart, Player := c2.gameModel.ActivePlayer, CardNo := "", Target := "",
          Phase := c2.gameModel.CurrentPhase, Data := [] }
      (c2.TriggerEvent turnStartEvent).map Prod.fst
  else some c

/-- The method `GameService.ChangePhase`. `none` is a panic. -/
def ChangePhase (s : GameService) (gameID : String) (_playerID : Nat) :
    Option (GameService × Option String) :=
  match s.db gameID with
  | none => some (s, some "record not found")
  | some gameModel =>
    let c := s.getHandler gameID gameModel
    let endEvent : GameEvent :=
      { Kind := EventPhaseEnd, Player := c.gameModel.ActivePlayer, CardNo := "", Target := "",
        Phase := c.gameModel.CurrentPhase, Data := [] }
    match c.TriggerEvent endEvent with
    | none => none
    | some (c1, some err) => some (s.putHandler gameID c1, some err)
    | some (c1, none) =>
      match movePhase c1 with
      | none => none
      | some c2 =>
        let startEvent : GameEvent :=
          { Kind := EventPhaseStart, Player := c2.gameModel.ActivePlayer, CardNo := "",
            Target := "", Phase := c2.gameModel.CurrentPhase, Data := [] }
        match c2.TriggerEvent startEvent with
        | none => none
        | some (c3, some err) => some (s.putHandler gameID c3, some err)
        | some (c3, none) => some (s.save gameID c3, none)

end GameService

/-! ## effects/friend_effects.go -/

/-- The members of `GameContext` that friend_effects.go reads or calls and
that types.go does not declare: the fields `Phase` and `CurrentPlayer` and
the operation `DiscardFromDeckTop` (whose `none` is a panic). They are
parameters of the embedding. -/
structure Undeclared where
  Phase : GameContext → String
  CurrentPlayer : GameContext → Int
  DiscardFromDeckTop : Game → Int → Int → Option (Game × Option String)

/-- The player state `game.GetPlayerState(game.ActivePlayer)`, `none` for the
`nil` pointer. -/
def activeState (game : GameContext) : Option PlayerState :=
  createGameContext.GetPlayerState game.Game game.ActivePlayer

/-- The player state of the opponent of the active player of the context. -/
def opponentState (game : GameContext) : Option PlayerState :=
  createGameContext.GetPlayerState game.Game
    (createGameContext.GetOpponentPlayer game.ActivePlayer)

/-- The targets `(kind, cardNo, location)` of a loop over a list of card
numbers. -/
def cardTargets (kind location : String) (cards : List String) : List Target :=
  cards.map fun cardNo => { Kind := kind, ID := cardNo, Location := location, Data := none }

structure CanAttackImmediatelyEffect extends BaseEffect

namespace CanAttackImmediatelyEffect

def CanActivate (_e : CanAttackImmediatelyEffect) (_game : GameContext) (_source : Card) :
    Option Bool :=
  some true

def GetTargets (_e : CanAttackImmediatelyEffect) (_game : GameContext) (_source : Card) :
    Option (List Target) :=
  some []

def Apply (_e : CanAttackImmediatelyEffect) (game : GameContext) (_source : Card)
    (_targets : List Target) : Option (GameContext × Option String) :=
  some (game, none)

end CanAttackImmediatelyEffect

structure DamageModifierEffect extends BaseEffect where
  Amount : Int
  Condition : Option (GameContext → Card → Option Bool)

namespace DamageModifierEffect

def CanActivate (e : DamageModifierEffect) (game : GameContext) (source : Card) : Option Bool :=
  match e.Condition with
  | some cond => cond game source
  | none => some true

def GetTargets (_e : DamageModifierEffect) (_game : GameContext) (_source : Card) :
    Option (List Target) :=
  some []

def Apply (_e : DamageModifierEffect) (game : GameContext) (_source : Card)
    (_targets : List Target) : Option (GameContext × Option String) :=
  some (game, none)

end DamageModifierEffect

structure ReturnSupportFromTrashEffect extends BaseEffect where
  MaxCost : Int

namespace ReturnSupportFromTrashEffect

def CanActivate (_e : ReturnSupportFromTrashEffect) (game : GameContext) (_source : Card) :
    Option Bool :=
  (activeState game).map fun playerState => decide (playerState.Trash.length > 0)

def GetTargets (_e : ReturnSupportFromTrashEffect) (game : GameContext) (_source : Card) :
    Option (List Target) :=
  (activeState game).map fun playerState => cardTargets "card" "trash" playerState.Trash

def Apply (_e : ReturnSupportFromTrashEffect) (game : GameContext) (_source : Card)
    (_targets : List Target) : Option (GameContext × Option String) :=
  some (game, none)

end ReturnSupportFromTrashEffect

structure ActivateOnBlockEffect extends BaseEffect

namespace ActivateOnBlockEffect

def CanActivate (_e : ActivateOnBlockEffect) (_game : GameContext) (_source : Card) :
    Option Bool :=
  some true

def GetTargets (_e : ActivateOnBlockEffect) (_game : GameContext) (source : Card) :
    Option (List Target) :=
  some [{ Kind := "friend", ID := source.CardNo, Location := "self", Data := none }]

def Apply (_e : ActivateOnBlockEffect) (game : GameContext) (source : Card)
    (_targets : List Target) : Option (GameContext × Option String) :=
  match createGameContext.ActiveFriend game.Game game.ActivePlayer source.CardNo with
  | (g, err) => some ({ game with Game := g }, err)

end ActivateOnBlockEffect

structure PlayFieldCardEffect extends BaseEffect where
  MaxCost : Int
  NoCost : Bool

namespace PlayFieldCardEffect

def CanActivate (_e : PlayFieldCardEffect) (game : GameContext) (_source : Card) :
    Option Bool :=
  (activeState game).map fun playerState => decide (playerState.Hand.length > 0)

def GetTargets (_e : PlayFieldCardEffect) (game : GameContext) (_source : Card) :
    Option (List Target) :=
  (activeState game).map fun playerState => cardTargets "card" "hand" playerState.Hand

def Apply (_e : PlayFieldCardEffect) (game : GameContext) (_source : Card)
    (targets : List Target) : Option (GameContext × Option String) :=
  match targets with
  | target :: _ =>
    match createGameContext.PlaceFieldCard game.Game game.ActivePlayer target.ID with
    | (g, err) => some ({ game with Game := g }, err)
  | [] => some (game, none)

end PlayFieldCardEffect

structure ReturnToCardsToDeckEffect extends BaseEffect where
  Count : Int

namespace ReturnToCardsToDeckEffect

def CanActivate (e : ReturnToCardsToDeckEffect) (game : GameContext) (_source : Card) :
    Option Bool :=
  (activeState game).map fun playerState => decide ((playerState.Trash.length : Int) ≥ e.Count)

def GetTargets (_e : ReturnToCardsToDeckEffect) (game : GameContext) (_source : Card) :
    Option (List Target) :=
  (activeState game).map fun playerState => cardTargets "card" "trash" playerState.Trash

/-- The loop of `Apply` over the targets. -/
def applyLoop (game : GameContext) : List Target → GameContext × Option String
  | [] => (game, none)
  | target :: rest =>
    match createGameContext.MoveCardToDeck game.Game game.ActivePlayer target.ID "top" with
    | (g, some err) => ({ game with Game := g }, some err)
    | (g, none) => applyLoop { game with Game := g } rest

def Apply (_e : ReturnToCardsToDeckEffect) (game : GameContext) (_source : Card)
    (targets : List Target) : Option (GameContext × Option String) :=
  some (applyLoop game targets)

end ReturnToCardsToDeckEffect

structure CanBlockWhileRestedEffect extends BaseEffect

namespace CanBlockWhileRestedEffect

def CanActivate (_e : CanBlockWhileRestedEffect) (_game : GameContext) (_source : Card) :
    Option Bool :=
  some true

def GetTargets (_e : CanBlockWhileRestedEffect) (_game : GameContext) (_source : Card) :
    Option (List Target) :=
  some []

def Apply (_e : CanBlockWhileRestedEffect) (game : GameContext) (_source : Card)
    (_targets : List Target) : Option (GameContext × Option String) :=
  some (game, none)

end CanBlockWhileRestedEffect

structure RevealAndPlaceDeckTopEffect extends BaseEffect

namespace RevealAndPlaceDeckTopEffect

def CanActivate (_e : RevealAndPlaceDeckTopEffect) (_game : GameContext) (_source : Card) :
    Option Bool :=
  some true

def GetTargets (_e : RevealAndPlaceDeckTopEffect) (_game : GameContext) (_source : Card) :
    Option (List Target) :=
  some [{ Kind := "deck", ID := "self", Location := "deck", Data := none },
        { Kind := "deck", ID := "opponent", Location := "deck", Data := none }]

def Apply (_e : RevealAndPlaceDeckTopEffect) (game : GameContext) (_source : Card)
    (_targets : List Target) : Option (GameContext × Option String) :=
  some (game, none)

end RevealAndPlaceDeckTopEffect

structure DiscardDeckTopEffect extends BaseEffect

namespace DiscardDeckTopEffect

def CanActivate (_e : DiscardDeckTopEffect) (game : GameContext) (_source : Card) :
    Option Bool :=
  (activeState game).map fun playerState => decide (playerState.Deck.length > 0)

def GetTargets (_e : DiscardDeckTopEffect) (_game : GameContext) (_source : Card) :
    Option (List Target) :=
  some []

def Apply (u : Undeclared) (_e : DiscardDeckTopEffect) (game : GameContext) (_source : Card)
    (_targets : List Target) : Option (GameContext × Option String) :=
  (u.DiscardFromDeckTop game.Game game.ActivePlayer 1).map fun res =>
    ({ game with Game := res.1 }, res.2)

end DiscardDeckTopEffect

structure DiscardNegativeEnergyEffect extends BaseEffect where
  Count : Int
  Optional : Bool

namespace DiscardNegativeEnergyEffect

def CanActivate (_e : DiscardNegativeEnergyEffect) (game : GameContext) (_source : Card) :
    Option Bool :=
  (activeState game).map fun playerState => decide (playerState.NegativeEnergy.length > 0)

def GetTargets (e : DiscardNegativeEnergyEffect) (game : GameContext) (_source : Card) :
    Option (List Target) :=
  if e.Optional = false then some []
  else
    (activeState game).map fun playerState =>
      cardTargets "negative_energy" "negative_energy" playerState.NegativeEnergy

def Apply (_e : DiscardNegativeEnergyEffect) (game : GameContext) (_source : Card)
    (_targets : List Target) : Option (GameContext × Option String) :=
  some (game, none)

end DiscardNegativeEnergyEffect

structure ActivateByFlippingNegativeEnergyEffect extends BaseEffect where
  Count : Int

namespace ActivateByFlippingNegativeEnergyEffect

def CanActivate (e : ActivateByFlippingNegativeEnergyEffect) (game : GameContext)
    (_source : Card) : Option Bool :=
  (activeState game).map fun playerState =>
    decide ((playerState.NegativeEnergy.length : Int) ≥ e.Count)

def GetTargets (_e : ActivateByFlippingNegativeEnergyEffect) (game : GameContext)
    (_source : Card) : Option (List Target) :=
  (activeState game).map fun playerState =>
    cardTargets "negative_energy" "negative_energy" playerState.NegativeEnergy

def Apply (_e : ActivateByFlippingNegativeEnergyEffect) (game : GameContext) (_source : Card)
    (_targets : List Target) : Option (GameContext × Option String) :=
  some (game, none)

end ActivateByFlippingNegativeEnergyEffect

structure HandSizePowerBoostEffect extends BaseEffect where
  CardsPerBoost : Int
  PowerBoost : Int

namespace HandSizePowerBoostEffect

def CanActivate (_e : HandSizePowerBoostEffect) (_game : GameContext) (_source : Card) :
    Option Bool :=
  some true

def GetTargets (_e : HandSizePowerBoostEffect) (_game : GameContext) (_source : Card) :
    Option (List Target) :=
  some []

def Apply (_e : HandSizePowerBoostEffect) (game : GameContext) (_source : Card)
    (_targets : List Target) : Option (GameContext × Option String) :=
  some (game, none)

/-- The method `GetPowerBoost`: `(handSize / e.CardsPerBoost) * e.PowerBoost` in
Go int arithmetic (the quotient is truncated, the product wraps). `none` is a
panic: a `nil` player state or a division by zero. -/
def GetPowerBoost (e : HandSizePowerBoostEffect) (game : GameContext) : Option Int :=
  match activeState game with
  | none => none
  | some playerState =>
    let handSize : Int := playerState.Hand.length
    if e.CardsPerBoost = 0 then none
    else some (wrapInt (Int.tdiv handSize e.CardsPerBoost * e.PowerBoost))

end HandSizePowerBoostEffect

structure MainPhasePowerBoostEffect extends BaseEffect where
  PowerBoost : Int
  Duration : String

namespace MainPhasePowerBoostEffect

def CanActivate (u : Undeclared) (_e : MainPhasePowerBoostEffect) (game : GameContext)
    (_source : Card) : Option Bool :=
  some (decide (u.Phase game = "main") && decide (game.ActivePlayer = u.CurrentPlayer game))

def GetTargets (_e : MainPhasePowerBoostEffect) (_game : GameContext) (source : Card) :
    Option (List Target) :=
  some [{ Kind := "friend", ID := source.CardNo, Location := "self", Data := none }]

def Apply (_e : MainPhasePowerBoostEffect) (game : GameContext) (_source : Card)
    (_targets : List Target) : Option (GameContext × Option String) :=
  some (game, none)

end MainPhasePowerBoostEffect

/-- The type `RevealNegativeEnergyEffect` of base_effects.go. -/
structure RevealNegativeEnergyEffect extends BaseEffect where
  Count : Int

namespace RevealNegativeEnergyEffect

def CanActivate (_e : RevealNegativeEnergyEffect) (game : GameContext) (_source : Card) :
    Option Bool :=
  (activeState game).map fun playerState => decide (playerState.NegativeEnergy.length > 0)

def GetTargets (_e : RevealNegativeEnergyEffect) (_game : GameContext) (_source : Card) :
    Option (List Target) :=
  some []

def Apply (e : RevealNegativeEnergyEffect) (game : GameContext) (_source : Card)
    (_targets : List Target) : Option (GameContext × Option String) :=
  match createGameContext.RevealNegEnergy game.Game game.ActivePlayer e.Count with
  | (g, err) => some ({ game with Game := g }, err)

end RevealNegativeEnergyEffect

/-! ## effects/field_effects.go -/

/-- The conversion `string(i)` of an index: the string of the one rune with
that code point, the replacement rune when there is none. -/
def runeString (i : Nat) : String :=
  if i < 0xD800 ∨ (0xDFFF < i ∧ i < 0x110000) then String.singleton (Char.ofNat i)
  else String.singleton (Char.ofNat 0xFFFD)

/-- The targets of a loop over a battle area that keeps the friends passing
`keep` and uses the position as location. -/
def positionTargets (keep : Friend → Bool) (battleArea : List (String × Friend)) :
    List Target :=
  collectTargets keep
    (fun pos friend => { Kind := "friend", ID := friend.CardNo, Location := pos, Data := none })
    battleArea

/-- The targets of a loop over an energy area that keeps the rested cards when
`restedOnly` is set and uses `string(i)` of the index as location. -/
def energyTargets (restedOnly : Bool) (energyArea : List EnergyCard) : List Target :=
  (energyArea.enum.filter fun entry => !restedOnly || entry.2.IsRest).map fun entry =>
    { Kind := "energy", ID := entry.2.CardNo, Location := runeString entry.1, Data := none }

/-- The loop `for _, friend := range playerState.BattleArea` that calls
`ModifyPower(game.ActivePlayer, friend.CardNo, powerBoost)`; the list holds the
card numbers of the friends in the order of the visit. -/
def boostLoop (game : GameContext) (powerBoost : Int) : List String → GameContext × Option String
  | [] => (game, none)
  | cardNo :: rest =>
    match createGameContext.ModifyPower game.Game game.ActivePlayer cardNo powerBoost with
    | (g, some err) => ({ game with Game := g }, some err)
    | (g, none) => boostLoop { game with Game := g } powerBoost rest

structure ConditionalPowerBoostEffect extends BaseEffect where
  Amount : Int
  Scope : EffectScope
  Condition : GameContext → Card → Option Bool

namespace ConditionalPowerBoostEffect

def CanActivate (e : ConditionalPowerBoostEffect) (game : GameContext) (source : Card) :
    Option Bool :=
  e.Condition game source

def GetTargets (e : ConditionalPowerBoostEffect) (game : GameContext) (source : Card) :
    Option (List Target) :=
  match e.CanActivate game source with
  | none => none
  | some false => some []
  | some true =>
    (activeState game).map fun playerState => positionTargets (fun _ => true) playerState.BattleArea

def Apply (_e : ConditionalPowerBoostEffect) (game : GameContext) (_source : Card)
    (_targets : List Target) : Option (GameContext × Option String) :=
  some (game, none)

end ConditionalPowerBoostEffect

structure EnergyPhaseAlternativeEffect extends BaseEffect

namespace EnergyPhaseAlternativeEffect

def CanActivate (_e : EnergyPhaseAlternativeEffect) (game : GameContext) (_source : Card) :
    Option Bool :=
  some (decide (game.Game.CurrentPhase = PhaseEnergy))

def GetTargets (_e : EnergyPhaseAlternativeEffect) (_game : GameContext) (_source : Card) :
    Option (List Target) :=
  some []

def Apply (_e : EnergyPhaseAlternativeEffect) (game : GameContext) (_source : Card)
    (_targets : List Target) : Option (GameContext × Option String) :=
  some (game, none)

end EnergyPhaseAlternativeEffect

structure EndPhaseActivateEffect extends BaseEffect

namespace EndPhaseActivateEffect

def CanActivate (_e : EndPhaseActivateEffect) (game : GameContext) (_source : Card) :
    Option Bool :=
  if game.Game.CurrentPhase ≠ PhaseEnd then some false
  else
    (activeState game).map fun playerState =>
      playerState.BattleArea.any fun entry => entry.2.IsRest

def GetTargets (_e : EndPhaseActivateEffect) (game : GameContext) (_source : Card) :
    Option (List Target) :=
  (activeState game).map fun playerState =>
    positionTargets (fun friend => friend.IsRest) playerState.BattleArea

def Apply (_e : EndPhaseActivateEffect) (game : GameContext) (_source : Card)
    (targets : List Target) : Option (GameContext × Option String) :=
  match targets with
  | target :: _ =>
    match createGameContext.ActiveFriend game.Game game.ActivePlayer target.ID with
    | (g, err) => some ({ game with Game := g }, err)
  | [] => some (game, none)

end EndPhaseActivateEffect

structure DrawPhaseManipulateEffect extends BaseEffect

namespace DrawPhaseManipulateEffect

def CanActivate (_e : DrawPhaseManipulateEffect) (game : GameContext) (_source : Card) :
    Option Bool :=
  some (decide (game.Game.CurrentPhase = PhaseDraw))

def GetTargets (_e : DrawPhaseManipulateEffect) (_game : GameContext) (_source : Card) :
    Option (List Target) :=
  some []

def Apply (_e : DrawPhaseManipulateEffect) (game : GameContext) (_source : Card)
    (_targets : List Target) : Option (GameContext × Option String) :=
  some (game, none)

end DrawPhaseManipulateEffect

structure OpponentStartActivateEnergyEffect extends BaseEffect

namespace OpponentStartActivateEnergyEffect

def CanActivate (_e : OpponentStartActivateEnergyEffect) (game : GameContext)
    (_source : Card) : Option Bool :=
  if game.Game.CurrentPhase ≠ PhaseStart then some false
  else if game.Game.ActivePlayer ≠ createGameContext.GetOpponentPlayer game.ActivePlayer then
    some false
  else
    (activeState game).map fun playerState =>
      playerState.EnergyArea.any fun energy => energy.IsRest

def GetTargets (_e : OpponentStartActivateEnergyEffect) (game : GameContext)
    (_source : Card) : Option (List Target) :=
  (activeState game).map fun playerState => energyTargets true playerState.EnergyArea

def Apply (_e : OpponentStartActivateEnergyEffect) (game : GameContext) (_source : Card)
    (_targets : List Target) : Option (GameContext × Option String) :=
  some (game, none)

end OpponentStartActivateEnergyEffect

structure UseFromNegativeEnergyEffect extends BaseEffect

namespace UseFromNegativeEnergyEffect

def CanActivate (_e : UseFromNegativeEnergyEffect) (_game : GameContext) (_source : Card) :
    Option Bool :=
  some true

def GetTargets (_e : UseFromNegativeEnergyEffect) (_game : GameContext) (_source : Card) :
    Option (List Target) :=
  some []

def Apply (_e : UseFromNegativeEnergyEffect) (game : GameContext) (_source : Card)
    (_targets : List Target) : Option (GameContext × Option String) :=
  some (game, none)

end UseFromNegativeEnergyEffect

structure CostReductionEffect extends BaseEffect where
  CardType : String
  Reduction : Int
  MinCost : Int

namespace CostReductionEffect

def CanActivate (_e : CostReductionEffect) (_game : GameContext) (_source : Card) :
    Option Bool :=
  some true

def GetTargets (_e : CostReductionEffect) (_game : GameContext) (_source : Card) :
    Option (List Target) :=
  some []

def Apply (_e : CostReductionEffect) (game : GameContext) (_source : Card)
    (_targets : List Target) : Option (GameContext × Option String) :=
  some (game, none)

end CostReductionEffect

structure EnterRestedEffect extends BaseEffect where
  CostCondition : Int → Bool

namespace EnterRestedEffect

def CanActivate (_e : EnterRestedEffect) (_game : GameContext) (_source : Card) : Option Bool :=
  some true

def GetTargets (_e : EnterRestedEffect) (_game : GameContext) (_source : Card) :
    Option (List Target) :=
  some []

def Apply (_e : EnterRestedEffect) (game : GameContext) (_source : Card)
    (_targets : List Target) : Option (GameContext × Option String) :=
  some (game, none)

end EnterRestedEffect

structure FieldCountPowerBoostEffect extends BaseEffect where
  PowerPerField : Int

namespace FieldCountPowerBoostEffect

/-- The comparison `game.ActivePlayer == game.ActivePlayer` of the source. -/
def CanActivate (_e : FieldCountPowerBoostEffect) (game : GameContext) (_source : Card) :
    Option Bool :=
  some (decide (game.ActivePlayer = game.ActivePlayer))

def GetTargets (_e : FieldCountPowerBoostEffect) (_game : GameContext) (_source : Card) :
    Option (List Target) :=
  some []

/-- The count of the field cards other than the source: the field card of the
active player when it is not the source, and the field card of the opponent. -/
def fieldCount (playerState oppState : PlayerState) (source : Card) : Int :=
  let own : Int :=
    match playerState.FieldCard with
    | some fieldCard => if fieldCard ≠ source.CardNo then 1 else 0
    | none => 0
  let opp : Int := if oppState.FieldCard.isSome then 1 else 0
  own + opp

def Apply (e : FieldCountPowerBoostEffect) (game : GameContext) (source : Card)
    (_targets : List Target) : Option (GameContext × Option String) :=
  match activeState game, opponentState game with
  | some playerState, some oppState =>
    let powerBoost := wrapInt (fieldCount playerState oppState source * e.PowerPerField)
    some (boostLoop game powerBoost (playerState.BattleArea.map fun entry => entry.2.CardNo))
  | _, _ => none

end FieldCountPowerBoostEffect

structure OnDamageDrawEffect extends BaseEffect

namespace OnDamageDrawEffect

def CanActivate (_e : OnDamageDrawEffect) (_game : GameContext) (_source : Card) :
    Option Bool :=
  some true

def GetTargets (_e : OnDamageDrawEffect) (_game : GameContext) (_source : Card) :
    Option (List Target) :=
  some []

def Apply (_e : OnDamageDrawEffect) (game : GameContext) (_source : Card)
    (_targets : List Target) : Option (GameContext × Option String) :=
  match createGameContext.DrawCards game.Game game.ActivePlayer 1 with
  | (g, err) => some ({ game with Game := g }, err)

end OnDamageDrawEffect

structure NegativeEnergyPowerBoostEffect extends BaseEffect where
  PowerPerCard : Int
  ColorFilter : String

namespace NegativeEnergyPowerBoostEffect

/-- The comparison `game.ActivePlayer == game.ActivePlayer` of the source. -/
def CanActivate (_e : NegativeEnergyPowerBoostEffect) (game : GameContext) (_source : Card) :
    Option Bool :=
  some (decide (game.ActivePlayer = game.ActivePlayer))

def GetTargets (_e : NegativeEnergyPowerBoostEffect) (_game : GameContext) (_source : Card) :
    Option (List Target) :=
  some []

def Apply (e : NegativeEnergyPowerBoostEffect) (game : GameContext) (_source : Card)
    (_targets : List Target) : Option (GameContext × Option String) :=
  match activeState game with
  | some playerState =>
    let faceDownCount : Int := playerState.NegativeEnergy.length
    let powerBoost := wrapInt (faceDownCount * e.PowerPerCard)
    some (boostLoop game powerBoost (playerState.BattleArea.map fun entry => entry.2.CardNo))
  | none => none

end NegativeEnergyPowerBoostEffect

/-! ## effects/support_effects.go -/

structure PowerBoostEffect extends BaseEffect where
  Amount : Int
  Duration : String
  Target : String

namespace PowerBoostEffect

def GetTargets (_e : PowerBoostEffect) (game : GameContext) (_source : Card) :
    Option (List CardGame.Target) :=
  (activeState game).map fun playerState => positionTargets (fun _ => true) playerState.BattleArea

/-- The test `e.GetTargets(game, source) != nil`: the slice of `GetTargets` is
`nil` exactly when nothing was appended to it. -/
def CanActivate (e : PowerBoostEffect) (game : GameContext) (source : Card) : Option Bool :=
  (e.GetTargets game source).map fun targets => decide (targets ≠ [])

def Apply (e : PowerBoostEffect) (game : GameContext) (_source : Card)
    (targets : List CardGame.Target) : Option (GameContext × Option String) :=
  match targets with
  | target :: _ =>
    match createGameContext.ModifyPower game.Game game.ActivePlayer target.ID e.Amount with
    | (g, err) => some ({ game with Game := g }, err)
  | [] => some (game, none)

end PowerBoostEffect

structure CompositeEffect extends BaseEffect where
  Effects : List Effect

namespace CompositeEffect

/-- The loop of `CanActivate`: it ends at the first sub-effect that cannot
activate. -/
def canActivateLoop (game : GameContext) (source : Card) : List Effect → Option Bool
  | [] => some true
  | effect :: rest =>
    match effect.CanActivate game source with
    | none => none
    | some false => some false
    | some true => canActivateLoop game source rest

def CanActivate (e : CompositeEffect) (game : GameContext) (source : Card) : Option Bool :=
  canActivateLoop game source e.Effects

/-- The loop of `GetTargets`: the targets of the sub-effects, one after the
other. -/
def getTargetsLoop (game : GameContext) (source : Card) : List Effect → Option (List Target)
  | [] => some []
  | effect :: rest =>
    match effect.GetTargets game source with
    | none => none
    | some targets => (getTargetsLoop game source rest).map fun more => targets ++ more

def GetTargets (e : CompositeEffect) (game : GameContext) (source : Card) :
    Option (List Target) :=
  getTargetsLoop game source e.Effects

/-- The loop of `Apply`: every sub-effect is applied with the whole list of
targets, the first error ends the loop. -/
def applyLoop (game : GameContext) (source : Card) (targets : List Target) :
    List Effect → Option (GameContext × Option String)
  | [] => some (game, none)
  | effect :: rest =>
    match effect.Apply game source targets with
    | none => none
    | some (game1, some err) => some (game1, some err)
    | some (game1, none) => applyLoop game1 source targets rest

def Apply (e : CompositeEffect) (game : GameContext) (source : Card)
    (targets : List Target) : Option (GameContext × Option String) :=
  applyLoop game source targets e.Effects

end CompositeEffect

structure ConditionalDestroyEffect extends BaseEffect where
  MaxPower : Int
  Condition : GameContext → Card → Option Bool

namespace ConditionalDestroyEffect

def CanActivate (e : ConditionalDestroyEffect) (game : GameContext) (source : Card) :
    Option Bool :=
  e.Condition game source

def GetTargets (e : ConditionalDestroyEffect) (game : GameContext) (source : Card) :
    Option (List Target) :=
  match e.CanActivate game source with
  | none => none
  | some false => some []
  | some true =>
    (opponentState game).map fun oppState =>
      positionTargets (fun friend => friend.Power ≤ e.MaxPower) oppState.BattleArea

def Apply (_e : ConditionalDestroyEffect) (game : GameContext) (_source : Card)
    (targets : List Target) : Option (GameContext × Option String) :=
  match targets with
  | target :: _ =>
    match createGameContext.DestroyFriend game.Game
        (createGameContext.GetOpponentPlayer game.ActivePlayer) target.ID with
    | (g, err) => some ({ game with Game := g }, err)
  | [] => some (game, none)

end ConditionalDestroyEffect

structure ReturnEnergyToHandEffect extends BaseEffect

namespace ReturnEnergyToHandEffect

def CanActivate (_e : ReturnEnergyToHandEffect) (game : GameContext) (_source : Card) :
    Option Bool :=
  (activeState game).map fun playerState => decide (playerState.EnergyArea.length > 0)

def GetTargets (_e : ReturnEnergyToHandEffect) (game : GameContext) (_source : Card) :
    Option (List Target) :=
  (activeState game).map fun playerState => energyTargets false playerState.EnergyArea

def Apply (_e : ReturnEnergyToHandEffect) (game : GameContext) (_source : Card)
    (_targets : List Target) : Option (GameContext × Option String) :=
  some (game, none)

end ReturnEnergyToHandEffect

structure DestroyFieldCardEffect extends BaseEffect

namespace DestroyFieldCardEffect

def CanActivate (_e : DestroyFieldCardEffect) (game : GameContext) (_source : Card) :
    Option Bool :=
  (opponentState game).map fun oppState => oppState.FieldCard.isSome

def GetTargets (_e : DestroyFieldCardEffect) (game : GameContext) (_source : Card) :
    Option (List Target) :=
  (opponentState game).map fun oppState =>
    match oppState.FieldCard with
    | some fieldCard => [{ Kind := "field", ID := fieldCard, Location := "field", Data := none }]
    | none => []

def Apply (_e : DestroyFieldCardEffect) (game : GameContext) (_source : Card)
    (_targets : List Target) : Option (GameContext × Option String) :=
  some (game, none)

end DestroyFieldCardEffect

structure ReviveFriendEffect extends BaseEffect where
  EnterRested : Bool
  DestroyAtEnd : Bool

namespace ReviveFriendEffect

def CanActivate (_e : ReviveFriendEffect) (game : GameContext) (_source : Card) : Option Bool :=
  (activeState game).map fun playerState => decide (playerState.Trash.length > 0)

def GetTargets (_e : ReviveFriendEffect) (game : GameContext) (_source : Card) :
    Option (List Target) :=
  (activeState game).map fun playerState => cardTargets "card" "trash" playerState.Trash

def Apply (_e : ReviveFriendEffect) (game : GameContext) (_source : Card)
    (_targets : List Target) : Option (GameContext × Option String) :=
  some (game, none)

end ReviveFriendEffect

structure LookAndDrawEffect extends BaseEffect where
  LookCount : Int
  DrawCount : Int
  AdditionalEffect : Option (GameContext → Card → Option (GameContext × Option String))

namespace LookAndDrawEffect

def CanActivate (_e : LookAndDrawEffect) (_game : GameContext) (_source : Card) : Option Bool :=
  some true

def GetTargets (_e : LookAndDrawEffect) (_game : GameContext) (_source : Card) :
    Option (List Target) :=
  some []

def Apply (e : LookAndDrawEffect) (game : GameContext) (source : Card)
    (_targets : List Target) : Option (GameContext × Option String) :=
  match e.AdditionalEffect with
  | some additional => additional game source
  | none => some (game, none)

end LookAndDrawEffect

structure HandResetEffect extends BaseEffect where
  TargetHandSize : Int
  AffectBoth : Bool

namespace HandResetEffect

def CanActivate (_e : HandResetEffect) (_game : GameContext) (_source : Card) : Option Bool :=
  some true

def GetTargets (_e : HandResetEffect) (_game : GameContext) (_source : Card) :
    Option (List Target) :=
  some []

def Apply (_e : HandResetEffect) (game : GameContext) (_source : Card)
    (_targets : List Target) : Option (GameContext × Option String) :=
  some (game, none)

end HandResetEffect

/-! ## The interface views of the effect types -/

/-- A `*MainPhasePowerBoostEffect` seen through the interface `Effect`. -/
def MainPhasePowerBoostEffect.toEffect (u : Undeclared) (e : MainPhasePowerBoostEffect) : Effect where
  GetTrigger := e.Trigger
  CanActivate := e.CanActivate u
  GetTargets := e.GetTargets
  Apply := e.Apply
  GetDescription := e.Description

/-- A `*HandSizePowerBoostEffect` seen through the interface `Effect`. -/
def HandSizePowerBoostEffect.toEffect (e : HandSizePowerBoostEffect) : Effect where
  GetTrigger := e.Trigger
  CanActivate := e.CanActivate
  GetTargets := e.GetTargets
  Apply := e.Apply
  GetDescription := e.Description

/-- A `*RevealAndPlaceDeckTopEffect` seen through the interface `Effect`. -/
def RevealAndPlaceDeckTopEffect.toEffect (e : RevealAndPlaceDeckTopEffect) : Effect where
  GetTrigger := e.Trigger
  CanActivate := e.CanActivate
  GetTargets := e.GetTargets
  Apply := e.Apply
  GetDescription := e.Description

/-- A `*DiscardDeckTopEffect` seen through the interface `Effect`. -/
def DiscardDeckTopEffect.toEffect (u : Undeclared) (e : DiscardDeckTopEffect) : Effect where
  GetTrigger := e.Trigger
  CanActivate := e.CanActivate
  GetTargets := e.GetTargets
  Apply := e.Apply u
  GetDescription := e.Description

/-- A `*DiscardNegativeEnergyEffect` seen through the interface `Effect`. -/
def DiscardNegativeEnergyEffect.toEffect (e : DiscardNegativeEnergyEffect) : Effect where
  GetTrigger := e.Trigger
  CanActivate := e.CanActivate
  GetTargets := e.GetTargets
  Apply := e.Apply
  GetDescription := e.Description

/-- A `*ActivateByFlippingNegativeEnergyEffect` seen through the interface `Effect`. -/
def ActivateByFlippingNegativeEnergyEffect.toEffect (e : ActivateByFlippingNegativeEnergyEffect) : Effect where
  GetTrigger := e.Trigger
  CanActivate := e.CanActivate
  GetTargets := e.GetTargets
  Apply := e.Apply
  GetDescription := e.Description

/-- A `*RevealNegativeEnergyEffect` seen through the interface `Effect`. -/
def RevealNegativeEnergyEffect.toEffect (e : RevealNegativeEnergyEffect) : Effect where
  GetTrigger := e.Trigger
  CanActivate := e.CanActivate
  GetTargets := e.GetTargets
  Apply := e.Apply
  GetDescription := e.Description

/-- A `*CanAttackImmediatelyEffect` seen through the interface `Effect`. -/
def CanAttackImmediatelyEffect.toEffect (e : CanAttackImmediatelyEffect) : Effect where
  GetTrigger := e.Trigger
  CanActivate := e.CanActivate
  GetTargets := e.GetTargets
  Apply := e.Apply
  GetDescription := e.Description

/-- A `*DamageModifierEffect` seen through the interface `Effect`. -/
def DamageModifierEffect.toEffect (e : DamageModifierEffect) : Effect where
  GetTrigger := e.Trigger
  CanActivate := e.CanActivate
  GetTargets := e.GetTargets
  Apply := e.Apply
  GetDescription := e.Description

/-- A `*ReturnSupportFromTrashEffect` seen through the interface `Effect`. -/
def ReturnSupportFromTrashEffect.toEffect (e : ReturnSupportFromTrashEffect) : Effect where
  GetTrigger := e.Trigger
  CanActivate := e.CanActivate
  GetTargets := e.GetTargets
  Apply := e.Apply
  GetDescription := e.Description

/-- A `*ActivateOnBlockEffect` seen through the interface `Effect`. -/
def ActivateOnBlockEffect.toEffect (e : ActivateOnBlockEffect) : Effect where
  GetTrigger := e.Trigger
  CanActivate := e.CanActivate
  GetTargets := e.GetTargets
  Apply := e.Apply
  GetDescription := e.Description

/-- A `*PlayFieldCardEffect` seen through the interface `Effect`. -/
def PlayFieldCardEffect.toEffect (e : PlayFieldCardEffect) : Effect where
  GetTrigger := e.Trigger
  CanActivate := e.CanActivate
  GetTargets := e.GetTargets
  Apply := e.Apply
  GetDescription := e.Description

/-- A `*ReturnToCardsToDeckEffect` seen through the interface `Effect`. -/
def ReturnToCardsToDeckEffect.toEffect (e : ReturnToCardsToDeckEffect) : Effect where
  GetTrigger := e.Trigger
  CanActivate := e.CanActivate
  GetTargets := e.GetTargets
  Apply := e.Apply
  GetDescription := e.Description

/-- A `*CanBlockWhileRestedEffect` seen through the interface `Effect`. -/
def CanBlockWhileRestedEffect.toEffect (e : CanBlockWhileRestedEffect) : Effect where
  GetTrigger := e.Trigger
  CanActivate := e.CanActivate
  GetTargets := e.GetTargets
  Apply := e.Apply
  GetDescription := e.Description

/-- A `*PowerBoostEffect` seen through the interface `Effect`. -/
def PowerBoostEffect.toEffect (e : PowerBoostEffect) : Effect where
  GetTrigger := e.Trigger
  CanActivate := e.CanActivate
  GetTargets := e.GetTargets
  Apply := e.Apply
  GetDescription := e.Description

/-- A `*CompositeEffect` seen through the interface `Effect`. -/
def CompositeEffect.toEffect (e : CompositeEffect) : Effect where
  GetTrigger := e.Trigger
  CanActivate := e.CanActivate
  GetTargets := e.GetTargets
  Apply := e.Apply
  GetDescription := e.Description

/-- A `*ReturnEnergyToHandEffect` seen through the interface `Effect`. -/
def ReturnEnergyToHandEffect.toEffect (e : ReturnEnergyToHandEffect) : Effect where
  GetTrigger := e.Trigger
  CanActivate := e.CanActivate
  GetTargets := e.GetTargets
  Apply := e.Apply
  GetDescription := e.Description

/-- A `*DestroyFieldCardEffect` seen through the interface `Effect`. -/
def DestroyFieldCardEffect.toEffect (e : DestroyFieldCardEffect) : Effect where
  GetTrigger := e.Trigger
  CanActivate := e.CanActivate
  GetTargets := e.GetTargets
  Apply := e.Apply
  GetDescription := e.Description

/-- A `*ReviveFriendEffect` seen through the interface `Effect`. -/
def ReviveFriendEffect.toEffect (e : ReviveFriendEffect) : Effect where
  GetTrigger := e.Trigger
  CanActivate := e.CanActivate
  GetTargets := e.GetTargets
  Apply := e.Apply
  GetDescription := e.Description

/-- A `*LookAndDrawEffect` seen through the interface `Effect`. -/
def LookAndDrawEffect.toEffect (e : LookAndDrawEffect) : Effect where
  GetTrigger := e.Trigger
  CanActivate := e.CanActivate
  GetTargets := e.GetTargets
  Apply := e.Apply
  GetDescription := e.Description

/-- A `*HandResetEffect` seen through the interface `Effect`. -/
def HandResetEffect.toEffect (e : HandResetEffect) : Effect where
  GetTrigger := e.Trigger
  CanActivate := e.CanActivate
  GetTargets := e.GetTargets
  Apply := e.Apply
  GetDescription := e.Description

/-- A `*ConditionalPowerBoostEffect` seen through the interface `Effect`. -/
def ConditionalPowerBoostEffect.toEffect (e : ConditionalPowerBoostEffect) : Effect where
  GetTrigger := e.Trigger
  CanActivate := e.CanActivate
  GetTargets := e.GetTargets
  Apply := e.Apply
  GetDescription := e.Description

/-- A `*EnergyPhaseAlternativeEffect` seen through the interface `Effect`. -/
def EnergyPhaseAlternativeEffect.toEffect (e : EnergyPhaseAlternativeEffect) : Effect where
  GetTrigger := e.Trigger
  CanActivate := e.CanActivate
  GetTargets := e.GetTargets
  Apply := e.Apply
  GetDescription := e.Description

/-- A `*EndPhaseActivateEffect` seen through the interface `Effect`. -/
def EndPhaseActivateEffect.toEffect (e : EndPhaseActivateEffect) : Effect where
  GetTrigger := e.Trigger
  CanActivate := e.CanActivate
  GetTargets := e.GetTargets
  Apply := e.Apply
  GetDescription := e.Description

/-- A `*DrawPhaseManipulateEffect` seen through the interface `Effect`. -/
def DrawPhaseManipulateEffect.toEffect (e : DrawPhaseManipulateEffect) : Effect where
  GetTrigger := e.Trigger
  CanActivate := e.CanActivate
  GetTargets := e.GetTargets
  Apply := e.Apply
  GetDescription := e.Description

/-- A `*OpponentStartActivateEnergyEffect` seen through the interface `Effect`. -/
def OpponentStartActivateEnergyEffect.toEffect (e : OpponentStartActivateEnergyEffect) : Effect where
  GetTrigger := e.Trigger
  CanActivate := e.CanActivate
  GetTargets := e.GetTargets
  Apply := e.Apply
  GetDescription := e.Description

/-- A `*UseFromNegativeEnergyEffect` seen through the interface `Effect`. -/
def UseFromNegativeEnergyEffect.toEffect (e : UseFromNegativeEnergyEffect) : Effect where
  GetTrigger := e.Trigger
  CanActivate := e.CanActivate
  GetTargets := e.GetTargets
  Apply := e.Apply
  GetDescription := e.Description

/-- A `*CostReductionEffect` seen through the interface `Effect`. -/
def CostReductionEffect.toEffect (e : CostReductionEffect) : Effect where
  GetTrigger := e.Trigger
  CanActivate := e.CanActivate
  GetTargets := e.GetTargets
  Apply := e.Apply
  GetDescription := e.Description

/-- A `*EnterRestedEffect` seen through the interface `Effect`. -/
def EnterRestedEffect.toEffect (e : EnterRestedEffect) : Effect where
  GetTrigger := e.Trigger
  CanActivate := e.CanActivate
  GetTargets := e.GetTargets
  Apply := e.Apply
  GetDescription := e.Description

/-- A `*FieldCountPowerBoostEffect` seen through the interface `Effect`. -/
def FieldCountPowerBoostEffect.toEffect (e : FieldCountPowerBoostEffect) : Effect where
  GetTrigger := e.Trigger
  CanActivate := e.CanActivate
  GetTargets := e.GetTargets
  Apply := e.Apply
  GetDescription := e.Description

/-- A `*OnDamageDrawEffect` seen through the interface `Effect`. -/
def OnDamageDrawEffect.toEffect (e : OnDamageDrawEffect) : Effect where
  GetTrigger := e.Trigger
  CanActivate := e.CanActivate
  GetTargets := e.GetTargets
  Apply := e.Apply
  GetDescription := e.Description

/-- A `*NegativeEnergyPowerBoostEffect` seen through the interface `Effect`. -/
def NegativeEnergyPowerBoostEffect.toEffect (e : NegativeEnergyPowerBoostEffect) : Effect where
  GetTrigger := e.Trigger
  CanActivate := e.CanActivate
  GetTargets := e.GetTargets
  Apply := e.Apply
  GetDescription := e.Description

/-- A `*ConditionalDestroyEffect` seen through the interface `Effect`. -/
def ConditionalDestroyEffect.toEffect (e : ConditionalDestroyEffect) : Effect where
  GetTrigger := e.Trigger
  CanActivate := e.CanActivate
  GetTargets := e.GetTargets
  Apply := e.Apply
  GetDescription := e.Description

/-! ## The constructors of friend_effects.go, support_effects.go and field_effects.go -/

def CardTypeFriend : String := "ふれんど"
def CardTypeSupport : String := "サポート"
def CardTypeField : String := "フィールド"
def ColorGreen : String := "緑"

/-- The constructor `NewNamidabukuronEffect`, registered for F-002. -/
def NewNamidabukuronEffect : MainPhasePowerBoostEffect :=
  { Trigger := TriggerMain,
    Description := "【メイン：コスト〇】このターン中、このふれんどのパワー+1000。",
    PowerBoost := 1000, Duration := "turn" }

/-- The constructor `NewFurafuraEffect`, registered for F-003. -/
def NewFurafuraEffect : HandSizePowerBoostEffect :=
  { Trigger := TriggerPersistent,
    Description := "自分の手札2枚ごとに、このふれんどのパワー+1000。",
    CardsPerBoost := 2, PowerBoost := 1000 }

/-- The constructor `NewHiyakeratopusEffect`, registered for F-006, F-006 (P). The literal of the source names the fields `Amount: 1` and `Scope: ScopeSelf`,
which `DrawCardEffect` does not have; the amount is the count of the struct of
base_effects.go. -/
def NewHiyakeratopusEffect : DrawCardEffect :=
  { Trigger := TriggerOnAttack,
    Description := "このふれんどがアタックした時、自分はデッキから1枚ドローする。",
    Count := 1 }

/-- The constructor `NewBoyEffect`, registered for F-008, F-008 (P). The literal of the source also names a field `Scope`, which
`DestroyFriendEffect` does not have. -/
def NewBoyEffect : DestroyFriendEffect :=
  { Trigger := TriggerOnAttack,
    Description := "このふれんどがアタックした時、パワー3000以下の相手のふれんど1体を破壊する。",
    MaxPower := 3000, RequireTarget := true }

/-- The constructor `NewPochiEffect`, registered for F-011, F-011 (P). The literal of the source names the fields `Amount: 1` and `Scope: ScopeSelf`,
which `DrawCardEffect` does not have; the amount is the count of the struct of
base_effects.go. -/
def NewPochiEffect : DrawCardEffect :=
  { Trigger := TriggerOnAttack,
    Description := "このふれんどがアタックした時、自分はデッキから1枚ドローする。",
    Count := 1 }

/-- The constructor `NewMarukaniEffect`, registered for F-020, F-020 (P). -/
def NewMarukaniEffect : RevealAndPlaceDeckTopEffect :=
  { Trigger := TriggerOnAttack,
    Description := "このふれんどがアタックした時、自分か相手のデッキを上から1枚オープンする。そのカードをデッキの上か下に置く。" }

/-- The constructor `NewJohnnyEffect`, registered for F-022, F-022 (P). -/
def NewJohnnyEffect : DiscardDeckTopEffect :=
  { Trigger := TriggerOnAttack,
    Description := "このふれんどがアタックした時、自分のデッキを上から1枚破棄する。" }

/-- The constructor `NewUkkiAttackEffect`, registered for F-044, F-044 (P). -/
def NewUkkiAttackEffect : DiscardNegativeEnergyEffect :=
  { Trigger := TriggerOnAttack,
    Description := "このふれんどがアタックした時、自分の負のエネルギーエリアのカード1枚を破棄できる。",
    Count := 1, Optional := true }

/-- The constructor `NewKurageboTransformEffect`, registered for F-102. -/
def NewKurageboTransformEffect : ActivateByFlippingNegativeEnergyEffect :=
  { Trigger := TriggerOnAttack,
    Description := "このふれんどがアタックした時、自分の負のエネルギーエリアのカード2枚を裏にすることで、このふれんどをアクティブにする。",
    Count := 2 }

/-- The constructor `NewRukusoEffect`, registered for F-013, F-013 (P). -/
def NewRukusoEffect : RevealNegativeEnergyEffect :=
  { Trigger := TriggerOnBlock,
    Description := "このふれんどがブロックした時、自分の負のエネルギーエリアのカード1枚を表にする。",
    Count := 1 }

/-- The constructor `NewTiranoEffect`, registered for F-004, F-015, F-015 (P). -/
def NewTiranoEffect : CanAttackImmediatelyEffect :=
  { Trigger := TriggerPersistent,
    Description := "このふれんどは登場したターンにアタックできる。" }

/-- The constructor `NewKurageboEffect`, registered for F-016, F-016 (P). -/
def NewKurageboEffect : DamageModifierEffect :=
  { Trigger := TriggerPersistent,
    Description := "自分の負のエネルギーエリアの表のカードが3枚以上の間、このふれんどの与えるダメージ+1。",
    Amount := 1,
    Condition := some fun game _ =>
      (activeState game).map fun playerState =>
        decide (playerState.NegativeEnergy.length ≥ 3) }

/-- The constructor `NewYupiEffect`, registered for F-023, F-023 (P). -/
def NewYupiEffect : ReturnToHandEffect :=
  { Trigger := TriggerOnPlay,
    Description := "このふれんどが登場した時、相手のふれんど1体を手札に戻す。",
    Scope := ScopeOppFriends, MaxCost := 0, RequireTarget := true }

/-- The constructor `NewShimonEffect`, registered for F-025, F-025 (P). -/
def NewShimonEffect : ReturnSupportFromTrashEffect :=
  { Trigger := TriggerOnPlay,
    Description := "このふれんどが登場した時、コスト3以下の自分のトラッシュのサポートカード1枚を手札に加えられる。",
    MaxCost := 3 }

/-- The constructor `NewMegarokkoEffect`, registered for F-034, F-034 (P). -/
def NewMegarokkoEffect : ActivateOnBlockEffect :=
  { Trigger := TriggerOnBlock,
    Description := "このふれんどがブロックした時、このふれんどをアクティブにする。" }

/-- The constructor `NewHayaoEffect`, registered for F-041, F-041 (P). -/
def NewHayaoEffect : PlayFieldCardEffect :=
  { Trigger := TriggerOnPlay,
    Description := "このふれんどが登場した時、自分の手札から、コスト2以下のフィールドカード1枚をコストを支払わずに置ける。",
    MaxCost := 2, NoCost := true }

/-- The constructor `NewUkkiEffect`, registered for F-042, F-042 (P). -/
def NewUkkiEffect : ReturnToCardsToDeckEffect :=
  { Trigger := TriggerOnPlay,
    Description := "このふれんどが登場した時、自分のトラッシュのカード3枚を1枚ずつ選んでデッキの上か下に置ける。",
    Count := 3 }

/-- The constructor `NewKo2Effect`, registered for F-055, F-055 (P). -/
def NewKo2Effect : RestFriendEffect :=
  { Trigger := TriggerOnAttack,
    Description := "このふれんどがアタックした時、相手のふれんど1体をレストする。",
    Action := "rest" }

/-- The constructor `NewShiranEffect`, registered for F-056, F-056 (P). -/
def NewShiranEffect : CanBlockWhileRestedEffect :=
  { Trigger := TriggerPersistent,
    Description := "このふれんどはレストしていてもブロックできる。" }

/-- The constructor `NewBardonEffect`, registered for F-065, F-065 (P). -/
def NewBardonEffect : PowerBoostEffect :=
  { Trigger := TriggerMain,
    Description := "【メイン/カウンター】このターン中、自分のふれんど1体のパワー+2000。",
    Amount := 2000, Duration := "turn", Target := "one_my_friend" }

/-- The constructor `NewDaikoubutsuEffect`, registered for F-067, F-067 (P). -/
def NewDaikoubutsuEffect : ReturnEnergyToHandEffect :=
  { Trigger := TriggerMain,
    Description := "【メイン/カウンター】自分のエネルギーエリアのカード1枚を手札に戻せる。" }

/-- The constructor `NewDecorationEffect`, registered for F-068, F-068 (P). -/
def NewDecorationEffect : DestroyFieldCardEffect :=
  { Trigger := TriggerMain,
    Description := "【メイン/カウンター】相手の場のフィールドカード1枚を破壊する。" }

/-- The constructor `NewTokuiTenEffect`, registered for F-069, F-069 (P). -/
def NewTokuiTenEffect : DestroyFriendEffect :=
  { Trigger := TriggerMain,
    Description := "【メイン/カウンター】パワー5000以下の相手のふれんど1体を破壊する。",
    MaxPower := 5000, RequireTarget := true }

/-- The constructor `NewBlueDragonKickEffect`, registered for F-070, F-070 (P). -/
def NewBlueDragonKickEffect : DestroyFriendEffect :=
  { Trigger := TriggerMain,
    Description := "【メイン】パワー10000以下の相手のふれんど1体を破壊する。",
    MaxPower := 10000, RequireTarget := true }

/-- The constructor `NewZettaiUragiranaiFriendEffect`, registered for F-071. -/
def NewZettaiUragiranaiFriendEffect : ReviveFriendEffect :=
  { Trigger := TriggerMain,
    Description := "【メイン/カウンター】自分のトラッシュから、ふれんどカード1枚をコストを支払わずにレストして登場させる。この効果で登場したふれんどは、エンドフェイズに破壊される。",
    EnterRested := true, DestroyAtEnd := true }

/-- The constructor `NewRyuyaYupiEffect`, registered for F-072. -/
def NewRyuyaYupiEffect : LookAndDrawEffect :=
  { Trigger := TriggerMain,
    Description := "【メイン/カウンター】自分はデッキの上から3枚オープンする。その中の1枚を手札に加え、残りは破棄する。自分の場に「ユピ」がいるなら、さらに自分の「ユピ」1体を手札に戻せる。",
    LookCount := 3, DrawCount := 1,
    AdditionalEffect := some fun game _ =>
      match activeState game with
      | none => none
      | some playerState =>
        match playerState.BattleArea.find? fun entry =>
            entry.2.CardNo = "F-023" ∨ entry.2.CardNo = "F-023 (P)" with
        | some entry =>
          match createGameContext.ReturnToHand game.Game game.ActivePlayer entry.2.CardNo with
          | (g, err) => some ({ game with Game := g }, err)
        | none => some (game, none) }

/-- The constructor `NewFuruikeDivingEffect`, registered for F-073. -/
def NewFuruikeDivingEffect : ReturnToHandEffect :=
  { Trigger := TriggerMain,
    Description := "【メイン/カウンター】ふれんど1体を手札に戻す。",
    Scope := ScopeTarget, MaxCost := 0, RequireTarget := true }

/-- The constructor `NewNazonoYoninEffect`, registered for F-080, F-080 (P). -/
def NewNazonoYoninEffect : HandResetEffect :=
  { Trigger := TriggerMain,
    Description := "【メイン】お互いは手札を4枚になるまで破棄する。その後、お互いはデッキから、手札が4枚になるまでドローする。",
    TargetHandSize := 4, AffectBoth := true }

/-- The constructor `NewMiharashidaiEffect`, registered for F-089. -/
def NewMiharashidaiEffect : ConditionalPowerBoostEffect :=
  { Trigger := TriggerPersistent,
    Description := "自分のターン中、自分の手札が相手より多い間、自分のふれんど全てのパワー+2000。",
    Amount := 2000, Scope := ScopeMyFriends,
    Condition := fun game _ =>
      if game.ActivePlayer ≠ game.ActivePlayer then some false
      else
        match activeState game, opponentState game with
        | some playerState, some oppState =>
          some (decide (playerState.Hand.length > oppState.Hand.length))
        | _, _ => none }

/-- The constructor `NewJinjaEffect`, registered for F-090. -/
def NewJinjaEffect : EnergyPhaseAlternativeEffect :=
  { Trigger := TriggerStartPhase,
    Description := "自分のエネルギーフェイズにカードを置く時、デッキから置く代わりに自分の負のエネルギーエリアのカード1枚を表にできる。" }

/-- The constructor `NewMasashiHouseEffect`, registered for F-091. -/
def NewMasashiHouseEffect : EndPhaseActivateEffect :=
  { Trigger := TriggerEndPhase,
    Description := "エンドフェイズ開始時、自分のふれんど1体をアクティブにできる。" }

/-- The constructor `NewFushigiKyoshitsuEffect`, registered for F-092. -/
def NewFushigiKyoshitsuEffect : DrawPhaseManipulateEffect :=
  { Trigger := TriggerStartPhase,
    Description := "自分のドローフェイズ開始時、自分はデッキの上から1枚オープンする。そのカードをデッキの上か下に置く。" }

/-- The constructor `NewGakuenPoolEffect`, registered for F-093. -/
def NewGakuenPoolEffect : OpponentStartActivateEnergyEffect :=
  { Trigger := TriggerStartPhase,
    Description := "相手のスタートフェイズ開始時、自分のエネルギーエリアのカード1枚をアクティブにする。" }

/-- The constructor `NewKenkyujoEffect`, registered for F-094. -/
def NewKenkyujoEffect : UseFromNegativeEnergyEffect :=
  { Trigger := TriggerPersistent,
    Description := "自分は自分の負のエネルギーエリアのサポートカードを使用できる。使用したカードはデッキの下に置き、その後自分に1ダメージを与える。" }

/-- The constructor `NewTokumoUniversityEffect`, registered for F-095. -/
def NewTokumoUniversityEffect : CostReductionEffect :=
  { Trigger := TriggerPersistent,
    Description := "自分の手札のふれんどカードの登場コストは、登場する時-１される。ただし、コスト1以下にはならず、カラーシンボルのコストはマイナスされない。",
    CardType := CardTypeFriend, Reduction := 1, MinCost := 1 }

/-- The constructor `NewTenchiKyukaiEffect`, registered for F-096. -/
def NewTenchiKyukaiEffect : EnterRestedEffect :=
  { Trigger := TriggerPersistent,
    Description := "コスト2/4/6のふれんどは、登場する時はレストして登場する。",
    CostCondition := fun cost => cost == 2 || cost == 4 || cost == 6 }

/-- The constructor `NewTokumoFestivalEffect`, registered for F-097. -/
def NewTokumoFestivalEffect : FieldCountPowerBoostEffect :=
  { Trigger := TriggerPersistent,
    Description := "自分のターン中、このカード以外のお互いの場のフィールドカード1枚ごとに、自分のふれんど全てのパワー+1000。",
    PowerPerField := 1000 }

/-- The constructor `NewMoguraHouseEffect`, registered for F-098. -/
def NewMoguraHouseEffect : OnDamageDrawEffect :=
  { Trigger := TriggerOnDamageDealt,
    Description := "自分のふれんどが相手にダメージを与えた時、自分はデッキから1枚ドローする。" }

/-- The constructor `NewGomisutebaEffect`, registered for F-099. -/
def NewGomisutebaEffect : NegativeEnergyPowerBoostEffect :=
  { Trigger := TriggerPersistent,
    Description := "自分のターン中、負のエネルギーエリアの裏のカード1枚ごとに、緑の自分のふれんど全てのパワー＋1000。",
    PowerPerCard := 1000, ColorFilter := ColorGreen }

/-- The second sub-effect of `NewMasashiKurageboEffect`: destroy a friend of
the opponent of power 3000 or less when the active player has F-016 or
F-016 (P) in the battle area. -/
def masashiKurageboDestroy : ConditionalDestroyEffect :=
  { Trigger := TriggerMain, Description := "", MaxPower := 3000,
    Condition := fun game _ =>
      (activeState game).map fun playerState =>
        playerState.BattleArea.any fun entry =>
          entry.2.CardNo = "F-016" ∨ entry.2.CardNo = "F-016 (P)" }

/-- The constructor `NewMasashiKurageboEffect`, registered for F-066, F-066 (P). -/
def NewMasashiKurageboEffect : CompositeEffect :=
  { Trigger := TriggerMain,
    Description := "【メイン】自分はデッキから2枚ドローする。自分の場に「くらげ坊」がいるなら、さらにパワー3000以下の相手のふれんど1体を破壊する。",
    Effects :=
      [({ Trigger := TriggerMain, Description := "", Count := 2 } : DrawCardEffect).toEffect,
       masashiKurageboDestroy.toEffect] }

/-! ## effects/registry.go -/

/-- The calls `registry.Register(cardNo, effect)` of `InitializeEffects`, in the
order of the source. -/
def registrations (u : Undeclared) : List (String × Effect) :=
  [("F-002", (MainPhasePowerBoostEffect.toEffect u NewNamidabukuronEffect)),
   ("F-003", NewFurafuraEffect.toEffect),
   ("F-004", NewTiranoEffect.toEffect),
   ("F-006", NewHiyakeratopusEffect.toEffect),
   ("F-006 (P)", NewHiyakeratopusEffect.toEffect),
   ("F-008", NewBoyEffect.toEffect),
   ("F-008 (P)", NewBoyEffect.toEffect),
   ("F-011", NewPochiEffect.toEffect),
   ("F-011 (P)", NewPochiEffect.toEffect),
   ("F-013", NewRukusoEffect.toEffect),
   ("F-013 (P)", NewRukusoEffect.toEffect),
   ("F-015", NewTiranoEffect.toEffect),
   ("F-015 (P)", NewTiranoEffect.toEffect),
   ("F-016", NewKurageboEffect.toEffect),
   ("F-016 (P)", NewKurageboEffect.toEffect),
   ("F-020", NewMarukaniEffect.toEffect),
   ("F-020 (P)", NewMarukaniEffect.toEffect),
   ("F-022", (DiscardDeckTopEffect.toEffect u NewJohnnyEffect)),
   ("F-022 (P)", (DiscardDeckTopEffect.toEffect u NewJohnnyEffect)),
   ("F-023", NewYupiEffect.toEffect),
   ("F-023 (P)", NewYupiEffect.toEffect),
   ("F-025", NewShimonEffect.toEffect),
   ("F-025 (P)", NewShimonEffect.toEffect),
   ("F-034", NewMegarokkoEffect.toEffect),
   ("F-034 (P)", NewMegarokkoEffect.toEffect),
   ("F-041", NewHayaoEffect.toEffect),
   ("F-041 (P)", NewHayaoEffect.toEffect),
   ("F-042", NewUkkiEffect.toEffect),
   ("F-042 (P)", NewUkkiEffect.toEffect),
   ("F-044", NewUkkiAttackEffect.toEffect),
   ("F-044 (P)", NewUkkiAttackEffect.toEffect),
   ("F-055", NewKo2Effect.toEffect),
   ("F-055 (P)", NewKo2Effect.toEffect),
   ("F-056", NewShiranEffect.toEffect),
   ("F-056 (P)", NewShiranEffect.toEffect),
   ("F-065", NewBardonEffect.toEffect),
   ("F-065 (P)", NewBardonEffect.toEffect),
   ("F-066", NewMasashiKurageboEffect.toEffect),
   ("F-066 (P)", NewMasashiKurageboEffect.toEffect),
   ("F-067", NewDaikoubutsuEffect.toEffect),
   ("F-067 (P)", NewDaikoubutsuEffect.toEffect),
   ("F-068", NewDecorationEffect.toEffect),
   ("F-068 (P)", NewDecorationEffect.toEffect),
   ("F-069", NewTokuiTenEffect.toEffect),
   ("F-069 (P)", NewTokuiTenEffect.toEffect),
   ("F-070", NewBlueDragonKickEffect.toEffect),
   ("F-070 (P)", NewBlueDragonKickEffect.toEffect),
   ("F-071", NewZettaiUragiranaiFriendEffect.toEffect),
   ("F-072", NewRyuyaYupiEffect.toEffect),
   ("F-073", NewFuruikeDivingEffect.toEffect),
   ("F-080", NewNazonoYoninEffect.toEffect),
   ("F-080 (P)", NewNazonoYoninEffect.toEffect),
   ("F-089", NewMiharashidaiEffect.toEffect),
   ("F-090", NewJinjaEffect.toEffect),
   ("F-091", NewMasashiHouseEffect.toEffect),
   ("F-092", NewFushigiKyoshitsuEffect.toEffect),
   ("F-093", NewGakuenPoolEffect.toEffect),
   ("F-094", NewKenkyujoEffect.toEffect),
   ("F-095", NewTokumoUniversityEffect.toEffect),
   ("F-096", NewTenchiKyukaiEffect.toEffect),
   ("F-097", NewTokumoFestivalEffect.toEffect),
   ("F-098", NewMoguraHouseEffect.toEffect),
   ("F-099", NewGomisutebaEffect.toEffect),
   ("F-102", NewKurageboTransformEffect.toEffect)]

def InitializeEffects (u : Undeclared) (registry : EffectRegistry) : EffectRegistry :=
  (registrations u).foldl (fun r entry => r.Register entry.1 entry.2) registry

/-- The registry that `GetGlobalRegistry` builds on its first call. -/
def GetGlobalRegistry (u : Undeclared) : EffectRegistry :=
  InitializeEffects u EffectRegistry.NewEffectRegistry

/-! ## services/game_service.go: the requests of a player -/

/-- The pointer `playerState`: the state of player 1 for the number 1, of
player 2 for every other number. -/
def statePointer (gs : GameState) (player : Int) : PlayerState :=
  if player = 1 then gs.Player1State else gs.Player2State

/-- A write through the pointer `playerState`. -/
def storeState (gs : GameState) (player : Int) (playerState : PlayerState) : GameState :=
  if player = 1 then { gs with Player1State := playerState }
  else { gs with Player2State := playerState }

/-- The loop `for i, card := range playerState.Hand` that cuts the first card
equal to `cardNo` out of the hand and stops. -/
def removeFromHand (cardNo : String) : List String → List String
  | [] => []
  | card :: rest => if card = cardNo then rest else card :: removeFromHand cardNo rest

/-- The assignment `playerState.BattleArea[position] = friend`: the entry of
the key is replaced when the key is present, a new entry is added when it is
not. -/
def setFriend (battleArea : List (String × Friend)) (position : String) (friend : Friend) :
    List (String × Friend) :=
  if battleArea.any (fun entry => entry.1 = position) then
    battleArea.map fun entry => if entry.1 = position then (position, friend) else entry
  else battleArea ++ [(position, friend)]

/-- The lookup `playerState.BattleArea[position]` with its flag `exists`. -/
def friendAt (battleArea : List (String × Friend)) (position : String) : Option Friend :=
  (battleArea.find? (fun entry => entry.1 = position)).map Prod.snd

namespace GameService

/-- The helper `playFriend`: the game after the call and the error. `none` is a
panic: on a game without state, and at the assignment
`playerState.BattleArea[position] = friend` when the map is nil. -/
def playFriend (s : GameService) (game : Game) (player : Int) (cardNo : String)
    (position : String) : Option (Game × Option String) :=
  match game.GameState with
  | none => none
  | some gs =>
    let playerState := statePointer gs player
    let playerState1 := { playerState with Hand := removeFromHand cardNo playerState.Hand }
    match s.cardService.GetCardByNo cardNo with
    | .error err => some ({ game with GameState := some (storeState gs player playerState1) }, some err)
    | .ok card =>
      let friend : Friend :=
        { CardNo := cardNo, Power := card.Power, IsRest := false, TurnPlayed := game.CurrentTurn }
      if playerState1.BattleAreaNil then none
      else
        let playerState2 :=
          { playerState1 with BattleArea := setFriend playerState1.BattleArea position friend }
        some ({ game with GameState := some (storeState gs player playerState2) }, none)

/-- The helper `playSupport`; the targets are not read. -/
def playSupport (_s : GameService) (game : Game) (player : Int) (cardNo : String)
    (_targets : List String) : Option (Game × Option String) :=
  match game.GameState with
  | none => none
  | some gs =>
    let playerState := statePointer gs player
    let playerState1 := { playerState with Hand := removeFromHand cardNo playerState.Hand }
    let playerState2 := { playerState1 with Trash := playerState1.Trash ++ [cardNo] }
    some ({ game with GameState := some (storeState gs player playerState2) }, none)

/-- The helper `playField`. -/
def playField (_s : GameService) (game : Game) (player : Int) (cardNo : String) :
    Option (Game × Option String) :=
  match game.GameState with
  | none => none
  | some gs =>
    let playerState := statePointer gs player
    let playerState1 := { playerState with Hand := removeFromHand cardNo playerState.Hand }
    let playerState2 :=
      match playerState1.FieldCard with
      | some fieldCard => { playerState1 with Trash := playerState1.Trash ++ [fieldCard] }
      | none => playerState1
    let playerState3 := { playerState2 with FieldCard := some cardNo }
    some ({ game with GameState := some (storeState gs player playerState3) }, none)

/-- The lines `var player int` to the end of the `if` chain that follows:
the number of the player, `none` for a player who is not in the game. -/
def playerNumber (gameModel : Game) (playerID : Nat) : Option Int :=
  if gameModel.Player1ID = playerID then some 1
  else if gameModel.Player2ID = playerID then some 2
  else none

/-- The end of a request after its helper has run on `gameModel`: the event is
triggered and the game is saved. -/
def triggerAndSave (s : GameService) (gameID : String) (c : Call) (event : GameEvent) :
    Option (GameService × Option String) :=
  match c.TriggerEvent event with
  | none => none
  | some (c1, some err) => some (s.putHandler gameID c1, some err)
  | some (c1, none) => some (s.save gameID c1, none)

/-- The method `GameService.PlayCard`. `none` is a panic. -/
def PlayCard (s : GameService) (gameID : String) (playerID : Nat) (cardNo : String)
    (position : String) (targets : List String) : Option (GameService × Option String) :=
  match s.db gameID with
  | none => some (s, some "record not found")
  | some gameModel =>
    let c := s.getHandler gameID gameModel
    match playerNumber c.gameModel playerID with
    | none => some (s.putHandler gameID c, some "player not in this game")
    | some player =>
      match s.cardService.GetCardByNo cardNo with
      | .error err => some (s.putHandler gameID c, some err)
      | .ok card =>
        if card.Kind = CardTypeFriend then
          match s.playFriend c.gameModel player cardNo position with
          | none => none
          | some (g, some err) => some (s.putHandler gameID (c.setGame g), some err)
          | some (g, none) =>
            let c1 := c.setGame g
            triggerAndSave s gameID c1
              { Kind := EventFriendPlayed, Player := player, CardNo := cardNo, Target := "",
                Phase := c1.gameModel.CurrentPhase, Data := [] }
        else if card.Kind = CardTypeSupport then
          match s.playSupport c.gameModel player cardNo targets with
          | none => none
          | some (g, some err) => some (s.putHandler gameID (c.setGame g), some err)
          | some (g, none) =>
            let c1 := c.setGame g
            triggerAndSave s gameID c1
              { Kind := EventSupportPlayed, Player := player, CardNo := cardNo, Target := "",
                Phase := c1.gameModel.CurrentPhase, Data := [("targets", targets)] }
        else if card.Kind = CardTypeField then
          match s.playField c.gameModel player cardNo with
          | none => none
          | some (g, some err) => some (s.putHandler gameID (c.setGame g), some err)
          | some (g, none) =>
            let c1 := c.setGame g
            triggerAndSave s gameID c1
              { Kind := EventFieldPlayed, Player := player, CardNo := cardNo, Target := "",
                Phase := c1.gameModel.CurrentPhase, Data := [] }
        else some (s.save gameID c, none)

/-- The method `GameService.Attack`. `none` is a panic. The attack itself is not
resolved: the method triggers the event and saves the game. -/
def Attack (s : GameService) (gameID : String) (playerID : Nat) (attackerPos : String)
    (targetPos : String) : Option (GameService × Option String) :=
  match s.db gameID with
  | none => some (s, some "record not found")
  | some gameModel =>
    let c := s.getHandler gameID gameModel
    match playerNumber c.gameModel playerID with
    | none => some (s.putHandler gameID c, some "player not in this game")
    | some player =>
      match c.gameModel.GameState with
      | none => none
      | some gs =>
        match friendAt (statePointer gs player).BattleArea attackerPos with
        | none => some (s.putHandler gameID c, some ("no friend at position " ++ attackerPos))
        | some attacker =>
          triggerAndSave s gameID c
            { Kind := EventFriendAttacks, Player := player, CardNo := attacker.CardNo,
              Target := targetPos, Phase := c.gameModel.CurrentPhase, Data := [] }

/-- The method `GameService.Block`. `none` is a panic. The block itself is not
resolved: the method triggers the event and saves the game. -/
def Block (s : GameService) (gameID : String) (playerID : Nat) (blockerPos : String)
    (attackerPos : String) : Option (GameService × Option String) :=
  match s.db gameID with
  | none => some (s, some "record not found")
  | some gameModel =>
    let c := s.getHandler gameID gameModel
    match playerNumber c.gameModel playerID with
    | none => some (s.putHandler gameID c, some "player not in this game")
    | some player =>
      match c.gameModel.GameState with
      | none => none
      | some gs =>
        match friendAt (statePointer gs player).BattleArea blockerPos with
        | none => some (s.putHandler gameID c, some ("no friend at position " ++ blockerPos))
        | some blocker =>
          triggerAndSave s gameID c
            { Kind := EventFriendBlocks, Player := player, CardNo := blocker.CardNo,
              Target := attackerPos, Phase := c.gameModel.CurrentPhase, Data := [] }

end GameService

/-! ## game/effect_stack.go: the interaction controller -/

/-- A value stored in the slice `Options` of a pending choice (an empty
interface in the source): a target or the text of an option. -/
inductive ChoiceOption where
  | target (t : Target)
  | option (text : String)
  deriving DecidableEq, Repr

structure PendingChoice where
  Player : Int
  ChoiceType : String
  Options : List ChoiceOption
  Required : Bool
  Description : String
  deriving DecidableEq, Repr

/-- The controller. Its pointer to the resolver is read by none of its methods
and is left out; `pendingChoices` is the map from choice id to pending
choice. -/
structure InteractionController where
  pendingChoices : List (String × PendingChoice)
  deriving DecidableEq, Repr

/-- The function `generateChoiceID`: the package variable `choices` is written
nowhere, so its length is 0 at every call. -/
def generateChoiceID : String := "choice_" ++ fmtInt 0

def targetsToInterface (targets : List Target) : List ChoiceOption :=
  targets.map ChoiceOption.target

namespace InteractionController

def NewInteractionController : InteractionController := { pendingChoices := [] }

/-- The assignment `c.pendingChoices[choiceID] = choice`. -/
def store (c : InteractionController) (choiceID : String) (choice : PendingChoice) :
    InteractionController :=
  if c.pendingChoices.any (fun entry => entry.1 = choiceID) then
    { pendingChoices :=
        c.pendingChoices.map fun entry => if entry.1 = choiceID then (choiceID, choice) else entry }
  else { pendingChoices := c.pendingChoices ++ [(choiceID, choice)] }

/-- The controller after the call and the choice id. -/
def RequestTargetSelection (c : InteractionController) (player : Int)
    (validTargets : List Target) (minTargets : Int) (_maxTargets : Int) (description : String) :
    InteractionController × String :=
  let choiceID := generateChoiceID
  (c.store choiceID
    { Player := player, ChoiceType := "target", Options := targetsToInterface validTargets,
      Required := decide (minTargets > 0), Description := description }, choiceID)

/-- The controller after the call and the choice id. -/
def RequestOptionSelection (c : InteractionController) (player : Int) (options : List String)
    (description : String) : InteractionController × String :=
  let choiceID := generateChoiceID
  (c.store choiceID
    { Player := player, ChoiceType := "option", Options := options.map ChoiceOption.option,
      Required := true, Description := description }, choiceID)

/-- The loop of `SubmitChoice` over the selected indices. -/
def checkIndices (options : List ChoiceOption) : List Int → Option String
  | [] => none
  | idx :: rest =>
    if idx < 0 ∨ idx ≥ options.length then some "invalid selection index"
    else checkIndices options rest

/-- The method `SubmitChoice`: the controller after the call and the error. The `switch`
on the choice type builds a local slice and writes nothing. -/
def SubmitChoice (c : InteractionController) (choiceID : String) (selection : List Int) :
    InteractionController × Option String :=
  match (c.pendingChoices.find? (fun entry => entry.1 = choiceID)).map Prod.snd with
  | none => (c, some "choice not found")
  | some choice =>
    if selection.length = 0 ∧ choice.Required = true then (c, some "selection required")
    else
      match checkIndices choice.Options selection with
      | some err => (c, some err)
      | none =>
        ({ pendingChoices := c.pendingChoices.filter fun entry => entry.1 ≠ choiceID }, none)

end InteractionController

/-! ## models/deck.go and services/deck_service.go -/

/-- An entry of a deck. The `gorm.Model` header and the joined `Card` record
carry no logic of the validation and are left out. -/
structure DeckCard where
  DeckID : Nat
  CardNo : String
  Quantity : Int
  deriving DecidableEq, Repr

structure Deck where
  Name : String
  UserID : Nat
  Cards : List DeckCard
  IsActive : Bool
  deriving DecidableEq, Repr

/-- The message of the error for more than four copies of a card. -/
def copiesMessage : String := "同じカードは4枚までしか入れることができません"

/-- The message of the error for a deck that does not hold 50 cards. -/
def countMessage : String := "デッキは正確に50枚でなければなりません"

/-- The loop of `Validate` and the test of the count that follows it.
`cardQuantities` is the map from card number to quantity, read with the zero
value for a missing key; the additions are Go `int` additions. -/
def validateLoop (cardCount : Int) (cardQuantities : String → Int) : List DeckCard → Option String
  | [] => if cardCount ≠ 50 then some countMessage else none
  | dc :: rest =>
    let cardCount1 := wrapInt (cardCount + dc.Quantity)
    let quantity := wrapInt (cardQuantities dc.CardNo + dc.Quantity)
    let cardQuantities1 : String → Int :=
      fun cardNo => if cardNo = dc.CardNo then quantity else cardQuantities cardNo
    if quantity > 4 then some copiesMessage
    else validateLoop cardCount1 cardQuantities1 rest

/-- The method `Deck.Validate`: the message of the `ValidationError`, `none` for `nil`. -/
def Deck.Validate (d : Deck) : Option String :=
  validateLoop 0 (fun _ => 0) d.Cards

/-- The method `DeckService.ValidateDeckCards`: the same loop and the same two messages as
`Deck.Validate`, on a slice of entries. -/
def ValidateDeckCards (cards : List DeckCard) : Option String :=
  validateLoop 0 (fun _ => 0) cards

/-! ## Specification-side definitions -/

/-- The fixed cycle of the phases, in the words of the specification:
Start, Draw, Energy, Main, End and back to Start. A string that is no
phase is left alone. -/
def cycleNext (p : GamePhase) : GamePhase :=
  if p = PhaseStart then PhaseDraw
  else if p = PhaseDraw then PhaseEnergy
  else if p = PhaseEnergy then PhaseMain
  else if p = PhaseMain then PhaseEnd
  else if p = PhaseEnd then PhaseStart
  else p

/-- The five phases. -/
def phases : List GamePhase := [PhaseStart, PhaseDraw, PhaseEnergy, PhaseMain, PhaseEnd]

/-- An effect whose `Apply` leaves phase, turn counter and active player of
the match as they are. Every effect of the source is of this kind: an effect
writes to the game through the operations of `createGameContext` only, and
these touch nothing but the zones in `GameState`. -/
def Effect.KeepsMatch (e : Effect) : Prop :=
  ∀ (game : GameContext) (source : Card) (targets : List Target) (game1 : GameContext)
    (err : Option String), e.Apply game source targets = some (game1, err) →
    game1.Game.CurrentPhase = game.Game.CurrentPhase ∧
    game1.Game.CurrentTurn = game.Game.CurrentTurn ∧
    game1.Game.ActivePlayer = game.Game.ActivePlayer

/-- Two records of a match agree on phase, turn counter and active player. -/
def SameMatch (a b : Game) : Prop :=
  a.CurrentPhase = b.CurrentPhase ∧ a.CurrentTurn = b.CurrentTurn ∧
  a.ActivePlayer = b.ActivePlayer

/-- A registry all of whose effects leave phase, turn and active player alone. -/
def EffectRegistry.KeepsMatch (r : EffectRegistry) : Prop :=
  ∀ entry ∈ r.effects, entry.2.KeepsMatch

/-- The outcome of `k` calls of `ChangePhase` in a row for one game, each of
which completes without error; `none` when one of them does not. -/
def changePhaseTimes (gameID : String) (playerID : Nat) : Nat → GameService → Option GameService
  | 0, s => some s
  | k + 1, s =>
    match s.ChangePhase gameID playerID with
    | some (s1, none) => changePhaseTimes gameID playerID k s1
    | _ => none

/-- The invariant of the local state of a call: a handler created in the call
points at `gameModel` and carries a registry that keeps the match. -/
def Call.Ok (c : Call) : Prop :=
  c.shared = true → c.handler.context.Game = c.gameModel ∧ c.handler.effectRegistry.KeepsMatch

/-! ## Sample data -/

/-- A player with two cards in the deck and nothing else. -/
def samplePlayer : PlayerState :=
  { Deck := ["F-001", "F-002"], Hand := [], BattleArea := [], EnergyArea := [],
    NegativeEnergy := [], Trash := [], FieldCard := none }

/-- A match at turn 1 whose phase is `phase`. -/
def sampleGame (phase : GamePhase) : Game :=
  { GameID := "g1", Player1ID := 1, Player2ID := 2, CurrentTurn := 1, CurrentPhase := phase,
    ActivePlayer := 1, Status := StatusPlaying, WinnerID := none,
    GameState := some { Player1State := samplePlayer, Player2State := samplePlayer } }

/-- The draw effect of F-006, with the field name `Count` of base_effects.go. -/
def sampleDraw : DrawCardEffect :=
  { Trigger := TriggerOnAttack, Description := "draw 1", Count := 1 }

/-- A card table with the friend F-001 of power 3000, the friend F-006 of power
2000, the support card F-065 and the field cards F-089 and F-090; every other
number is unknown. -/
def sampleCards : CardService :=
  { GetCardByNo := fun cardNo =>
      if cardNo = "F-001" then .ok { CardNo := "F-001", Power := 3000, Kind := CardTypeFriend }
      else if cardNo = "F-006" then .ok { CardNo := "F-006", Power := 2000, Kind := CardTypeFriend }
      else if cardNo = "F-065" then .ok { CardNo := "F-065", Power := 0, Kind := CardTypeSupport }
      else if cardNo = "F-089" then .ok { CardNo := "F-089", Power := 0, Kind := CardTypeField }
      else if cardNo = "F-090" then .ok { CardNo := "F-090", Power := 0, Kind := CardTypeField }
      else .error "record not found" }

/-- A service that stores one game, has no handler yet and whose registry
holds one effect. -/
def sampleService (g : Game) : GameService :=
  { db := fun k => if k = "g1" then some g else none
    cardService := sampleCards
    eventHandler := fun _ => none
    registry := { effects := [("F-006", sampleDraw.toEffect)] } }

/-- The sample service after `k` completed calls of `ChangePhase` on a match
that starts in phase `phase`. -/
def sampleAfter (phase : GamePhase) (k : Nat) : GameService :=
  (changePhaseTimes "g1" 1 k (sampleService (sampleGame phase))).getD
    (sampleService (sampleGame phase))

/-- A match in phase End whose turn counter is the largest `int`. -/
def lastTurnGame : Game :=
  { sampleGame PhaseEnd with CurrentTurn := 9223372036854775807 }

/-- Applying the items of a list one after the other, first to last, each
with the active player of the context set to the player of the item; the run
ends at the first error. `none` is a panic. -/
def applyInOrder (context : GameContext) :
    List EffectStackItem → Option (GameContext × Option String)
  | [] => some (context, none)
  | item :: rest =>
    match item.Effect.Apply { context with ActivePlayer := item.Player } item.Source
        item.Targets with
    | none => none
    | some (context1, some err) => some (context1, some err)
    | some (context1, none) => applyInOrder context1 rest

/-- A match in phase Main in which player 1 has the friend F-002 with power
2000 at position `a` and the friend F-005 with power 2000 at position `b`, and
player 2 has the friend F-001 with power 4000 at position `a`. -/
def battleGame : Game :=
  { sampleGame PhaseMain with
    GameState := some
      { Player1State :=
          { samplePlayer with
            BattleArea :=
              [("a", { CardNo := "F-002", Power := 2000, IsRest := false, TurnPlayed := 1 }),
               ("b", { CardNo := "F-005", Power := 2000, IsRest := false, TurnPlayed := 1 })] }
        Player2State :=
          { samplePlayer with
            BattleArea :=
              [("a", { CardNo := "F-001", Power := 4000, IsRest := false, TurnPlayed := 1 })] } } }

/-- The context of player 1 on `battleGame`. -/
def battleContext : GameContext := { Game := battleGame, ActivePlayer := 1 }

/-- A power modifier of the source friend by `amount`. -/
def samplePower (amount : Int) : PowerModifierEffect :=
  { Trigger := TriggerMain, Description := "power", Scope := ScopeSelf, Amount := amount,
    Duration := "turn", Condition := none }

/-- The stack item of player 1 that changes the power of F-002 at position `a`
by `amount`. -/
def powerItem (amount : Int) : EffectStackItem :=
  { Effect := (samplePower amount).toEffect, Source := { CardNo := "F-002", Power := 2000 },
    Targets := [{ Kind := "friend", ID := "F-002", Location := "battle_area_1_a", Data := none }],
    Player := 1, Priority := 0 }

/-- The power of the friend at the head of the battle area of player 1. -/
def headPower (context : GameContext) : Option Int :=
  match context.Game.GameState with
  | none => none
  | some gs => gs.Player1State.BattleArea.head?.map (fun entry => entry.2.Power)

/-- The match `battleGame` with the power of the first friend of player 1 set
to the largest `int`. -/
def strongGame : Game :=
  { battleGame with
    GameState := some
      { Player1State :=
          { samplePlayer with
            BattleArea :=
              [("a", { CardNo := "F-002", Power := 9223372036854775807, IsRest := false,
                       TurnPlayed := 1 })] }
        Player2State := samplePlayer } }

/-- The target that `DestroyFriendEffect.GetTargets` builds for the entry
`(pos, friend)` of the battle area of `player`. -/
def destroyTarget (player : Int) (entry : String × Friend) : Target :=
  { Kind := "friend", ID := entry.2.CardNo, Location := battleAreaLocation player entry.1,
    Data := some entry.2 }

/-- A selection for `NewBoyEffect` on `weakContext` whose identifier and
location differ from those of every candidate, but whose key is the key of the
candidate `(friend, F-001, battle_area_2_a)`. -/
def forgedTarget : Target :=
  { Kind := "friend", ID := "F-001_battle", Location := "area_2_a", Data := none }

/-- The match `battleGame` with the power of the friend of player 2 lowered to
1000. -/
def weakGame : Game :=
  { battleGame with
    GameState := some
      { Player1State := samplePlayer
        Player2State :=
          { samplePlayer with
            BattleArea :=
              [("a", { CardNo := "F-001", Power := 1000, IsRest := false, TurnPlayed := 1 })] } } }

/-- The context of player 1 on `weakGame`. -/
def weakContext : GameContext := { Game := weakGame, ActivePlayer := 1 }

/-- The candidate of `NewBoyEffect` on `weakContext`, without its snapshot. -/
def plainTarget : Target :=
  { Kind := "friend", ID := "F-001", Location := "battle_area_2_a", Data := none }

/-- The friend F-005 of player 1 on `battleGame`, which is no candidate of an
effect of player 1 that aims at the source F-002 or at the opponent. -/
def ownFriendTarget : Target :=
  { Kind := "friend", ID := "F-005", Location := "battle_area_1_b", Data := none }

/-- The errors an `Apply` of base_effects.go can return: its own error for a
missing mandatory target and the two errors of the operations of the game
context. -/
def applyErrors : List (Option String) :=
  [none, some "no target selected", some "no game state", some "friend not found"]

/-- The battle area of the player an operation of the game context works on:
player 1 for the number 1, player 2 for every other number. -/
def battleAreaOf (gs : GameState) (player : Int) : List (String × Friend) :=
  (if player = 1 then gs.Player1State else gs.Player2State).BattleArea

/-- The state `gs` with the battle area of `player` replaced by `ba` and
everything else as it is. -/
def withBattleArea (gs : GameState) (player : Int) (ba : List (String × Friend)) : GameState :=
  if player = 1 then { gs with Player1State := { gs.Player1State with BattleArea := ba } }
  else { gs with Player2State := { gs.Player2State with BattleArea := ba } }

/-- The game has a state and the battle area of `player` holds no friend with
the card number `cardNo`. -/
def NoFriend (game : Game) (player : Int) (cardNo : String) : Prop :=
  ∃ gs, game.GameState = some gs ∧ ∀ entry ∈ battleAreaOf gs player, entry.2.CardNo ≠ cardNo

/-- The error contract of an operation on a friend: `res` is the game after
the call and the error. The error is `friend not found` exactly when the game
has a state without such a friend, it is `no game state` exactly when the game
has no state, and an error leaves the game as it was. -/
def FailsClean (game : Game) (player : Int) (cardNo : String) (res : Game × Option String) :
    Prop :=
  (res.2 = some "friend not found" ↔ NoFriend game player cardNo) ∧
  (res.2 = some "no game state" ↔ game.GameState = none) ∧
  (res.2 = none ∨ res.2 = some "friend not found" ∨ res.2 = some "no game state") ∧
  (res.2 ≠ none → res.1 = game)

/-- A rested friend. -/
def restedFriend : Friend := { CardNo := "F-005", Power := 2000, IsRest := true, TurnPlayed := 1 }

/-- A match in phase Main in which player 2 has the active friend F-001 at
position `a` and the rested friend F-005 at position `b`. -/
def restedGame : Game :=
  { sampleGame PhaseMain with
    GameState := some
      { Player1State := samplePlayer
        Player2State :=
          { samplePlayer with
            BattleArea :=
              [("a", { CardNo := "F-001", Power := 4000, IsRest := false, TurnPlayed := 1 }),
               ("b", restedFriend)] } } }

/-- The stack item of player 1 that changes the power of a friend F-999, which
is in no battle area, so that its Apply fails with `friend not found`. -/
def missingItem : EffectStackItem :=
  { Effect := (samplePower 700).toEffect, Source := { CardNo := "F-999", Power := 0 },
    Targets := [{ Kind := "friend", ID := "F-999", Location := "battle_area_1_z", Data := none }],
    Player := 1, Priority := 0 }

/-- The registry after the calls `Register(cardNo, effect)` of the list, in
order, on a new registry. -/
def registryOf (calls : List (String × Effect)) : EffectRegistry :=
  calls.foldl (fun r entry => r.Register entry.1 entry.2) EffectRegistry.NewEffectRegistry

/-- The card numbers that a registry holds. -/
def EffectRegistry.keys (r : EffectRegistry) : List String := r.effects.map Prod.fst

/-- A reading of the members that `GameContext` does not declare, for the
examples: the phase and the active player of the match, and a discard that
does nothing. -/
def sampleUndeclared : Undeclared :=
  { Phase := fun game => game.Game.CurrentPhase
    CurrentPlayer := fun game => game.Game.ActivePlayer
    DiscardFromDeckTop := fun game _ _ => some (game, none) }

/-- The test for the form `X (P)` of a card number: its last four characters
are a space and `(P)`. -/
def isPromo (cardNo : String) : Bool :=
  " (P)".toList.isSuffixOf cardNo.toList

/-- The card number without its last four characters: `X` for `X (P)`. -/
def baseNumber (cardNo : String) : String :=
  String.mk (cardNo.toList.take (cardNo.toList.length - 4))

/-- The card numbers of the calls of `InitializeEffects`, in the order of the
source. -/
def registeredNumbers : List String :=
  ["F-002", "F-003", "F-004", "F-006", "F-006 (P)", "F-008", "F-008 (P)", "F-011",
   "F-011 (P)", "F-013", "F-013 (P)", "F-015", "F-015 (P)", "F-016", "F-016 (P)", "F-020",
   "F-020 (P)", "F-022", "F-022 (P)", "F-023", "F-023 (P)", "F-025", "F-025 (P)", "F-034",
   "F-034 (P)", "F-041", "F-041 (P)", "F-042", "F-042 (P)", "F-044", "F-044 (P)", "F-055",
   "F-055 (P)", "F-056", "F-056 (P)", "F-065", "F-065 (P)", "F-066", "F-066 (P)", "F-067",
   "F-067 (P)", "F-068", "F-068 (P)", "F-069", "F-069 (P)", "F-070", "F-070 (P)", "F-071",
   "F-072", "F-073", "F-080", "F-080 (P)", "F-089", "F-090", "F-091", "F-092", "F-093",
   "F-094", "F-095", "F-096", "F-097", "F-098", "F-099", "F-102"]

/-- A match in phase Main in which player 1 has the field card F-097 and the
friend F-002 with power 2000 at position `a`, and player 2 has the field card
F-090. -/
def festivalGame : Game :=
  { sampleGame PhaseMain with
    GameState := some
      { Player1State :=
          { samplePlayer with
            BattleArea :=
              [("a", { CardNo := "F-002", Power := 2000, IsRest := false, TurnPlayed := 1 })]
            FieldCard := some "F-097" }
        Player2State := { samplePlayer with FieldCard := some "F-090" } } }

/-- A new handler with the global registry on `game`. -/
def sampleHandler (game : Game) : EventHandler :=
  NewEventHandler (GetGlobalRegistry sampleUndeclared) game

/-- An event of player 1 with the given kind and source card, raised in phase
Main. -/
def sampleEvent (kind : EventType) (cardNo : String) : GameEvent :=
  { Kind := kind, Player := 1, CardNo := cardNo, Target := "", Phase := PhaseMain, Data := [] }

/-- The power of the first friend of player 1 after `k` runs of the persistent
pass on a new handler on `game`. -/
def powerAfterPasses (game : Game) (k : Nat) : Option (Option Int) :=
  (Nat.iterate (fun h => h.bind EventHandler.processPersistentEffects) k
    (some (sampleHandler game))).map fun h => headPower h.context

/-- A hand-size boost with one card per boost and the largest `int` as boost. -/
def hugeBoost : HandSizePowerBoostEffect :=
  { Trigger := TriggerPersistent, Description := "", CardsPerBoost := 1,
    PowerBoost := 9223372036854775807 }

/-- The context of player 1 on a match in which player 1 holds the given hand. -/
def handContext (hand : List String) : GameContext :=
  { Game :=
      { sampleGame PhaseMain with
        GameState := some
          { Player1State := { samplePlayer with Hand := hand }
            Player2State := samplePlayer } }
    ActivePlayer := 1 }

/-- The number of cards a player holds across the zones: deck, hand, battle
area, energy area, negative-energy area, trash and field card. -/
def cardCount (playerState : PlayerState) : Nat :=
  playerState.Deck.length + playerState.Hand.length + playerState.BattleArea.length +
  playerState.EnergyArea.length + playerState.NegativeEnergy.length +
  playerState.Trash.length + playerState.FieldCard.toList.length

/-- A player with the card F-001 in the hand, the friends F-002 and F-005 at the
positions `a` and `b` and two cards in the deck. -/
def crowdedPlayer : PlayerState :=
  { samplePlayer with
    Hand := ["F-001"]
    BattleArea :=
      [("a", { CardNo := "F-002", Power := 2000, IsRest := false, TurnPlayed := 1 }),
       ("b", { CardNo := "F-005", Power := 2000, IsRest := false, TurnPlayed := 1 })] }

/-- A match in phase Main in which player 1 is `crowdedPlayer`. -/
def crowdedGame : Game :=
  { sampleGame PhaseMain with
    GameState := some { Player1State := crowdedPlayer, Player2State := samplePlayer } }

/-- The state of `player` in a game, `none` for a game without state. -/
def playerOf (game : Game) (player : Int) : Option PlayerState :=
  game.GameState.map fun gs => statePointer gs player

/-- The state of player 1 in `festivalGame`. -/
def festivalPlayer : PlayerState :=
  { samplePlayer with
    BattleArea := [("a", { CardNo := "F-002", Power := 2000, IsRest := false, TurnPlayed := 1 })]
    FieldCard := some "F-097" }

/-- The pending choice that a choice id names, `none` when it names none. -/
def InteractionController.pending (c : InteractionController) (choiceID : String) :
    Option PendingChoice :=
  (c.pendingChoices.find? (fun entry => entry.1 = choiceID)).map Prod.snd

/-- A controller with one pending choice, named `choice_0`: a required choice
of player 1 between two options. -/
def sampleController : InteractionController :=
  (InteractionController.NewInteractionController.RequestOptionSelection 1 ["top", "bottom"]
    "where to put the card").1

/-- A composite of the effect of F-065 (power +2000 to one friend of the
player) and the effect of F-055 (rest one friend of the opponent). -/
def sampleComposite : CompositeEffect :=
  { Trigger := TriggerMain, Description := "boost, then rest",
    Effects := [NewBardonEffect.toEffect, NewKo2Effect.toEffect] }

/-- The effects registered under a trigger, with their card numbers, in the
order of the registry. -/
def registeredUnder (r : EffectRegistry) (trigger : TriggerType) : List (String × Effect) :=
  r.effects.filter fun entry => entry.2.GetTrigger = trigger

/-- The one-shot pass of an event over a list of registered effects, in the
words of the specification: for every effect of the list whose card is
relevant to the event, the active player becomes the player of the event and,
when the effect can activate, its targets are taken and it is applied; an
error of an Apply ends the pass. `none` is a panic. -/
def oneShotPass (h : EventHandler) (event : GameEvent) :
    List (String × Effect) → Option (EventHandler × Option String)
  | [] => some (h, none)
  | (cardNo, effect) :: rest =>
    if h.isCardRelevant cardNo event then
      let h1 := { h with context := { h.context with ActivePlayer := event.Player } }
      match effect.CanActivate h1.context (EventHandler.loadCard cardNo) with
      | none => none
      | some false => oneShotPass h1 event rest
      | some true =>
        match effect.GetTargets h1.context (EventHandler.loadCard cardNo) with
        | none => none
        | some targets =>
          match effect.Apply h1.context (EventHandler.loadCard cardNo) targets with
          | none => none
          | some (context, some err) =>
            some ({ h1 with context := context },
              some ("failed to apply effect for " ++ cardNo ++ ": " ++ err))
          | some (context, none) => oneShotPass { h1 with context := context } event rest
    else oneShotPass h event rest

/-- The processing of an event that is routed to a trigger: the one-shot pass
over the effects registered under the trigger and, when it ends without
error, the persistent pass. -/
def routedTo (h : EventHandler) (event : GameEvent) (trigger : TriggerType) :
    Option (EventHandler × Option String) :=
  match oneShotPass h event (registeredUnder h.effectRegistry trigger) with
  | none => none
  | some (h1, some err) => some (h1, some err)
  | some (h1, none) => (EventHandler.processPersistentEffects h1).map fun h2 => (h2, none)

/-- The trigger that an event kind is routed to, in the words of the
specification; `phase` is the current phase of the match. `none` for a kind
that is routed to no trigger. -/
def triggerClass (kind : EventType) (phase : GamePhase) : Option TriggerType :=
  if kind = "friend_played" then some "on_play"
  else if kind = "friend_attacks" then some "on_attack"
  else if kind = "friend_blocks" then some "on_block"
  else if kind = "friend_destroyed" then some "on_destroy"
  else if kind = "damage_dealt" then some "on_damage_dealt"
  else if kind = "phase_start" then some "start_phase"
  else if kind = "phase_end" then some "end_phase"
  else if kind = "support_played" then (if phase = "main" then some "main" else some "counter")
  else none

/-- An event of a phase change: it names no card and no target and carries no
data. -/
def phaseEvent (kind : EventType) (player : Int) (phase : GamePhase) : GameEvent :=
  { Kind := kind, Player := player, CardNo := "", Target := "", Phase := phase, Data := [] }

/-- The active player after the swap at the end of a turn: player 2 after
player 1 and player 1 after player 2. -/
def swappedPlayer (player : Int) : Int := if player = 1 then 2 else 1

/-- The events of one completed call of ChangePhase on the match `g`, in the
words of the specification: PhaseEnd with the old phase and the old active
player; when the old phase is End, TurnEnd and then TurnStart, both with the
swapped active player and the phase Start; PhaseStart with the new phase and
the new active player. -/
def phaseChangeEvents (g : Game) : List GameEvent :=
  [phaseEvent "phase_end" g.ActivePlayer g.CurrentPhase] ++
  (if g.CurrentPhase = PhaseEnd then
    [phaseEvent "turn_end" (swappedPlayer g.ActivePlayer) PhaseStart,
     phaseEvent "turn_start" (swappedPlayer g.ActivePlayer) PhaseStart]
   else []) ++
  [phaseEvent "phase_start"
    (if g.CurrentPhase = PhaseEnd then swappedPlayer g.ActivePlayer else g.ActivePlayer)
    (cycleNext g.CurrentPhase)]

/-- The events that have been fed to the router of a game, first to last: the
queue of the handler of the game, empty while the game has no handler. -/
def eventsFed (s : GameService) (gameID : String) : List GameEvent :=
  match s.eventHandler gameID with
  | some handler => handler.eventQueue
  | none => []

/-- The events that an Attack request feeds to the router: the event
friend_attacks of the attacker when the player ID is one of the two players of
the match and the player has a friend at the position, and no event
otherwise. -/
def attackEvents (g : Game) (playerID : Nat) (attackerPos targetPos : String) :
    List GameEvent :=
  match GameService.playerNumber g playerID with
  | none => []
  | some player =>
    match (playerOf g player).bind fun playerState => friendAt playerState.BattleArea attackerPos with
    | none => []
    | some attacker =>
      [{ Kind := "friend_attacks", Player := player, CardNo := attacker.CardNo,
         Target := targetPos, Phase := g.CurrentPhase, Data := [] }]

/-- The events that a Block request feeds to the router: the event
friend_blocks of the blocker when the player ID is one of the two players of
the match and the player has a friend at the position, and no event
otherwise. -/
def blockEvents (g : Game) (playerID : Nat) (blockerPos attackerPos : String) :
    List GameEvent :=
  match GameService.playerNumber g playerID with
  | none => []
  | some player =>
    match (playerOf g player).bind fun playerState => friendAt playerState.BattleArea blockerPos with
    | none => []
    | some blocker =>
      [{ Kind := "friend_blocks", Player := player, CardNo := blocker.CardNo,
         Target := attackerPos, Phase := g.CurrentPhase, Data := [] }]

/-- The events that a PlayCard request feeds to the router: the event of the
type of the card when the player ID is one of the two players of the match and
the card is known, and no event otherwise. -/
def playEvents (cards : CardService) (g : Game) (playerID : Nat) (cardNo : String)
    (targets : List String) : List GameEvent :=
  match GameService.playerNumber g playerID with
  | none => []
  | some player =>
    match cards.GetCardByNo cardNo with
    | .error _ => []
    | .ok card =>
      if card.Kind = CardTypeFriend then
        [{ Kind := "friend_played", Player := player, CardNo := cardNo, Target := "",
           Phase := g.CurrentPhase, Data := [] }]
      else if card.Kind = CardTypeSupport then
        [{ Kind := "support_played", Player := player, CardNo := cardNo, Target := "",
           Phase := g.CurrentPhase, Data := [("targets", targets)] }]
      else if card.Kind = CardTypeField then
        [{ Kind := "field_played", Player := player, CardNo := cardNo, Target := "",
           Phase := g.CurrentPhase, Data := [] }]
      else []

/-- The match `battleGame` in phase Draw: the active player is player 1, and
player 2 has the friend F-001 at position `a`. -/
def drawPhaseGame : Game := { battleGame with CurrentPhase := PhaseDraw }

/-- The sample service after the request Attack of player 2 with the friend at
position `a`, in phase Draw of a match whose active player is player 1. -/
def afterAttack : GameService :=
  (((sampleService drawPhaseGame).Attack "g1" 2 "a" "b").map Prod.fst).getD
    (sampleService drawPhaseGame)

/-- A player state with the power and the rest flag of every friend blanked:
what is left is which card is in which zone. -/
def blankFriends (playerState : PlayerState) : PlayerState :=
  { playerState with
    BattleArea := playerState.BattleArea.map fun entry =>
      (entry.1, { entry.2 with Power := 0, IsRest := false }) }

/-- The cards of a match: the zones of the two players, without the power and
the rest flag of the friends; `none` for a game without state. -/
def cardsOf (g : Game) : Option (PlayerState × PlayerState) :=
  g.GameState.map fun gs => (blankFriends gs.Player1State, blankFriends gs.Player2State)

/-- The test `isCardOnField`, read off the cards of a match. -/
def onTable (cards : Option (PlayerState × PlayerState)) (cardNo : String) : Bool :=
  match cards with
  | none => false
  | some (p1, p2) =>
    p1.BattleArea.any (fun entry => entry.2.CardNo = cardNo) ||
    p2.BattleArea.any (fun entry => entry.2.CardNo = cardNo) ||
    p1.FieldCard = some cardNo ||
    p2.FieldCard = some cardNo

/-- An effect that, on a game with state, does not panic and leaves every card
in its zone: its Apply changes at most the power and the rest flag of
friends. -/
def Effect.Tame (e : Effect) : Prop :=
  ∀ (game : GameContext) (source : Card), (cardsOf game.Game).isSome = true →
    (∃ b, e.CanActivate game source = some b) ∧
    (∃ targets, e.GetTargets game source = some targets) ∧
    ∀ targets, ∃ game1 err, e.Apply game source targets = some (game1, err) ∧
      cardsOf game1.Game = cardsOf game.Game

/-- Hand and deck of a player of a match. -/
def handAndDeck (g : Game) (player : Int) : Option (List String × List String) :=
  (playerOf g player).map fun playerState => (playerState.Hand, playerState.Deck)

/-- The handler that serves a request on the record `g` of a game: the handler
of the table or, when the table has none, a new handler on `g`. -/
def handlerFor (s : GameService) (gameID : String) (g : Game) : EventHandler :=
  (s.getHandler gameID g).handler

/-- The card numbers registered with the effect `on attack: draw 1`. -/
def drawOnAttack : List String := ["F-006", "F-006 (P)", "F-011", "F-011 (P)"]

/-- A match in phase Main in which player 1 holds the card F-003, has two
cards in the deck and has the friend F-006 at position `a`. -/
def drawGame : Game :=
  { sampleGame PhaseMain with
    GameState := some
      { Player1State :=
          { samplePlayer with
            Hand := ["F-003"]
            BattleArea :=
              [("a", { CardNo := "F-006", Power := 2000, IsRest := false, TurnPlayed := 1 })] }
        Player2State := samplePlayer } }

/-- The sample service with the registry of InitializeEffects. -/
def globalService (g : Game) : GameService :=
  { sampleService g with registry := GetGlobalRegistry sampleUndeclared }

/-- A request to an interaction controller: a target selection, an option
selection or the answer to a choice. -/
inductive ControllerCall where
  | requestTargets (player : Int) (validTargets : List Target) (minTargets maxTargets : Int)
      (description : String)
  | requestOption (player : Int) (options : List String) (description : String)
  | submit (choiceID : String) (selection : List Int)

/-- The controller after a call. -/
def InteractionController.after (c : InteractionController) : ControllerCall → InteractionController
  | .requestTargets player validTargets minTargets maxTargets description =>
    (c.RequestTargetSelection player validTargets minTargets maxTargets description).1
  | .requestOption player options description =>
    (c.RequestOptionSelection player options description).1
  | .submit choiceID selection => (c.SubmitChoice choiceID selection).1

/-- The controller after a run of calls on a new controller. -/
def controllerAfter (calls : List ControllerCall) : InteractionController :=
  calls.foldl InteractionController.after InteractionController.NewInteractionController

/-- The context of player 2 on a match whose active player is player 1, in
which player 2 holds two cards and player 1 holds none. -/
def offTurnContext : GameContext :=
  { Game :=
      { sampleGame PhaseMain with
        GameState := some
          { Player1State := samplePlayer
            Player2State := { samplePlayer with Hand := ["F-001", "F-002"] } } }
    ActivePlayer := 2 }

/-- A match in phase Main in which player 1 has the friend F-055 at position
`a` and player 2 has the active friends F-001 at position `a` and F-005 at
position `b`. -/
def ko2Game : Game :=
  { sampleGame PhaseMain with
    GameState := some
      { Player1State :=
          { samplePlayer with
            BattleArea :=
              [("a", { CardNo := "F-055", Power := 3000, IsRest := false, TurnPlayed := 1 })] }
        Player2State :=
          { samplePlayer with
            BattleArea :=
              [("a", { CardNo := "F-001", Power := 4000, IsRest := false, TurnPlayed := 1 }),
               ("b", { CardNo := "F-005", Power := 2000, IsRest := false, TurnPlayed := 1 })] } } }

/-- The rest flags of the friends of player 2, in the order of the battle
area. -/
def restFlags (g : Game) : Option (List Bool) :=
  g.GameState.map fun gs => gs.Player2State.BattleArea.map fun entry => entry.2.IsRest

/-- The context of player 1 on a match in which player 1 has the friend F-016
at position `a` and player 2 has the friend F-001. -/
def kurageboContext : GameContext :=
  { Game :=
      { sampleGame PhaseMain with
        GameState := some
          { Player1State :=
              { samplePlayer with
                BattleArea :=
                  [("a", { CardNo := "F-016", Power := 2000, IsRest := false, TurnPlayed := 1 })] }
            Player2State :=
              { samplePlayer with
                BattleArea :=
                  [("a", { CardNo := "F-001", Power := 4000, IsRest := false, TurnPlayed := 1 })] } } }
    ActivePlayer := 1 }

/-- The target was found in the battle area of `owner`: a friend with the card
number of the target sits at a position of that battle area, and the location
of the target is formatted from `owner` and this position. -/
def foundIn (game : Game) (owner : Int) (target : Target) : Prop :=
  ∃ (ps : PlayerState) (pos : String) (friend : Friend),
    createGameContext.GetPlayerState game owner = some ps ∧ (pos, friend) ∈ ps.BattleArea ∧
    target.ID = friend.CardNo ∧ target.Location = battleAreaLocation owner pos

/-- The sum of the quantities of the entries, as a number without bound. -/
def totalQuantity (cards : List DeckCard) : Int :=
  (cards.map fun dc => dc.Quantity).sum

/-- The sum of the quantities of the entries with the card number `cardNo`, as
a number without bound. -/
def copiesOf (cards : List DeckCard) (cardNo : String) : Int :=
  ((cards.filter fun dc => dc.CardNo = cardNo).map fun dc => dc.Quantity).sum

/-- A deck of five entries with non-negative quantities: the card numbers `A`
and `B` with the quantities 1 and 9223372036854775807 each, then `A` again with
the quantity 50. -/
def wrappedDeck : Deck :=
  { Name := "wrapped", UserID := 1, IsActive := true,
    Cards :=
      [{ DeckID := 1, CardNo := "A", Quantity := 1 },
       { DeckID := 1, CardNo := "A", Quantity := 9223372036854775807 },
       { DeckID := 1, CardNo := "B", Quantity := 1 },
       { DeckID := 1, CardNo := "B", Quantity := 9223372036854775807 },
       { DeckID := 1, CardNo := "A", Quantity := 50 }] }

/-- A deck with the entries given, in this order. -/
def deckOfList (cards : List DeckCard) : Deck :=
  { Name := "deck", UserID := 1, IsActive := true, Cards := cards }

/-- A deck with the two entries given, in this order. -/
def deckOfTwo (first second : DeckCard) : Deck := deckOfList [first, second]

/-- A deck of 50 cards: thirteen card numbers, twelve with the quantity 4 and
one with the quantity 2. -/
def fiftyDeck : Deck :=
  { Name := "fifty", UserID := 1, IsActive := true,
    Cards :=
      (["F-001", "F-002", "F-003", "F-004", "F-005", "F-006", "F-007", "F-008", "F-009",
        "F-010", "F-011", "F-012"].map fun cardNo =>
          ({ DeckID := 1, CardNo := cardNo, Quantity := 4 } : DeckCard)) ++
      [{ DeckID := 1, CardNo := "F-013", Quantity := 2 }] }

/-- The context `game` with `battleArea` as the battle area of its active
player (player 1 when the active player is 1, else player 2). -/
def contextWith (game : GameContext) (battleArea : List (String × Friend)) : GameContext :=
  match game.Game.GameState with
  | none => game
  | some gs =>
    { game with
      Game := { game.Game with
                GameState := some (withBattleArea gs game.ActivePlayer battleArea) } }

/-- The battle area in which every friend has `amount` more power. -/
def boosted (amount : Int) (battleArea : List (String × Friend)) : List (String × Friend) :=
  battleArea.map fun entry => (entry.1, { entry.2 with Power := entry.2.Power + amount })

/-- The context of player 1 on a match in which player 1 has the friend F-002
with the given power and the field card F-089, and player 2 has the field card
F-090. -/
def fieldsContext (power : Int) : GameContext :=
  { Game :=
      { sampleGame PhaseMain with
        GameState := some
          { Player1State :=
              { samplePlayer with
                BattleArea :=
                  [("a", { CardNo := "F-002", Power := power, IsRest := false, TurnPlayed := 1 })]
                FieldCard := some "F-089" }
            Player2State := { samplePlayer with FieldCard := some "F-090" } } }
    ActivePlayer := 1 }

/-- A FieldCountPowerBoostEffect with the largest `int` as power per field. -/
def brimEffect : FieldCountPowerBoostEffect :=
  { Trigger := TriggerPersistent, Description := "", PowerPerField := 9223372036854775807 }

/-- The powers of the friends of player 1, in the order of the battle area. -/
def powersOf (game : GameContext) : Option (List Int) :=
  game.Game.GameState.map fun gs => gs.Player1State.BattleArea.map fun entry => entry.2.Power

/-- A match in phase Main in which player 1 holds the card F-001 and the map of
the battle area of player 1 is nil. -/
def nilAreaGame : Game :=
  { sampleGame PhaseMain with
    GameState := some
      { Player1State := { samplePlayer with Hand := ["F-001"], BattleAreaNil := true }
        Player2State := samplePlayer } }

/-! ## Lemmas: machine integers -/

theorem wrapInt_of_fits {x : Int} (h1 : minInt ≤ x) (h2 : x ≤ maxInt) : wrapInt x = x := by
  simp only [wrapInt, minInt, maxInt] at *
  norm_num at *
  omega

theorem wrapInt_fits (x : Int) : minInt ≤ wrapInt x ∧ wrapInt x ≤ maxInt := by
  simp only [wrapInt, minInt, maxInt]
  norm_num
  omega

/-! ## Lemmas: events leave phase, turn and active player alone -/

theorem SameMatch.rfl_ (a : Game) : SameMatch a a := ⟨rfl, rfl, rfl⟩

theorem SameMatch.trans_ {a b c : Game} (h1 : SameMatch a b) (h2 : SameMatch b c) :
    SameMatch a c :=
  ⟨h1.1.trans h2.1, h1.2.1.trans h2.2.1, h1.2.2.trans h2.2.2⟩

theorem EffectRegistry.getEffect_mem {r : EffectRegistry} {cardNo : String} {e : Effect}
    (h : r.GetEffect cardNo = some e) : ∃ entry ∈ r.effects, entry.2 = e := by
  unfold EffectRegistry.GetEffect at h
  cases hf : r.effects.find? (fun entry => entry.1 = cardNo) with
  | none => simp [hf] at h
  | some entry =>
    simp [hf] at h
    exact ⟨entry, List.mem_of_find?_eq_some hf, h⟩

theorem EffectRegistry.keeps_of_getEffect {r : EffectRegistry} (hk : r.KeepsMatch)
    {cardNo : String} {e : Effect} (h : r.GetEffect cardNo = some e) : e.KeepsMatch := by
  obtain ⟨entry, hmem, rfl⟩ := EffectRegistry.getEffect_mem h
  exact hk entry hmem

theorem Effect.KeepsMatch.same {e : Effect} (hk : e.KeepsMatch) {game game1 : GameContext}
    {source : Card} {targets : List Target} {err : Option String}
    (h : e.Apply game source targets = some (game1, err)) :
    SameMatch game1.Game game.Game :=
  hk game source targets game1 err h

theorem EventHandler.persistentLoop_same (l : List String) :
    ∀ (h h1 : EventHandler), EventHandler.persistentLoop h l = some h1 →
      h.effectRegistry.KeepsMatch →
      h1.effectRegistry = h.effectRegistry ∧ SameMatch h1.context.Game h.context.Game := by
  induction l with
  | nil =>
    intro h h1 hrun _
    simp [EventHandler.persistentLoop] at hrun
    subst hrun
    exact ⟨rfl, SameMatch.rfl_ _⟩
  | cons cardNo rest ih =>
    intro h h1 hrun hk
    rw [EventHandler.persistentLoop] at hrun
    split at hrun
    · split at hrun
      · simp at hrun
      · rename_i effect hget
        have hke := EffectRegistry.keeps_of_getEffect hk hget
        simp only at hrun
        split at hrun
        · simp at hrun
        · have hh := ih _ _ hrun hk
          exact hh
        · split at hrun
          · simp at hrun
          · split at hrun
            · simp at hrun
            · rename_i context err happ
              have hs := hke.same happ
              have := ih _ _ hrun hk
              exact ⟨this.1, this.2.trans_ hs⟩
    · have hh := ih _ _ hrun hk
      exact hh

theorem EventHandler.triggerLoop_same (event : GameEvent) (l : List String) :
    ∀ (h h1 : EventHandler) (err : Option String),
      EventHandler.triggerLoop h event l = some (h1, err) →
      h.effectRegistry.KeepsMatch →
      h1.effectRegistry = h.effectRegistry ∧ SameMatch h1.context.Game h.context.Game := by
  induction l with
  | nil =>
    intro h h1 err hrun _
    simp [EventHandler.triggerLoop] at hrun
    rw [← hrun.1]
    exact ⟨rfl, SameMatch.rfl_ _⟩
  | cons cardNo rest ih =>
    intro h h1 err hrun hk
    rw [EventHandler.triggerLoop] at hrun
    split at hrun
    · split at hrun
      · simp at hrun
      · rename_i effect hget
        have hke := EffectRegistry.keeps_of_getEffect hk hget
        simp only at hrun
        split at hrun
        · simp at hrun
        · have hh := ih _ _ _ hrun hk
          exact hh
        · split at hrun
          · simp at hrun
          · split at hrun
            · simp at hrun
            · rename_i context err1 happ
              have hs := hke.same happ
              simp only [Option.some.injEq, Prod.mk.injEq] at hrun
              rw [← hrun.1]
              exact ⟨rfl, hs⟩
            · rename_i context happ
              have hs := hke.same happ
              have := ih _ _ _ hrun hk
              exact ⟨this.1, this.2.trans_ hs⟩
    · have hh := ih _ _ _ hrun hk
      exact hh

theorem EventHandler.triggerEvent_same {h h1 : EventHandler} {event : GameEvent}
    {err : Option String} (hk : h.effectRegistry.KeepsMatch)
    (hrun : h.TriggerEvent event = some (h1, err)) :
    h1.effectRegistry = h.effectRegistry ∧ SameMatch h1.context.Game h.context.Game := by
  unfold EventHandler.TriggerEvent EventHandler.processEvent at hrun
  split at hrun
  · simp only [Option.some.injEq, Prod.mk.injEq] at hrun
    rw [← hrun.1]
    exact ⟨rfl, SameMatch.rfl_ _⟩
  · split at hrun
    · simp at hrun
    · rename_i h2 err2 hloop
      simp only [Option.some.injEq, Prod.mk.injEq] at hrun
      rw [← hrun.1]
      have hh := EventHandler.triggerLoop_same _ _ _ _ _ hloop hk
      exact hh
    · rename_i h2 hloop
      have h3 := EventHandler.triggerLoop_same _ _ _ _ _ hloop hk
      cases hp : EventHandler.processPersistentEffects h2 with
      | none => simp [hp] at hrun
      | some h4 =>
        simp [hp] at hrun
        rw [← hrun.1]
        have hk2 : h2.effectRegistry.KeepsMatch := by rw [h3.1]; exact hk
        have h5 := EventHandler.persistentLoop_same _ _ _ hp hk2
        exact ⟨h5.1.trans h3.1, h5.2.trans_ h3.2⟩

/-! ## Lemmas: one call of `ChangePhase` -/

theorem Call.setGame_ok {c : Call} (hok : c.Ok) (g : Game) :
    (c.setGame g).Ok ∧ (c.setGame g).gameModel = g ∧ (c.setGame g).shared = c.shared := by
  refine ⟨?_, rfl, rfl⟩
  intro hs
  have hs1 : c.shared = true := hs
  have h1 := hok hs1
  simp only [Call.setGame, hs1, if_true]
  exact ⟨trivial, h1.2⟩

theorem Call.triggerEvent_ok {c c1 : Call} {event : GameEvent} {err : Option String}
    (hok : c.Ok) (hrun : c.TriggerEvent event = some (c1, err)) :
    c1.Ok ∧ SameMatch c1.gameModel c.gameModel ∧ c1.shared = c.shared := by
  unfold Call.TriggerEvent at hrun
  cases hte : c.handler.TriggerEvent event with
  | none => simp [hte] at hrun
  | some res =>
    obtain ⟨h1, e1⟩ := res
    simp only [hte, Option.map_some', Option.some.injEq, Prod.mk.injEq] at hrun
    obtain ⟨hc, _⟩ := hrun
    subst hc
    cases hsh : c.shared with
    | false =>
      refine ⟨?_, ?_, ?_⟩
      · intro hs
        simp [hsh] at hs
      · simp only [Bool.false_eq_true, if_false]
        exact SameMatch.rfl_ _
      · simp [hsh]
    | true =>
      have h2 := hok hsh
      have h3 := EventHandler.triggerEvent_same h2.2 hte
      refine ⟨?_, ?_, ?_⟩
      · intro _
        refine ⟨?_, ?_⟩
        · simp
        · show h1.effectRegistry.KeepsMatch
          rw [h3.1]
          exact h2.2
      · simp only [if_true]
        rw [← h2.1]
        exact h3.2
      · simp [hsh]

theorem cycleNext_start : cycleNext PhaseStart = PhaseDraw := by decide
theorem cycleNext_draw : cycleNext PhaseDraw = PhaseEnergy := by decide
theorem cycleNext_energy : cycleNext PhaseEnergy = PhaseMain := by decide
theorem cycleNext_main : cycleNext PhaseMain = PhaseEnd := by decide
theorem cycleNext_end : cycleNext PhaseEnd = PhaseStart := by decide

theorem cycleNext_other {p : GamePhase} (h1 : p ≠ PhaseStart) (h2 : p ≠ PhaseDraw)
    (h3 : p ≠ PhaseEnergy) (h4 : p ≠ PhaseMain) (h5 : p ≠ PhaseEnd) : cycleNext p = p := by
  simp [cycleNext, h1, h2, h3, h4, h5]

/-- What the `switch` of `ChangePhase` does to phase, turn and active player. -/
theorem GameService.movePhase_spec {c c1 : Call} (hok : c.Ok)
    (hrun : GameService.movePhase c = some c1) :
    c1.Ok ∧ c1.shared = c.shared ∧
    c1.gameModel.CurrentPhase = cycleNext c.gameModel.CurrentPhase ∧
    c1.gameModel.CurrentTurn =
      (if c.gameModel.CurrentPhase = PhaseEnd then wrapInt (c.gameModel.CurrentTurn + 1)
       else c.gameModel.CurrentTurn) ∧
    c1.gameModel.ActivePlayer =
      (if c.gameModel.CurrentPhase = PhaseEnd then (if c.gameModel.ActivePlayer = 1 then 2 else 1)
       else c.gameModel.ActivePlayer) := by
  unfold GameService.movePhase at hrun
  simp only at hrun
  by_cases h1 : c.gameModel.CurrentPhase = PhaseStart
  · rw [if_pos h1, Option.some.injEq] at hrun
    subst hrun
    have hne : c.gameModel.CurrentPhase ≠ PhaseEnd := by rw [h1]; decide
    refine ⟨(Call.setGame_ok hok _).1, rfl, ?_, ?_, ?_⟩
    · rw [h1, cycleNext_start]; rfl
    · rw [if_neg hne]; rfl
    · rw [if_neg hne]; rfl
  rw [if_neg h1] at hrun
  by_cases h2 : c.gameModel.CurrentPhase = PhaseDraw
  · rw [if_pos h2, Option.some.injEq] at hrun
    subst hrun
    have hne : c.gameModel.CurrentPhase ≠ PhaseEnd := by rw [h2]; decide
    refine ⟨(Call.setGame_ok hok _).1, rfl, ?_, ?_, ?_⟩
    · rw [h2, cycleNext_draw]; rfl
    · rw [if_neg hne]; rfl
    · rw [if_neg hne]; rfl
  rw [if_neg h2] at hrun
  by_cases h3 : c.gameModel.CurrentPhase = PhaseEnergy
  · rw [if_pos h3, Option.some.injEq] at hrun
    subst hrun
    have hne : c.gameModel.CurrentPhase ≠ PhaseEnd := by rw [h3]; decide
    refine ⟨(Call.setGame_ok hok _).1, rfl, ?_, ?_, ?_⟩
    · rw [h3, cycleNext_energy]; rfl
    · rw [if_neg hne]; rfl
    · rw [if_neg hne]; rfl
  rw [if_neg h3] at hrun
  by_cases h4 : c.gameModel.CurrentPhase = PhaseMain
  · rw [if_pos h4, Option.some.injEq] at hrun
    subst hrun
    have hne : c.gameModel.CurrentPhase ≠ PhaseEnd := by rw [h4]; decide
    refine ⟨(Call.setGame_ok hok _).1, rfl, ?_, ?_, ?_⟩
    · rw [h4, cycleNext_main]; rfl
    · rw [if_neg hne]; rfl
    · rw [if_neg hne]; rfl
  rw [if_neg h4] at hrun
  by_cases h5 : c.gameModel.CurrentPhase = PhaseEnd
  · rw [if_pos h5] at hrun
    have hset := Call.setGame_ok hok
      { c.gameModel with
        CurrentPhase := PhaseStart
        CurrentTurn := wrapInt (c.gameModel.CurrentTurn + 1)
        ActivePlayer := if c.gameModel.ActivePlayer = 1 then 2 else 1 }
    split at hrun
    · simp at hrun
    · rename_i c2 e2 hev1
      have hA := Call.triggerEvent_ok hset.1 hev1
      cases hev2 : c2.TriggerEvent
          { Kind := EventTurnStart, Player := c2.gameModel.ActivePlayer, CardNo := "",
            Target := "", Phase := c2.gameModel.CurrentPhase, Data := [] } with
      | none => simp [hev2] at hrun
      | some res =>
        obtain ⟨c3, e3⟩ := res
        simp only [hev2, Option.map_some', Option.some.injEq] at hrun
        subst hrun
        have hB := Call.triggerEvent_ok hA.1 hev2
        have hAB := hB.2.1.trans_ hA.2.1
        rw [hset.2.1] at hAB
        refine ⟨hB.1, ?_, ?_, ?_, ?_⟩
        · rw [hB.2.2, hA.2.2, hset.2.2]
        · rw [hAB.1, h5, cycleNext_end]
        · rw [hAB.2.1, if_pos h5]
        · rw [hAB.2.2, if_pos h5]
  · rw [if_neg h5, Option.some.injEq] at hrun
    subst hrun
    refine ⟨hok, rfl, ?_, ?_, ?_⟩
    · rw [cycleNext_other h1 h2 h3 h4 h5]
    · rw [if_neg h5]
    · rw [if_neg h5]

/-- A call of `ChangePhase` that completes stores the record of the game with
the phase moved one step along the cycle, the turn counter incremented and the
active player switched exactly when the old phase is End; the registry and the
rows of the other games stay. -/
theorem GameService.changePhase_spec {s s1 : GameService} {gameID : String} {playerID : Nat}
    {g : Game} (hreg : s.registry.KeepsMatch) (hg : s.db gameID = some g)
    (hrun : s.ChangePhase gameID playerID = some (s1, none)) :
    s1.registry = s.registry ∧
    ∃ g1, s1.db gameID = some g1 ∧
      g1.CurrentPhase = cycleNext g.CurrentPhase ∧
      g1.CurrentTurn =
        (if g.CurrentPhase = PhaseEnd then wrapInt (g.CurrentTurn + 1) else g.CurrentTurn) ∧
      g1.ActivePlayer =
        (if g.CurrentPhase = PhaseEnd then (if g.ActivePlayer = 1 then 2 else 1)
         else g.ActivePlayer) := by
  unfold GameService.ChangePhase at hrun
  simp only [hg] at hrun
  have hok0 : (s.getHandler gameID g).Ok ∧ (s.getHandler gameID g).gameModel = g := by
    unfold GameService.getHandler
    cases s.eventHandler gameID with
    | none => exact ⟨fun _ => ⟨rfl, hreg⟩, rfl⟩
    | some h => exact ⟨fun hs => by simp at hs, rfl⟩
  split at hrun
  · simp at hrun
  · simp at hrun
  · rename_i c1 hev1
    have hA := Call.triggerEvent_ok hok0.1 hev1
    split at hrun
    · simp at hrun
    · rename_i c2 hmove
      have hM := GameService.movePhase_spec hA.1 hmove
      split at hrun
      · simp at hrun
      · simp at hrun
      · rename_i c3 hev3
        have hB := Call.triggerEvent_ok hM.1 hev3
        simp only [Option.some.injEq, Prod.mk.injEq, and_true] at hrun
        subst hrun
        refine ⟨rfl, c3.gameModel, ?_, ?_, ?_, ?_⟩
        · simp [GameService.save]
        · rw [hB.2.1.1, hM.2.2.1, hA.2.1.1, hok0.2]
        · rw [hB.2.1.2.1, hM.2.2.2.1, hA.2.1.1, hA.2.1.2.1, hok0.2]
        · rw [hB.2.1.2.2, hM.2.2.2.2, hA.2.1.1, hA.2.1.2.2, hok0.2]

/-! ## Lemmas: the cycle of the phases -/

theorem cycleNext_iterate_five {p : GamePhase} (hp : p ∈ phases) : cycleNext^[5] p = p := by
  simp only [phases, List.mem_cons, List.mem_singleton, List.not_mem_nil, or_false] at hp
  rcases hp with h | h | h | h | h <;> subst h <;> decide

theorem cycleNext_iterate_mod {p : GamePhase} (hp : p ∈ phases) (k : Nat) :
    cycleNext^[k] p = cycleNext^[k % 5] p := by
  have hfix : ∀ q : Nat, cycleNext^[5 * q] p = p := by
    intro q
    rw [Function.iterate_mul]
    exact Function.iterate_fixed (cycleNext_iterate_five hp) q
  conv_lhs => rw [← Nat.mod_add_div k 5]
  rw [Function.iterate_add_apply, hfix]

theorem cycleNext_iterate_eq_iff {p : GamePhase} (hp : p ∈ phases) (k : Nat) :
    cycleNext^[k] p = p ↔ 5 ∣ k := by
  rw [cycleNext_iterate_mod hp, Nat.dvd_iff_mod_eq_zero]
  have hlt : k % 5 < 5 := Nat.mod_lt _ (by decide)
  generalize k % 5 = r at hlt
  simp only [phases, List.mem_cons, List.mem_singleton, List.not_mem_nil, or_false] at hp
  interval_cases r <;> rcases hp with h | h | h | h | h <;> subst h <;> decide

theorem cycleNext_ne {p : GamePhase} (hp : p ∈ phases) : cycleNext p ≠ p := by
  simp only [phases, List.mem_cons, List.mem_singleton, List.not_mem_nil, or_false] at hp
  rcases hp with h | h | h | h | h <;> subst h <;> decide

theorem cycleNext_mem {p : GamePhase} (hp : p ∈ phases) : cycleNext p ∈ phases := by
  simp only [phases, List.mem_cons, List.mem_singleton, List.not_mem_nil, or_false] at hp
  rcases hp with h | h | h | h | h <;> subst h <;> decide

theorem changePhaseTimes_phase (gameID : String) (playerID : Nat) (k : Nat) :
    ∀ (s sk : GameService) (g : Game), changePhaseTimes gameID playerID k s = some sk →
      s.registry.KeepsMatch → s.db gameID = some g →
      ∃ gk, sk.db gameID = some gk ∧ gk.CurrentPhase = cycleNext^[k] g.CurrentPhase := by
  induction k with
  | zero =>
    intro s sk g hrun _ hg
    simp only [changePhaseTimes, Option.some.injEq] at hrun
    subst hrun
    exact ⟨g, hg, rfl⟩
  | succ k ih =>
    intro s sk g hrun hreg hg
    rw [changePhaseTimes] at hrun
    split at hrun
    · rename_i s1 hcall
      obtain ⟨hr, g1, hg1, hp1, _, _⟩ := GameService.changePhase_spec hreg hg hcall
      obtain ⟨gk, hgk, hpk⟩ := ih s1 sk g1 hrun (by rw [hr]; exact hreg) hg1
      refine ⟨gk, hgk, ?_⟩
      rw [hpk, hp1, Function.iterate_succ_apply]
    · simp at hrun

theorem DrawCardEffect.keepsMatch (e : DrawCardEffect) : e.toEffect.KeepsMatch := by
  intro game source targets game1 err h
  simp only [DrawCardEffect.toEffect, DrawCardEffect.Apply, createGameContext.DrawCards,
    Option.some.injEq, Prod.mk.injEq] at h
  rw [← h.1]
  exact ⟨rfl, rfl, rfl⟩

theorem sampleService_keepsMatch (g : Game) : (sampleService g).registry.KeepsMatch := by
  intro entry hmem
  simp only [sampleService, List.mem_singleton] at hmem
  subst hmem
  exact DrawCardEffect.keepsMatch _

/-! ## The claims -/

/-- C1: for a match whose phase is one of Start, Draw, Energy, Main, End, a
call of ChangePhase that completes stores the next phase of the fixed cycle
Start, Draw, Energy, Main, End, Start: the new phase is the successor (no
phase is skipped), it differs from the old one (no phase maps to itself), and
after k calls in a row that complete the phase is the starting phase exactly
when 5 divides k. The registry is one whose effects write to the game through
the operations of the game context only. -/
theorem ChangePhase_follows_cycle (s s1 sk : GameService) (gameID : String) (playerID : Nat)
    (g : Game) (k : Nat)
    (hreg : s.registry.KeepsMatch) (hg : s.db gameID = some g)
    (hphase : g.CurrentPhase ∈ phases)
    (hcall : s.ChangePhase gameID playerID = some (s1, none))
    (hcalls : changePhaseTimes gameID playerID k s = some sk) :
    (∃ g1, s1.db gameID = some g1 ∧
      g1.CurrentPhase = cycleNext g.CurrentPhase ∧
      g1.CurrentPhase ≠ g.CurrentPhase ∧
      (g.CurrentPhase = PhaseStart → g1.CurrentPhase = PhaseDraw) ∧
      (g.CurrentPhase = PhaseDraw → g1.CurrentPhase = PhaseEnergy) ∧
      (g.CurrentPhase = PhaseEnergy → g1.CurrentPhase = PhaseMain) ∧
      (g.CurrentPhase = PhaseMain → g1.CurrentPhase = PhaseEnd) ∧
      (g.CurrentPhase = PhaseEnd → g1.CurrentPhase = PhaseStart)) ∧
    (∃ gk, sk.db gameID = some gk ∧ (gk.CurrentPhase = g.CurrentPhase ↔ 5 ∣ k)) := by
  constructor
  · obtain ⟨_, g1, hg1, hp1, _, _⟩ := GameService.changePhase_spec hreg hg hcall
    refine ⟨g1, hg1, hp1, ?_, ?_, ?_, ?_, ?_, ?_⟩
    · rw [hp1]; exact cycleNext_ne hphase
    · intro h; rw [hp1, h, cycleNext_start]
    · intro h; rw [hp1, h, cycleNext_draw]
    · intro h; rw [hp1, h, cycleNext_energy]
    · intro h; rw [hp1, h, cycleNext_main]
    · intro h; rw [hp1, h, cycleNext_end]
  · obtain ⟨gk, hgk, hpk⟩ := changePhaseTimes_phase gameID playerID k s sk g hcalls hreg hg
    exact ⟨gk, hgk, by rw [hpk]; exact cycleNext_iterate_eq_iff hphase k⟩

/-- Witness of C1: the sample match in phase Main, one call and five calls. -/
theorem ChangePhase_follows_cycle_witness :
    (∃ g1, (sampleAfter PhaseMain 1).db "g1" = some g1 ∧
      g1.CurrentPhase = cycleNext (sampleGame PhaseMain).CurrentPhase ∧
      g1.CurrentPhase ≠ (sampleGame PhaseMain).CurrentPhase ∧
      ((sampleGame PhaseMain).CurrentPhase = PhaseStart → g1.CurrentPhase = PhaseDraw) ∧
      ((sampleGame PhaseMain).CurrentPhase = PhaseDraw → g1.CurrentPhase = PhaseEnergy) ∧
      ((sampleGame PhaseMain).CurrentPhase = PhaseEnergy → g1.CurrentPhase = PhaseMain) ∧
      ((sampleGame PhaseMain).CurrentPhase = PhaseMain → g1.CurrentPhase = PhaseEnd) ∧
      ((sampleGame PhaseMain).CurrentPhase = PhaseEnd → g1.CurrentPhase = PhaseStart)) ∧
    (∃ gk, (sampleAfter PhaseMain 5).db "g1" = some gk ∧
      (gk.CurrentPhase = (sampleGame PhaseMain).CurrentPhase ↔ 5 ∣ 5)) :=
  ChangePhase_follows_cycle (sampleService (sampleGame PhaseMain)) (sampleAfter PhaseMain 1)
    (sampleAfter PhaseMain 5) "g1" 1 (sampleGame PhaseMain) 5
    (sampleService_keepsMatch _) rfl (by decide) rfl rfl

/-- C2, counterexample: on a match in phase End whose turn counter is the
largest 64-bit integer the call completes and the stored turn counter is the
smallest 64-bit integer, not the old counter plus one. -/
theorem ChangePhase_turn_wraps :
    ((sampleService lastTurnGame).ChangePhase "g1" 1).map
        (fun r => (r.2, (r.1.db "g1").map (fun g1 => (g1.CurrentPhase, g1.CurrentTurn)))) =
      some (none, some ("start", -9223372036854775808)) ∧
    lastTurnGame.CurrentPhase = PhaseEnd ∧
    lastTurnGame.CurrentTurn + 1 = 9223372036854775808 := by
  decide

/-- C2 as amended: a call of ChangePhase that completes replaces the turn
counter by its Go increment (the counter plus one, for every counter below the
largest 64-bit integer) and switches the active player (1 becomes 2, 2 becomes
1) when the phase before the call is End, and leaves both as they are for
every other starting phase; so the two change only when the phase is End. -/
theorem ChangePhase_turn_and_player (s s1 : GameService) (gameID : String) (playerID : Nat)
    (g : Game)
    (hreg : s.registry.KeepsMatch) (hg : s.db gameID = some g)
    (hcall : s.ChangePhase gameID playerID = some (s1, none)) :
    ∃ g1, s1.db gameID = some g1 ∧
      (g.CurrentPhase = PhaseEnd →
        g1.CurrentTurn = wrapInt (g.CurrentTurn + 1) ∧
        (minInt ≤ g.CurrentTurn → g.CurrentTurn < maxInt →
          g1.CurrentTurn = g.CurrentTurn + 1) ∧
        (g.ActivePlayer = 1 → g1.ActivePlayer = 2) ∧
        (g.ActivePlayer = 2 → g1.ActivePlayer = 1)) ∧
      (g.CurrentPhase ≠ PhaseEnd →
        g1.CurrentTurn = g.CurrentTurn ∧ g1.ActivePlayer = g.ActivePlayer) ∧
      ((g1.CurrentTurn ≠ g.CurrentTurn ∨ g1.ActivePlayer ≠ g.ActivePlayer) →
        g.CurrentPhase = PhaseEnd) := by
  obtain ⟨_, g1, hg1, _, ht, ha⟩ := GameService.changePhase_spec hreg hg hcall
  refine ⟨g1, hg1, ?_, ?_, ?_⟩
  · intro hend
    rw [if_pos hend] at ht ha
    refine ⟨ht, ?_, ?_, ?_⟩
    · intro h1 h2
      rw [ht]
      apply wrapInt_of_fits
      · have : minInt ≤ g.CurrentTurn := h1
        omega
      · omega
    · intro h; rw [ha, if_pos h]
    · intro h
      have hne : g.ActivePlayer ≠ 1 := by rw [h]; decide
      rw [ha, if_neg hne]
  · intro hne
    rw [if_neg hne] at ht ha
    exact ⟨ht, ha⟩
  · intro hch
    by_contra hne
    rw [if_neg hne] at ht ha
    rcases hch with h | h
    · exact h ht
    · exact h ha

/-- Witness of the amended C2: the sample match in phase End, turn 1, active
player 1. -/
theorem ChangePhase_turn_and_player_witness :
    ∃ g1, (sampleAfter PhaseEnd 1).db "g1" = some g1 ∧
      ((sampleGame PhaseEnd).CurrentPhase = PhaseEnd →
        g1.CurrentTurn = wrapInt ((sampleGame PhaseEnd).CurrentTurn + 1) ∧
        (minInt ≤ (sampleGame PhaseEnd).CurrentTurn → (sampleGame PhaseEnd).CurrentTurn < maxInt →
          g1.CurrentTurn = (sampleGame PhaseEnd).CurrentTurn + 1) ∧
        ((sampleGame PhaseEnd).ActivePlayer = 1 → g1.ActivePlayer = 2) ∧
        ((sampleGame PhaseEnd).ActivePlayer = 2 → g1.ActivePlayer = 1)) ∧
      ((sampleGame PhaseEnd).CurrentPhase ≠ PhaseEnd →
        g1.CurrentTurn = (sampleGame PhaseEnd).CurrentTurn ∧
        g1.ActivePlayer = (sampleGame PhaseEnd).ActivePlayer) ∧
      ((g1.CurrentTurn ≠ (sampleGame PhaseEnd).CurrentTurn ∨
          g1.ActivePlayer ≠ (sampleGame PhaseEnd).ActivePlayer) →
        (sampleGame PhaseEnd).CurrentPhase = PhaseEnd) :=
  ChangePhase_turn_and_player (sampleService (sampleGame PhaseEnd)) (sampleAfter PhaseEnd 1)
    "g1" 1 (sampleGame PhaseEnd) (sampleService_keepsMatch _) rfl rfl

/-! ## Lemmas: the effect stack -/

theorem EffectStack.foldl_push_items (l : List EffectStackItem) :
    ∀ s : EffectStack, (l.foldl EffectStack.Push s).items = s.items ++ l := by
  induction l with
  | nil => intro s; simp
  | cons item rest ih =>
    intro s
    rw [List.foldl_cons, ih]
    simp [EffectStack.Push]

theorem EffectResolver.resolveLoop_lifo (rl : List EffectStackItem) :
    ∀ (fuel : Nat) (context context1 : GameContext), rl.length ≤ fuel →
      applyInOrder context rl = some (context1, none) →
      EffectResolver.resolveLoop fuel { stack := { items := rl.reverse }, context := context } =
        some ({ stack := { items := [] }, context := context1 }, none) := by
  induction rl with
  | nil =>
    intro fuel context context1 _ hrun
    simp only [applyInOrder, Option.some.injEq, Prod.mk.injEq, and_true] at hrun
    subst hrun
    cases fuel with
    | zero => rfl
    | succ n => simp [EffectResolver.resolveLoop, EffectStack.IsEmpty]
  | cons item rest ih =>
    intro fuel context context1 hlen hrun
    cases fuel with
    | zero => simp at hlen
    | succ n =>
      have hlen1 : rest.length ≤ n := by simpa using hlen
      rw [applyInOrder] at hrun
      rw [EffectResolver.resolveLoop]
      have hne : EffectStack.IsEmpty { items := (item :: rest).reverse } = false := by
        simp [EffectStack.IsEmpty]
      have hpop : EffectStack.Pop { items := (item :: rest).reverse } =
          ({ items := rest.reverse }, some item) := by
        simp [EffectStack.Pop]
      simp only [hne, hpop, Bool.false_eq_true, if_false]
      split at hrun
      · simp at hrun
      · simp at hrun
      · rename_i c1 happ
        exact ih n c1 context1 hlen1 hrun

/-- C3: for every sequence of items pushed on the effect stack, if every
Apply succeeds when the items are applied in the reverse of the order of the
pushes, then ResolveAll returns no error, leaves the stack empty, and its
final context is the one reached by applying each item once, last pushed
first. The effects are arbitrary, so the order and the number of the
applications are those of the reversed list. -/
theorem ResolveAll_is_lifo (context context1 : GameContext) (pushed : List EffectStackItem)
    (hok : applyInOrder context pushed.reverse = some (context1, none)) :
    EffectResolver.ResolveAll
        { stack := pushed.foldl EffectStack.Push EffectStack.NewEffectStack,
          context := context } =
      some ({ stack := { items := [] }, context := context1 }, none) := by
  have hitems : pushed.foldl EffectStack.Push EffectStack.NewEffectStack = { items := pushed } := by
    have h := EffectStack.foldl_push_items pushed EffectStack.NewEffectStack
    simp only [EffectStack.NewEffectStack, List.nil_append] at h
    cases hs : pushed.foldl EffectStack.Push EffectStack.NewEffectStack with
    | mk items =>
      simp only [EffectStack.NewEffectStack] at hs
      rw [hs] at h
      simpa using h
  unfold EffectResolver.ResolveAll
  rw [hitems]
  have h := EffectResolver.resolveLoop_lifo pushed.reverse pushed.length context context1
    (by simp) hok
  simpa [EffectStack.Size] using h

/-- Witness of C3: the pushes A (power +1000), B (power -9000), C (power +500)
on a friend of power 2000. Resolution applies C, B, A: 2500, then 0, then 1000.
The order A, B, C would end at 500. -/
theorem ResolveAll_is_lifo_witness :
    (applyInOrder battleContext [powerItem 1000, powerItem (-9000), powerItem 500].reverse).map
        (fun r => (headPower r.1, r.2)) = some (some 1000, none) ∧
    (applyInOrder battleContext [powerItem 1000, powerItem (-9000), powerItem 500]).map
        (fun r => (headPower r.1, r.2)) = some (some 500, none) ∧
    EffectResolver.ResolveAll
        { stack := [powerItem 1000, powerItem (-9000), powerItem 500].foldl EffectStack.Push
            EffectStack.NewEffectStack,
          context := battleContext } =
      some ({ stack := { items := [] },
              context := ((applyInOrder battleContext
                [powerItem 1000, powerItem (-9000), powerItem 500].reverse).getD
                  (battleContext, none)).1 }, none) :=
  ⟨by decide, by decide,
    ResolveAll_is_lifo battleContext _ [powerItem 1000, powerItem (-9000), powerItem 500] rfl⟩

/-! ## Lemmas: the battle area -/

theorem rangeUpdate_split (cardNo : String) (f : Friend → Friend) (pos : String)
    (friend : Friend) (post : List (String × Friend)) (hcard : friend.CardNo = cardNo) :
    ∀ pre : List (String × Friend), (∀ entry ∈ pre, entry.2.CardNo ≠ cardNo) →
      rangeUpdate cardNo f (pre ++ (pos, friend) :: post) =
        some (pre ++ (pos, f friend) :: post) := by
  intro pre
  induction pre with
  | nil => intro _; simp [rangeUpdate, hcard]
  | cons entry rest ih =>
    intro hpre
    obtain ⟨p, fr⟩ := entry
    have h1 : fr.CardNo ≠ cardNo := hpre (p, fr) (List.mem_cons_self _ _)
    have h2 := ih (fun e he => hpre e (List.mem_cons_of_mem _ he))
    simp [rangeUpdate, h1, h2]

theorem addPower_power (amount : Int) (friend : Friend) :
    createGameContext.addPower amount friend =
      { friend with Power := max 0 (wrapInt (friend.Power + amount)) } := by
  unfold createGameContext.addPower
  by_cases h : wrapInt (friend.Power + amount) < 0
  · simp only [h, if_true]
    rw [max_eq_left (le_of_lt h)]
  · simp only [h, if_false]
    rw [max_eq_right (not_lt.mp h)]

theorem collectTargets_eq (keep : Friend → Bool) (mk : String → Friend → Target)
    (l : List (String × Friend)) :
    collectTargets keep mk l =
      (l.filter (fun entry => keep entry.2)).map (fun entry => mk entry.1 entry.2) := by
  induction l with
  | nil => rfl
  | cons entry rest ih =>
    obtain ⟨pos, friend⟩ := entry
    cases hk : keep friend <;> simp [collectTargets, hk, ih]

/-- C4, counterexample: a friend of power 9223372036854775807 and the delta 1.
The sum wraps to a negative `int`, so the power after the call is 0, whereas
max(0, p + delta) is 9223372036854775808. -/
theorem ModifyPower_overflow :
    (createGameContext.ModifyPower strongGame 1 "F-002" 1).2 = none ∧
    headPower { Game := (createGameContext.ModifyPower strongGame 1 "F-002" 1).1,
                ActivePlayer := 1 } = some 0 ∧
    headPower { Game := strongGame, ActivePlayer := 1 } = some 9223372036854775807 ∧
    max 0 ((9223372036854775807 : Int) + 1) = 9223372036854775808 := by
  decide

/-- C4 as amended: ModifyPower(player, cardNo, delta) returns no error and
rewrites the first visited friend with that card number, whose power is p, to
the power max(0, p + delta) taken in Go int arithmetic; this is max(0, p + delta)
whenever p + delta fits a 64-bit integer, and in every case the power after the
call is not negative. The rest of the battle area is as before. -/
theorem ModifyPower_floors_at_zero (game : Game) (gs : GameState) (player : Int)
    (cardNo : String) (delta : Int) (pre post : List (String × Friend)) (pos : String)
    (friend : Friend)
    (hgs : game.GameState = some gs)
    (hba : (if player = 1 then gs.Player1State else gs.Player2State).BattleArea =
      pre ++ (pos, friend) :: post)
    (hpre : ∀ entry ∈ pre, entry.2.CardNo ≠ cardNo)
    (hcard : friend.CardNo = cardNo) :
    (createGameContext.ModifyPower game player cardNo delta).2 = none ∧
    (createGameContext.GetPlayerState
        (createGameContext.ModifyPower game player cardNo delta).1 player).map
        PlayerState.BattleArea =
      some (pre ++
        (pos, { friend with Power := max 0 (wrapInt (friend.Power + delta)) }) :: post) ∧
    0 ≤ max 0 (wrapInt (friend.Power + delta)) ∧
    (minInt ≤ friend.Power + delta → friend.Power + delta ≤ maxInt →
      max 0 (wrapInt (friend.Power + delta)) = max 0 (friend.Power + delta)) := by
  have hupd := rangeUpdate_split cardNo (createGameContext.addPower delta) pos friend post
    hcard pre hpre
  rw [addPower_power] at hupd
  refine ⟨?_, ?_, le_max_left _ _, ?_⟩
  · unfold createGameContext.ModifyPower updateFriend
    simp only [hgs]
    rw [hba, hupd]
  · unfold createGameContext.ModifyPower updateFriend createGameContext.GetPlayerState
    simp only [hgs]
    rw [hba, hupd]
    by_cases hp : player = 1 <;> simp [hp]
  · intro h1 h2
    rw [wrapInt_of_fits h1 h2]

/-- Witness of the amended C4: power 2000 with delta -9000 gives power 0. -/
theorem ModifyPower_floors_at_zero_witness :
    (createGameContext.ModifyPower battleGame 1 "F-005" (-9000)).2 = none ∧
    (createGameContext.GetPlayerState
        (createGameContext.ModifyPower battleGame 1 "F-005" (-9000)).1 1).map
        PlayerState.BattleArea =
      some ([("a", { CardNo := "F-002", Power := 2000, IsRest := false, TurnPlayed := 1 })] ++
        ("b", { ({ CardNo := "F-005", Power := 2000, IsRest := false, TurnPlayed := 1 } : Friend)
                with Power := max 0 (wrapInt ((2000 : Int) + (-9000))) }) :: []) ∧
    0 ≤ max 0 (wrapInt ((2000 : Int) + (-9000))) ∧
    (minInt ≤ (2000 : Int) + (-9000) → (2000 : Int) + (-9000) ≤ maxInt →
      max 0 (wrapInt ((2000 : Int) + (-9000))) = max 0 ((2000 : Int) + (-9000))) ∧
    max 0 (wrapInt ((2000 : Int) + (-9000))) = 0 := by
  have h := ModifyPower_floors_at_zero battleGame _ 1 "F-005" (-9000)
    [("a", { CardNo := "F-002", Power := 2000, IsRest := false, TurnPlayed := 1 })] []
    "b" { CardNo := "F-005", Power := 2000, IsRest := false, TurnPlayed := 1 }
    rfl rfl (by decide) rfl
  exact ⟨h.1, h.2.1, h.2.2.1, h.2.2.2, by decide⟩

/-- C5: when the game has a state, DestroyFriendEffect.GetTargets returns, in
the order of the visit, exactly one target for each friend in the battle area
of the opponent whose power is at most MaxPower (a power equal to MaxPower is
kept), and nothing else; so the list is empty when every friend there is above
MaxPower, as for MaxPower 3000 against a single friend of power 4000. -/
theorem DestroyFriend_GetTargets_filters (e : DestroyFriendEffect) (game : GameContext)
    (source : Card) (oppState : PlayerState)
    (hstate : createGameContext.GetPlayerState game.Game
      (createGameContext.GetOpponentPlayer game.ActivePlayer) = some oppState) :
    e.GetTargets game source =
      some ((oppState.BattleArea.filter (fun entry => entry.2.Power ≤ e.MaxPower)).map
        (destroyTarget (createGameContext.GetOpponentPlayer game.ActivePlayer))) ∧
    (∀ entry ∈ oppState.BattleArea,
      (entry.2.Power ≤ e.MaxPower ↔
        ∃ targets, e.GetTargets game source = some targets ∧
          destroyTarget (createGameContext.GetOpponentPlayer game.ActivePlayer) entry ∈ targets)) ∧
    (∃ targets, e.GetTargets game source = some targets ∧
      targets.length = oppState.BattleArea.countP (fun entry => entry.2.Power ≤ e.MaxPower)) ∧
    ((∀ entry ∈ oppState.BattleArea, e.MaxPower < entry.2.Power) →
      e.GetTargets game source = some []) := by
  have hmain : e.GetTargets game source =
      some ((oppState.BattleArea.filter (fun entry => entry.2.Power ≤ e.MaxPower)).map
        (destroyTarget (createGameContext.GetOpponentPlayer game.ActivePlayer))) := by
    unfold DestroyFriendEffect.GetTargets
    simp only [hstate, Option.map_some', collectTargets_eq]
    rfl
  refine ⟨hmain, ?_, ?_, ?_⟩
  · intro entry hmem
    constructor
    · intro hle
      refine ⟨_, hmain, ?_⟩
      apply List.mem_map_of_mem
      simp [List.mem_filter, hmem, hle]
    · rintro ⟨targets, hget, hin⟩
      rw [hmain] at hget
      simp only [Option.some.injEq] at hget
      subst hget
      obtain ⟨entry1, hmem1, heq⟩ := List.mem_map.mp hin
      have hp : entry1.2 = entry.2 := by
        have := congrArg Target.Data heq
        simpa [destroyTarget] using this
      have hle := (List.mem_filter.mp hmem1).2
      simp only [decide_eq_true_eq] at hle
      rw [← hp]
      exact hle
  · refine ⟨_, hmain, ?_⟩
    rw [List.length_map, List.countP_eq_length_filter]
  · intro hall
    rw [hmain]
    have : oppState.BattleArea.filter (fun entry => entry.2.Power ≤ e.MaxPower) = [] := by
      rw [List.filter_eq_nil_iff]
      intro entry hmem
      have := hall entry hmem
      simp only [decide_eq_true_eq, not_le]
      exact this
    rw [this]
    rfl

/-- Witness of C5: MaxPower 3000 against a battle area that holds one friend
of power 4000 gives the empty list. -/
theorem DestroyFriend_GetTargets_filters_witness :
    createGameContext.GetPlayerState battleContext.Game
      (createGameContext.GetOpponentPlayer battleContext.ActivePlayer) =
      some { samplePlayer with
        BattleArea :=
          [("a", { CardNo := "F-001", Power := 4000, IsRest := false, TurnPlayed := 1 })] } ∧
    NewBoyEffect.GetTargets battleContext { CardNo := "F-008", Power := 0 } = some [] ∧
    NewBoyEffect.GetTargets weakContext { CardNo := "F-008", Power := 0 } =
      some [{ Kind := "friend", ID := "F-001", Location := "battle_area_2_a",
              Data := some { CardNo := "F-001", Power := 1000, IsRest := false,
                             TurnPlayed := 1 } }] :=
  ⟨rfl,
   (DestroyFriend_GetTargets_filters NewBoyEffect battleContext { CardNo := "F-008", Power := 0 }
      _ rfl).2.2.2 (by decide),
   by decide⟩

/-- C6: Apply of a DestroyFriendEffect or of a ReturnToHandEffect whose target
is mandatory, given the empty list of targets, returns the error
`no target selected` and the context it was given: nothing is mutated. -/
theorem Apply_without_target_fails (d : DestroyFriendEffect) (r : ReturnToHandEffect)
    (game : GameContext) (source : Card)
    (hd : d.RequireTarget = true) (hr : r.RequireTarget = true) :
    d.Apply game source [] = (game, some "no target selected") ∧
    r.Apply game source [] = (game, some "no target selected") := by
  constructor
  · simp [DestroyFriendEffect.Apply, hd]
  · simp [ReturnToHandEffect.Apply, hr]

/-- Witness of C6: the effects of F-008 and of F-023, both given the card
F-008 as source (the source plays no part in Apply). -/
theorem Apply_without_target_fails_witness :
    NewBoyEffect.Apply battleContext { CardNo := "F-008", Power := 0 } [] =
      (battleContext, some "no target selected") ∧
    NewYupiEffect.Apply battleContext { CardNo := "F-008", Power := 0 } [] =
      (battleContext, some "no target selected") :=
  Apply_without_target_fails NewBoyEffect NewYupiEffect battleContext
    { CardNo := "F-008", Power := 0 } rfl rfl

/-! ## Lemmas: the target validator -/

theorem targetKey_congr {t v : Target} (h1 : t.Kind = v.Kind) (h2 : t.ID = v.ID)
    (h3 : t.Location = v.Location) : targetKey t = targetKey v := by
  simp [targetKey, h1, h2, h3]

theorem checkSelected_none (validMap : List String) (selected : List Target)
    (h : ∀ t ∈ selected, targetKey t ∈ validMap) : checkSelected validMap selected = none := by
  induction selected with
  | nil => rfl
  | cons t rest ih =>
    have h1 : targetKey t ∈ validMap := h t (List.mem_cons_self _ _)
    simp only [checkSelected, h1, if_true]
    exact ih (fun u hu => h u (List.mem_cons_of_mem _ hu))

theorem checkSelected_data (validMap : List String) (f : Target → Option Friend)
    (selected : List Target) :
    checkSelected validMap (selected.map fun t => { t with Data := f t }) =
      checkSelected validMap selected := by
  induction selected with
  | nil => rfl
  | cons t rest ih =>
    have hk : targetKey { t with Data := f t } = targetKey t := rfl
    simp only [List.map_cons, checkSelected, hk, ih]

/-- C7: ValidateTargets returns no error whenever every selected target agrees
on Type, ID and Location with some target that GetTargets of the effect returns
in the current state. The empty selection is accepted, and replacing the Data
of the selected targets by anything does not change the result. -/
theorem ValidateTargets_accepts_candidates (context : GameContext) (effect : Effect)
    (source : Card) (valid selected : List Target)
    (hget : effect.GetTargets context source = some valid)
    (hsel : ∀ t ∈ selected, ∃ v ∈ valid,
      t.Kind = v.Kind ∧ t.ID = v.ID ∧ t.Location = v.Location) :
    ValidateTargets context effect source selected = some none ∧
    ValidateTargets context effect source [] = some none ∧
    (∀ (f : Target → Option Friend) (chosen : List Target),
      ValidateTargets context effect source (chosen.map fun t => { t with Data := f t }) =
        ValidateTargets context effect source chosen) := by
  refine ⟨?_, ?_, ?_⟩
  · unfold ValidateTargets
    simp only [hget]
    rw [checkSelected_none]
    intro t ht
    obtain ⟨v, hv, h1, h2, h3⟩ := hsel t ht
    rw [targetKey_congr h1 h2 h3]
    exact List.mem_map_of_mem _ hv
  · unfold ValidateTargets
    simp only [hget]
    rfl
  · intro f chosen
    unfold ValidateTargets
    simp only [hget, checkSelected_data]

/-- Witness of C7: the candidate of the effect of F-008 carries a snapshot of
the friend, the selection names the same friend without a snapshot. -/
theorem ValidateTargets_accepts_candidates_witness :
    ValidateTargets weakContext NewBoyEffect.toEffect { CardNo := "F-008", Power := 0 }
      [plainTarget] = some none ∧
    ValidateTargets weakContext NewBoyEffect.toEffect { CardNo := "F-008", Power := 0 }
      [] = some none ∧
    (∀ (f : Target → Option Friend) (chosen : List Target),
      ValidateTargets weakContext NewBoyEffect.toEffect { CardNo := "F-008", Power := 0 }
          (chosen.map fun t => { t with Data := f t }) =
        ValidateTargets weakContext NewBoyEffect.toEffect { CardNo := "F-008", Power := 0 }
          chosen) :=
  ValidateTargets_accepts_candidates weakContext NewBoyEffect.toEffect
    { CardNo := "F-008", Power := 0 }
    [destroyTarget 2 ("a", { CardNo := "F-001", Power := 1000, IsRest := false, TurnPlayed := 1 })]
    [plainTarget] (by decide) (by decide)

/-- C8, the code at the failing input: the only candidate is
(friend, F-001, battle_area_2_a); the selection (friend, F-001_battle, area_2_a)
differs from it in ID and in Location, yet both have the key
friend_F-001_battle_area_2_a and ValidateTargets returns no error. -/
theorem ValidateTargets_key_collision :
    NewBoyEffect.toEffect.GetTargets weakContext { CardNo := "F-008", Power := 0 } =
      some [destroyTarget 2
        ("a", { CardNo := "F-001", Power := 1000, IsRest := false, TurnPlayed := 1 })] ∧
    forgedTarget.ID ≠ "F-001" ∧ forgedTarget.Location ≠ "battle_area_2_a" ∧
    targetKey forgedTarget = "friend_F-001_battle_area_2_a" ∧
    ValidateTargets weakContext NewBoyEffect.toEffect { CardNo := "F-008", Power := 0 }
      [forgedTarget] = some none := by
  decide

/-! ## Lemmas: the errors of `Apply` -/

theorem updateFriend_errors (game : Game) (player : Int) (cardNo : String)
    (f : Friend → Friend) :
    (updateFriend game player cardNo f).2 = none ∨
    (updateFriend game player cardNo f).2 = some "no game state" ∨
    (updateFriend game player cardNo f).2 = some "friend not found" := by
  unfold updateFriend
  cases game.GameState with
  | none => simp
  | some gs =>
    simp only
    cases rangeUpdate cardNo f (if player = 1 then gs.Player1State else gs.Player2State).BattleArea
      <;> simp

theorem PowerModifierEffect.apply_errors_power (e : PowerModifierEffect) (source : Card)
    (targets : List Target) :
    ∀ game : GameContext, (e.Apply game source targets).2 ∈ applyErrors := by
  induction targets with
  | nil => intro game; simp [PowerModifierEffect.Apply, applyErrors]
  | cons target rest ih =>
    intro game
    rw [PowerModifierEffect.Apply]
    have h := updateFriend_errors game.Game (scanPlayer target.Location) target.ID
      (createGameContext.addPower e.Amount)
    unfold createGameContext.ModifyPower
    split
    · rename_i g err heq
      rw [heq] at h
      simp only [applyErrors, List.mem_cons, List.mem_singleton, List.not_mem_nil, or_false]
      rcases h with h | h | h
      · simp at h
      · right; right; left; exact h
      · right; right; right; exact h
    · exact ih _

theorem RestFriendEffect.apply_errors_rest (e : RestFriendEffect) (source : Card)
    (targets : List Target) :
    ∀ game : GameContext, (e.Apply game source targets).2 ∈ applyErrors := by
  induction targets with
  | nil => intro game; simp [RestFriendEffect.Apply, applyErrors]
  | cons target rest ih =>
    intro game
    rw [RestFriendEffect.Apply]
    split
    · have h := updateFriend_errors game.Game (scanPlayer target.Location) target.ID
        (fun friend => { friend with IsRest := true })
      unfold createGameContext.RestFriend
      split
      · rename_i g err heq
        rw [heq] at h
        simp only [applyErrors, List.mem_cons, List.mem_singleton, List.not_mem_nil, or_false]
        rcases h with h | h | h
        · simp at h
        · right; right; left; exact h
        · right; right; right; exact h
      · exact ih _
    · split
      · have h := updateFriend_errors game.Game (scanPlayer target.Location) target.ID
          (fun friend => { friend with IsRest := false })
        unfold createGameContext.ActiveFriend
        split
        · rename_i g err heq
          rw [heq] at h
          simp only [applyErrors, List.mem_cons, List.mem_singleton, List.not_mem_nil, or_false]
          rcases h with h | h | h
          · simp at h
          · right; right; left; exact h
          · right; right; right; exact h
        · exact ih _
      · exact ih _

theorem DestroyFriendEffect.applyLoop_destroy (targets : List Target) :
    ∀ game : GameContext, DestroyFriendEffect.applyLoop game targets = (game, none) := by
  induction targets with
  | nil => intro game; rfl
  | cons target rest ih =>
    intro game
    simp only [DestroyFriendEffect.applyLoop, createGameContext.DestroyFriend]
    exact ih game

theorem ReturnToHandEffect.applyLoop_return (targets : List Target) :
    ∀ game : GameContext, ReturnToHandEffect.applyLoop game targets = (game, none) := by
  induction targets with
  | nil => intro game; rfl
  | cons target rest ih =>
    intro game
    simp only [ReturnToHandEffect.applyLoop, createGameContext.ReturnToHand]
    exact ih game

/-- C9, counterexample: on `battleGame`, for player 1, the friend F-005 of
player 1 is no candidate of any of the four effects, and each Apply accepts it
as the chosen target without an error; the power modifier raises its power
from 2000 to 3000 and the rest effect rests it. -/
theorem Apply_accepts_non_candidate :
    (samplePower 1000).GetTargets battleContext { CardNo := "F-002", Power := 0 } =
      some [{ Kind := "friend", ID := "F-002", Location := "battle_area_1_a", Data := none }] ∧
    NewBoyEffect.GetTargets battleContext { CardNo := "F-002", Power := 0 } = some [] ∧
    NewYupiEffect.GetTargets battleContext { CardNo := "F-002", Power := 0 } =
      some [{ Kind := "friend", ID := "F-001", Location := "battle_area_2_a", Data := none }] ∧
    NewKo2Effect.GetTargets battleContext { CardNo := "F-002", Power := 0 } =
      some [{ Kind := "friend", ID := "F-001", Location := "battle_area_2_a", Data := none }] ∧
    ((samplePower 1000).Apply battleContext { CardNo := "F-002", Power := 0 }
      [ownFriendTarget]).2 = none ∧
    (createGameContext.GetPlayerState
      ((samplePower 1000).Apply battleContext { CardNo := "F-002", Power := 0 }
        [ownFriendTarget]).1.Game 1).map PlayerState.BattleArea =
      some [("a", { CardNo := "F-002", Power := 2000, IsRest := false, TurnPlayed := 1 }),
            ("b", { CardNo := "F-005", Power := 3000, IsRest := false, TurnPlayed := 1 })] ∧
    (NewBoyEffect.Apply battleContext { CardNo := "F-002", Power := 0 }
      [ownFriendTarget]).2 = none ∧
    (NewYupiEffect.Apply battleContext { CardNo := "F-002", Power := 0 }
      [ownFriendTarget]).2 = none ∧
    (NewKo2Effect.Apply battleContext { CardNo := "F-002", Power := 0 }
      [ownFriendTarget]).2 = none ∧
    (createGameContext.GetPlayerState
      (NewKo2Effect.Apply battleContext { CardNo := "F-002", Power := 0 }
        [ownFriendTarget]).1.Game 1).map PlayerState.BattleArea =
      some [("a", { CardNo := "F-002", Power := 2000, IsRest := false, TurnPlayed := 1 }),
            ("b", { CardNo := "F-005", Power := 2000, IsRest := true, TurnPlayed := 1 })] := by
  decide

/-- C9 as amended: Apply of DestroyFriendEffect, ReturnToHandEffect,
RestFriendEffect and PowerModifierEffect does not compare the chosen targets
with the result of GetTargets and never returns an invalid-target error. Its
only errors are `no target selected`, returned by DestroyFriendEffect and
ReturnToHandEffect exactly for the empty list when the target is mandatory,
and the errors `no game state` and `friend not found` of the operation called
for a target. -/
theorem Apply_never_reports_invalid_target (d : DestroyFriendEffect) (r : ReturnToHandEffect)
    (t : RestFriendEffect) (p : PowerModifierEffect) (game : GameContext) (source : Card)
    (targets : List Target) :
    (d.Apply game source targets).2 ∈ applyErrors ∧
    (r.Apply game source targets).2 ∈ applyErrors ∧
    (t.Apply game source targets).2 ∈ applyErrors ∧
    (p.Apply game source targets).2 ∈ applyErrors ∧
    ((d.Apply game source targets).2 = some "no target selected" ↔
      (targets = [] ∧ d.RequireTarget = true)) ∧
    ((r.Apply game source targets).2 = some "no target selected" ↔
      (targets = [] ∧ r.RequireTarget = true)) := by
  have hd : (d.Apply game source targets).2 =
      if targets = [] ∧ d.RequireTarget = true then some "no target selected" else none := by
    unfold DestroyFriendEffect.Apply
    simp only [List.length_eq_zero]
    split <;> simp [DestroyFriendEffect.applyLoop_destroy]
  have hr : (r.Apply game source targets).2 =
      if targets = [] ∧ r.RequireTarget = true then some "no target selected" else none := by
    unfold ReturnToHandEffect.Apply
    simp only [List.length_eq_zero]
    split <;> simp [ReturnToHandEffect.applyLoop_return]
  refine ⟨?_, ?_, RestFriendEffect.apply_errors_rest t source targets game,
    PowerModifierEffect.apply_errors_power p source targets game, ?_, ?_⟩
  · rw [hd]; split <;> simp [applyErrors]
  · rw [hr]; split <;> simp [applyErrors]
  · rw [hd]; split <;> simp_all
  · rw [hr]; split <;> simp_all

/-- C10, on the failing input: DrawCards of 5 cards for player 1, whose deck
holds 2 cards, returns no error where the deck-empty error is due; the game is
as before. DrawCardEffect.Apply with the count 5 on the same game returns no
error either, and so does the sample effect with the count 1. -/
theorem DrawCards_short_deck_no_error :
    (createGameContext.GetPlayerState (sampleGame PhaseDraw) 1).map
      (fun ps => ps.Deck.length) = some 2 ∧
    (createGameContext.DrawCards (sampleGame PhaseDraw) 1 5).2 = none ∧
    (createGameContext.DrawCards (sampleGame PhaseDraw) 1 5).1 = sampleGame PhaseDraw ∧
    (DrawCardEffect.Apply { Trigger := TriggerOnAttack, Description := "draw 5", Count := 5 }
      { Game := sampleGame PhaseDraw, ActivePlayer := 1 }
      { CardNo := "F-006", Power := 0 } []).2 = none ∧
    (sampleDraw.Apply { Game := sampleGame PhaseDraw, ActivePlayer := 1 }
      { CardNo := "F-006", Power := 0 } []).2 = none := by
  decide

/-- The body of DrawCards is the stub `return nil` under a `TODO` comment: for
every game, player and count it returns no error and the game as it was, so no
card is drawn on any deck. DrawCardEffect.Apply returns the result of DrawCards
for the active player. -/
theorem DrawCards_changes_nothing (game : Game) (player count : Int) (e : DrawCardEffect)
    (context : GameContext) (source : Card) (targets : List Target) :
    createGameContext.DrawCards game player count = (game, none) ∧
    createGameContext.GetPlayerState (createGameContext.DrawCards game player count).1 player =
      createGameContext.GetPlayerState game player ∧
    e.Apply context source targets = (context, none) := by
  refine ⟨rfl, rfl, ?_⟩
  simp [DrawCardEffect.Apply, createGameContext.DrawCards]

/-! ## Lemmas: operations on a friend -/

theorem rangeUpdate_none_iff (cardNo : String) (f : Friend → Friend)
    (l : List (String × Friend)) :
    rangeUpdate cardNo f l = none ↔ ∀ entry ∈ l, entry.2.CardNo ≠ cardNo := by
  induction l with
  | nil => simp [rangeUpdate]
  | cons entry rest ih =>
    obtain ⟨pos, friend⟩ := entry
    by_cases h : friend.CardNo = cardNo
    · simp [rangeUpdate, h]
    · simp [rangeUpdate, h, ih]

theorem rangeUpdate_some (cardNo : String) (f : Friend → Friend) :
    ∀ (l l1 : List (String × Friend)), rangeUpdate cardNo f l = some l1 →
      ∃ pre pos friend post, l = pre ++ (pos, friend) :: post ∧
        (∀ entry ∈ pre, entry.2.CardNo ≠ cardNo) ∧ friend.CardNo = cardNo ∧
        l1 = pre ++ (pos, f friend) :: post := by
  intro l
  induction l with
  | nil => intro l1 h; simp [rangeUpdate] at h
  | cons entry rest ih =>
    intro l1 h
    obtain ⟨pos, friend⟩ := entry
    by_cases hc : friend.CardNo = cardNo
    · simp only [rangeUpdate, hc, if_true, Option.some.injEq] at h
      exact ⟨[], pos, friend, rest, rfl, by simp, hc, by rw [← h]; rfl⟩
    · simp only [rangeUpdate, hc, if_false] at h
      cases hr : rangeUpdate cardNo f rest with
      | none => simp [hr] at h
      | some r =>
        simp only [hr, Option.map_some', Option.some.injEq] at h
        obtain ⟨pre, p, fr, post, h1, h2, h3, h4⟩ := ih r hr
        refine ⟨(pos, friend) :: pre, p, fr, post, by rw [h1]; rfl, ?_, h3, by rw [← h, h4]; rfl⟩
        intro e he
        rcases List.mem_cons.mp he with he1 | he1
        · rw [he1]; exact hc
        · exact h2 e he1

theorem updateFriend_failsClean (game : Game) (player : Int) (cardNo : String)
    (f : Friend → Friend) :
    FailsClean game player cardNo (updateFriend game player cardNo f) := by
  unfold FailsClean NoFriend updateFriend battleAreaOf
  cases hgs : game.GameState with
  | none => simp
  | some gs =>
    simp only
    cases hr : rangeUpdate cardNo f (if player = 1 then gs.Player1State else gs.Player2State).BattleArea with
    | none =>
      have hnone := (rangeUpdate_none_iff cardNo f _).mp hr
      refine ⟨⟨fun _ => ⟨gs, rfl, hnone⟩, fun _ => rfl⟩, by simp, by simp, fun _ => rfl⟩
    | some ba =>
      have hsome : ¬ ∀ entry ∈ (if player = 1 then gs.Player1State else gs.Player2State).BattleArea,
          entry.2.CardNo ≠ cardNo := by
        intro hall
        rw [(rangeUpdate_none_iff cardNo f _).mpr hall] at hr
        simp at hr
      refine ⟨⟨fun h => by simp at h, ?_⟩, by simp, by simp, fun h => by simp at h⟩
      rintro ⟨gs1, h1, h2⟩
      simp only [Option.some.injEq] at h1
      subst h1
      exact absurd h2 hsome

theorem updateFriend_success (game : Game) (player : Int) (cardNo : String)
    (f : Friend → Friend) (hok : (updateFriend game player cardNo f).2 = none) :
    ∃ gs pre pos friend post, game.GameState = some gs ∧
      battleAreaOf gs player = pre ++ (pos, friend) :: post ∧
      (∀ entry ∈ pre, entry.2.CardNo ≠ cardNo) ∧ friend.CardNo = cardNo ∧
      (updateFriend game player cardNo f).1 =
        { game with
          GameState := some (withBattleArea gs player (pre ++ (pos, f friend) :: post)) } := by
  unfold updateFriend at hok ⊢
  cases hgs : game.GameState with
  | none => simp [hgs] at hok
  | some gs =>
    simp only [hgs] at hok ⊢
    cases hr : rangeUpdate cardNo f (if player = 1 then gs.Player1State else gs.Player2State).BattleArea with
    | none => simp [hr] at hok
    | some ba =>
      obtain ⟨pre, pos, friend, post, h1, h2, h3, h4⟩ := rangeUpdate_some cardNo f _ _ hr
      refine ⟨gs, pre, pos, friend, post, rfl, h1, h2, h3, ?_⟩
      simp only [withBattleArea, h4]
      by_cases hp : player = 1 <;> simp [hp]

/-- C11: each of RestFriend, ActiveFriend and ModifyPower returns the error
`friend not found` exactly when the game has a state and the battle area of
the named player holds no friend with the given card number, returns the error
`no game state` exactly when the game has no state, returns no other error,
and in every error case leaves the game as it was. The named player is player
1 for the number 1 and player 2 for any other number. -/
theorem friend_operations_fail_clean (game : Game) (player : Int) (cardNo : String)
    (amount : Int) :
    FailsClean game player cardNo (createGameContext.RestFriend game player cardNo) ∧
    FailsClean game player cardNo (createGameContext.ActiveFriend game player cardNo) ∧
    FailsClean game player cardNo (createGameContext.ModifyPower game player cardNo amount) :=
  ⟨updateFriend_failsClean game player cardNo _, updateFriend_failsClean game player cardNo _,
    updateFriend_failsClean game player cardNo _⟩

/-- C12: when RestFriend succeeds and when ActiveFriend succeeds, the battle
area of the named player splits into the entries visited before the first
friend with the given card number, that friend, and the rest; the game after
RestFriend is the old game with the rested flag of that friend set to true, the
game after ActiveFriend the old game with that flag set to false. Card number,
power and turn played of the friend, every other entry of the battle area,
every other zone of both players and the fields of the match are as before. -/
theorem RestFriend_ActiveFriend_frame (game : Game) (player : Int) (cardNo : String)
    (hrest : (createGameContext.RestFriend game player cardNo).2 = none)
    (hactive : (createGameContext.ActiveFriend game player cardNo).2 = none) :
    ∃ gs pre pos friend post, game.GameState = some gs ∧
      battleAreaOf gs player = pre ++ (pos, friend) :: post ∧
      (∀ entry ∈ pre, entry.2.CardNo ≠ cardNo) ∧ friend.CardNo = cardNo ∧
      (createGameContext.RestFriend game player cardNo).1 =
        { game with
          GameState := some (withBattleArea gs player
            (pre ++ (pos, { CardNo := friend.CardNo, Power := friend.Power, IsRest := true,
                            TurnPlayed := friend.TurnPlayed }) :: post)) } ∧
      (createGameContext.ActiveFriend game player cardNo).1 =
        { game with
          GameState := some (withBattleArea gs player
            (pre ++ (pos, { CardNo := friend.CardNo, Power := friend.Power, IsRest := false,
                            TurnPlayed := friend.TurnPlayed }) :: post)) } := by
  obtain ⟨gs, pre, pos, friend, post, h1, h2, h3, h4, h5⟩ :=
    updateFriend_success game player cardNo (fun friend => { friend with IsRest := true }) hrest
  obtain ⟨gs1, pre1, pos1, friend1, post1, k1, k2, k3, k4, k5⟩ :=
    updateFriend_success game player cardNo (fun friend => { friend with IsRest := false })
      hactive
  refine ⟨gs, pre, pos, friend, post, h1, h2, h3, h4, h5, ?_⟩
  have hgs : gs1 = gs := by
    rw [h1] at k1
    exact (Option.some.inj k1).symm
  subst hgs
  have hsplit : pre1 = pre ∧ (pos1, friend1) = (pos, friend) ∧ post1 = post := by
    have heq : pre1 ++ (pos1, friend1) :: post1 = pre ++ (pos, friend) :: post := by
      rw [← k2, ← h2]
    clear k5 h5 k2 h2
    induction pre1 generalizing pre with
    | nil =>
      cases pre with
      | nil => simpa using heq
      | cons e rest =>
        simp only [List.nil_append, List.cons_append, List.cons.injEq] at heq
        have := h3 e (List.mem_cons_self _ _)
        rw [← heq.1] at this
        exact absurd k4 this
    | cons e1 rest1 ih =>
      cases pre with
      | nil =>
        simp only [List.nil_append, List.cons_append, List.cons.injEq] at heq
        have := k3 e1 (List.mem_cons_self _ _)
        rw [heq.1] at this
        exact absurd h4 this
      | cons e rest =>
        simp only [List.cons_append, List.cons.injEq] at heq
        have := ih rest (fun x hx => h3 x (List.mem_cons_of_mem _ hx))
          (fun x hx => k3 x (List.mem_cons_of_mem _ hx)) heq.2
        exact ⟨by rw [heq.1, this.1], this.2.1, this.2.2⟩
  obtain ⟨e1, e2, e3⟩ := hsplit
  subst e1 e3
  cases e2
  exact k5

/-- Witness of C12: the rested friend F-005 of player 2. -/
theorem RestFriend_ActiveFriend_frame_witness :
    (createGameContext.RestFriend restedGame 2 "F-005").2 = none ∧
    (createGameContext.ActiveFriend restedGame 2 "F-005").2 = none ∧
    (∃ gs pre pos friend post, restedGame.GameState = some gs ∧
      battleAreaOf gs 2 = pre ++ (pos, friend) :: post ∧
      (∀ entry ∈ pre, entry.2.CardNo ≠ "F-005") ∧ friend.CardNo = "F-005" ∧
      (createGameContext.RestFriend restedGame 2 "F-005").1 =
        { restedGame with
          GameState := some (withBattleArea gs 2
            (pre ++ (pos, { CardNo := friend.CardNo, Power := friend.Power, IsRest := true,
                            TurnPlayed := friend.TurnPlayed }) :: post)) } ∧
      (createGameContext.ActiveFriend restedGame 2 "F-005").1 =
        { restedGame with
          GameState := some (withBattleArea gs 2
            (pre ++ (pos, { CardNo := friend.CardNo, Power := friend.Power, IsRest := false,
                            TurnPlayed := friend.TurnPlayed }) :: post)) }) ∧
    (createGameContext.GetPlayerState
      (createGameContext.ActiveFriend restedGame 2 "F-005").1 2).map PlayerState.BattleArea =
      some [("a", { CardNo := "F-001", Power := 4000, IsRest := false, TurnPlayed := 1 }),
            ("b", { CardNo := "F-005", Power := 2000, IsRest := false, TurnPlayed := 1 })] :=
  ⟨by decide, by decide,
    RestFriend_ActiveFriend_frame restedGame 2 "F-005" (by decide) (by decide), by decide⟩

theorem EffectResolver.resolveLoop_failure (below : List EffectStackItem)
    (failing : EffectStackItem) (context1 context2 : GameContext) (err : String)
    (hfail : failing.Effect.Apply { context1 with ActivePlayer := failing.Player }
      failing.Source failing.Targets = some (context2, some err))
    (rl : List EffectStackItem) :
    ∀ (fuel : Nat) (context : GameContext), rl.length + 1 ≤ fuel →
      applyInOrder context rl = some (context1, none) →
      EffectResolver.resolveLoop fuel
          { stack := { items := below ++ failing :: rl.reverse }, context := context } =
        some ({ stack := { items := below }, context := context2 },
          some ("failed to apply effect " ++ failing.Effect.GetDescription ++ ": " ++ err)) := by
  induction rl with
  | nil =>
    intro fuel context hlen hrun
    simp only [applyInOrder, Option.some.injEq, Prod.mk.injEq, and_true] at hrun
    subst hrun
    cases fuel with
    | zero => simp at hlen
    | succ n =>
      rw [EffectResolver.resolveLoop]
      have hne : EffectStack.IsEmpty { items := below ++ failing :: ([] : List EffectStackItem).reverse }
          = false := by
        simp [EffectStack.IsEmpty]
      have hpop : EffectStack.Pop { items := below ++ failing :: ([] : List EffectStackItem).reverse }
          = ({ items := below }, some failing) := by
        simp [EffectStack.Pop]
      simp only [hne, hpop, Bool.false_eq_true, if_false, hfail]
  | cons item rest ih =>
    intro fuel context hlen hrun
    cases fuel with
    | zero => simp at hlen
    | succ n =>
      have hlen1 : rest.length + 1 ≤ n := by simpa using hlen
      rw [applyInOrder] at hrun
      rw [EffectResolver.resolveLoop]
      have hne : EffectStack.IsEmpty { items := below ++ failing :: (item :: rest).reverse }
          = false := by
        simp [EffectStack.IsEmpty]
      have hpop : EffectStack.Pop { items := below ++ failing :: (item :: rest).reverse }
          = ({ items := below ++ failing :: rest.reverse }, some item) := by
        have h1 : below ++ failing :: (item :: rest).reverse =
            (below ++ failing :: rest.reverse) ++ [item] := by simp
        simp only [EffectStack.Pop, h1, List.getLast?_concat, List.dropLast_concat]
      simp only [hne, hpop, Bool.false_eq_true, if_false]
      split at hrun
      · simp at hrun
      · simp at hrun
      · rename_i c1 happ
        exact ih n c1 hlen1 hrun

/-- C13: when the items above an item are applied without error and the Apply
of that item fails, ResolveAll returns an error that carries the description of
the effect and the error of Apply, the context is the one the failing Apply
left, and the stack holds exactly the items that lay beneath the failing one,
in their order: none of them is popped or applied. -/
theorem ResolveAll_stops_at_failure (context context1 context2 : GameContext)
    (below above : List EffectStackItem) (failing : EffectStackItem) (err : String)
    (habove : applyInOrder context above.reverse = some (context1, none))
    (hfail : failing.Effect.Apply { context1 with ActivePlayer := failing.Player }
      failing.Source failing.Targets = some (context2, some err)) :
    EffectResolver.ResolveAll
        { stack := { items := below ++ failing :: above }, context := context } =
      some ({ stack := { items := below }, context := context2 },
        some ("failed to apply effect " ++ failing.Effect.GetDescription ++ ": " ++ err)) := by
  unfold EffectResolver.ResolveAll
  have h := EffectResolver.resolveLoop_failure below failing context1 context2 err hfail
    above.reverse (below ++ failing :: above).length context
    (by simp) habove
  simpa [EffectStack.Size] using h

/-- Witness of C13: beneath the failing item lies a power change of +1000,
above it one of +500, on a friend of power 2000. After ResolveAll the power is
2500, the error is returned and the item of +1000 is still on the stack. -/
theorem ResolveAll_stops_at_failure_witness :
    (applyInOrder battleContext [powerItem 500].reverse).map
        (fun r => (headPower r.1, r.2)) = some (some 2500, none) ∧
    (missingItem.Effect.Apply
        { ((applyInOrder battleContext [powerItem 500].reverse).getD (battleContext, none)).1
          with ActivePlayer := missingItem.Player }
        missingItem.Source missingItem.Targets).map (fun r => (headPower r.1, r.2)) =
      some (some 2500, some "friend not found") ∧
    EffectResolver.ResolveAll
        { stack := { items := [powerItem 1000] ++ missingItem :: [powerItem 500] },
          context := battleContext } =
      some ({ stack := { items := [powerItem 1000] },
              context := ((missingItem.Effect.Apply
                { ((applyInOrder battleContext [powerItem 500].reverse).getD
                    (battleContext, none)).1 with ActivePlayer := missingItem.Player }
                missingItem.Source missingItem.Targets).getD (battleContext, none)).1 },
        some ("failed to apply effect " ++ missingItem.Effect.GetDescription ++ ": " ++
          "friend not found")) :=
  ⟨by decide, by decide,
    ResolveAll_stops_at_failure battleContext _ _ [powerItem 1000] [powerItem 500] missingItem
      "friend not found" rfl rfl⟩

/-- C14: QueueEffect with an effect whose CanActivate is false for the given
player and source returns the error `effect cannot activate` and leaves the
stack as it is. With an effect whose CanActivate is true it returns no error
and the stack is the old stack with one item on top: the effect, the source,
the targets that GetTargets returns at that moment for the given player, and
the given player; the size of the stack grows by one. -/
theorem QueueEffect_pushes_one_or_fails (r : EffectResolver) (blocked ready : Effect)
    (source : Card) (player : Int) (targets : List Target)
    (hblocked : blocked.CanActivate { r.context with ActivePlayer := player } source =
      some false)
    (hready : ready.CanActivate { r.context with ActivePlayer := player } source = some true)
    (htargets : ready.GetTargets { r.context with ActivePlayer := player } source =
      some targets) :
    (∃ r1, r.QueueEffect blocked source player = some (r1, some "effect cannot activate") ∧
      r1.stack.items = r.stack.items) ∧
    (∃ r2 item, r.QueueEffect ready source player = some (r2, none) ∧
      r2.stack.items = r.stack.items ++ [item] ∧
      item.Targets = targets ∧ item.Player = player ∧
      item.Source = source ∧ item.Effect.GetDescription = ready.GetDescription ∧
      r2.stack.Size = r.stack.Size + 1) := by
  constructor
  · refine ⟨{ r with context := { r.context with ActivePlayer := player } }, ?_, rfl⟩
    unfold EffectResolver.QueueEffect
    simp only [hblocked]
  · let item : EffectStackItem :=
      { Effect := ready, Source := source, Targets := targets, Player := player,
        Priority := 0 }
    refine ⟨{ stack := r.stack.Push item,
              context := { r.context with ActivePlayer := player } },
      item, ?_, rfl, rfl, rfl, rfl, rfl, ?_⟩
    · unfold EffectResolver.QueueEffect
      simp only [hready, htargets]
    · simp [EffectStack.Size, EffectStack.Push]

/-- Witness of C14: for player 1 on `battleGame` the effect of F-008 has no
target of power 3000 or less and cannot activate; the effect of F-055 can, its
target is the active friend F-001 of player 2. -/
theorem QueueEffect_pushes_one_or_fails_witness :
    (∃ r1, EffectResolver.QueueEffect
        { stack := EffectStack.NewEffectStack, context := battleContext }
        NewBoyEffect.toEffect { CardNo := "F-008", Power := 0 } 1 =
          some (r1, some "effect cannot activate") ∧
      r1.stack.items = EffectStack.NewEffectStack.items) ∧
    (∃ r2 item, EffectResolver.QueueEffect
        { stack := EffectStack.NewEffectStack, context := battleContext }
        NewKo2Effect.toEffect { CardNo := "F-008", Power := 0 } 1 = some (r2, none) ∧
      r2.stack.items = EffectStack.NewEffectStack.items ++ [item] ∧
      item.Targets =
        [{ Kind := "friend", ID := "F-001", Location := "battle_area_2_a", Data := none }] ∧
      item.Player = 1 ∧ item.Source = { CardNo := "F-008", Power := 0 } ∧
      item.Effect.GetDescription = NewKo2Effect.toEffect.GetDescription ∧
      EffectStack.Size r2.stack = EffectStack.Size EffectStack.NewEffectStack + 1) :=
  QueueEffect_pushes_one_or_fails
    { stack := EffectStack.NewEffectStack, context := battleContext }
    NewBoyEffect.toEffect NewKo2Effect.toEffect { CardNo := "F-008", Power := 0 } 1
    [{ Kind := "friend", ID := "F-001", Location := "battle_area_2_a", Data := none }]
    (by decide) (by decide) (by decide)

/-! ## Lemmas: the registry -/

theorem EffectRegistry.keys_register (r : EffectRegistry) (cardNo : String) (effect : Effect) :
    (r.Register cardNo effect).keys =
      if cardNo ∈ r.keys then r.keys else r.keys ++ [cardNo] := by
  unfold EffectRegistry.Register EffectRegistry.keys
  by_cases h : r.effects.any (fun entry => decide (entry.1 = cardNo)) = true
  · have hmem : cardNo ∈ r.effects.map Prod.fst := by
      obtain ⟨entry, he, hk⟩ := List.any_eq_true.mp h
      simp only [decide_eq_true_eq] at hk
      exact List.mem_map.mpr ⟨entry, he, hk⟩
    simp only [h, if_true, hmem]
    rw [List.map_map]
    apply List.map_congr_left
    intro entry _
    by_cases hk : entry.1 = cardNo <;> simp [hk]
  · have hmem : cardNo ∉ r.effects.map Prod.fst := by
      intro hin
      obtain ⟨entry, he, hk⟩ := List.mem_map.mp hin
      exact h (List.any_eq_true.mpr ⟨entry, he, by simp [hk]⟩)
    simp [h, hmem]

theorem EffectRegistry.keys_nodup_register (r : EffectRegistry) (cardNo : String)
    (effect : Effect) (h : r.keys.Nodup) : (r.Register cardNo effect).keys.Nodup := by
  rw [EffectRegistry.keys_register]
  by_cases hm : cardNo ∈ r.keys
  · simp only [hm, if_true]; exact h
  · simp only [hm, if_false]
    exact List.Nodup.append h (List.nodup_singleton _) (by simpa using hm)

theorem registryOf_keys (calls : List (String × Effect)) :
    ∀ r : EffectRegistry, r.keys.Nodup →
      (calls.foldl (fun r entry => r.Register entry.1 entry.2) r).keys.Nodup ∧
      ∀ c, c ∈ (calls.foldl (fun r entry => r.Register entry.1 entry.2) r).keys ↔
        c ∈ r.keys ∨ c ∈ calls.map Prod.fst := by
  induction calls with
  | nil => intro r h; simp [h]
  | cons call rest ih =>
    intro r h
    have h1 := EffectRegistry.keys_nodup_register r call.1 call.2 h
    obtain ⟨h2, h3⟩ := ih (r.Register call.1 call.2) h1
    refine ⟨h2, ?_⟩
    intro c
    rw [List.foldl_cons, h3 c, EffectRegistry.keys_register]
    by_cases hm : call.1 ∈ r.keys
    · simp only [hm, if_true, List.map_cons, List.mem_cons]
      constructor
      · rintro (h4 | h4)
        · exact Or.inl h4
        · exact Or.inr (Or.inr h4)
      · rintro (h4 | h4 | h4)
        · exact Or.inl h4
        · rw [h4]; exact Or.inl hm
        · exact Or.inr h4
    · simp only [hm, if_false, List.map_cons, List.mem_cons, List.mem_append,
        List.mem_singleton]
      tauto

theorem EffectRegistry.getEffect_none_iff (r : EffectRegistry) (c : String) :
    r.GetEffect c = none ↔ c ∉ r.keys := by
  unfold EffectRegistry.GetEffect EffectRegistry.keys
  rw [Option.map_eq_none', List.find?_eq_none]
  simp only [decide_eq_true_eq, List.mem_map, not_exists, not_and]

theorem EffectRegistry.getEffect_of_mem (l : List (String × Effect))
    (h : (l.map Prod.fst).Nodup) (entry : String × Effect) (he : entry ∈ l) :
    (l.find? (fun x => decide (x.1 = entry.1))).map Prod.snd = some entry.2 := by
  induction l with
  | nil => simp at he
  | cons x rest ih =>
    simp only [List.map_cons, List.nodup_cons] at h
    rcases List.mem_cons.mp he with hx | hx
    · subst hx
      simp
    · have hne : x.1 ≠ entry.1 := by
        intro heq
        exact h.1 (heq ▸ List.mem_map_of_mem Prod.fst hx)
      simp only [List.find?_cons, hne, decide_False]
      exact ih h.2 hx

theorem EffectRegistry.getEffect_entry {r : EffectRegistry} {c : String} {e : Effect}
    (h : r.GetEffect c = some e) : (c, e) ∈ r.effects := by
  unfold EffectRegistry.GetEffect at h
  cases hf : r.effects.find? (fun x => decide (x.1 = c)) with
  | none => simp [hf] at h
  | some x =>
    have hx := List.find?_some hf
    simp only [decide_eq_true_eq] at hx
    simp only [hf, Option.map_some', Option.some.injEq] at h
    have hxm := List.mem_of_find?_eq_some hf
    have : x = (c, e) := Prod.ext hx h
    rw [← this]
    exact hxm

theorem EffectRegistry.getEffect_register (r : EffectRegistry) (c : String) (e : Effect) :
    (r.Register c e).GetEffect c = some e := by
  unfold EffectRegistry.Register EffectRegistry.GetEffect
  by_cases h : r.effects.any (fun entry => decide (entry.1 = c)) = true
  · simp only [h, if_true]
    obtain ⟨entry, he, hk⟩ := List.any_eq_true.mp h
    simp only [decide_eq_true_eq] at hk
    have : ∀ l : List (String × Effect), (∃ x ∈ l, x.1 = c) →
        ((l.map fun entry => if entry.1 = c then (c, e) else entry).find?
          (fun entry => decide (entry.1 = c))).map Prod.snd = some e := by
      intro l
      induction l with
      | nil => rintro ⟨x, hx, _⟩; simp at hx
      | cons y rest ih =>
        rintro ⟨x, hx, hxc⟩
        by_cases hy : y.1 = c
        · simp [hy]
        · have hx1 : x ∈ rest := by
            rcases List.mem_cons.mp hx with h1 | h1
            · rw [h1] at hxc; exact absurd hxc hy
            · exact h1
          simp only [List.map_cons, hy, if_false, List.find?_cons, decide_False]
          exact ih ⟨x, hx1, hxc⟩
    exact this r.effects ⟨entry, he, hk⟩
  · simp only [h]
    have hnone : r.effects.find? (fun entry => decide (entry.1 = c)) = none := by
      rw [List.find?_eq_none]
      intro x hx hxc
      exact h (List.any_eq_true.mpr ⟨x, hx, hxc⟩)
    simp [List.find?_append, hnone]

/-- C19: for the registry reached by any sequence of Register calls and every
trigger t, GetEffectsForTrigger(t) has no duplicates and holds a card number
exactly when that number is registered with an effect whose trigger is t;
after Register(c, e), GetEffect(c) returns e, also when c was registered
before with another effect; GetEffect of a number that occurs in no call
reports absence, and of a number that occurs in a call it reports an effect. -/
theorem registry_lookup_is_exact (calls : List (String × Effect)) (t : TriggerType)
    (c : String) (e e1 : Effect) :
    ((registryOf calls).GetEffectsForTrigger t).Nodup ∧
    (c ∈ (registryOf calls).GetEffectsForTrigger t ↔
      ∃ effect, (registryOf calls).GetEffect c = some effect ∧ effect.GetTrigger = t) ∧
    ((registryOf calls).Register c e).GetEffect c = some e ∧
    (((registryOf calls).Register c e1).Register c e).GetEffect c = some e ∧
    (c ∉ calls.map Prod.fst → (registryOf calls).GetEffect c = none) ∧
    (c ∈ calls.map Prod.fst → ((registryOf calls).GetEffect c).isSome = true) := by
  have hk := registryOf_keys calls EffectRegistry.NewEffectRegistry
    (by simp [EffectRegistry.keys, EffectRegistry.NewEffectRegistry])
  have hnodup : (registryOf calls).keys.Nodup := hk.1
  have hkeys : ∀ c, c ∈ (registryOf calls).keys ↔ c ∈ calls.map Prod.fst := by
    intro c
    have := hk.2 c
    simpa [EffectRegistry.keys, EffectRegistry.NewEffectRegistry] using this
  refine ⟨?_, ?_, EffectRegistry.getEffect_register _ c e,
    EffectRegistry.getEffect_register _ c e, ?_, ?_⟩
  · unfold EffectRegistry.GetEffectsForTrigger
    exact List.Nodup.sublist (List.Sublist.map _ (List.filter_sublist _)) hnodup
  · unfold EffectRegistry.GetEffectsForTrigger
    constructor
    · intro hin
      obtain ⟨entry, he, hc⟩ := List.mem_map.mp hin
      obtain ⟨hmem, htrig⟩ := List.mem_filter.mp he
      simp only [decide_eq_true_eq] at htrig
      refine ⟨entry.2, ?_, htrig⟩
      rw [← hc]
      exact EffectRegistry.getEffect_of_mem _ hnodup entry hmem
    · rintro ⟨effect, hget, htrig⟩
      have hmem := EffectRegistry.getEffect_entry hget
      refine List.mem_map.mpr ⟨(c, effect), List.mem_filter.mpr ⟨hmem, ?_⟩, rfl⟩
      simp only [decide_eq_true_eq]
      exact htrig
  · intro hn
    rw [EffectRegistry.getEffect_none_iff]
    intro hin
    exact hn ((hkeys c).mp hin)
  · intro hin
    have h1 : c ∈ (registryOf calls).keys := (hkeys c).mpr hin
    cases hget : (registryOf calls).GetEffect c with
    | none => exact absurd h1 ((EffectRegistry.getEffect_none_iff _ c).mp hget)
    | some x => rfl

/-! ## Lemmas: the registry of `InitializeEffects` -/

theorem isPromo_of_form (base : String) :
    isPromo (base ++ " (P)") = true ∧ baseNumber (base ++ " (P)") = base := by
  constructor
  · show (" (P)" : String).data.isSuffixOf (base ++ " (P)").data = true
    rw [String.data_append, List.isSuffixOf_iff_suffix]
    exact List.suffix_append _ _
  · show String.mk ((base ++ " (P)").data.take ((base ++ " (P)").data.length - 4)) = base
    rw [String.data_append]
    have h4 : (" (P)" : String).data.length = 4 := by decide
    rw [List.length_append, h4, Nat.add_sub_cancel, List.take_left']
    rfl

theorem registryOf_effects (calls : List (String × Effect)) :
    ∀ r : EffectRegistry, (r.keys ++ calls.map Prod.fst).Nodup →
      (calls.foldl (fun r entry => r.Register entry.1 entry.2) r).effects =
        r.effects ++ calls := by
  induction calls with
  | nil => intro r _; simp
  | cons call rest ih =>
    intro r h
    have hnot : call.1 ∉ r.keys := by
      intro hin
      have := (List.nodup_append.mp h).2.2
      exact this hin (by simp)
    have hany : r.effects.any (fun entry => decide (entry.1 = call.1)) = false := by
      rw [Bool.eq_false_iff]
      intro h1
      obtain ⟨entry, he, hk⟩ := List.any_eq_true.mp h1
      simp only [decide_eq_true_eq] at hk
      exact hnot (List.mem_map.mpr ⟨entry, he, hk⟩)
    have hreg : r.Register call.1 call.2 = { effects := r.effects ++ [call] } := by
      unfold EffectRegistry.Register
      simp [hany]
    rw [List.foldl_cons, hreg, ih]
    · simp
    · simpa [EffectRegistry.keys, List.append_assoc] using h

theorem registration_keys (u : Undeclared) :
    (registrations u).map Prod.fst = registeredNumbers := rfl

theorem registeredNumbers_nodup : registeredNumbers.Nodup := by decide

theorem globalRegistry_effects (u : Undeclared) :
    (GetGlobalRegistry u).effects = registrations u := by
  have h := registryOf_effects (registrations u) EffectRegistry.NewEffectRegistry
    (by
      rw [registration_keys]
      simpa [EffectRegistry.keys, EffectRegistry.NewEffectRegistry] using
        registeredNumbers_nodup)
  simpa [EffectRegistry.NewEffectRegistry] using h

theorem globalRegistry_keys (u : Undeclared) :
    (GetGlobalRegistry u).keys = registeredNumbers := by
  unfold EffectRegistry.keys
  rw [globalRegistry_effects, registration_keys]

theorem globalRegistry_getEffect (u : Undeclared) (c : String) :
    (GetGlobalRegistry u).GetEffect c =
      ((registrations u).find? (fun entry => decide (entry.1 = c))).map Prod.snd := by
  unfold EffectRegistry.GetEffect
  rw [globalRegistry_effects]

set_option maxRecDepth 20000 in
theorem globalRegistry_promo (u : Undeclared) :
    ∀ cardNo ∈ (GetGlobalRegistry u).keys, isPromo cardNo = true →
      (GetGlobalRegistry u).GetEffect (baseNumber cardNo) =
        (GetGlobalRegistry u).GetEffect cardNo ∧
      ((GetGlobalRegistry u).GetEffect cardNo).isSome = true := by
  intro cardNo hmem
  rw [globalRegistry_keys] at hmem
  simp only [registeredNumbers, List.mem_cons, List.mem_singleton, List.not_mem_nil,
    or_false] at hmem
  rcases hmem with
    rfl | rfl | rfl | rfl | rfl | rfl | rfl | rfl | rfl | rfl | rfl | rfl | rfl | rfl |
    rfl | rfl | rfl | rfl | rfl | rfl | rfl | rfl | rfl | rfl | rfl | rfl | rfl | rfl |
    rfl | rfl | rfl | rfl | rfl | rfl | rfl | rfl | rfl | rfl | rfl | rfl | rfl | rfl |
    rfl | rfl | rfl | rfl | rfl | rfl | rfl | rfl | rfl | rfl | rfl | rfl | rfl | rfl |
    rfl | rfl | rfl | rfl | rfl | rfl | rfl | rfl <;>
  first
    | (intro h; exact absurd h (by decide))
    | (intro _
       rw [globalRegistry_getEffect, globalRegistry_getEffect]
       exact ⟨rfl, rfl⟩)

/-- C20: in the registry built by InitializeEffects, every registered card
number of the form `X (P)` has its base number `X` registered too, and the two
lookups return the same effect, hence the same trigger, the same description
and the same configuration. The members that GameContext does not declare are
arbitrary. -/
theorem promo_shares_effect (u : Undeclared) (base : String)
    (hreg : base ++ " (P)" ∈ (GetGlobalRegistry u).keys) :
    ∃ effect, (GetGlobalRegistry u).GetEffect base = some effect ∧
      (GetGlobalRegistry u).GetEffect (base ++ " (P)") = some effect ∧
      base ∈ (GetGlobalRegistry u).keys := by
  obtain ⟨h1, h2⟩ := isPromo_of_form base
  obtain ⟨h3, h4⟩ := globalRegistry_promo u (base ++ " (P)") hreg h1
  rw [h2] at h3
  cases hget : (GetGlobalRegistry u).GetEffect (base ++ " (P)") with
  | none => rw [hget] at h4; simp at h4
  | some effect =>
    refine ⟨effect, by rw [h3, hget], rfl, ?_⟩
    by_contra hno
    have := (EffectRegistry.getEffect_none_iff _ base).mpr hno
    rw [h3, hget] at this
    simp at this

/-- Witness of C19: the registry of the calls of `InitializeEffects`, the
trigger `on_block` and the card number F-034. -/
theorem registry_lookup_is_exact_witness :
    (registryOf (registrations sampleUndeclared)).GetEffectsForTrigger TriggerOnBlock =
      ["F-013", "F-013 (P)", "F-034", "F-034 (P)"] ∧
    ((registryOf (registrations sampleUndeclared)).GetEffectsForTrigger TriggerOnBlock).Nodup ∧
    ("F-034" ∈ (registryOf (registrations sampleUndeclared)).GetEffectsForTrigger
        TriggerOnBlock ↔
      ∃ effect, (registryOf (registrations sampleUndeclared)).GetEffect "F-034" = some effect ∧
        effect.GetTrigger = TriggerOnBlock) ∧
    ((registryOf (registrations sampleUndeclared)).Register "F-034"
      NewTiranoEffect.toEffect).GetEffect "F-034" = some NewTiranoEffect.toEffect ∧
    ("F-001" ∉ (registrations sampleUndeclared).map Prod.fst →
      (registryOf (registrations sampleUndeclared)).GetEffect "F-001" = none) := by
  have h := registry_lookup_is_exact (registrations sampleUndeclared) TriggerOnBlock "F-034"
    NewTiranoEffect.toEffect NewShiranEffect.toEffect
  have h1 := registry_lookup_is_exact (registrations sampleUndeclared) TriggerOnBlock "F-001"
    NewTiranoEffect.toEffect NewShiranEffect.toEffect
  refine ⟨?_, h.1, h.2.1, h.2.2.1, h1.2.2.2.2.1⟩
  show (GetGlobalRegistry sampleUndeclared).GetEffectsForTrigger TriggerOnBlock = _
  unfold EffectRegistry.GetEffectsForTrigger
  rw [globalRegistry_effects]
  decide

/-- Witness of C20: F-006 (P) and F-006 both carry the effect of
`NewHiyakeratopusEffect`. -/
theorem promo_shares_effect_witness :
    "F-006" ++ " (P)" ∈ (GetGlobalRegistry sampleUndeclared).keys ∧
    (∃ effect, (GetGlobalRegistry sampleUndeclared).GetEffect "F-006" = some effect ∧
      (GetGlobalRegistry sampleUndeclared).GetEffect ("F-006" ++ " (P)") = some effect ∧
      "F-006" ∈ (GetGlobalRegistry sampleUndeclared).keys) :=
  ⟨by rw [globalRegistry_keys]; decide,
    promo_shares_effect sampleUndeclared "F-006" (by rw [globalRegistry_keys]; decide)⟩

/-! ## Lemmas: the one-shot pass -/

theorem EventHandler.triggerLoop_append (event : GameEvent) (pre rest : List String) :
    ∀ (h h1 : EventHandler), EventHandler.triggerLoop h event pre = some (h1, none) →
      EventHandler.triggerLoop h event (pre ++ rest) = EventHandler.triggerLoop h1 event rest := by
  induction pre with
  | nil =>
    intro h h1 hrun
    simp only [EventHandler.triggerLoop, Option.some.injEq, Prod.mk.injEq, and_true] at hrun
    subst hrun
    rfl
  | cons cardNo more ih =>
    intro h h1 hrun
    rw [List.cons_append, EventHandler.triggerLoop]
    rw [EventHandler.triggerLoop] at hrun
    by_cases hrel : h.isCardRelevant cardNo event = true
    · rw [if_pos hrel] at hrun ⊢
      split at hrun
      · simp at hrun
      · simp only at hrun ⊢
        split at hrun
        · simp at hrun
        · exact ih _ _ hrun
        · split at hrun
          · simp at hrun
          · split at hrun
            · simp at hrun
            · simp at hrun
            · exact ih _ _ hrun
    · rw [if_neg hrel] at hrun ⊢
      exact ih _ _ hrun

/-- C15: let the candidates of the event be the card numbers `pre`, then
`cardNo`, then `post`. When the one-shot pass gets through `pre` without error
and the effect of `cardNo` is relevant, can activate and its Apply returns an
error, processEvent returns this error, wrapped with the card number, at once:
the handler is the one the failing Apply left, so no effect of `post` and no
persistent effect has been applied. -/
theorem processEvent_surfaces_apply_error (h h1 : EventHandler) (event : GameEvent)
    (trigger : TriggerType) (pre post : List String) (cardNo : String) (effect : Effect)
    (targets : List Target) (context2 : GameContext) (err : String)
    (htrig : h.triggerFor event = some trigger)
    (hcards : h.effectRegistry.GetEffectsForTrigger trigger = pre ++ cardNo :: post)
    (hpre : EventHandler.triggerLoop h event pre = some (h1, none))
    (hrel : h1.isCardRelevant cardNo event = true)
    (hget : h1.effectRegistry.GetEffect cardNo = some effect)
    (hcan : effect.CanActivate { h1.context with ActivePlayer := event.Player }
      (EventHandler.loadCard cardNo) = some true)
    (htargets : effect.GetTargets { h1.context with ActivePlayer := event.Player }
      (EventHandler.loadCard cardNo) = some targets)
    (happly : effect.Apply { h1.context with ActivePlayer := event.Player }
      (EventHandler.loadCard cardNo) targets = some (context2, some err)) :
    h.processEvent event =
      some ({ h1 with context := context2 },
        some ("failed to apply effect for " ++ cardNo ++ ": " ++ err)) := by
  unfold EventHandler.processEvent
  simp only [htrig, hcards]
  rw [EventHandler.triggerLoop_append event pre (cardNo :: post) h h1 hpre]
  rw [EventHandler.triggerLoop]
  simp only [hrel, if_true, hget, hcan, htargets, happly]

set_option maxRecDepth 100000 in
/-- Witness of C15: the block of F-034 by player 1 on a handler whose game has
no friend F-034. The candidates are F-013, F-013 (P), F-034, F-034 (P); the
first two are not in play, the Apply of F-034 fails with `friend not found`. -/
theorem processEvent_surfaces_apply_error_witness :
    (sampleHandler (sampleGame PhaseMain)).processEvent
        (sampleEvent EventFriendBlocks "F-034") =
      some ({ sampleHandler (sampleGame PhaseMain) with
              context := { Game := sampleGame PhaseMain, ActivePlayer := 1 } },
        some ("failed to apply effect for " ++ "F-034" ++ ": " ++ "friend not found")) :=
  processEvent_surfaces_apply_error (sampleHandler (sampleGame PhaseMain))
    (sampleHandler (sampleGame PhaseMain)) (sampleEvent EventFriendBlocks "F-034")
    TriggerOnBlock ["F-013", "F-013 (P)"] ["F-034 (P)"] "F-034" NewMegarokkoEffect.toEffect
    [{ Kind := "friend", ID := "F-034", Location := "self", Data := none }]
    { Game := sampleGame PhaseMain, ActivePlayer := 1 } "friend not found"
    (by decide) (by decide) rfl (by decide) rfl (by decide) (by decide) (by decide)
set_option maxRecDepth 100000 in
/-- C16, the code at the failing input: player 1 has the field card F-097,
whose persistent effect gives the friends of player 1 +1000 for the field card
of player 2, and a friend of power 2000. F-097 is registered as persistent and
is on the field. TriggerEvent returns no error for the kinds field_played,
turn_start and turn_end and leaves the power at 2000: the persistent pass has
not run. For the kind phase_start the same call raises the power to 3000. -/
theorem TriggerEvent_skips_persistent_pass :
    "F-097" ∈ (sampleHandler festivalGame).effectRegistry.GetEffectsForTrigger
      TriggerPersistent ∧
    (sampleHandler festivalGame).isCardOnField "F-097" = true ∧
    ((sampleHandler festivalGame).TriggerEvent (sampleEvent EventFieldPlayed "F-097")).map
      (fun r => (headPower r.1.context, r.2)) = some (some 2000, none) ∧
    ((sampleHandler festivalGame).TriggerEvent (sampleEvent EventTurnStart "")).map
      (fun r => (headPower r.1.context, r.2)) = some (some 2000, none) ∧
    ((sampleHandler festivalGame).TriggerEvent (sampleEvent EventTurnEnd "")).map
      (fun r => (headPower r.1.context, r.2)) = some (some 2000, none) ∧
    ((sampleHandler festivalGame).TriggerEvent (sampleEvent EventPhaseStart "")).map
      (fun r => (headPower r.1.context, r.2)) = some (some 3000, none) := by
  decide

set_option maxRecDepth 100000 in
/-- C17, the code at the failing input: on the same match the persistent pass
raises the power of the friend of player 1 from 2000 to 3000, a second pass on
the unchanged state raises it to 4000 and a third to 5000; the Apply of the
effect of F-097 alone does the same. -/
theorem persistent_pass_accumulates :
    powerAfterPasses festivalGame 0 = some (some 2000) ∧
    powerAfterPasses festivalGame 1 = some (some 3000) ∧
    powerAfterPasses festivalGame 2 = some (some 4000) ∧
    powerAfterPasses festivalGame 3 = some (some 5000) ∧
    (NewTokumoFestivalEffect.Apply { Game := festivalGame, ActivePlayer := 1 }
      { CardNo := "F-097", Power := 0 } []).map (fun r => (headPower r.1, r.2)) =
      some (some 3000, none) ∧
    ((NewTokumoFestivalEffect.Apply { Game := festivalGame, ActivePlayer := 1 }
      { CardNo := "F-097", Power := 0 } []).bind fun r =>
        NewTokumoFestivalEffect.Apply r.1 { CardNo := "F-097", Power := 0 } []).map
      (fun r => (headPower r.1, r.2)) = some (some 4000, none) := by
  decide

/-- C18, counterexample: with one card per boost, the largest 64-bit integer
as boost and a hand of two cards the product wraps and GetPowerBoost returns
-2, whereas floor(2 / 1) times the boost is 18446744073709551614. -/
theorem GetPowerBoost_overflow :
    hugeBoost.GetPowerBoost (handContext ["F-001", "F-002"]) = some (-2) ∧
    0 < hugeBoost.CardsPerBoost ∧
    Int.fdiv 2 hugeBoost.CardsPerBoost * hugeBoost.PowerBoost = 18446744073709551614 := by
  decide

/-- C18 as amended: for a context whose active player has a hand of h cards
and a configuration with CardsPerBoost > 0, GetPowerBoost returns
floor(h / CardsPerBoost) times PowerBoost in Go int arithmetic, which is the
product itself whenever it fits a 64-bit integer (for the effect of F-003: 4
cards give 2000, 6 cards give 3000). The result is the same for every context
with a hand of the same size, and Apply returns no error and the context it
was given, so no power changes. -/
theorem GetPowerBoost_is_floor_times_boost (e : HandSizePowerBoostEffect) (game : GameContext)
    (playerState : PlayerState)
    (hstate : activeState game = some playerState) (hpos : 0 < e.CardsPerBoost) :
    e.GetPowerBoost game =
      some (wrapInt (Int.fdiv playerState.Hand.length e.CardsPerBoost * e.PowerBoost)) ∧
    (minInt ≤ Int.fdiv playerState.Hand.length e.CardsPerBoost * e.PowerBoost →
      Int.fdiv playerState.Hand.length e.CardsPerBoost * e.PowerBoost ≤ maxInt →
      e.GetPowerBoost game =
        some (Int.fdiv playerState.Hand.length e.CardsPerBoost * e.PowerBoost)) ∧
    (∀ (game1 : GameContext) (playerState1 : PlayerState),
      activeState game1 = some playerState1 →
      playerState1.Hand.length = playerState.Hand.length →
      e.GetPowerBoost game1 = e.GetPowerBoost game) ∧
    (∀ (source : Card) (targets : List Target), e.Apply game source targets = some (game, none)) ∧
    (playerState.Hand.length = 4 → NewFurafuraEffect.GetPowerBoost game = some 2000) ∧
    (playerState.Hand.length = 6 → NewFurafuraEffect.GetPowerBoost game = some 3000) := by
  have hne : e.CardsPerBoost ≠ 0 := by omega
  have hdiv : ∀ n : Nat, Int.tdiv (n : Int) e.CardsPerBoost = Int.fdiv (n : Int) e.CardsPerBoost :=
    fun n => (Int.fdiv_eq_tdiv (Int.ofNat_nonneg n) (le_of_lt hpos)).symm
  have hmain : ∀ (g : GameContext) (ps : PlayerState), activeState g = some ps →
      e.GetPowerBoost g =
        some (wrapInt (Int.fdiv ps.Hand.length e.CardsPerBoost * e.PowerBoost)) := by
    intro g ps hs
    unfold HandSizePowerBoostEffect.GetPowerBoost
    simp only [hs, hne, if_false, hdiv]
  refine ⟨hmain game playerState hstate, ?_, ?_, ?_, ?_, ?_⟩
  · intro h1 h2
    rw [hmain game playerState hstate, wrapInt_of_fits h1 h2]
  · intro game1 ps1 hs1 hlen
    rw [hmain game1 ps1 hs1, hmain game playerState hstate, hlen]
  · intro source targets
    rfl
  · intro h4
    unfold HandSizePowerBoostEffect.GetPowerBoost
    simp only [hstate, h4]
    decide
  · intro h6
    unfold HandSizePowerBoostEffect.GetPowerBoost
    simp only [hstate, h6]
    decide

/-- Witness of the amended C18: the effect of F-003 on a hand of four cards. -/
theorem GetPowerBoost_is_floor_times_boost_witness :
    NewFurafuraEffect.GetPowerBoost (handContext ["F-001", "F-002", "F-003", "F-004"]) =
      some (wrapInt (Int.fdiv (["F-001", "F-002", "F-003", "F-004"].length : Nat)
        NewFurafuraEffect.CardsPerBoost * NewFurafuraEffect.PowerBoost)) ∧
    NewFurafuraEffect.GetPowerBoost (handContext ["F-001", "F-002", "F-003", "F-004"]) =
      some 2000 ∧
    NewFurafuraEffect.GetPowerBoost
      (handContext ["F-001", "F-002", "F-003", "F-004", "F-005", "F-006"]) = some 3000 :=
  ⟨(GetPowerBoost_is_floor_times_boost NewFurafuraEffect
      (handContext ["F-001", "F-002", "F-003", "F-004"])
      { samplePlayer with Hand := ["F-001", "F-002", "F-003", "F-004"] } rfl (by decide)).1,
   (GetPowerBoost_is_floor_times_boost NewFurafuraEffect
      (handContext ["F-001", "F-002", "F-003", "F-004"])
      { samplePlayer with Hand := ["F-001", "F-002", "F-003", "F-004"] } rfl
      (by decide)).2.2.2.2.1 rfl,
   (GetPowerBoost_is_floor_times_boost NewFurafuraEffect
      (handContext ["F-001", "F-002", "F-003", "F-004", "F-005", "F-006"])
      { samplePlayer with Hand := ["F-001", "F-002", "F-003", "F-004", "F-005", "F-006"] } rfl
      (by decide)).2.2.2.2.2 rfl⟩

/-! ## Lemmas: playing a card -/

theorem statePointer_storeState (gs : GameState) (player : Int) (playerState : PlayerState) :
    statePointer (storeState gs player playerState) player = playerState := by
  unfold statePointer storeState
  by_cases h : player = 1
  · simp [h]
  · simp [h]

theorem removeFromHand_of_mem {cardNo : String} :
    ∀ {hand : List String}, cardNo ∈ hand →
      (removeFromHand cardNo hand).length + 1 = hand.length := by
  intro hand
  induction hand with
  | nil => intro h; simp at h
  | cons card rest ih =>
    intro h
    unfold removeFromHand
    by_cases hc : card = cardNo
    · simp [hc]
    · rw [if_neg hc]
      have hmem : cardNo ∈ rest := by
        rcases List.mem_cons.mp h with h1 | h1
        · exact absurd h1.symm hc
        · exact h1
      simp [ih hmem]

theorem removeFromHand_of_not_mem {cardNo : String} :
    ∀ {hand : List String}, cardNo ∉ hand → removeFromHand cardNo hand = hand := by
  intro hand
  induction hand with
  | nil => intro _; rfl
  | cons card rest ih =>
    intro h
    unfold removeFromHand
    have hc : card ≠ cardNo := fun hc => h (by simp [hc])
    rw [if_neg hc, ih (fun hm => h (List.mem_cons_of_mem _ hm))]

theorem setFriend_length_free {battleArea : List (String × Friend)} {position : String}
    (friend : Friend) (h : friendAt battleArea position = none) :
    (setFriend battleArea position friend).length = battleArea.length + 1 := by
  unfold friendAt at h
  have hany : battleArea.any (fun entry => decide (entry.1 = position)) = false := by
    cases hf : battleArea.find? (fun entry => decide (entry.1 = position)) with
    | some entry => simp [hf] at h
    | none =>
      rw [List.find?_eq_none] at hf
      simpa using hf
  unfold setFriend
  simp [hany]

theorem playerOf_some {game : Game} {player : Int} {playerState : PlayerState}
    (h : playerOf game player = some playerState) :
    ∃ gs, game.GameState = some gs ∧ statePointer gs player = playerState := by
  unfold playerOf at h
  cases hgs : game.GameState with
  | none => simp [hgs] at h
  | some gs =>
    simp only [hgs, Option.map_some', Option.some.injEq] at h
    exact ⟨gs, rfl, h⟩

/-- C23: on a game with state, playField(player, cardNo) returns without error
and afterwards the field card of the player is cardNo, the player has exactly
one field card, a field card that was in place before the call has been
appended to the end of the trash of the player, and the trash is unchanged when
no field card was in place. -/
theorem playField_sets_field_card (s : GameService) (game : Game) (player : Int)
    (cardNo : String) (before : PlayerState) (hbefore : playerOf game player = some before) :
    ∃ game1 after, s.playField game player cardNo = some (game1, none) ∧
      playerOf game1 player = some after ∧
      after.FieldCard = some cardNo ∧
      after.FieldCard.toList.length = 1 ∧
      (∀ old, before.FieldCard = some old → after.Trash = before.Trash ++ [old]) ∧
      (before.FieldCard = none → after.Trash = before.Trash) := by
  obtain ⟨gs, hgs, hps⟩ := playerOf_some hbefore
  subst hps
  unfold GameService.playField
  simp only [hgs]
  refine ⟨_, _, rfl, rfl, ?_, ?_, ?_, ?_⟩
  · simp only [statePointer_storeState]
  · simp only [statePointer_storeState]
    rfl
  · intro old hold
    simp only [statePointer_storeState, hold]
  · intro hnone
    simp only [statePointer_storeState, hnone]

/-- Witness of C23: player 1 of the festival match, whose field card is F-097,
plays the field card F-089. -/
theorem playField_sets_field_card_witness :
    ∃ game1 after, (sampleService festivalGame).playField festivalGame 1 "F-089" =
        some (game1, none) ∧
      playerOf game1 1 = some after ∧
      after.FieldCard = some "F-089" ∧
      after.FieldCard.toList.length = 1 ∧
      (∀ old, festivalPlayer.FieldCard = some old →
        after.Trash = festivalPlayer.Trash ++ [old]) ∧
      (festivalPlayer.FieldCard = none → after.Trash = festivalPlayer.Trash) :=
  playField_sets_field_card (sampleService festivalGame) festivalGame 1 "F-089" festivalPlayer
    rfl

/-! ## Lemmas: the helper playFriend -/

/-- The helper playFriend after a lookup of the card that succeeds: it returns
no error, and a call that returns leaves the phase of the match as it was. -/
theorem GameService.playFriend_of_known {s : GameService} {game g1 : Game} {player : Int}
    {cardNo position : String} {card : Card} {e1 : Option String}
    (hcard : s.cardService.GetCardByNo cardNo = .ok card)
    (hplay : s.playFriend game player cardNo position = some (g1, e1)) :
    e1 = none ∧ g1.CurrentPhase = game.CurrentPhase := by
  unfold GameService.playFriend at hplay
  cases hgs : game.GameState with
  | none => simp [hgs] at hplay
  | some gs =>
    simp only [hgs, hcard] at hplay
    by_cases hnil : (statePointer gs player).BattleAreaNil = true
    · simp [hnil] at hplay
    · simp only [hnil, Bool.false_eq_true, if_false, Option.some.injEq, Prod.mk.injEq] at hplay
      exact ⟨hplay.2.symm, by rw [← hplay.1]⟩

/-- C24, counterexample: playSupport of a card that is not in the hand of
player 1 raises the number of cards of player 1 from 2 to 3, and playFriend of
a card of the hand onto the occupied position `a` lowers it from 5 to 4. On a
player whose battle-area map is nil, playFriend of a known card of the hand
panics at the assignment to the map, and so does the request PlayCard. -/
theorem play_changes_card_count :
    ((sampleService (handContext []).Game).playSupport (handContext []).Game 1 "F-065" []).map
        (fun r => (r.2, (playerOf r.1 1).map cardCount)) = some (none, some 3) ∧
    (playerOf (handContext []).Game 1).map cardCount = some 2 ∧
    ((sampleService crowdedGame).playFriend crowdedGame 1 "F-001" "a").map
        (fun r => (r.2, (playerOf r.1 1).map cardCount)) = some (none, some 4) ∧
    (playerOf crowdedGame 1).map cardCount = some 5 ∧
    ((sampleService nilAreaGame).playFriend nilAreaGame 1 "F-001" "a").isNone = true ∧
    ((sampleService nilAreaGame).PlayCard "g1" 1 "F-001" "a" []).isNone = true := by
  decide

/-- C24 as amended: when the card played is in the hand of the acting player,
playSupport and playField return without error and leave the number of cards
the player holds across deck, hand, battle area, energy area, negative-energy
area, trash and field card as it was; so does playFriend when, in addition,
the lookup of the card succeeds, the map of the battle area is not nil and the
position is free. -/
theorem play_keeps_card_count (s : GameService) (game : Game) (player : Int) (cardNo : String)
    (position : String) (targets : List String) (before : PlayerState)
    (hbefore : playerOf game player = some before) (hhand : cardNo ∈ before.Hand) :
    (∀ card, s.cardService.GetCardByNo cardNo = .ok card →
      before.BattleAreaNil = false →
      friendAt before.BattleArea position = none →
      ∃ game1 after, s.playFriend game player cardNo position = some (game1, none) ∧
        playerOf game1 player = some after ∧ cardCount after = cardCount before) ∧
    (∃ game1 after, s.playSupport game player cardNo targets = some (game1, none) ∧
      playerOf game1 player = some after ∧ cardCount after = cardCount before) ∧
    (∃ game1 after, s.playField game player cardNo = some (game1, none) ∧
      playerOf game1 player = some after ∧ cardCount after = cardCount before) := by
  obtain ⟨gs, hgs, hps⟩ := playerOf_some hbefore
  subst hps
  have hlen := removeFromHand_of_mem hhand
  refine ⟨?_, ?_, ?_⟩
  · intro card hcard hnil hfree
    unfold GameService.playFriend
    simp only [hgs, hcard, hnil]
    refine ⟨_, _, rfl, rfl, ?_⟩
    simp only [statePointer_storeState, cardCount, setFriend_length_free _ hfree]
    omega
  · unfold GameService.playSupport
    simp only [hgs]
    refine ⟨_, _, rfl, rfl, ?_⟩
    simp only [statePointer_storeState, cardCount, List.length_append, List.length_singleton]
    omega
  · unfold GameService.playField
    simp only [hgs]
    refine ⟨_, _, rfl, rfl, ?_⟩
    simp only [statePointer_storeState, cardCount]
    cases hf : (statePointer gs player).FieldCard with
    | none =>
      simp only [Option.toList, List.length_nil, List.length_singleton]
      omega
    | some old =>
      simp only [Option.toList, List.length_append, List.length_singleton]
      omega

/-- Witness of the amended C24: player 1 of `crowdedGame` plays the card F-001
of the hand, as a friend onto the free position `c`; the card is known to the
card table, the map of the battle area is not nil and the count stays 5. -/
theorem play_keeps_card_count_witness :
    (sampleService crowdedGame).cardService.GetCardByNo "F-001" =
      .ok { CardNo := "F-001", Power := 3000, Kind := CardTypeFriend } ∧
    crowdedPlayer.BattleAreaNil = false ∧ friendAt crowdedPlayer.BattleArea "c" = none ∧
    (∃ game1 after, (sampleService crowdedGame).playFriend crowdedGame 1 "F-001" "c" =
        some (game1, none) ∧
      playerOf game1 1 = some after ∧ cardCount after = cardCount crowdedPlayer) ∧
    (∃ game1 after, (sampleService crowdedGame).playSupport crowdedGame 1 "F-001" [] =
        some (game1, none) ∧
      playerOf game1 1 = some after ∧ cardCount after = cardCount crowdedPlayer) ∧
    (∃ game1 after, (sampleService crowdedGame).playField crowdedGame 1 "F-001" =
        some (game1, none) ∧
      playerOf game1 1 = some after ∧ cardCount after = cardCount crowdedPlayer) :=
  ⟨rfl, rfl, rfl,
    (play_keeps_card_count (sampleService crowdedGame) crowdedGame 1 "F-001" "c" []
      crowdedPlayer rfl (by decide)).1 _ rfl rfl rfl,
    (play_keeps_card_count (sampleService crowdedGame) crowdedGame 1 "F-001" "c" []
      crowdedPlayer rfl (by decide)).2⟩

/-- The helper playFriend called on its own with a card that the card table
does not know: player 1 holds the card F-777; the call playFriend(game, 1,
F-777, a) returns the error of the lookup, and the hand of player 1 is empty
after the call. The battle area is as before. The request PlayCard does not
reach the helper with such a card. -/
theorem playFriend_failure_removes_card :
    ((sampleService (handContext ["F-777"]).Game).playFriend (handContext ["F-777"]).Game 1
        "F-777" "a").map
      (fun r => (r.2, (playerOf r.1 1).map fun ps => (ps.Hand, ps.BattleArea))) =
      some (some "record not found", some ([], [])) ∧
    (playerOf (handContext ["F-777"]).Game 1).map (fun ps => (ps.Hand, ps.BattleArea)) =
      some (["F-777"], []) := by
  decide

/-- C27: the result of isCardRelevant(cardNo, event) is true if and only if
cardNo is the card number of the event, or the game has a state and cardNo is
the card number of a friend in the battle area of either player or the field
card of either player; it is the disjunction of the test event.CardNo == cardNo
and isCardOnField(cardNo). -/
theorem isCardRelevant_iff_source_or_on_field (h : EventHandler) (cardNo : String)
    (event : GameEvent) :
    (h.isCardRelevant cardNo event = true ↔
      event.CardNo = cardNo ∨
      ∃ gs, h.context.Game.GameState = some gs ∧
        ((∃ entry ∈ gs.Player1State.BattleArea, entry.2.CardNo = cardNo) ∨
         (∃ entry ∈ gs.Player2State.BattleArea, entry.2.CardNo = cardNo) ∨
         gs.Player1State.FieldCard = some cardNo ∨
         gs.Player2State.FieldCard = some cardNo)) ∧
    h.isCardRelevant cardNo event =
      (decide (event.CardNo = cardNo) || h.isCardOnField cardNo) := by
  constructor
  · unfold EventHandler.isCardRelevant
    by_cases hev : event.CardNo = cardNo
    · simp [hev]
    · rw [if_neg hev]
      cases hgs : h.context.Game.GameState with
      | none => simp [hev]
      | some gs =>
        simp only [Bool.or_eq_true, List.any_eq_true, decide_eq_true_eq, hev, false_or,
          Option.some.injEq, exists_eq_left']
        constructor
        · rintro (((h1 | h2) | h3) | h4)
          · exact Or.inl h1
          · exact Or.inr (Or.inl h2)
          · exact Or.inr (Or.inr (Or.inl h3))
          · exact Or.inr (Or.inr (Or.inr h4))
        · rintro (h1 | h2 | h3 | h4)
          · exact Or.inl (Or.inl (Or.inl h1))
          · exact Or.inl (Or.inl (Or.inr h2))
          · exact Or.inl (Or.inr h3)
          · exact Or.inr h4
  · unfold EventHandler.isCardRelevant EventHandler.isCardOnField
    by_cases hev : event.CardNo = cardNo
    · simp [hev]
    · simp [hev]

/-! ## Lemmas: the composite effect -/

theorem CompositeEffect.canActivateLoop_true_iff (game : GameContext) (source : Card) :
    ∀ effects : List Effect,
      CompositeEffect.canActivateLoop game source effects = some true ↔
        ∀ effect ∈ effects, effect.CanActivate game source = some true := by
  intro effects
  induction effects with
  | nil => simp [CompositeEffect.canActivateLoop]
  | cons effect rest ih =>
    unfold CompositeEffect.canActivateLoop
    simp only [List.mem_cons, forall_eq_or_imp]
    cases hc : effect.CanActivate game source with
    | none => simp
    | some b =>
      cases b with
      | false => simp
      | true => simp [ih]

theorem CompositeEffect.applyLoop_error (source : Card) (targets : List Target) :
    ∀ (effects : List Effect) (game game1 : GameContext) (err : String),
      CompositeEffect.applyLoop game source targets effects = some (game1, some err) →
      ∃ pre effect post mid, effects = pre ++ effect :: post ∧
        CompositeEffect.applyLoop game source targets pre = some (mid, none) ∧
        effect.Apply mid source targets = some (game1, some err) := by
  intro effects
  induction effects with
  | nil =>
    intro game game1 err h
    simp [CompositeEffect.applyLoop] at h
  | cons effect rest ih =>
    intro game game1 err h
    rw [CompositeEffect.applyLoop] at h
    cases happ : effect.Apply game source targets with
    | none => simp [happ] at h
    | some res =>
      obtain ⟨game2, err2⟩ := res
      cases err2 with
      | some e2 =>
        simp only [happ, Option.some.injEq, Prod.mk.injEq] at h
        obtain ⟨hg, he⟩ := h
        subst hg he
        exact ⟨[], effect, rest, game, rfl, rfl, happ⟩
      | none =>
        simp only [happ] at h
        obtain ⟨pre, failing, post, mid, hsplit, hpre, hfail⟩ := ih game2 game1 err h
        refine ⟨effect :: pre, failing, post, mid, by rw [hsplit]; rfl, ?_, hfail⟩
        rw [CompositeEffect.applyLoop]
        simp only [happ]
        exact hpre

/-- C22, counterexample: the composite of the effects of F-065 and F-055 can
activate for player 1 on `battleGame`. Applied to the targets that its
GetTargets returns, it reports the error of its second sub-effect, and the
first sub-effect has raised the power of the friend F-002 from 2000 to 4000:
the state is not the state before the call. -/
theorem CompositeEffect_partial_apply :
    sampleComposite.CanActivate battleContext { CardNo := "F-065", Power := 0 } = some true ∧
    ((sampleComposite.GetTargets battleContext { CardNo := "F-065", Power := 0 }).bind
        fun targets =>
          (sampleComposite.Apply battleContext { CardNo := "F-065", Power := 0 } targets).map
            fun r => (r.2, headPower r.1)) =
      some (some "friend not found", some 4000) ∧
    headPower battleContext = some 2000 := by
  decide

/-- C22 as amended: CompositeEffect.CanActivate is true exactly when every
sub-effect can activate, and Apply applies the sub-effects in order and stops
at the first error: when Apply returns an error, the sub-effects before the
failing one have been applied without error, one after the other, and the
state returned is the state that the failing sub-effect left when run on
their result. -/
theorem CompositeEffect_apply_in_order (e : CompositeEffect) (game : GameContext)
    (source : Card) (targets : List Target) :
    (e.CanActivate game source = some true ↔
      ∀ effect ∈ e.Effects, effect.CanActivate game source = some true) ∧
    (∀ game1 err, e.Apply game source targets = some (game1, some err) →
      ∃ pre effect post mid, e.Effects = pre ++ effect :: post ∧
        CompositeEffect.applyLoop game source targets pre = some (mid, none) ∧
        effect.Apply mid source targets = some (game1, some err)) :=
  ⟨CompositeEffect.canActivateLoop_true_iff game source e.Effects,
    fun game1 err h => CompositeEffect.applyLoop_error source targets e.Effects game game1 err h⟩

/-! ## Lemmas: the interaction controller -/

theorem InteractionController.checkIndices_none_iff (options : List ChoiceOption) :
    ∀ selection : List Int, InteractionController.checkIndices options selection = none ↔
      ∀ idx ∈ selection, 0 ≤ idx ∧ idx < options.length := by
  intro selection
  induction selection with
  | nil => simp [InteractionController.checkIndices]
  | cons idx rest ih =>
    unfold InteractionController.checkIndices
    by_cases h : idx < 0 ∨ idx ≥ options.length
    · rw [if_pos h]
      simp only [List.mem_cons, forall_eq_or_imp, reduceCtorEq, false_iff, not_and]
      intro h1
      omega
    · rw [if_neg h, ih]
      simp only [List.mem_cons, forall_eq_or_imp]
      constructor
      · intro h1
        exact ⟨by omega, h1⟩
      · intro h1
        exact h1.2

theorem InteractionController.checkIndices_error (options : List ChoiceOption)
    (selection : List Int) (err : String)
    (h : InteractionController.checkIndices options selection = some err) :
    err = "invalid selection index" := by
  induction selection with
  | nil => simp [InteractionController.checkIndices] at h
  | cons idx rest ih =>
    unfold InteractionController.checkIndices at h
    by_cases hc : idx < 0 ∨ idx ≥ options.length
    · rw [if_pos hc] at h
      simp only [Option.some.injEq] at h
      exact h.symm
    · rw [if_neg hc] at h
      exact ih h

theorem find_filter_ne (l : List (String × PendingChoice)) (choiceID k : String) :
    ((l.filter fun entry => decide (entry.1 ≠ choiceID)).find? fun entry => decide (entry.1 = k)) =
      if k = choiceID then none else l.find? fun entry => decide (entry.1 = k) := by
  induction l with
  | nil => simp
  | cons x rest ih =>
    by_cases hx : x.1 = choiceID
    · have hf : (x :: rest).filter (fun entry => decide (entry.1 ≠ choiceID)) =
          rest.filter (fun entry => decide (entry.1 ≠ choiceID)) := by
        simp [List.filter_cons, hx]
      rw [hf, ih]
      by_cases hk : k = choiceID
      · simp [hk]
      · have hxk : x.1 ≠ k := by rw [hx]; exact fun h => hk h.symm
        simp [hk, List.find?_cons, hxk]
    · have hf : (x :: rest).filter (fun entry => decide (entry.1 ≠ choiceID)) =
          x :: rest.filter (fun entry => decide (entry.1 ≠ choiceID)) := by
        simp [List.filter_cons, hx]
      rw [hf, List.find?_cons, List.find?_cons, ih]
      by_cases hxk : x.1 = k
      · have hk : k ≠ choiceID := by rw [← hxk]; exact hx
        simp [hxk, hk]
      · simp [hxk]

/-- C30: SubmitChoice(id, selection) returns an error if and only if id names
no pending choice, or the selection is empty while the choice is required, or
some selected index lies outside the range from 0 to the number of options
(excluded). On success exactly that pending choice is removed: the entries
of every other id stay, and id names no pending choice any more. On an error
the controller is unchanged. -/
theorem SubmitChoice_error_iff (c : InteractionController) (choiceID : String)
    (selection : List Int) :
    ((c.SubmitChoice choiceID selection).2 ≠ none ↔
      c.pending choiceID = none ∨
      ∃ choice, c.pending choiceID = some choice ∧
        ((selection = [] ∧ choice.Required = true) ∨
          ∃ idx ∈ selection, ¬ (0 ≤ idx ∧ idx < choice.Options.length))) ∧
    ((c.SubmitChoice choiceID selection).2 = none →
      (c.SubmitChoice choiceID selection).1.pendingChoices =
        c.pendingChoices.filter (fun entry => entry.1 ≠ choiceID) ∧
      ∀ k, (c.SubmitChoice choiceID selection).1.pending k =
        if k = choiceID then none else c.pending k) ∧
    ((c.SubmitChoice choiceID selection).2 ≠ none → (c.SubmitChoice choiceID selection).1 = c) := by
  unfold InteractionController.SubmitChoice InteractionController.pending
  cases hfind : (c.pendingChoices.find? fun entry => decide (entry.1 = choiceID)).map Prod.snd with
  | none => simp
  | some choice =>
    simp only [Option.some.injEq, exists_eq_left', false_or, reduceCtorEq]
    by_cases hreq : selection.length = 0 ∧ choice.Required = true
    · rw [if_pos hreq]
      have hsel : selection = [] := List.length_eq_zero.mp hreq.1
      simp [hsel, hreq.2]
    · rw [if_neg hreq]
      have hreq1 : ¬ (selection = [] ∧ choice.Required = true) := by
        intro h
        exact hreq ⟨by rw [h.1]; rfl, h.2⟩
      cases hchk : InteractionController.checkIndices choice.Options selection with
      | some err =>
        have hbad : ¬ ∀ idx ∈ selection, 0 ≤ idx ∧ idx < choice.Options.length := by
          rw [← InteractionController.checkIndices_none_iff, hchk]
          simp
        simp only [ne_eq, reduceCtorEq, not_false_eq_true, true_iff, false_implies,
          implies_true, and_true, true_and]
        right
        push_neg at hbad
        obtain ⟨idx, hmem, hidx⟩ := hbad
        exact ⟨idx, hmem, by push_neg; exact hidx⟩
      | none =>
        have hgood := (InteractionController.checkIndices_none_iff _ _).mp hchk
        simp only [ne_eq, not_true_eq_false, false_iff, not_or, not_exists, not_and, not_not,
          false_implies, and_true, true_implies, true_and]
        refine ⟨⟨fun h1 h2 => hreq1 ⟨h1, h2⟩, fun idx hmem h3 =>
          h3 (hgood idx hmem).1 (hgood idx hmem).2⟩, ?_⟩
        intro k
        rw [find_filter_ne]
        by_cases hk : k = choiceID
        · simp [hk]
        · simp [hk]

/-- The outcomes of SubmitChoice on the sample controller: an unknown id, an
empty selection and an index out of range are refused and leave the pending
choice in place; the selection of index 1 is accepted and removes it. -/
theorem SubmitChoice_samples :
    sampleController.SubmitChoice "choice_1" [0] = (sampleController, some "choice not found") ∧
    sampleController.SubmitChoice "choice_0" [] = (sampleController, some "selection required") ∧
    sampleController.SubmitChoice "choice_0" [2] =
      (sampleController, some "invalid selection index") ∧
    sampleController.SubmitChoice "choice_0" [1] = ({ pendingChoices := [] }, none) := by
  decide

/-! ## Lemmas: the routing of an event -/

theorem EventHandler.triggerLoop_eq_oneShotPass (r : EffectRegistry) (event : GameEvent) :
    ∀ (entries : List (String × Effect)),
      (∀ entry ∈ entries, r.GetEffect entry.1 = some entry.2) →
      ∀ h : EventHandler, h.effectRegistry = r →
        EventHandler.triggerLoop h event (entries.map Prod.fst) = oneShotPass h event entries := by
  intro entries
  induction entries with
  | nil =>
    intro _ h _
    rfl
  | cons entry rest ih =>
    intro hget h hr
    obtain ⟨cardNo, effect⟩ := entry
    have hrest : ∀ entry ∈ rest, r.GetEffect entry.1 = some entry.2 :=
      fun entry hmem => hget entry (List.mem_cons_of_mem _ hmem)
    have hhead : h.effectRegistry.GetEffect cardNo = some effect := by
      rw [hr]
      exact hget (cardNo, effect) (List.mem_cons_self _ _)
    rw [List.map_cons, EventHandler.triggerLoop, oneShotPass]
    by_cases hrel : h.isCardRelevant cardNo event = true
    · rw [if_pos hrel, if_pos hrel]
      simp only [hhead]
      cases hcan : effect.CanActivate
          { h.context with ActivePlayer := event.Player } (EventHandler.loadCard cardNo) with
      | none => rfl
      | some b =>
        cases b with
        | false => exact ih hrest _ hr
        | true =>
          simp only
          cases htar : effect.GetTargets
              { h.context with ActivePlayer := event.Player } (EventHandler.loadCard cardNo) with
          | none => rfl
          | some targets =>
            simp only
            cases happ : effect.Apply { h.context with ActivePlayer := event.Player }
                (EventHandler.loadCard cardNo) targets with
            | none => rfl
            | some res =>
              obtain ⟨context, err⟩ := res
              cases err with
              | some e => rfl
              | none => exact ih hrest _ hr
    · rw [if_neg hrel, if_neg hrel]
      exact ih hrest _ hr

theorem EventHandler.processEvent_routed {h : EventHandler} {event : GameEvent}
    {trigger : TriggerType} (hkeys : h.effectRegistry.keys.Nodup)
    (htrig : h.triggerFor event = some trigger) :
    h.processEvent event = routedTo h event trigger := by
  unfold EventHandler.processEvent routedTo
  simp only [htrig]
  have hloop := EventHandler.triggerLoop_eq_oneShotPass h.effectRegistry event
    (registeredUnder h.effectRegistry trigger)
    (fun entry hmem => by
      have hmem1 : entry ∈ h.effectRegistry.effects := (List.mem_filter.mp hmem).1
      exact EffectRegistry.getEffect_of_mem _ hkeys entry hmem1)
    h rfl
  have hcards : h.effectRegistry.GetEffectsForTrigger trigger =
      (registeredUnder h.effectRegistry trigger).map Prod.fst := rfl
  rewrite [hcards, hloop]
  cases oneShotPass h event (registeredUnder h.effectRegistry trigger) with
  | none => rfl
  | some res =>
    obtain ⟨h1, err⟩ := res
    cases err <;> rfl

/-- C29: on a handler whose registry holds one effect per card number,
processEvent routes friend_played to on_play, friend_attacks to on_attack,
friend_blocks to on_block, friend_destroyed to on_destroy, damage_dealt to
on_damage_dealt, phase_start to start_phase, phase_end to end_phase, and
support_played to main when the current phase of the match is Main and to
counter otherwise: the one-shot pass of the event runs over the effects
registered under the mapped trigger, and over no other effect. An event of
another kind applies no effect. -/
theorem processEvent_routes_by_trigger (h : EventHandler) (event : GameEvent)
    (hkeys : h.effectRegistry.keys.Nodup) :
    h.processEvent event =
      match triggerClass event.Kind h.context.Game.CurrentPhase with
      | some trigger => routedTo h event trigger
      | none => some (h, none) := by
  have hclass : h.triggerFor event = triggerClass event.Kind h.context.Game.CurrentPhase := rfl
  cases htrig : triggerClass event.Kind h.context.Game.CurrentPhase with
  | some trigger => exact EventHandler.processEvent_routed hkeys (hclass.trans htrig)
  | none =>
    unfold EventHandler.processEvent
    rw [hclass, htrig]

theorem sampleHandler_keys (game : Game) : (sampleHandler game).effectRegistry.keys.Nodup := by
  unfold sampleHandler NewEventHandler
  simp only
  rw [globalRegistry_keys]
  exact registeredNumbers_nodup

/-- Witness of C29: an attack of F-002 by player 1 on a new handler with the
registry of InitializeEffects on `battleGame`. -/
theorem processEvent_routes_by_trigger_witness :
    (sampleHandler battleGame).processEvent (sampleEvent EventFriendAttacks "F-002") =
      match triggerClass (sampleEvent EventFriendAttacks "F-002").Kind
          (sampleHandler battleGame).context.Game.CurrentPhase with
      | some trigger =>
        routedTo (sampleHandler battleGame) (sampleEvent EventFriendAttacks "F-002") trigger
      | none => some (sampleHandler battleGame, none) :=
  processEvent_routes_by_trigger (sampleHandler battleGame)
    (sampleEvent EventFriendAttacks "F-002")
    (sampleHandler_keys battleGame)

/-! ## Lemmas: the queue of events -/

theorem EventHandler.persistentLoop_queue (l : List String) :
    ∀ (h h1 : EventHandler), EventHandler.persistentLoop h l = some h1 →
      h1.eventQueue = h.eventQueue := by
  induction l with
  | nil =>
    intro h h1 hrun
    simp only [EventHandler.persistentLoop, Option.some.injEq] at hrun
    rw [← hrun]
  | cons cardNo rest ih =>
    intro h h1 hrun
    rw [EventHandler.persistentLoop] at hrun
    split at hrun
    · split at hrun
      · simp at hrun
      · simp only at hrun
        split at hrun
        · simp at hrun
        · have hh := ih _ _ hrun
          exact hh
        · split at hrun
          · simp at hrun
          · split at hrun
            · simp at hrun
            · have hh := ih _ _ hrun
              exact hh
    · have hh := ih _ _ hrun
      exact hh

theorem EventHandler.triggerLoop_queue (event : GameEvent) (l : List String) :
    ∀ (h h1 : EventHandler) (err : Option String),
      EventHandler.triggerLoop h event l = some (h1, err) → h1.eventQueue = h.eventQueue := by
  induction l with
  | nil =>
    intro h h1 err hrun
    simp only [EventHandler.triggerLoop, Option.some.injEq, Prod.mk.injEq] at hrun
    rw [← hrun.1]
  | cons cardNo rest ih =>
    intro h h1 err hrun
    rw [EventHandler.triggerLoop] at hrun
    split at hrun
    · split at hrun
      · simp at hrun
      · simp only at hrun
        split at hrun
        · simp at hrun
        · have hh := ih _ _ _ hrun
          exact hh
        · split at hrun
          · simp at hrun
          · split at hrun
            · simp at hrun
            · simp only [Option.some.injEq, Prod.mk.injEq] at hrun
              rw [← hrun.1]
            · have hh := ih _ _ _ hrun
              exact hh
    · have hh := ih _ _ _ hrun
      exact hh

theorem EventHandler.triggerEvent_queue {h h1 : EventHandler} {event : GameEvent}
    {err : Option String} (hrun : h.TriggerEvent event = some (h1, err)) :
    h1.eventQueue = h.eventQueue ++ [event] := by
  unfold EventHandler.TriggerEvent EventHandler.processEvent at hrun
  split at hrun
  · simp only [Option.some.injEq, Prod.mk.injEq] at hrun
    rw [← hrun.1]
  · split at hrun
    · simp at hrun
    · rename_i h2 err2 hloop
      simp only [Option.some.injEq, Prod.mk.injEq] at hrun
      rw [← hrun.1]
      exact EventHandler.triggerLoop_queue _ _ _ _ _ hloop
    · rename_i h2 hloop
      have h3 := EventHandler.triggerLoop_queue _ _ _ _ _ hloop
      cases hp : EventHandler.processPersistentEffects h2 with
      | none => simp [hp] at hrun
      | some h4 =>
        simp [hp] at hrun
        rw [← hrun.1]
        have h5 := EventHandler.persistentLoop_queue _ _ _ hp
        rw [h5, h3]

theorem Call.triggerEvent_appends {c c1 : Call} {event : GameEvent} {err : Option String}
    (hrun : c.TriggerEvent event = some (c1, err)) :
    c1.handler.eventQueue = c.handler.eventQueue ++ [event] := by
  unfold Call.TriggerEvent at hrun
  cases hte : c.handler.TriggerEvent event with
  | none => simp [hte] at hrun
  | some res =>
    obtain ⟨h1, e1⟩ := res
    simp only [hte, Option.map_some', Option.some.injEq, Prod.mk.injEq] at hrun
    rw [← hrun.1]
    exact EventHandler.triggerEvent_queue hte

theorem Call.setGame_queue (c : Call) (g : Game) :
    (c.setGame g).handler.eventQueue = c.handler.eventQueue := by
  unfold Call.setGame
  cases c.shared <;> rfl

theorem GameService.getHandler_queue (s : GameService) (gameID : String) (g : Game) :
    (s.getHandler gameID g).handler.eventQueue = eventsFed s gameID := by
  unfold GameService.getHandler eventsFed
  cases s.eventHandler gameID <;> rfl

theorem GameService.getHandler_ok {s : GameService} (hreg : s.registry.KeepsMatch)
    (gameID : String) (g : Game) :
    (s.getHandler gameID g).Ok ∧ (s.getHandler gameID g).gameModel = g := by
  unfold GameService.getHandler
  cases s.eventHandler gameID with
  | none => exact ⟨fun _ => ⟨rfl, hreg⟩, rfl⟩
  | some h => exact ⟨fun hs => by simp at hs, rfl⟩

theorem eventsFed_putHandler (s : GameService) (gameID : String) (c : Call) :
    eventsFed (s.putHandler gameID c) gameID = c.handler.eventQueue := by
  simp [eventsFed, GameService.putHandler]

theorem eventsFed_save (s : GameService) (gameID : String) (c : Call) :
    eventsFed (s.save gameID c) gameID = c.handler.eventQueue := by
  simp [eventsFed, GameService.save, GameService.putHandler]

/-- The events that the `switch` of `ChangePhase` feeds. -/
theorem GameService.movePhase_queue {c c1 : Call} (hok : c.Ok)
    (hrun : GameService.movePhase c = some c1) :
    c1.handler.eventQueue = c.handler.eventQueue ++
      (if c.gameModel.CurrentPhase = PhaseEnd then
        [phaseEvent EventTurnEnd (swappedPlayer c.gameModel.ActivePlayer) PhaseStart,
         phaseEvent EventTurnStart (swappedPlayer c.gameModel.ActivePlayer) PhaseStart]
       else []) := by
  unfold GameService.movePhase at hrun
  simp only at hrun
  by_cases h1 : c.gameModel.CurrentPhase = PhaseStart
  · rw [if_pos h1, Option.some.injEq] at hrun
    subst hrun
    have hne : c.gameModel.CurrentPhase ≠ PhaseEnd := by rw [h1]; decide
    rw [if_neg hne, Call.setGame_queue, List.append_nil]
  rw [if_neg h1] at hrun
  by_cases h2 : c.gameModel.CurrentPhase = PhaseDraw
  · rw [if_pos h2, Option.some.injEq] at hrun
    subst hrun
    have hne : c.gameModel.CurrentPhase ≠ PhaseEnd := by rw [h2]; decide
    rw [if_neg hne, Call.setGame_queue, List.append_nil]
  rw [if_neg h2] at hrun
  by_cases h3 : c.gameModel.CurrentPhase = PhaseEnergy
  · rw [if_pos h3, Option.some.injEq] at hrun
    subst hrun
    have hne : c.gameModel.CurrentPhase ≠ PhaseEnd := by rw [h3]; decide
    rw [if_neg hne, Call.setGame_queue, List.append_nil]
  rw [if_neg h3] at hrun
  by_cases h4 : c.gameModel.CurrentPhase = PhaseMain
  · rw [if_pos h4, Option.some.injEq] at hrun
    subst hrun
    have hne : c.gameModel.CurrentPhase ≠ PhaseEnd := by rw [h4]; decide
    rw [if_neg hne, Call.setGame_queue, List.append_nil]
  rw [if_neg h4] at hrun
  by_cases h5 : c.gameModel.CurrentPhase = PhaseEnd
  · rw [if_pos h5] at hrun
    rw [if_pos h5]
    have hset := Call.setGame_ok hok
      { c.gameModel with
        CurrentPhase := PhaseStart
        CurrentTurn := wrapInt (c.gameModel.CurrentTurn + 1)
        ActivePlayer := if c.gameModel.ActivePlayer = 1 then 2 else 1 }
    split at hrun
    · simp at hrun
    · rename_i c2 e2 hev1
      have hA := Call.triggerEvent_ok hset.1 hev1
      have hQ1 := Call.triggerEvent_appends hev1
      cases hev2 : c2.TriggerEvent
          { Kind := EventTurnStart, Player := c2.gameModel.ActivePlayer, CardNo := "",
            Target := "", Phase := c2.gameModel.CurrentPhase, Data := [] } with
      | none => simp [hev2] at hrun
      | some res =>
        obtain ⟨c3, e3⟩ := res
        simp only [hev2, Option.map_some', Option.some.injEq] at hrun
        subst hrun
        have hQ2 := Call.triggerEvent_appends hev2
        have hm := hA.2.1
        rw [hset.2.1] at hm
        rw [hQ2, hQ1, Call.setGame_queue, hm.1, hm.2.2, List.append_assoc]
        rfl
  · rw [if_neg h5, Option.some.injEq] at hrun
    subst hrun
    rw [if_neg h5, List.append_nil]

/-- C21: a call of ChangePhase that completes feeds the router exactly the
events PhaseEnd (old phase, old active player), then, only when the old phase
is End, TurnEnd and TurnStart (swapped active player, phase Start), then
PhaseStart (new phase, new active player). A call that returns an error
leaves the stored match as it was; when it is the PhaseEnd event that fails,
no further event is fed and the match that the call works on keeps phase, turn
and active player. The registry is one whose effects write to the game through
the operations of the game context only. -/
theorem ChangePhase_feeds_events (s : GameService) (gameID : String) (playerID : Nat)
    (g : Game) (hreg : s.registry.KeepsMatch) (hg : s.db gameID = some g) :
    (∀ s1, s.ChangePhase gameID playerID = some (s1, none) →
      eventsFed s1 gameID = eventsFed s gameID ++ phaseChangeEvents g) ∧
    (∀ s1 err, s.ChangePhase gameID playerID = some (s1, some err) → s1.db = s.db) ∧
    (∀ c1 err,
      (s.getHandler gameID g).TriggerEvent
          (phaseEvent EventPhaseEnd g.ActivePlayer g.CurrentPhase) = some (c1, some err) →
      ∃ s1, s.ChangePhase gameID playerID = some (s1, some err) ∧
        eventsFed s1 gameID =
          eventsFed s gameID ++ [phaseEvent EventPhaseEnd g.ActivePlayer g.CurrentPhase] ∧
        s1.eventHandler gameID = some c1.handler ∧
        SameMatch c1.gameModel g ∧
        (s.eventHandler gameID = none → c1.handler.context.Game = c1.gameModel)) := by
  have hok0 := GameService.getHandler_ok hreg gameID g
  have hq0 := GameService.getHandler_queue s gameID g
  have hgm := hok0.2
  refine ⟨?_, ?_, ?_⟩
  · intro s1 hrun
    unfold GameService.ChangePhase at hrun
    simp only [hg, hgm] at hrun
    split at hrun
    · simp at hrun
    · simp at hrun
    · rename_i c1 hev1
      have hA := Call.triggerEvent_ok hok0.1 hev1
      have hQ1 := Call.triggerEvent_appends hev1
      split at hrun
      · simp at hrun
      · rename_i c2 hmove
        have hM := GameService.movePhase_spec hA.1 hmove
        have hQ2 := GameService.movePhase_queue hA.1 hmove
        split at hrun
        · simp at hrun
        · simp at hrun
        · rename_i c3 hev3
          have hQ3 := Call.triggerEvent_appends hev3
          simp only [Option.some.injEq, Prod.mk.injEq, and_true] at hrun
          subst hrun
          have hm := hA.2.1
          rw [hok0.2] at hm
          rw [eventsFed_save, hQ3, hQ2, hQ1, hq0, hM.2.2.1, hM.2.2.2.2, hm.1, hm.2.2]
          unfold phaseChangeEvents
          by_cases h5 : g.CurrentPhase = PhaseEnd
          · simp only [if_pos h5, List.append_assoc]
            rfl
          · simp only [if_neg h5, List.append_assoc]
            rfl
  · intro s1 err hrun
    unfold GameService.ChangePhase at hrun
    simp only [hg] at hrun
    split at hrun
    · simp at hrun
    · simp only [Option.some.injEq, Prod.mk.injEq] at hrun
      rw [← hrun.1]
      rfl
    · split at hrun
      · simp at hrun
      · split at hrun
        · simp at hrun
        · simp only [Option.some.injEq, Prod.mk.injEq] at hrun
          rw [← hrun.1]
          rfl
        · simp at hrun
  · intro c1 err hev1
    have hA := Call.triggerEvent_ok hok0.1 hev1
    have hQ1 := Call.triggerEvent_appends hev1
    refine ⟨s.putHandler gameID c1, ?_, ?_, ?_, ?_, ?_⟩
    · unfold GameService.ChangePhase
      unfold phaseEvent at hev1
      simp only [hg, hgm, hev1]
    · rw [eventsFed_putHandler, hQ1, hq0]
    · simp [GameService.putHandler]
    · have hm := hA.2.1
      rw [hok0.2] at hm
      exact hm
    · intro hnone
      have hshared : c1.shared = true := by
        rw [hA.2.2]
        unfold GameService.getHandler
        rw [hnone]
      exact (hA.1 hshared).1

/-- Witness of C21: the sample match in phase End; the call completes and feeds
PhaseEnd, TurnEnd, TurnStart and PhaseStart. -/
theorem ChangePhase_feeds_events_witness :
    eventsFed (sampleAfter PhaseEnd 1) "g1" =
      eventsFed (sampleService (sampleGame PhaseEnd)) "g1" ++
        phaseChangeEvents (sampleGame PhaseEnd) :=
  (ChangePhase_feeds_events (sampleService (sampleGame PhaseEnd)) "g1" 1 (sampleGame PhaseEnd)
    (sampleService_keepsMatch _) rfl).1 (sampleAfter PhaseEnd 1) rfl

/-- The events of one call of ChangePhase on the sample match in phase End and
in phase Main. -/
theorem ChangePhase_sample_events :
    eventsFed (sampleAfter PhaseEnd 1) "g1" =
      [phaseEvent "phase_end" 1 "end", phaseEvent "turn_end" 2 "start",
       phaseEvent "turn_start" 2 "start", phaseEvent "phase_start" 2 "start"] ∧
    eventsFed (sampleAfter PhaseMain 1) "g1" =
      [phaseEvent "phase_end" 1 "main", phaseEvent "phase_start" 1 "end"] := by
  decide

/-! ## Lemmas: the requests of a player -/

theorem GameService.triggerAndSave_queue {s s1 : GameService} {gameID : String} {c : Call}
    {event : GameEvent} {err : Option String}
    (hrun : GameService.triggerAndSave s gameID c event = some (s1, err)) :
    eventsFed s1 gameID = c.handler.eventQueue ++ [event] := by
  unfold GameService.triggerAndSave at hrun
  split at hrun
  · simp at hrun
  · rename_i c1 e1 hev
    simp only [Option.some.injEq, Prod.mk.injEq] at hrun
    rw [← hrun.1, eventsFed_putHandler, Call.triggerEvent_appends hev]
  · rename_i c1 hev
    simp only [Option.some.injEq, Prod.mk.injEq] at hrun
    rw [← hrun.1, eventsFed_save, Call.triggerEvent_appends hev]

theorem GameService.getHandler_gameModel (s : GameService) (gameID : String) (g : Game) :
    (s.getHandler gameID g).gameModel = g := by
  unfold GameService.getHandler
  cases s.eventHandler gameID <;> rfl

theorem GameService.attack_events {s s1 : GameService} {gameID : String} {playerID : Nat}
    {attackerPos targetPos : String} {g : Game} {err : Option String}
    (hg : s.db gameID = some g)
    (hrun : s.Attack gameID playerID attackerPos targetPos = some (s1, err)) :
    eventsFed s1 gameID = eventsFed s gameID ++ attackEvents g playerID attackerPos targetPos := by
  unfold GameService.Attack at hrun
  simp only [hg, GameService.getHandler_gameModel] at hrun
  unfold attackEvents
  cases hp : GameService.playerNumber g playerID with
  | none =>
    simp only [hp, Option.some.injEq, Prod.mk.injEq] at hrun
    rw [← hrun.1, eventsFed_putHandler, GameService.getHandler_queue, List.append_nil]
  | some player =>
    simp only [hp] at hrun
    cases hgs : g.GameState with
    | none => simp [hgs] at hrun
    | some gs =>
      simp only [hgs] at hrun
      simp only [playerOf, hgs, Option.map_some', Option.some_bind]
      cases hf : friendAt (statePointer gs player).BattleArea attackerPos with
      | none =>
        simp only [hf, Option.some.injEq, Prod.mk.injEq] at hrun
        rw [← hrun.1, eventsFed_putHandler, GameService.getHandler_queue, List.append_nil]
      | some attacker =>
        simp only [hf] at hrun
        rw [GameService.triggerAndSave_queue hrun, GameService.getHandler_queue]
        rfl

theorem GameService.block_events {s s1 : GameService} {gameID : String} {playerID : Nat}
    {blockerPos attackerPos : String} {g : Game} {err : Option String}
    (hg : s.db gameID = some g)
    (hrun : s.Block gameID playerID blockerPos attackerPos = some (s1, err)) :
    eventsFed s1 gameID = eventsFed s gameID ++ blockEvents g playerID blockerPos attackerPos := by
  unfold GameService.Block at hrun
  simp only [hg, GameService.getHandler_gameModel] at hrun
  unfold blockEvents
  cases hp : GameService.playerNumber g playerID with
  | none =>
    simp only [hp, Option.some.injEq, Prod.mk.injEq] at hrun
    rw [← hrun.1, eventsFed_putHandler, GameService.getHandler_queue, List.append_nil]
  | some player =>
    simp only [hp] at hrun
    cases hgs : g.GameState with
    | none => simp [hgs] at hrun
    | some gs =>
      simp only [hgs] at hrun
      simp only [playerOf, hgs, Option.map_some', Option.some_bind]
      cases hf : friendAt (statePointer gs player).BattleArea blockerPos with
      | none =>
        simp only [hf, Option.some.injEq, Prod.mk.injEq] at hrun
        rw [← hrun.1, eventsFed_putHandler, GameService.getHandler_queue, List.append_nil]
      | some blocker =>
        simp only [hf] at hrun
        rw [GameService.triggerAndSave_queue hrun, GameService.getHandler_queue]
        rfl

theorem GameService.playCard_events {s s1 : GameService} {gameID : String} {playerID : Nat}
    {cardNo position : String} {targets : List String} {g : Game} {err : Option String}
    (hg : s.db gameID = some g)
    (hrun : s.PlayCard gameID playerID cardNo position targets = some (s1, err)) :
    eventsFed s1 gameID =
      eventsFed s gameID ++ playEvents s.cardService g playerID cardNo targets := by
  unfold GameService.PlayCard at hrun
  simp only [hg, GameService.getHandler_gameModel] at hrun
  unfold playEvents
  cases hp : GameService.playerNumber g playerID with
  | none =>
    simp only [hp, Option.some.injEq, Prod.mk.injEq] at hrun
    rw [← hrun.1, eventsFed_putHandler, GameService.getHandler_queue, List.append_nil]
  | some player =>
    simp only [hp] at hrun
    cases hcard : s.cardService.GetCardByNo cardNo with
    | error e =>
      simp only [hcard, Option.some.injEq, Prod.mk.injEq] at hrun
      rw [← hrun.1, eventsFed_putHandler, GameService.getHandler_queue, List.append_nil]
    | ok card =>
      simp only [hcard] at hrun
      by_cases h1 : card.Kind = CardTypeFriend
      · rw [if_pos h1] at hrun
        simp only [if_pos h1]
        cases hplay : s.playFriend g player cardNo position with
        | none => simp [hplay] at hrun
        | some res =>
          obtain ⟨g1, e1⟩ := res
          have hphase : g1.CurrentPhase = g.CurrentPhase :=
            (GameService.playFriend_of_known hcard hplay).2
          cases e1 with
          | some e =>
            exfalso
            exact absurd (GameService.playFriend_of_known hcard hplay).1 (by simp)
          | none =>
            simp only [hplay] at hrun
            rw [GameService.triggerAndSave_queue hrun, Call.setGame_queue,
              GameService.getHandler_queue]
            have hgm : ((s.getHandler gameID g).setGame g1).gameModel = g1 := rfl
            rw [hgm, hphase]
            rfl
      · rw [if_neg h1] at hrun
        simp only [if_neg h1]
        by_cases h2 : card.Kind = CardTypeSupport
        · rw [if_pos h2] at hrun
          simp only [if_pos h2]
          cases hgs : g.GameState with
          | none => simp [GameService.playSupport, hgs] at hrun
          | some gs =>
            simp only [GameService.playSupport, hgs] at hrun
            rw [GameService.triggerAndSave_queue hrun, Call.setGame_queue,
              GameService.getHandler_queue]
            rfl
        · rw [if_neg h2] at hrun
          simp only [if_neg h2]
          by_cases h3 : card.Kind = CardTypeField
          · rw [if_pos h3] at hrun
            simp only [if_pos h3]
            cases hgs : g.GameState with
            | none => simp [GameService.playField, hgs] at hrun
            | some gs =>
              simp only [GameService.playField, hgs] at hrun
              rw [GameService.triggerAndSave_queue hrun, Call.setGame_queue,
                GameService.getHandler_queue]
              rfl
          · rw [if_neg h3] at hrun
            simp only [if_neg h3, Option.some.injEq, Prod.mk.injEq] at hrun ⊢
            rw [← hrun.1, eventsFed_save, GameService.getHandler_queue, List.append_nil]

theorem GameService.movePhase_extends {c c1 : Call}
    (hrun : GameService.movePhase c = some c1) :
    ∃ l, c1.handler.eventQueue = c.handler.eventQueue ++ l := by
  unfold GameService.movePhase at hrun
  simp only at hrun
  by_cases h1 : c.gameModel.CurrentPhase = PhaseStart
  · rw [if_pos h1, Option.some.injEq] at hrun
    exact ⟨[], by rw [← hrun, Call.setGame_queue, List.append_nil]⟩
  rw [if_neg h1] at hrun
  by_cases h2 : c.gameModel.CurrentPhase = PhaseDraw
  · rw [if_pos h2, Option.some.injEq] at hrun
    exact ⟨[], by rw [← hrun, Call.setGame_queue, List.append_nil]⟩
  rw [if_neg h2] at hrun
  by_cases h3 : c.gameModel.CurrentPhase = PhaseEnergy
  · rw [if_pos h3, Option.some.injEq] at hrun
    exact ⟨[], by rw [← hrun, Call.setGame_queue, List.append_nil]⟩
  rw [if_neg h3] at hrun
  by_cases h4 : c.gameModel.CurrentPhase = PhaseMain
  · rw [if_pos h4, Option.some.injEq] at hrun
    exact ⟨[], by rw [← hrun, Call.setGame_queue, List.append_nil]⟩
  rw [if_neg h4] at hrun
  by_cases h5 : c.gameModel.CurrentPhase = PhaseEnd
  · rw [if_pos h5] at hrun
    split at hrun
    · simp at hrun
    · rename_i c4 e4 hev4
      have hq4 := Call.triggerEvent_appends hev4
      rw [Call.setGame_queue] at hq4
      cases hev5 : c4.TriggerEvent
          { Kind := EventTurnStart, Player := c4.gameModel.ActivePlayer, CardNo := "",
            Target := "", Phase := c4.gameModel.CurrentPhase, Data := [] } with
      | none => simp [hev5] at hrun
      | some res =>
        obtain ⟨c5, e5⟩ := res
        simp only [hev5, Option.map_some', Option.some.injEq] at hrun
        have hq5 := Call.triggerEvent_appends hev5
        rw [← hrun, hq5, hq4, List.append_assoc]
        exact ⟨_, rfl⟩
  · rw [if_neg h5, Option.some.injEq] at hrun
    exact ⟨[], by rw [← hrun, List.append_nil]⟩

theorem GameService.changePhase_first_event {s s1 : GameService} {gameID : String}
    {playerID : Nat} {g : Game} {err : Option String} (hg : s.db gameID = some g)
    (hrun : s.ChangePhase gameID playerID = some (s1, err)) :
    eventsFed s gameID ++ [phaseEvent "phase_end" g.ActivePlayer g.CurrentPhase] <+:
      eventsFed s1 gameID := by
  unfold GameService.ChangePhase at hrun
  simp only [hg, GameService.getHandler_gameModel] at hrun
  split at hrun
  · simp at hrun
  · rename_i c1 e1 hev1
    simp only [Option.some.injEq, Prod.mk.injEq] at hrun
    rw [← hrun.1, eventsFed_putHandler, Call.triggerEvent_appends hev1,
      GameService.getHandler_queue]
    exact List.prefix_refl _
  · rename_i c1 hev1
    have hQ1 := Call.triggerEvent_appends hev1
    rw [GameService.getHandler_queue] at hQ1
    have hpre : ∀ c2 c3 : Call, (∃ l, c2.handler.eventQueue = c1.handler.eventQueue ++ l) →
        ∀ event e3, c2.TriggerEvent event = some (c3, e3) →
        eventsFed s gameID ++ [phaseEvent "phase_end" g.ActivePlayer g.CurrentPhase] <+:
          c3.handler.eventQueue := by
      intro c2 c3 hl event e3 hev
      obtain ⟨l, hl⟩ := hl
      rw [Call.triggerEvent_appends hev, hl, hQ1]
      exact ⟨l ++ [event], by simp [phaseEvent, EventPhaseEnd]⟩
    split at hrun
    · simp at hrun
    · rename_i c2 hmove
      have hext := GameService.movePhase_extends hmove
      split at hrun
      · simp at hrun
      · rename_i c3 e3 hev3
        simp only [Option.some.injEq, Prod.mk.injEq] at hrun
        rw [← hrun.1, eventsFed_putHandler]
        exact hpre c2 c3 hext _ _ hev3
      · rename_i c3 hev3
        simp only [Option.some.injEq, Prod.mk.injEq] at hrun
        rw [← hrun.1, eventsFed_save]
        exact hpre c2 c3 hext _ _ hev3

/-- C28, counterexample: in phase Draw of a match whose active player is
player 1, the requests ChangePhase and Attack of player 2 are not rejected.
ChangePhase completes, feeds PhaseEnd and PhaseStart and stores the phase
Energy; Attack completes and feeds the event friend_attacks. -/
theorem requests_of_inactive_player_accepted :
    drawPhaseGame.ActivePlayer = 1 ∧ drawPhaseGame.CurrentPhase = "draw" ∧
    GameService.playerNumber drawPhaseGame 2 = some 2 ∧
    ((sampleService drawPhaseGame).ChangePhase "g1" 2).map
        (fun r => (r.2, (r.1.db "g1").map (fun g1 => g1.CurrentPhase), eventsFed r.1 "g1")) =
      some (none, some "energy",
        [phaseEvent "phase_end" 1 "draw", phaseEvent "phase_start" 1 "energy"]) ∧
    ((sampleService drawPhaseGame).Attack "g1" 2 "a" "b").map
        (fun r => (r.2, eventsFed r.1 "g1")) =
      some (none,
        [{ Kind := "friend_attacks", Player := 2, CardNo := "F-001", Target := "b",
           Phase := "draw", Data := [] }]) := by
  decide

/-- C28 as amended: a request of a game that the store knows feeds its events
whoever the active player is and whatever the phase is. Attack and Block feed
their event when the player ID is one of the two players of the match and the
player has a friend at the named position, PlayCard feeds the event of the
type of the card when the player ID is one of the two players and the card is
known, and they feed no event otherwise; ChangePhase feeds the PhaseEnd event
of the old phase and the old active player for every player ID. -/
theorem requests_feed_events (s : GameService) (gameID : String) (playerID : Nat) (g : Game)
    (hg : s.db gameID = some g) :
    (∀ attackerPos targetPos s1 err,
      s.Attack gameID playerID attackerPos targetPos = some (s1, err) →
      eventsFed s1 gameID =
        eventsFed s gameID ++ attackEvents g playerID attackerPos targetPos) ∧
    (∀ blockerPos attackerPos s1 err,
      s.Block gameID playerID blockerPos attackerPos = some (s1, err) →
      eventsFed s1 gameID =
        eventsFed s gameID ++ blockEvents g playerID blockerPos attackerPos) ∧
    (∀ cardNo position targets s1 err,
      s.PlayCard gameID playerID cardNo position targets = some (s1, err) →
      eventsFed s1 gameID =
        eventsFed s gameID ++ playEvents s.cardService g playerID cardNo targets) ∧
    (∀ s1 err, s.ChangePhase gameID playerID = some (s1, err) →
      eventsFed s gameID ++ [phaseEvent "phase_end" g.ActivePlayer g.CurrentPhase] <+:
        eventsFed s1 gameID) :=
  ⟨fun _ _ _ _ hrun => GameService.attack_events hg hrun,
   fun _ _ _ _ hrun => GameService.block_events hg hrun,
   fun _ _ _ _ _ hrun => GameService.playCard_events hg hrun,
   fun _ _ hrun => GameService.changePhase_first_event hg hrun⟩

/-- Witness of the amended C28: the Attack of player 2 in phase Draw of a match
whose active player is player 1. -/
theorem requests_feed_events_witness :
    eventsFed afterAttack "g1" =
      eventsFed (sampleService drawPhaseGame) "g1" ++ attackEvents drawPhaseGame 2 "a" "b" :=
  (requests_feed_events (sampleService drawPhaseGame) "g1" 2 drawPhaseGame rfl).1 "a" "b"
    afterAttack none rfl

/-! ## Lemmas: effects that leave every card in its zone -/

theorem rangeUpdate_blank (cardNo : String) (f : Friend → Friend)
    (hf : ∀ friend, (f friend).CardNo = friend.CardNo ∧ (f friend).TurnPlayed = friend.TurnPlayed) :
    ∀ (l l1 : List (String × Friend)), rangeUpdate cardNo f l = some l1 →
      l1.map (fun entry => (entry.1, ({ entry.2 with Power := 0, IsRest := false } : Friend))) =
        l.map (fun entry => (entry.1, ({ entry.2 with Power := 0, IsRest := false } : Friend))) := by
  intro l
  induction l with
  | nil =>
    intro l1 h
    simp [rangeUpdate] at h
  | cons entry rest ih =>
    intro l1 h
    obtain ⟨pos, friend⟩ := entry
    rw [rangeUpdate] at h
    by_cases hc : friend.CardNo = cardNo
    · rw [if_pos hc, Option.some.injEq] at h
      subst h
      simp only [List.map_cons, (hf friend).1, (hf friend).2]
    · rw [if_neg hc] at h
      cases hr : rangeUpdate cardNo f rest with
      | none => simp [hr] at h
      | some r =>
        simp only [hr, Option.map_some', Option.some.injEq] at h
        subst h
        simp only [List.map_cons, ih r hr]

theorem updateFriend_cards (game : Game) (player : Int) (cardNo : String) (f : Friend → Friend)
    (hf : ∀ friend, (f friend).CardNo = friend.CardNo ∧ (f friend).TurnPlayed = friend.TurnPlayed) :
    cardsOf (updateFriend game player cardNo f).1 = cardsOf game := by
  unfold updateFriend
  cases hgs : game.GameState with
  | none => simp [hgs]
  | some gs =>
    simp only
    cases hr : rangeUpdate cardNo f
        (if player = 1 then gs.Player1State else gs.Player2State).BattleArea with
    | none => simp [hgs]
    | some ba =>
      have hb := rangeUpdate_blank cardNo f hf _ _ hr
      simp only [cardsOf, hgs, Option.map_some', Option.some.injEq]
      by_cases hp : player = 1
      · simp only [hp, if_true] at hb ⊢
        simp only [blankFriends, hb]
      · simp only [hp, if_false] at hb ⊢
        simp only [blankFriends, hb]

theorem RestFriend_cards (game : Game) (player : Int) (cardNo : String) :
    cardsOf (createGameContext.RestFriend game player cardNo).1 = cardsOf game :=
  updateFriend_cards game player cardNo _ (fun _ => ⟨rfl, rfl⟩)

theorem ActiveFriend_cards (game : Game) (player : Int) (cardNo : String) :
    cardsOf (createGameContext.ActiveFriend game player cardNo).1 = cardsOf game :=
  updateFriend_cards game player cardNo _ (fun _ => ⟨rfl, rfl⟩)

theorem ModifyPower_cards (game : Game) (player : Int) (cardNo : String) (amount : Int) :
    cardsOf (createGameContext.ModifyPower game player cardNo amount).1 = cardsOf game :=
  updateFriend_cards game player cardNo _ (fun _ => ⟨rfl, rfl⟩)

theorem cardsOf_isSome {g : Game} (h : (cardsOf g).isSome = true) :
    ∃ gs, g.GameState = some gs := by
  unfold cardsOf at h
  cases hgs : g.GameState with
  | none => simp [hgs] at h
  | some gs => exact ⟨gs, rfl⟩

theorem getPlayerState_of_cards {g : Game} (h : (cardsOf g).isSome = true) (player : Int) :
    ∃ playerState, createGameContext.GetPlayerState g player = some playerState := by
  obtain ⟨gs, hgs⟩ := cardsOf_isSome h
  unfold createGameContext.GetPlayerState
  rw [hgs]
  by_cases hp : player = 1
  · exact ⟨gs.Player1State, by simp [hp]⟩
  · exact ⟨gs.Player2State, by simp [hp]⟩

theorem boostLoop_cards (powerBoost : Int) :
    ∀ (cards : List String) (game : GameContext),
      cardsOf (boostLoop game powerBoost cards).1.Game = cardsOf game.Game := by
  intro cards
  induction cards with
  | nil => intro game; rfl
  | cons cardNo rest ih =>
    intro game
    rw [boostLoop]
    have hm := ModifyPower_cards game.Game game.ActivePlayer cardNo powerBoost
    cases hres : createGameContext.ModifyPower game.Game game.ActivePlayer cardNo powerBoost with
    | mk g err =>
      rw [hres] at hm
      cases err with
      | some e => exact hm
      | none =>
        simp only
        rw [ih]
        exact hm

theorem RestFriendEffect.apply_cards (e : RestFriendEffect) (source : Card) :
    ∀ (targets : List Target) (game : GameContext),
      cardsOf (e.Apply game source targets).1.Game = cardsOf game.Game := by
  intro targets
  induction targets with
  | nil => intro game; rfl
  | cons target rest ih =>
    intro game
    rw [RestFriendEffect.Apply]
    by_cases h1 : e.Action = "rest"
    · rw [if_pos h1]
      have hm := RestFriend_cards game.Game (scanPlayer target.Location) target.ID
      cases hres : createGameContext.RestFriend game.Game (scanPlayer target.Location)
          target.ID with
      | mk g err =>
        rw [hres] at hm
        cases err with
        | some er => exact hm
        | none =>
          simp only
          rw [ih]
          exact hm
    · rw [if_neg h1]
      by_cases h2 : e.Action = "active"
      · rw [if_pos h2]
        have hm := ActiveFriend_cards game.Game (scanPlayer target.Location) target.ID
        cases hres : createGameContext.ActiveFriend game.Game (scanPlayer target.Location)
            target.ID with
        | mk g err =>
          rw [hres] at hm
          cases err with
          | some er => exact hm
          | none =>
            simp only
            rw [ih]
            exact hm
      · rw [if_neg h2]
        exact ih game

theorem DestroyFriendEffect.applyLoop_cards :
    ∀ (targets : List Target) (game : GameContext),
      cardsOf (DestroyFriendEffect.applyLoop game targets).1.Game = cardsOf game.Game := by
  intro targets
  induction targets with
  | nil => intro game; rfl
  | cons target rest ih =>
    intro game
    rw [DestroyFriendEffect.applyLoop]
    simp only [createGameContext.DestroyFriend]
    exact ih _

theorem Effect.tame_of_plain {e : Effect}
    (hcan : ∀ game source, ∃ b, e.CanActivate game source = some b)
    (htar : ∀ game source, ∃ targets, e.GetTargets game source = some targets)
    (happ : ∀ game source targets, e.Apply game source targets = some (game, none)) :
    e.Tame :=
  fun game source _ =>
    ⟨hcan game source, htar game source, fun targets => ⟨game, none, happ game source targets, rfl⟩⟩

theorem activeState_of_cards {game : GameContext} (h : (cardsOf game.Game).isSome = true) :
    ∃ playerState, activeState game = some playerState :=
  getPlayerState_of_cards h _

theorem opponentState_of_cards {game : GameContext} (h : (cardsOf game.Game).isSome = true) :
    ∃ playerState, opponentState game = some playerState :=
  getPlayerState_of_cards h _

theorem DrawCardEffect_tame (e : DrawCardEffect) : e.toEffect.Tame :=
  Effect.tame_of_plain (fun _ _ => ⟨true, rfl⟩) (fun _ _ => ⟨[], rfl⟩) (fun _ _ _ => rfl)

theorem RevealAndPlaceDeckTopEffect_tame (e : RevealAndPlaceDeckTopEffect) : e.toEffect.Tame :=
  Effect.tame_of_plain (fun _ _ => ⟨true, rfl⟩) (fun _ _ => ⟨_, rfl⟩) (fun _ _ _ => rfl)

theorem HandSizePowerBoostEffect_tame (e : HandSizePowerBoostEffect) : e.toEffect.Tame :=
  Effect.tame_of_plain (fun _ _ => ⟨true, rfl⟩) (fun _ _ => ⟨[], rfl⟩) (fun _ _ _ => rfl)

theorem CanAttackImmediatelyEffect_tame (e : CanAttackImmediatelyEffect) : e.toEffect.Tame :=
  Effect.tame_of_plain (fun _ _ => ⟨true, rfl⟩) (fun _ _ => ⟨[], rfl⟩) (fun _ _ _ => rfl)

theorem DiscardNegativeEnergyEffect_tame (e : DiscardNegativeEnergyEffect) :
    e.toEffect.Tame := by
  intro game source hc
  obtain ⟨playerState, hps⟩ := activeState_of_cards hc
  refine ⟨Option.isSome_iff_exists.mp (by simp [DiscardNegativeEnergyEffect.toEffect,
    DiscardNegativeEnergyEffect.CanActivate, hps]), ?_, fun targets => ⟨game, none, rfl, rfl⟩⟩
  by_cases ho : e.Optional = false
  · exact Option.isSome_iff_exists.mp (by simp [DiscardNegativeEnergyEffect.toEffect,
      DiscardNegativeEnergyEffect.GetTargets, ho])
  · exact Option.isSome_iff_exists.mp (by simp [DiscardNegativeEnergyEffect.toEffect,
      DiscardNegativeEnergyEffect.GetTargets, ho, hps])

theorem ActivateByFlippingNegativeEnergyEffect_tame (e : ActivateByFlippingNegativeEnergyEffect) :
    e.toEffect.Tame := by
  intro game source hc
  obtain ⟨playerState, hps⟩ := activeState_of_cards hc
  exact ⟨Option.isSome_iff_exists.mp (by simp [ActivateByFlippingNegativeEnergyEffect.toEffect,
      ActivateByFlippingNegativeEnergyEffect.CanActivate, hps]),
    Option.isSome_iff_exists.mp (by simp [ActivateByFlippingNegativeEnergyEffect.toEffect,
      ActivateByFlippingNegativeEnergyEffect.GetTargets, hps]),
    fun targets => ⟨game, none, rfl, rfl⟩⟩

theorem DestroyFriendEffect_tame (e : DestroyFriendEffect) : e.toEffect.Tame := by
  intro game source hc
  obtain ⟨oppState, hps⟩ := getPlayerState_of_cards hc
    (createGameContext.GetOpponentPlayer game.ActivePlayer)
  have htar : ∃ targets, e.GetTargets game source = some targets :=
    Option.isSome_iff_exists.mp (by simp [DestroyFriendEffect.GetTargets, hps])
  refine ⟨?_, htar, ?_⟩
  · obtain ⟨targets, ht⟩ := htar
    exact Option.isSome_iff_exists.mp (by simp [DestroyFriendEffect.toEffect, DestroyFriendEffect.CanActivate, ht])
  · intro targets
    refine ⟨(e.Apply game source targets).1, (e.Apply game source targets).2, rfl, ?_⟩
    unfold DestroyFriendEffect.Apply
    by_cases h : targets.length = 0 ∧ e.RequireTarget = true
    · rw [if_pos h]
    · rw [if_neg h]
      exact DestroyFriendEffect.applyLoop_cards targets game

theorem RestFriendEffect_tame (e : RestFriendEffect) : e.toEffect.Tame := by
  intro game source hc
  obtain ⟨oppState, hopp⟩ := getPlayerState_of_cards hc
    (createGameContext.GetOpponentPlayer game.ActivePlayer)
  obtain ⟨playerState, hps⟩ := getPlayerState_of_cards hc game.ActivePlayer
  have htar : ∃ targets, e.GetTargets game source = some targets := by
    unfold RestFriendEffect.GetTargets
    by_cases h1 : e.Action = "rest"
    · exact Option.isSome_iff_exists.mp (by simp [h1, hopp])
    · by_cases h2 : e.Action = "active"
      · exact Option.isSome_iff_exists.mp (by simp [h1, h2, hps])
      · exact Option.isSome_iff_exists.mp (by simp [h1, h2])
  refine ⟨?_, htar, ?_⟩
  · obtain ⟨targets, ht⟩ := htar
    exact Option.isSome_iff_exists.mp (by simp [RestFriendEffect.toEffect, RestFriendEffect.CanActivate, ht])
  · intro targets
    exact ⟨(e.Apply game source targets).1, (e.Apply game source targets).2, rfl,
      RestFriendEffect.apply_cards e source targets game⟩

theorem FieldCountPowerBoostEffect_tame (e : FieldCountPowerBoostEffect) : e.toEffect.Tame := by
  intro game source hc
  obtain ⟨playerState, hps⟩ := activeState_of_cards hc
  obtain ⟨oppState, hopp⟩ := opponentState_of_cards hc
  refine ⟨⟨_, rfl⟩, ⟨[], rfl⟩, fun targets => ?_⟩
  have hloop := boostLoop_cards
    (wrapInt (FieldCountPowerBoostEffect.fieldCount playerState oppState source * e.PowerPerField))
    (playerState.BattleArea.map fun entry => entry.2.CardNo) game
  refine ⟨(boostLoop game
    (wrapInt (FieldCountPowerBoostEffect.fieldCount playerState oppState source * e.PowerPerField))
    (playerState.BattleArea.map fun entry => entry.2.CardNo)).1, (boostLoop game
    (wrapInt (FieldCountPowerBoostEffect.fieldCount playerState oppState source * e.PowerPerField))
    (playerState.BattleArea.map fun entry => entry.2.CardNo)).2, ?_, hloop⟩
  simp [FieldCountPowerBoostEffect.toEffect, FieldCountPowerBoostEffect.Apply, hps, hopp]

theorem NegativeEnergyPowerBoostEffect_tame (e : NegativeEnergyPowerBoostEffect) :
    e.toEffect.Tame := by
  intro game source hc
  obtain ⟨playerState, hps⟩ := activeState_of_cards hc
  refine ⟨⟨_, rfl⟩, ⟨[], rfl⟩, fun targets => ?_⟩
  have hloop := boostLoop_cards
    (wrapInt ((playerState.NegativeEnergy.length : Int) * e.PowerPerCard))
    (playerState.BattleArea.map fun entry => entry.2.CardNo) game
  refine ⟨(boostLoop game (wrapInt ((playerState.NegativeEnergy.length : Int) * e.PowerPerCard))
    (playerState.BattleArea.map fun entry => entry.2.CardNo)).1, (boostLoop game
    (wrapInt ((playerState.NegativeEnergy.length : Int) * e.PowerPerCard))
    (playerState.BattleArea.map fun entry => entry.2.CardNo)).2, ?_, hloop⟩
  simp [NegativeEnergyPowerBoostEffect.toEffect, NegativeEnergyPowerBoostEffect.Apply, hps]

theorem NewKurageboEffect_tame : NewKurageboEffect.toEffect.Tame := by
  intro game source hc
  obtain ⟨playerState, hps⟩ := activeState_of_cards hc
  exact ⟨Option.isSome_iff_exists.mp (by simp [DamageModifierEffect.toEffect, DamageModifierEffect.CanActivate,
      NewKurageboEffect, hps]), ⟨[], rfl⟩, fun targets => ⟨game, none, rfl, rfl⟩⟩

theorem NewMiharashidaiEffect_tame : NewMiharashidaiEffect.toEffect.Tame := by
  intro game source hc
  obtain ⟨playerState, hps⟩ := activeState_of_cards hc
  obtain ⟨oppState, hopp⟩ := opponentState_of_cards hc
  have hcan : ∃ b, NewMiharashidaiEffect.CanActivate game source = some b :=
    Option.isSome_iff_exists.mp (by simp [ConditionalPowerBoostEffect.CanActivate, NewMiharashidaiEffect, hps, hopp])
  refine ⟨hcan, ?_, fun targets => ⟨game, none, rfl, rfl⟩⟩
  obtain ⟨b, hb⟩ := hcan
  cases b with
  | false =>
    exact Option.isSome_iff_exists.mp (by simp [ConditionalPowerBoostEffect.toEffect,
      ConditionalPowerBoostEffect.GetTargets, hb])
  | true =>
    exact Option.isSome_iff_exists.mp (by simp [ConditionalPowerBoostEffect.toEffect,
      ConditionalPowerBoostEffect.GetTargets, hb, hps])

set_option maxRecDepth 20000 in
theorem registrations_tame (u : Undeclared) :
    ∀ entry ∈ registrations u, entry.1 ≠ "F-022" → entry.1 ≠ "F-022 (P)" →
      (entry.2.GetTrigger = TriggerOnAttack ∨ entry.2.GetTrigger = TriggerPersistent) →
      entry.2.Tame := by
  intro entry hmem
  simp only [registrations, List.mem_cons, List.mem_singleton, List.not_mem_nil,
    or_false] at hmem
  rcases hmem with
    rfl | rfl | rfl | rfl | rfl | rfl | rfl | rfl | rfl | rfl | rfl | rfl | rfl | rfl |
    rfl | rfl | rfl | rfl | rfl | rfl | rfl | rfl | rfl | rfl | rfl | rfl | rfl | rfl |
    rfl | rfl | rfl | rfl | rfl | rfl | rfl | rfl | rfl | rfl | rfl | rfl | rfl | rfl |
    rfl | rfl | rfl | rfl | rfl | rfl | rfl | rfl | rfl | rfl | rfl | rfl | rfl | rfl |
    rfl | rfl | rfl | rfl | rfl | rfl | rfl | rfl <;>
  first
    | (intro h; exact absurd rfl h)
    | (intro _ h; exact absurd rfl h)
    | (intro _ _ ht
       rcases ht with ht | ht
       · exact absurd ht (by decide)
       · exact absurd ht (by decide))
    | (intro _ _ _; exact DrawCardEffect_tame _)
    | (intro _ _ _; exact DestroyFriendEffect_tame _)
    | (intro _ _ _; exact RevealAndPlaceDeckTopEffect_tame _)
    | (intro _ _ _; exact DiscardNegativeEnergyEffect_tame _)
    | (intro _ _ _; exact RestFriendEffect_tame _)
    | (intro _ _ _; exact ActivateByFlippingNegativeEnergyEffect_tame _)
    | (intro _ _ _; exact HandSizePowerBoostEffect_tame _)
    | (intro _ _ _; exact CanAttackImmediatelyEffect_tame _)
    | (intro _ _ _; exact FieldCountPowerBoostEffect_tame _)
    | (intro _ _ _; exact NegativeEnergyPowerBoostEffect_tame _)
    | (intro _ _ _; exact NewKurageboEffect_tame)
    | (intro _ _ _; exact NewMiharashidaiEffect_tame)
    | (intro _ _ ht
       rcases ht with ht | ht <;>
       simp [MainPhasePowerBoostEffect.toEffect, NewNamidabukuronEffect, TriggerMain,
         TriggerOnAttack, TriggerPersistent] at ht)

theorem EventHandler.isCardOnField_onTable (h : EventHandler) (cardNo : String) :
    h.isCardOnField cardNo = onTable (cardsOf h.context.Game) cardNo := by
  unfold EventHandler.isCardOnField cardsOf onTable
  cases hgs : h.context.Game.GameState with
  | none => rfl
  | some gs =>
    simp only [Option.map_some', blankFriends, List.any_map]
    rfl

theorem EventHandler.isCardRelevant_onTable (h : EventHandler) (cardNo : String)
    (event : GameEvent) :
    h.isCardRelevant cardNo event =
      (decide (event.CardNo = cardNo) || onTable (cardsOf h.context.Game) cardNo) := by
  rw [← EventHandler.isCardOnField_onTable]
  unfold EventHandler.isCardRelevant EventHandler.isCardOnField
  by_cases hev : event.CardNo = cardNo
  · simp [hev]
  · simp [hev]

theorem EventHandler.triggerLoop_tame (r : EffectRegistry) (event : GameEvent)
    (cards : Option (PlayerState × PlayerState)) (hsome : cards.isSome = true) :
    ∀ (l : List String),
      (∀ cardNo ∈ l, (decide (event.CardNo = cardNo) || onTable cards cardNo) = true →
        ∃ e, r.GetEffect cardNo = some e ∧ e.Tame) →
      ∀ h : EventHandler, h.effectRegistry = r → cardsOf h.context.Game = cards →
        ∃ h1 err, EventHandler.triggerLoop h event l = some (h1, err) ∧
          h1.effectRegistry = r ∧ cardsOf h1.context.Game = cards := by
  intro l
  induction l with
  | nil =>
    intro _ h hr hc
    exact ⟨h, none, rfl, hr, hc⟩
  | cons cardNo rest ih =>
    intro htame h hr hc
    have hrest : ∀ cardNo ∈ rest,
        (decide (event.CardNo = cardNo) || onTable cards cardNo) = true →
        ∃ e, r.GetEffect cardNo = some e ∧ e.Tame :=
      fun c hmem => htame c (List.mem_cons_of_mem _ hmem)
    rw [EventHandler.triggerLoop]
    by_cases hrel : h.isCardRelevant cardNo event = true
    · rw [if_pos hrel]
      rw [EventHandler.isCardRelevant_onTable, hc] at hrel
      obtain ⟨e, hget, he⟩ := htame cardNo (List.mem_cons_self _ _) hrel
      rw [hr, hget]
      simp only
      have hc1 : (cardsOf ({ h.context with ActivePlayer := event.Player } : GameContext).Game).isSome
          = true := by
        show (cardsOf h.context.Game).isSome = true
        rw [hc]
        exact hsome
      obtain ⟨⟨b, hcan⟩, ⟨targets, htar⟩, happ⟩ :=
        he { h.context with ActivePlayer := event.Player } (EventHandler.loadCard cardNo) hc1
      rw [hcan]
      cases b with
      | false => exact ih hrest _ rfl hc
      | true =>
        simp only [htar]
        obtain ⟨game1, err, happ1, hcards⟩ := happ targets
        rw [happ1]
        have hc2 : cardsOf game1.Game = cards := by
          rw [hcards]
          exact hc
        cases err with
        | some er => exact ⟨_, _, rfl, rfl, hc2⟩
        | none => exact ih hrest _ rfl hc2
    · rw [if_neg hrel]
      exact ih hrest h hr hc

theorem EventHandler.persistentLoop_tame (r : EffectRegistry)
    (cards : Option (PlayerState × PlayerState)) (hsome : cards.isSome = true) :
    ∀ (l : List String),
      (∀ cardNo ∈ l, onTable cards cardNo = true → ∃ e, r.GetEffect cardNo = some e ∧ e.Tame) →
      ∀ h : EventHandler, h.effectRegistry = r → cardsOf h.context.Game = cards →
        ∃ h1, EventHandler.persistentLoop h l = some h1 ∧
          h1.effectRegistry = r ∧ cardsOf h1.context.Game = cards := by
  intro l
  induction l with
  | nil =>
    intro _ h hr hc
    exact ⟨h, rfl, hr, hc⟩
  | cons cardNo rest ih =>
    intro htame h hr hc
    have hrest : ∀ cardNo ∈ rest, onTable cards cardNo = true →
        ∃ e, r.GetEffect cardNo = some e ∧ e.Tame :=
      fun c hmem => htame c (List.mem_cons_of_mem _ hmem)
    rw [EventHandler.persistentLoop]
    by_cases hrel : h.isCardOnField cardNo = true
    · rw [if_pos hrel]
      rw [EventHandler.isCardOnField_onTable, hc] at hrel
      obtain ⟨e, hget, he⟩ := htame cardNo (List.mem_cons_self _ _) hrel
      rw [hr, hget]
      simp only
      have hc1 : (cardsOf ({ h.context with
          ActivePlayer := h.getCardController cardNo } : GameContext).Game).isSome = true := by
        show (cardsOf h.context.Game).isSome = true
        rw [hc]
        exact hsome
      obtain ⟨⟨b, hcan⟩, ⟨targets, htar⟩, happ⟩ :=
        he { h.context with ActivePlayer := h.getCardController cardNo }
          (EventHandler.loadCard cardNo) hc1
      rw [hcan]
      cases b with
      | false => exact ih hrest _ rfl hc
      | true =>
        simp only [htar]
        obtain ⟨game1, err, happ1, hcards⟩ := happ targets
        rw [happ1]
        have hc2 : cardsOf game1.Game = cards := by
          rw [hcards]
          exact hc
        exact ih hrest _ rfl hc2
    · rw [if_neg hrel]
      exact ih hrest h hr hc

theorem globalRegistry_candidates_tame (u : Undeclared) (trigger : TriggerType)
    (ht : trigger = TriggerOnAttack ∨ trigger = TriggerPersistent) :
    ∀ cardNo ∈ (GetGlobalRegistry u).GetEffectsForTrigger trigger,
      cardNo ≠ "F-022" → cardNo ≠ "F-022 (P)" →
      ∃ e, (GetGlobalRegistry u).GetEffect cardNo = some e ∧ e.Tame := by
  intro cardNo hmem h1 h2
  unfold EffectRegistry.GetEffectsForTrigger at hmem
  obtain ⟨entry, hentry, hkey⟩ := List.mem_map.mp hmem
  obtain ⟨hreg, htrig⟩ := List.mem_filter.mp hentry
  simp only [decide_eq_true_eq] at htrig
  subst hkey
  have hnodup : ((GetGlobalRegistry u).effects.map Prod.fst).Nodup := by
    have := globalRegistry_keys u
    unfold EffectRegistry.keys at this
    rw [this]
    exact registeredNumbers_nodup
  refine ⟨entry.2, EffectRegistry.getEffect_of_mem _ hnodup entry hreg, ?_⟩
  rw [globalRegistry_effects] at hreg
  refine registrations_tame u entry hreg h1 h2 ?_
  rcases ht with ht | ht
  · exact Or.inl (htrig.trans ht)
  · exact Or.inr (htrig.trans ht)

/-- On a handler with the registry of InitializeEffects whose game has a state
and neither F-022 nor F-022 (P) in play, an attack of another card is processed
without panic and leaves every card in its zone. -/
theorem EventHandler.attack_keeps_cards (u : Undeclared) (h : EventHandler) (event : GameEvent)
    (hreg : h.effectRegistry = GetGlobalRegistry u)
    (hkind : event.Kind = EventFriendAttacks)
    (hstate : (cardsOf h.context.Game).isSome = true)
    (hcard : event.CardNo ≠ "F-022" ∧ event.CardNo ≠ "F-022 (P)")
    (hjohnny : onTable (cardsOf h.context.Game) "F-022" = false ∧
      onTable (cardsOf h.context.Game) "F-022 (P)" = false) :
    ∃ h1 err, h.TriggerEvent event = some (h1, err) ∧
      h1.effectRegistry = h.effectRegistry ∧
      cardsOf h1.context.Game = cardsOf h.context.Game := by
  have htrig : ∀ h0 : EventHandler, h0.triggerFor event = some TriggerOnAttack := by
    intro h0
    unfold EventHandler.triggerFor
    rw [hkind]
    rfl
  have hone := EventHandler.triggerLoop_tame (GetGlobalRegistry u) event
    (cardsOf h.context.Game) hstate
    ((GetGlobalRegistry u).GetEffectsForTrigger TriggerOnAttack)
    (fun cardNo hmem hrel => by
      refine globalRegistry_candidates_tame u TriggerOnAttack (Or.inl rfl) cardNo hmem ?_ ?_
      · intro hc
        subst hc
        simp only [hjohnny.1, Bool.or_false, decide_eq_true_eq] at hrel
        exact hcard.1 hrel
      · intro hc
        subst hc
        simp only [hjohnny.2, Bool.or_false, decide_eq_true_eq] at hrel
        exact hcard.2 hrel)
    { h with eventQueue := h.eventQueue ++ [event] } hreg rfl
  obtain ⟨h1, err, hloop, hr1, hc1⟩ := hone
  unfold EventHandler.TriggerEvent EventHandler.processEvent
  simp only [htrig, hreg]
  simp only [hreg] at hloop
  simp only [hloop]
  cases err with
  | some er => exact ⟨h1, some er, rfl, hr1, hc1⟩
  | none =>
    have hpers := EventHandler.persistentLoop_tame (GetGlobalRegistry u)
      (cardsOf h.context.Game) hstate
      ((GetGlobalRegistry u).GetEffectsForTrigger TriggerPersistent)
      (fun cardNo hmem hrel => by
        refine globalRegistry_candidates_tame u TriggerPersistent (Or.inr rfl) cardNo hmem
          ?_ ?_
        · intro hc
          subst hc
          rw [hjohnny.1] at hrel
          exact absurd hrel (by decide)
        · intro hc
          subst hc
          rw [hjohnny.2] at hrel
          exact absurd hrel (by decide))
      h1 hr1 hc1
    obtain ⟨h2, hp, hr2, hc2⟩ := hpers
    refine ⟨h2, none, ?_, hr2, hc2⟩
    simp only
    unfold EventHandler.processPersistentEffects
    rw [hr1, hp]
    rfl

theorem handAndDeck_of_cards {g g1 : Game} (h : cardsOf g1 = cardsOf g) (player : Int) :
    handAndDeck g1 player = handAndDeck g player := by
  unfold cardsOf at h
  unfold handAndDeck playerOf statePointer
  cases hg : g.GameState with
  | none =>
    cases hg1 : g1.GameState with
    | none => rfl
    | some gs1 => simp [hg, hg1] at h
  | some gs =>
    cases hg1 : g1.GameState with
    | none => simp [hg, hg1] at h
    | some gs1 =>
      simp only [hg, hg1, Option.map_some', Option.some.injEq, Prod.mk.injEq, blankFriends,
        PlayerState.mk.injEq] at h
      simp only [Option.map_some', Option.some.injEq, Prod.mk.injEq]
      by_cases hp : player = 1
      · simp only [hp, if_true]
        exact ⟨h.1.2.1, h.1.1⟩
      · simp only [hp, if_false]
        exact ⟨h.2.2.1, h.2.1⟩

set_option maxRecDepth 100000 in
/-- C26, on the failing input: player 1 holds one card, has two cards in the
deck and attacks with the friend F-006, whose registered effect is the draw of
one card on attack. The request completes without error, and in the stored
match player 1 still holds one card and has two cards in the deck: no card is
drawn, where the hand is due to hold two cards and the deck one. -/
theorem Attack_draws_no_card :
    ((globalService drawGame).Attack "g1" 1 "a" "b").map
        (fun r => (r.2, (r.1.db "g1").map fun g1 => handAndDeck g1 1)) =
      some (none, some (some (["F-003"], ["F-001", "F-002"]))) ∧
    handAndDeck drawGame 1 = some (["F-003"], ["F-001", "F-002"]) ∧
    (((GetGlobalRegistry sampleUndeclared).GetEffect "F-006").map
        fun e => (e.GetTrigger, e.GetDescription)) =
      some ("on_attack", "このふれんどがアタックした時、自分はデッキから1枚ドローする。") := by
  decide

/-- The attack of a friend whose registered effect is the draw of one card on
attack (F-006, F-011 or their promo numbers) completes without panic and
leaves the hand and the deck of every player as they were, in the stored match
and in the match of the handler: the draw operation of the game context is a
stub that moves no card. The handler that serves the request has the registry
of InitializeEffects and a game with state in which F-022 is not in play (its
effect acts on the deck through an operation that the game context does not
declare). -/
theorem Attack_keeps_hand_and_deck (u : Undeclared) (s : GameService) (gameID : String)
    (playerID : Nat) (attackerPos targetPos : String) (g : Game) (player : Int)
    (attacker : Friend)
    (hg : s.db gameID = some g)
    (hplayer : GameService.playerNumber g playerID = some player)
    (hfriend : ((playerOf g player).bind fun playerState =>
      friendAt playerState.BattleArea attackerPos) = some attacker)
    (hdraw : attacker.CardNo ∈ drawOnAttack)
    (hreg : (handlerFor s gameID g).effectRegistry = GetGlobalRegistry u)
    (hstate : (cardsOf (handlerFor s gameID g).context.Game).isSome = true)
    (hjohnny : onTable (cardsOf (handlerFor s gameID g).context.Game) "F-022" = false ∧
      onTable (cardsOf (handlerFor s gameID g).context.Game) "F-022 (P)" = false) :
    ∃ s1 err g1 h1, s.Attack gameID playerID attackerPos targetPos = some (s1, err) ∧
      s1.db gameID = some g1 ∧
      (∀ p, handAndDeck g1 p = handAndDeck g p) ∧
      s1.eventHandler gameID = some h1 ∧
      (∀ p, handAndDeck h1.context.Game p =
        handAndDeck (handlerFor s gameID g).context.Game p) := by
  have hcard : attacker.CardNo ≠ "F-022" ∧ attacker.CardNo ≠ "F-022 (P)" := by
    simp only [drawOnAttack, List.mem_cons, List.mem_singleton, List.not_mem_nil,
      or_false] at hdraw
    rcases hdraw with h | h | h | h <;> rw [h] <;> decide
  obtain ⟨gs, hgs⟩ : ∃ gs, g.GameState = some gs := by
    cases hgs : g.GameState with
    | none => simp [playerOf, hgs] at hfriend
    | some gs => exact ⟨gs, rfl⟩
  have hfr : friendAt (statePointer gs player).BattleArea attackerPos = some attacker := by
    simpa [playerOf, hgs] using hfriend
  obtain ⟨h1, err, hrun, _, hcards⟩ := EventHandler.attack_keeps_cards u
    (handlerFor s gameID g)
    { Kind := EventFriendAttacks, Player := player, CardNo := attacker.CardNo,
      Target := targetPos, Phase := g.CurrentPhase, Data := [] }
    hreg rfl hstate hcard hjohnny
  have hshared : (s.getHandler gameID g).shared = true →
      (handlerFor s gameID g).context.Game = g := by
    unfold handlerFor GameService.getHandler
    cases s.eventHandler gameID with
    | none => intro _; rfl
    | some h0 => intro hs; simp at hs
  unfold handlerFor at hrun hcards hshared
  unfold GameService.Attack
  simp only [hg, GameService.getHandler_gameModel, hplayer, hgs, hfr,
    GameService.triggerAndSave, Call.TriggerEvent, hrun, Option.map_some']
  cases err with
  | some er =>
    refine ⟨_, _, g, h1, rfl, ?_, fun _ => rfl, ?_, fun p => handAndDeck_of_cards hcards p⟩
    · simp [GameService.putHandler, hg]
    · simp [GameService.putHandler]
  | none =>
    cases hsh : (s.getHandler gameID g).shared with
    | false =>
      refine ⟨_, _, g, h1, rfl, ?_, fun _ => rfl, ?_, fun p => handAndDeck_of_cards hcards p⟩
      · simp [GameService.save, GameService.getHandler_gameModel]
      · simp [GameService.save, GameService.putHandler]
    | true =>
      have hgame := hshared hsh
      rw [hgame] at hcards
      refine ⟨_, _, h1.context.Game, h1, rfl, ?_, fun p => handAndDeck_of_cards hcards p, ?_,
        fun p => by
          show handAndDeck h1.context.Game p =
            handAndDeck (s.getHandler gameID g).handler.context.Game p
          rw [hgame]
          exact handAndDeck_of_cards hcards p⟩
      · simp [GameService.save]
      · simp [GameService.save, GameService.putHandler]

set_option maxRecDepth 100000 in
/-- An instance of the attack that draws no card: player 1 attacks with the
friend F-006 on the service with the registry of InitializeEffects, which has
no handler yet. -/
theorem Attack_keeps_hand_and_deck_witness :
    ∃ s1 err g1 h1, (globalService drawGame).Attack "g1" 1 "a" "b" = some (s1, err) ∧
      s1.db "g1" = some g1 ∧
      (∀ p, handAndDeck g1 p = handAndDeck drawGame p) ∧
      s1.eventHandler "g1" = some h1 ∧
      (∀ p, handAndDeck h1.context.Game p =
        handAndDeck (handlerFor (globalService drawGame) "g1" drawGame).context.Game p) :=
  Attack_keeps_hand_and_deck sampleUndeclared (globalService drawGame) "g1" 1 "a" "b" drawGame 1
    { CardNo := "F-006", Power := 2000, IsRest := false, TurnPlayed := 1 }
    rfl rfl rfl (by decide) rfl (by decide) (by decide)

/-! ## Lemmas: filters of the target validator -/

theorem filterFriendsLoop_eq (targets : List Target) :
    ∀ filtered : List Target,
      filterFriendsLoop filtered targets =
        filtered ++ targets.filter (fun target => target.Kind = "friend") := by
  induction targets with
  | nil => intro filtered; simp [filterFriendsLoop]
  | cons target rest ih =>
    intro filtered
    rw [filterFriendsLoop]
    by_cases h : target.Kind = "friend"
    · rw [if_pos h, ih]
      simp [List.filter_cons, h]
    · rw [if_neg h, ih]
      simp [List.filter_cons, h]

/-- C40: the result of FilterFriendsByCost(targets, maxCost) does not depend on
maxCost: for every list of targets and every two thresholds the results are
equal, and the result is, in order, the targets whose type is `friend`, the
list that FilterTargetsByType(targets, "friend") returns. -/
theorem FilterFriendsByCost_ignores_cost (targets : List Target) (maxCost other : Int) :
    FilterFriendsByCost targets maxCost = FilterTargetsByType targets "friend" ∧
    FilterFriendsByCost targets maxCost = FilterFriendsByCost targets other ∧
    FilterFriendsByCost targets maxCost = targets.filter (fun target => target.Kind = "friend") := by
  have h : ∀ cost, FilterFriendsByCost targets cost =
      targets.filter (fun target => target.Kind = "friend") := by
    intro cost
    unfold FilterFriendsByCost
    rw [filterFriendsLoop_eq]
    rfl
  exact ⟨h maxCost, rfl, h maxCost⟩

/-! ## Lemmas: the pending choices -/

theorem InteractionController.store_single (c : InteractionController) (choice : PendingChoice)
    (h : c.pendingChoices = [] ∨ ∃ old, c.pendingChoices = [("choice_0", old)]) :
    (c.store "choice_0" choice).pendingChoices = [("choice_0", choice)] := by
  unfold InteractionController.store
  rcases h with h | ⟨old, h⟩
  · simp [h]
  · simp [h]

theorem InteractionController.submit_single (c : InteractionController) (choiceID : String)
    (selection : List Int)
    (h : c.pendingChoices = [] ∨ ∃ old, c.pendingChoices = [("choice_0", old)]) :
    (c.SubmitChoice choiceID selection).1.pendingChoices = [] ∨
      ∃ old, (c.SubmitChoice choiceID selection).1.pendingChoices = [("choice_0", old)] := by
  unfold InteractionController.SubmitChoice
  split
  · exact h
  · split
    · exact h
    · split
      · exact h
      · rcases h with h | ⟨old, h⟩
        · left
          simp [h]
        · by_cases hid : "choice_0" = choiceID
          · left
            simp [h, hid]
          · right
            exact ⟨old, by simp [h, hid]⟩

theorem generateChoiceID_eq : generateChoiceID = "choice_0" := by decide

theorem InteractionController.after_single (c : InteractionController) (call : ControllerCall)
    (h : c.pendingChoices = [] ∨ ∃ old, c.pendingChoices = [("choice_0", old)]) :
    (c.after call).pendingChoices = [] ∨
      ∃ old, (c.after call).pendingChoices = [("choice_0", old)] := by
  cases call with
  | requestTargets player validTargets minTargets maxTargets description =>
    right
    unfold InteractionController.after InteractionController.RequestTargetSelection
    simp only [generateChoiceID_eq]
    exact ⟨_, InteractionController.store_single c _ h⟩
  | requestOption player options description =>
    right
    unfold InteractionController.after InteractionController.RequestOptionSelection
    simp only [generateChoiceID_eq]
    exact ⟨_, InteractionController.store_single c _ h⟩
  | submit choiceID selection => exact InteractionController.submit_single c choiceID selection h

theorem controllerAfter_single (calls : List ControllerCall) :
    (controllerAfter calls).pendingChoices = [] ∨
      ∃ old, (controllerAfter calls).pendingChoices = [("choice_0", old)] := by
  unfold controllerAfter
  induction calls using List.reverseRecOn with
  | nil => left; rfl
  | append_singleton rest call ih =>
    rw [List.foldl_append]
    exact InteractionController.after_single _ call ih

/-- C35: every call of RequestTargetSelection and of RequestOptionSelection
returns the choice id `choice_0`. On a controller reached from a new one by
any run of requests and answers, the pending table holds at most one choice at
any time, and a request replaces the choice that was pending: after it the
table holds its choice alone, under `choice_0`, so an answer to `choice_0`
is checked against the last request and the earlier one cannot be answered. -/
theorem requests_share_one_choice_id (calls : List ControllerCall) (player : Int)
    (validTargets : List Target) (minTargets maxTargets : Int) (options : List String)
    (description : String) :
    ((controllerAfter calls).RequestTargetSelection player validTargets minTargets maxTargets
      description).2 = "choice_0" ∧
    ((controllerAfter calls).RequestOptionSelection player options description).2 = "choice_0" ∧
    (controllerAfter calls).pendingChoices.length ≤ 1 ∧
    ((controllerAfter calls).RequestTargetSelection player validTargets minTargets maxTargets
      description).1.pendingChoices =
      [("choice_0",
        { Player := player, ChoiceType := "target", Options := targetsToInterface validTargets,
          Required := decide (minTargets > 0), Description := description })] ∧
    ((controllerAfter calls).RequestOptionSelection player options description).1.pendingChoices =
      [("choice_0",
        { Player := player, ChoiceType := "option",
          Options := options.map ChoiceOption.option, Required := true,
          Description := description })] := by
  have hinv := controllerAfter_single calls
  refine ⟨generateChoiceID_eq, generateChoiceID_eq, ?_, ?_, ?_⟩
  · rcases hinv with h | ⟨old, h⟩
    · simp [h]
    · simp [h]
  · unfold InteractionController.RequestTargetSelection
    simp only [generateChoiceID_eq]
    exact InteractionController.store_single _ _ hinv
  · unfold InteractionController.RequestOptionSelection
    simp only [generateChoiceID_eq]
    exact InteractionController.store_single _ _ hinv

/-- A second request replaces the first: after an option request and a target
request the answer `[1]`, valid for the two options of the first request, is
refused, because the pending choice is the second request, with one target. -/
theorem second_request_replaces_first :
    (((InteractionController.NewInteractionController.RequestOptionSelection 1
        ["top", "bottom"] "first").1.RequestTargetSelection 1 [plainTarget] 1 1 "second").1.SubmitChoice
      "choice_0" [1]).2 = some "invalid selection index" ∧
    ((InteractionController.NewInteractionController.RequestOptionSelection 1
        ["top", "bottom"] "first").1.SubmitChoice "choice_0" [1]).2 = none := by
  decide

/-! ## Lemmas: triggers without a registered card -/

set_option maxRecDepth 100000 in
theorem globalRegistry_no_counter (u : Undeclared) :
    (GetGlobalRegistry u).GetEffectsForTrigger TriggerCounter = [] ∧
    (GetGlobalRegistry u).GetEffectsForTrigger TriggerOnDestroy = [] := by
  unfold EffectRegistry.GetEffectsForTrigger
  rw [globalRegistry_effects]
  exact ⟨rfl, rfl⟩

/-- C38: in the registry built by InitializeEffects no card number is found
for the trigger counter and none for the trigger on_destroy. So on a handler
with this registry the one-shot pass of a friend_destroyed event, and of a
support_played event while the current phase of the match is not Main, runs
over no candidate and applies no effect: processEvent goes straight to the
persistent pass and returns no error. -/
theorem no_counter_and_no_destroy_effect (u : Undeclared) :
    (GetGlobalRegistry u).GetEffectsForTrigger TriggerCounter = [] ∧
    (GetGlobalRegistry u).GetEffectsForTrigger TriggerOnDestroy = [] ∧
    (∀ entry ∈ (GetGlobalRegistry u).effects,
      entry.2.GetTrigger ≠ "counter" ∧ entry.2.GetTrigger ≠ "on_destroy") ∧
    ∀ (h : EventHandler) (event : GameEvent), h.effectRegistry = GetGlobalRegistry u →
      (event.Kind = EventFriendDestroyed ∨
        (event.Kind = EventSupportPlayed ∧ h.context.Game.CurrentPhase ≠ PhaseMain)) →
      h.processEvent event = (h.processPersistentEffects).map fun h1 => (h1, none) := by
  obtain ⟨hc, hd⟩ := globalRegistry_no_counter u
  refine ⟨hc, hd, ?_, ?_⟩
  · intro entry hmem
    constructor
    · intro ht
      have : entry.1 ∈ (GetGlobalRegistry u).GetEffectsForTrigger TriggerCounter := by
        unfold EffectRegistry.GetEffectsForTrigger
        exact List.mem_map_of_mem Prod.fst (List.mem_filter.mpr ⟨hmem, by simpa using ht⟩)
      rw [hc] at this
      simp at this
    · intro ht
      have : entry.1 ∈ (GetGlobalRegistry u).GetEffectsForTrigger TriggerOnDestroy := by
        unfold EffectRegistry.GetEffectsForTrigger
        exact List.mem_map_of_mem Prod.fst (List.mem_filter.mpr ⟨hmem, by simpa using ht⟩)
      rw [hd] at this
      simp at this
  · intro h event hreg hkind
    unfold EventHandler.processEvent
    rcases hkind with hk | ⟨hk, hphase⟩
    · have htrig : h.triggerFor event = some TriggerOnDestroy := by
        unfold EventHandler.triggerFor
        rw [hk]
        rfl
      simp only [htrig, hreg, hd, EventHandler.triggerLoop]
    · have htrig : h.triggerFor event = some TriggerCounter := by
        unfold EventHandler.triggerFor
        rw [hk, if_neg hphase]
        rfl
      simp only [htrig, hreg, hc, EventHandler.triggerLoop]

/-- C33, on the failing input: the effect of F-089 is evaluated for player 2
while the active player of the match is player 1, and player 2 holds two cards
against none of player 1. CanActivate returns true. On every game with state
it returns the result of the comparison of the two hands, whoever the active
player of the match is: the test of the turn compares the active player of the
context with itself. -/
theorem Miharashidai_active_off_turn :
    offTurnContext.ActivePlayer = 2 ∧ offTurnContext.Game.ActivePlayer = 1 ∧
    NewMiharashidaiEffect.toEffect.CanActivate offTurnContext { CardNo := "F-089", Power := 0 } =
      some true ∧
    ∀ (game : GameContext) (source : Card) (playerState oppState : PlayerState),
      activeState game = some playerState → opponentState game = some oppState →
      NewMiharashidaiEffect.toEffect.CanActivate game source =
        some (decide (playerState.Hand.length > oppState.Hand.length)) := by
  refine ⟨rfl, rfl, by decide, ?_⟩
  intro game source playerState oppState hps hopp
  simp [ConditionalPowerBoostEffect.toEffect, ConditionalPowerBoostEffect.CanActivate,
    NewMiharashidaiEffect, hps, hopp]

/-- C34, on the failing input: the effect of F-066 is evaluated for player 1
on `battleGame`, where player 1 has the friends F-002 and F-005 and no F-016.
CanActivate returns false, so the router, which applies an effect only when
CanActivate is true, does not apply the draw of two cards. With F-016 in the
battle area of the player it returns true. On every game with state the result
is the test for F-016 or F-016 (P) in the battle area of the active player of
the context. -/
theorem MasashiKuragebo_needs_Kuragebo :
    NewMasashiKurageboEffect.toEffect.CanActivate battleContext { CardNo := "F-066", Power := 0 } =
      some false ∧
    NewMasashiKurageboEffect.toEffect.CanActivate kurageboContext
      { CardNo := "F-066", Power := 0 } = some true ∧
    ∀ (game : GameContext) (source : Card) (playerState : PlayerState),
      activeState game = some playerState →
      NewMasashiKurageboEffect.toEffect.CanActivate game source =
        some (playerState.BattleArea.any fun entry =>
          decide (entry.2.CardNo = "F-016" ∨ entry.2.CardNo = "F-016 (P)")) := by
  refine ⟨by decide, by decide, ?_⟩
  intro game source playerState hps
  simp only [CompositeEffect.toEffect, CompositeEffect.CanActivate, NewMasashiKurageboEffect,
    CompositeEffect.canActivateLoop, DrawCardEffect.toEffect, DrawCardEffect.CanActivate,
    ConditionalDestroyEffect.toEffect, ConditionalDestroyEffect.CanActivate,
    masashiKurageboDestroy, hps, Option.map_some']
  cases playerState.BattleArea.any fun entry =>
      decide (entry.2.CardNo = "F-016" ∨ entry.2.CardNo = "F-016 (P)") <;> rfl

set_option maxRecDepth 100000 in
/-- C32, on the failing input: player 1 attacks with F-055 while player 2 has
the two active friends F-001 and F-005. GetTargets of the effect returns both
friends, the event is processed without error and both friends of player 2 are
rested afterwards, not one of them. -/
theorem Ko2_rests_every_active_friend :
    restFlags ko2Game = some [false, false] ∧
    (NewKo2Effect.GetTargets { Game := ko2Game, ActivePlayer := 1 }
        (EventHandler.loadCard "F-055")).map (fun targets => targets.map fun t => t.ID) =
      some ["F-001", "F-005"] ∧
    ((sampleHandler ko2Game).TriggerEvent (sampleEvent EventFriendAttacks "F-055")).map
        (fun r => (r.2, restFlags r.1.context.Game)) =
      some (none, some [true, true]) ∧
    NewKo2Effect.toEffect.GetDescription = "このふれんどがアタックした時、相手のふれんど1体をレストする。" := by
  decide

/-! ## Lemmas: the location of a target read back -/

theorem scanPlayer_battleAreaLocation (player : Int) (pos : String)
    (hp : player = 1 ∨ player = 2) : scanPlayer (battleAreaLocation player pos) = player := by
  have hlist : ∀ d : Char, (("battle_area_" ++ String.mk [d] ++ "_" ++ pos).toList) =
      "battle_area_".toList ++ (d :: '_' :: pos.toList) := by
    intro d
    simp only [String.toList, String.data_append]
    rfl
  rcases hp with rfl | rfl
  · have hf : fmtInt 1 = String.mk ['1'] := by decide
    unfold scanPlayer battleAreaLocation
    rw [hf, hlist]
    rfl
  · have hf : fmtInt 2 = String.mk ['2'] := by decide
    unfold scanPlayer battleAreaLocation
    rw [hf, hlist]
    rfl

theorem GetOpponentPlayer_one_or_two (player : Int) :
    createGameContext.GetOpponentPlayer player = 1 ∨
      createGameContext.GetOpponentPlayer player = 2 := by
  unfold createGameContext.GetOpponentPlayer
  by_cases h : player = 1
  · rw [if_pos h]
    exact Or.inr rfl
  · rw [if_neg h]
    exact Or.inl rfl

theorem collectTargets_foundIn (game : Game) (owner : Int) (ps : PlayerState)
    (keep : Friend → Bool) (mk : String → Friend → Target)
    (hown : owner = 1 ∨ owner = 2)
    (hps : createGameContext.GetPlayerState game owner = some ps)
    (hid : ∀ pos friend, (mk pos friend).ID = friend.CardNo)
    (hloc : ∀ pos friend, (mk pos friend).Location = battleAreaLocation owner pos)
    (target : Target) (hmem : target ∈ collectTargets keep mk ps.BattleArea) :
    (owner = 1 ∨ owner = 2) ∧ foundIn game owner target ∧
      scanPlayer target.Location = owner := by
  rw [collectTargets_eq] at hmem
  obtain ⟨entry, hentry, rfl⟩ := List.mem_map.mp hmem
  have hin : (entry.1, entry.2) ∈ ps.BattleArea := (List.mem_filter.mp hentry).1
  refine ⟨hown, ⟨ps, entry.1, entry.2, hps, hin, hid _ _, hloc _ _⟩, ?_⟩
  rw [hloc]
  exact scanPlayer_battleAreaLocation owner entry.1 hown

/-- C36: let the active player of the context be player 1 or player 2. Every
target returned by GetTargets of a PowerModifierEffect, a DestroyFriendEffect,
a ReturnToHandEffect or a RestFriendEffect was found in the battle area of a
player `owner`, who is player 1 or 2; the player number read back from the
location of the target is `owner`; and Apply, on a list that starts with this
target, calls the facade operation (ModifyPower, DestroyFriend, ReturnToHand,
RestFriend or ActiveFriend) with `owner` and the card number of the target. -/
theorem Apply_reads_back_owner (game : GameContext) (source : Card)
    (hp : game.ActivePlayer = 1 ∨ game.ActivePlayer = 2) :
    (∀ (e : PowerModifierEffect) (targets : List Target),
      e.GetTargets game source = some targets → ∀ target ∈ targets, ∃ owner : Int,
        (owner = 1 ∨ owner = 2) ∧ foundIn game.Game owner target ∧
        scanPlayer target.Location = owner ∧
        ∀ (game1 : GameContext) (rest : List Target),
          e.Apply game1 source (target :: rest) =
            match createGameContext.ModifyPower game1.Game owner target.ID e.Amount with
            | (g, some err) => ({ game1 with Game := g }, some err)
            | (g, none) => e.Apply { game1 with Game := g } source rest) ∧
    (∀ (e : DestroyFriendEffect) (targets : List Target),
      e.GetTargets game source = some targets → ∀ target ∈ targets, ∃ owner : Int,
        (owner = 1 ∨ owner = 2) ∧ foundIn game.Game owner target ∧
        scanPlayer target.Location = owner ∧
        ∀ (game1 : GameContext) (rest : List Target),
          e.Apply game1 source (target :: rest) =
            match createGameContext.DestroyFriend game1.Game owner target.ID with
            | (g, some err) => ({ game1 with Game := g }, some err)
            | (g, none) => DestroyFriendEffect.applyLoop { game1 with Game := g } rest) ∧
    (∀ (e : ReturnToHandEffect) (targets : List Target),
      e.GetTargets game source = some targets → ∀ target ∈ targets, ∃ owner : Int,
        (owner = 1 ∨ owner = 2) ∧ foundIn game.Game owner target ∧
        scanPlayer target.Location = owner ∧
        ∀ (game1 : GameContext) (rest : List Target),
          e.Apply game1 source (target :: rest) =
            match createGameContext.ReturnToHand game1.Game owner target.ID with
            | (g, some err) => ({ game1 with Game := g }, some err)
            | (g, none) => ReturnToHandEffect.applyLoop { game1 with Game := g } rest) ∧
    (∀ (e : RestFriendEffect) (targets : List Target),
      e.GetTargets game source = some targets → ∀ target ∈ targets, ∃ owner : Int,
        (owner = 1 ∨ owner = 2) ∧ foundIn game.Game owner target ∧
        scanPlayer target.Location = owner ∧
        ∀ (game1 : GameContext) (rest : List Target),
          e.Apply game1 source (target :: rest) =
            if e.Action = "rest" then
              match createGameContext.RestFriend game1.Game owner target.ID with
              | (g, some err) => ({ game1 with Game := g }, some err)
              | (g, none) => e.Apply { game1 with Game := g } source rest
            else if e.Action = "active" then
              match createGameContext.ActiveFriend game1.Game owner target.ID with
              | (g, some err) => ({ game1 with Game := g }, some err)
              | (g, none) => e.Apply { game1 with Game := g } source rest
            else e.Apply game1 source rest) := by
  have hopp := GetOpponentPlayer_one_or_two game.ActivePlayer
  refine ⟨?_, ?_, ?_, ?_⟩
  · intro e targets hget target hmem
    have key : ∃ owner : Int, (owner = 1 ∨ owner = 2) ∧ foundIn game.Game owner target ∧
        scanPlayer target.Location = owner := by
      unfold PowerModifierEffect.GetTargets at hget
      simp only at hget
      split_ifs at hget with h1 h2 h3
      · cases hps : createGameContext.GetPlayerState game.Game game.ActivePlayer with
        | none => rw [hps] at hget; exact absurd hget (by simp)
        | some ps =>
          rw [hps] at hget
          simp only [Option.map_some', Option.some.injEq] at hget
          subst hget
          exact ⟨_, collectTargets_foundIn game.Game _ ps _ _ hp hps (fun _ _ => rfl)
            (fun _ _ => rfl) target hmem⟩
      · cases hps : createGameContext.GetPlayerState game.Game game.ActivePlayer with
        | none => rw [hps] at hget; exact absurd hget (by simp)
        | some ps =>
          rw [hps] at hget
          simp only [Option.map_some', Option.some.injEq] at hget
          subst hget
          exact ⟨_, collectTargets_foundIn game.Game _ ps _ _ hp hps (fun _ _ => rfl)
            (fun _ _ => rfl) target hmem⟩
      · cases hps : createGameContext.GetPlayerState game.Game
            (createGameContext.GetOpponentPlayer game.ActivePlayer) with
        | none => rw [hps] at hget; exact absurd hget (by simp)
        | some ps =>
          rw [hps] at hget
          simp only [Option.map_some', Option.some.injEq] at hget
          subst hget
          exact ⟨_, collectTargets_foundIn game.Game _ ps _ _ hopp hps (fun _ _ => rfl)
            (fun _ _ => rfl) target hmem⟩
      · simp only [Option.some.injEq] at hget
        subst hget
        exact absurd hmem (List.not_mem_nil _)
    obtain ⟨owner, hown, hfound, hscan⟩ := key
    refine ⟨owner, hown, hfound, hscan, ?_⟩
    intro game1 rest
    rewrite [PowerModifierEffect.Apply, hscan]
    rfl
  · intro e targets hget target hmem
    have key : ∃ owner : Int, (owner = 1 ∨ owner = 2) ∧ foundIn game.Game owner target ∧
        scanPlayer target.Location = owner := by
      unfold DestroyFriendEffect.GetTargets at hget
      simp only at hget
      cases hps : createGameContext.GetPlayerState game.Game
          (createGameContext.GetOpponentPlayer game.ActivePlayer) with
      | none => rw [hps] at hget; exact absurd hget (by simp)
      | some ps =>
        rw [hps] at hget
        simp only [Option.map_some', Option.some.injEq] at hget
        subst hget
        exact ⟨_, collectTargets_foundIn game.Game _ ps _ _ hopp hps (fun _ _ => rfl)
          (fun _ _ => rfl) target hmem⟩
    obtain ⟨owner, hown, hfound, hscan⟩ := key
    refine ⟨owner, hown, hfound, hscan, ?_⟩
    intro game1 rest
    have hlen : ¬((target :: rest).length = 0 ∧ e.RequireTarget = true) := by simp
    rewrite [DestroyFriendEffect.Apply, if_neg hlen, DestroyFriendEffect.applyLoop, hscan]
    rfl
  · intro e targets hget target hmem
    have key : ∃ owner : Int, (owner = 1 ∨ owner = 2) ∧ foundIn game.Game owner target ∧
        scanPlayer target.Location = owner := by
      unfold ReturnToHandEffect.GetTargets at hget
      simp only at hget
      split_ifs at hget with h1
      · cases hps : createGameContext.GetPlayerState game.Game
            (createGameContext.GetOpponentPlayer game.ActivePlayer) with
        | none => rw [hps] at hget; exact absurd hget (by simp)
        | some ps =>
          rw [hps] at hget
          simp only [Option.map_some', Option.some.injEq] at hget
          subst hget
          exact ⟨_, collectTargets_foundIn game.Game _ ps _ _ hopp hps (fun _ _ => rfl)
            (fun _ _ => rfl) target hmem⟩
      · simp only [Option.some.injEq] at hget
        subst hget
        exact absurd hmem (List.not_mem_nil _)
    obtain ⟨owner, hown, hfound, hscan⟩ := key
    refine ⟨owner, hown, hfound, hscan, ?_⟩
    intro game1 rest
    have hlen : ¬((target :: rest).length = 0 ∧ e.RequireTarget = true) := by simp
    rewrite [ReturnToHandEffect.Apply, if_neg hlen, ReturnToHandEffect.applyLoop, hscan]
    rfl
  · intro e targets hget target hmem
    have key : ∃ owner : Int, (owner = 1 ∨ owner = 2) ∧ foundIn game.Game owner target ∧
        scanPlayer target.Location = owner := by
      unfold RestFriendEffect.GetTargets at hget
      simp only at hget
      split_ifs at hget with h1 h2
      · cases hps : createGameContext.GetPlayerState game.Game
            (createGameContext.GetOpponentPlayer game.ActivePlayer) with
        | none => rw [hps] at hget; exact absurd hget (by simp)
        | some ps =>
          rw [hps] at hget
          simp only [Option.map_some', Option.some.injEq] at hget
          subst hget
          exact ⟨_, collectTargets_foundIn game.Game _ ps _ _ hopp hps (fun _ _ => rfl)
            (fun _ _ => rfl) target hmem⟩
      · cases hps : createGameContext.GetPlayerState game.Game game.ActivePlayer with
        | none => rw [hps] at hget; exact absurd hget (by simp)
        | some ps =>
          rw [hps] at hget
          simp only [Option.map_some', Option.some.injEq] at hget
          subst hget
          exact ⟨_, collectTargets_foundIn game.Game _ ps _ _ hp hps (fun _ _ => rfl)
            (fun _ _ => rfl) target hmem⟩
      · simp only [Option.some.injEq] at hget
        subst hget
        exact absurd hmem (List.not_mem_nil _)
    obtain ⟨owner, hown, hfound, hscan⟩ := key
    refine ⟨owner, hown, hfound, hscan, ?_⟩
    intro game1 rest
    rewrite [RestFriendEffect.Apply, hscan]
    rfl

/-- Witness of C36: the effect of F-055 evaluated for player 1 on `battleGame`
returns the friend F-001 of player 2 as its only target, with the location
battle_area_2_a; the player read back is 2. -/
theorem Apply_reads_back_owner_witness :
    (battleContext.ActivePlayer = 1 ∨ battleContext.ActivePlayer = 2) ∧
    NewKo2Effect.GetTargets battleContext (EventHandler.loadCard "F-055") =
      some [{ Kind := "friend", ID := "F-001", Location := "battle_area_2_a", Data := none }] ∧
    ∃ owner : Int, (owner = 1 ∨ owner = 2) ∧
      foundIn battleContext.Game owner
        { Kind := "friend", ID := "F-001", Location := "battle_area_2_a", Data := none } ∧
      scanPlayer "battle_area_2_a" = owner ∧
      ∀ (game1 : GameContext) (rest : List Target),
        NewKo2Effect.Apply game1 (EventHandler.loadCard "F-055")
            ({ Kind := "friend", ID := "F-001", Location := "battle_area_2_a", Data := none } ::
              rest) =
          if NewKo2Effect.Action = "rest" then
            match createGameContext.RestFriend game1.Game owner "F-001" with
            | (g, some err) => ({ game1 with Game := g }, some err)
            | (g, none) => NewKo2Effect.Apply { game1 with Game := g } (EventHandler.loadCard "F-055") rest
          else if NewKo2Effect.Action = "active" then
            match createGameContext.ActiveFriend game1.Game owner "F-001" with
            | (g, some err) => ({ game1 with Game := g }, some err)
            | (g, none) => NewKo2Effect.Apply { game1 with Game := g } (EventHandler.loadCard "F-055") rest
          else NewKo2Effect.Apply game1 (EventHandler.loadCard "F-055") rest :=
  ⟨Or.inl rfl, by decide,
    (Apply_reads_back_owner battleContext (EventHandler.loadCard "F-055") (Or.inl rfl)).2.2.2 NewKo2Effect
      [{ Kind := "friend", ID := "F-001", Location := "battle_area_2_a", Data := none }]
      (by decide)
      { Kind := "friend", ID := "F-001", Location := "battle_area_2_a", Data := none }
      (List.mem_singleton.mpr rfl)⟩

/-! ## Lemmas: deck validation -/

theorem copiesMessage_ne_countMessage : copiesMessage ≠ countMessage := by decide

theorem totalQuantity_cons (dc : DeckCard) (rest : List DeckCard) :
    totalQuantity (dc :: rest) = dc.Quantity + totalQuantity rest := by
  simp [totalQuantity]

theorem copiesOf_cons (dc : DeckCard) (rest : List DeckCard) (cardNo : String) :
    copiesOf (dc :: rest) cardNo =
      (if dc.CardNo = cardNo then dc.Quantity else 0) + copiesOf rest cardNo := by
  unfold copiesOf
  by_cases h : dc.CardNo = cardNo
  · simp [List.filter_cons, h]
  · simp [List.filter_cons, h]

theorem totalQuantity_nonneg (cards : List DeckCard) (hq : ∀ dc ∈ cards, 0 ≤ dc.Quantity) :
    0 ≤ totalQuantity cards := by
  unfold totalQuantity
  apply List.sum_nonneg
  intro x hx
  obtain ⟨dc, hdc, rfl⟩ := List.mem_map.mp hx
  exact hq dc hdc

theorem copiesOf_nonneg (cards : List DeckCard) (hq : ∀ dc ∈ cards, 0 ≤ dc.Quantity)
    (cardNo : String) : 0 ≤ copiesOf cards cardNo := by
  unfold copiesOf
  apply List.sum_nonneg
  intro x hx
  obtain ⟨dc, hdc, rfl⟩ := List.mem_map.mp hx
  exact hq dc (List.mem_filter.mp hdc).1

theorem totalQuantity_perm {l1 l2 : List DeckCard} (h : l1.Perm l2) :
    totalQuantity l1 = totalQuantity l2 := by
  unfold totalQuantity
  exact (h.map _).sum_eq

theorem copiesOf_perm {l1 l2 : List DeckCard} (h : l1.Perm l2) (cardNo : String) :
    copiesOf l1 cardNo = copiesOf l2 cardNo := by
  unfold copiesOf
  exact ((h.filter _).map _).sum_eq

/-- The loop of the validation on entries with non-negative quantities whose
sum, added to the count so far, fits 64 bits: the error about copies when a
card number ends above 4, else the error about the count when the count does
not end at 50, else no error. -/
theorem validateLoop_spec (rest : List DeckCard) :
    ∀ (c : Int) (m : String → Int), (∀ dc ∈ rest, 0 ≤ dc.Quantity) → 0 ≤ c →
      c + totalQuantity rest ≤ maxInt → (∀ k, 0 ≤ m k ∧ m k ≤ 4 ∧ m k ≤ c) →
      ((∃ k, 4 < m k + copiesOf rest k) → validateLoop c m rest = some copiesMessage) ∧
      ((∀ k, m k + copiesOf rest k ≤ 4) →
        validateLoop c m rest =
          if c + totalQuantity rest ≠ 50 then some countMessage else none) := by
  induction rest with
  | nil =>
    intro c m _ _ _ hm
    constructor
    · rintro ⟨k, hk⟩
      have := (hm k).2.1
      simp [copiesOf] at hk
      omega
    · intro _
      simp [validateLoop, totalQuantity]
  | cons dc rest ih =>
    intro c m hq hc hfit hm
    have hq0 : 0 ≤ dc.Quantity := hq dc (List.mem_cons_self _ _)
    have hqr : ∀ x ∈ rest, 0 ≤ x.Quantity := fun x hx => hq x (List.mem_cons_of_mem _ hx)
    have htot := totalQuantity_nonneg rest hqr
    rw [totalQuantity_cons] at hfit
    have hmin : minInt ≤ 0 := by decide
    have hmd := hm dc.CardNo
    have hw1 : wrapInt (c + dc.Quantity) = c + dc.Quantity :=
      wrapInt_of_fits (by omega) (by omega)
    have hw2 : wrapInt (m dc.CardNo + dc.Quantity) = m dc.CardNo + dc.Quantity :=
      wrapInt_of_fits (by omega) (by omega)
    unfold validateLoop
    simp only [hw1, hw2]
    by_cases hgt : m dc.CardNo + dc.Quantity > 4
    · rw [if_pos hgt]
      constructor
      · intro _
        rfl
      · intro hall
        have h1 := hall dc.CardNo
        rw [copiesOf_cons, if_pos rfl] at h1
        have h2 := copiesOf_nonneg rest hqr dc.CardNo
        omega
    · rw [if_neg hgt]
      have hm1 : ∀ k, 0 ≤ (if k = dc.CardNo then m dc.CardNo + dc.Quantity else m k) ∧
          (if k = dc.CardNo then m dc.CardNo + dc.Quantity else m k) ≤ 4 ∧
          (if k = dc.CardNo then m dc.CardNo + dc.Quantity else m k) ≤ c + dc.Quantity := by
        intro k
        by_cases hk : k = dc.CardNo
        · simp only [if_pos hk]
          omega
        · simp only [if_neg hk]
          have := hm k
          omega
      have hsum : ∀ k, (if k = dc.CardNo then m dc.CardNo + dc.Quantity else m k) +
          copiesOf rest k = m k + copiesOf (dc :: rest) k := by
        intro k
        rw [copiesOf_cons]
        by_cases hk : k = dc.CardNo
        · subst hk
          simp only [if_true]
          omega
        · have hk1 : ¬ dc.CardNo = k := fun h => hk h.symm
          simp only [if_neg hk, if_neg hk1]
          omega
      have hrec := ih (c + dc.Quantity)
        (fun k => if k = dc.CardNo then m dc.CardNo + dc.Quantity else m k) hqr (by omega)
        (by omega) hm1
      constructor
      · rintro ⟨k, hk⟩
        apply hrec.1
        refine ⟨k, ?_⟩
        rw [hsum]
        exact hk
      · intro hall
        rw [hrec.2 (fun k => by rw [hsum]; exact hall k), totalQuantity_cons]
        have he : c + dc.Quantity + totalQuantity rest = c + (dc.Quantity + totalQuantity rest) := by
          omega
        rw [he]

theorem validate_spec (cards : List DeckCard) (hq : ∀ dc ∈ cards, 0 ≤ dc.Quantity)
    (hfit : totalQuantity cards ≤ maxInt) :
    ((∃ k, 4 < copiesOf cards k) → validateLoop 0 (fun _ => 0) cards = some copiesMessage) ∧
    ((∀ k, copiesOf cards k ≤ 4) →
      validateLoop 0 (fun _ => 0) cards =
        if totalQuantity cards ≠ 50 then some countMessage else none) := by
  have h := validateLoop_spec cards 0 (fun _ => 0) hq (le_refl 0) (by omega)
    (fun _ => ⟨le_refl 0, by norm_num, le_refl 0⟩)
  simp only [zero_add] at h
  exact h

/-- C31, counterexample: the five entries of `wrappedDeck` have non-negative
quantities, their sum is 18446744073709551666 and the entries with the card
number `A` sum to 9223372036854775858, so both rules are broken; the running
sums wrap around 64 bits, the count ends at 50 and no running sum of a card
number is seen above 4: Validate returns no error. -/
theorem Validate_accepts_wrapped_deck :
    (∀ dc ∈ wrappedDeck.Cards, 0 ≤ dc.Quantity) ∧
    wrappedDeck.Validate = none ∧
    totalQuantity wrappedDeck.Cards = 18446744073709551666 ∧
    copiesOf wrappedDeck.Cards "A" = 9223372036854775858 ∧
    ¬(totalQuantity wrappedDeck.Cards = 50 ∧ ∀ cardNo, copiesOf wrappedDeck.Cards cardNo ≤ 4) := by
  refine ⟨by decide, by decide, by decide, by decide, ?_⟩
  intro h
  exact absurd h.1 (by decide)

/-- C31, amended: for every deck whose entries have non-negative quantities
with a sum that fits 64 bits, Validate returns no error if and only if the
quantities sum to exactly 50 and, for every card number, the quantities of the
entries with that number sum to at most 4. When a card number has more than 4
copies the error is the one about copies, whatever the count; when no card
number has more than 4 copies and the sum is not 50 the error is the one about
the count. ValidateDeckCards of the deck service returns the same on the same
entries. -/
theorem Validate_iff_fifty_and_four (d : Deck) (hq : ∀ dc ∈ d.Cards, 0 ≤ dc.Quantity)
    (hfit : totalQuantity d.Cards ≤ maxInt) :
    (d.Validate = none ↔
      totalQuantity d.Cards = 50 ∧ ∀ cardNo, copiesOf d.Cards cardNo ≤ 4) ∧
    ((∃ cardNo, 4 < copiesOf d.Cards cardNo) → d.Validate = some copiesMessage) ∧
    ((∀ cardNo, copiesOf d.Cards cardNo ≤ 4) → totalQuantity d.Cards ≠ 50 →
      d.Validate = some countMessage) ∧
    ValidateDeckCards d.Cards = d.Validate := by
  obtain ⟨hcopies, hcount⟩ := validate_spec d.Cards hq hfit
  unfold Deck.Validate ValidateDeckCards
  refine ⟨⟨?_, ?_⟩, hcopies, ?_, rfl⟩
  · intro hnone
    by_cases hex : ∃ k, 4 < copiesOf d.Cards k
    · rw [hcopies hex] at hnone
      exact absurd hnone (by simp)
    · have hall : ∀ k, copiesOf d.Cards k ≤ 4 := fun k => not_lt.mp fun hk => hex ⟨k, hk⟩
      refine ⟨?_, hall⟩
      rw [hcount hall] at hnone
      by_contra hne
      rw [if_pos hne] at hnone
      exact absurd hnone (by simp)
  · rintro ⟨htotal, hall⟩
    rw [hcount hall, if_neg (not_not.mpr htotal)]
  · intro hall hne
    rw [hcount hall, if_pos hne]

/-- Witness of C31: the deck `fiftyDeck`, twelve card numbers with 4 copies and
one with 2. -/
theorem Validate_iff_fifty_and_four_witness :
    (∀ dc ∈ fiftyDeck.Cards, 0 ≤ dc.Quantity) ∧ totalQuantity fiftyDeck.Cards ≤ maxInt ∧
    ((fiftyDeck.Validate = none ↔
      totalQuantity fiftyDeck.Cards = 50 ∧ ∀ cardNo, copiesOf fiftyDeck.Cards cardNo ≤ 4) ∧
    ((∃ cardNo, 4 < copiesOf fiftyDeck.Cards cardNo) →
      fiftyDeck.Validate = some copiesMessage) ∧
    ((∀ cardNo, copiesOf fiftyDeck.Cards cardNo ≤ 4) → totalQuantity fiftyDeck.Cards ≠ 50 →
      fiftyDeck.Validate = some countMessage) ∧
    ValidateDeckCards fiftyDeck.Cards = fiftyDeck.Validate) :=
  ⟨by decide, by decide,
    Validate_iff_fifty_and_four fiftyDeck (by decide) (by decide)⟩

/-- C39, counterexample: the entries `A` with the quantity 5 and `A` with the
quantity -1. In this order the running sum of `A` is 5 after the first entry
and Validate returns the error about copies; in the other order the running
sums are -1 and 4 and Validate returns the error about the count. -/
theorem Validate_depends_on_order :
    (deckOfTwo { DeckID := 1, CardNo := "A", Quantity := 5 }
        { DeckID := 1, CardNo := "A", Quantity := -1 }).Cards.Perm
      (deckOfTwo { DeckID := 1, CardNo := "A", Quantity := -1 }
        { DeckID := 1, CardNo := "A", Quantity := 5 }).Cards ∧
    (deckOfTwo { DeckID := 1, CardNo := "A", Quantity := 5 }
      { DeckID := 1, CardNo := "A", Quantity := -1 }).Validate = some copiesMessage ∧
    (deckOfTwo { DeckID := 1, CardNo := "A", Quantity := -1 }
      { DeckID := 1, CardNo := "A", Quantity := 5 }).Validate = some countMessage ∧
    copiesMessage ≠ countMessage :=
  ⟨List.Perm.swap _ _ _, by decide, by decide, by decide⟩

/-- C39, amended: for two decks whose entries are a permutation of each other,
with non-negative quantities whose sum fits 64 bits, Validate returns the same
result: no error on both, or the same one of the two errors on both. -/
theorem Validate_order_independent (d1 d2 : Deck) (hperm : d1.Cards.Perm d2.Cards)
    (hq : ∀ dc ∈ d1.Cards, 0 ≤ dc.Quantity) (hfit : totalQuantity d1.Cards ≤ maxInt) :
    d1.Validate = d2.Validate := by
  have hq2 : ∀ dc ∈ d2.Cards, 0 ≤ dc.Quantity := fun dc hdc => hq dc (hperm.mem_iff.mpr hdc)
  have htot := totalQuantity_perm hperm
  have hcop := copiesOf_perm hperm
  have hfit2 : totalQuantity d2.Cards ≤ maxInt := by
    rw [← htot]
    exact hfit
  obtain ⟨hcopies1, hcount1⟩ := validate_spec d1.Cards hq hfit
  obtain ⟨hcopies2, hcount2⟩ := validate_spec d2.Cards hq2 hfit2
  unfold Deck.Validate
  by_cases hex : ∃ k, 4 < copiesOf d1.Cards k
  · obtain ⟨k, hk⟩ := hex
    have hk2 : 4 < copiesOf d2.Cards k := by
      rw [← hcop]
      exact hk
    rw [hcopies1 ⟨k, hk⟩, hcopies2 ⟨k, hk2⟩]
  · have hall : ∀ k, copiesOf d1.Cards k ≤ 4 := fun k => not_lt.mp fun hk => hex ⟨k, hk⟩
    have hall2 : ∀ k, copiesOf d2.Cards k ≤ 4 := fun k => by
      rw [← hcop]
      exact hall k
    rw [hcount1 hall, hcount2 hall2, htot]

/-- Witness of C39: the deck `fiftyDeck` and the deck with its entries in
the reverse order. -/
theorem Validate_order_independent_witness :
    fiftyDeck.Cards.Perm (deckOfList fiftyDeck.Cards.reverse).Cards ∧
    (∀ dc ∈ fiftyDeck.Cards, 0 ≤ dc.Quantity) ∧ totalQuantity fiftyDeck.Cards ≤ maxInt ∧
    fiftyDeck.Validate = (deckOfList fiftyDeck.Cards.reverse).Validate :=
  ⟨(List.reverse_perm _).symm, by decide, by decide,
    Validate_order_independent fiftyDeck (deckOfList fiftyDeck.Cards.reverse)
      (List.reverse_perm _).symm (by decide) (by decide)⟩

/-! ## Lemmas: the boost of every friend of a battle area -/

theorem rangeUpdate_append (cardNo : String) (f : Friend → Friend) (pos : String)
    (friend : Friend) (suf : List (String × Friend)) (hfriend : friend.CardNo = cardNo) :
    ∀ pre : List (String × Friend), (∀ entry ∈ pre, entry.2.CardNo ≠ cardNo) →
      rangeUpdate cardNo f (pre ++ (pos, friend) :: suf) =
        some (pre ++ (pos, f friend) :: suf) := by
  intro pre
  induction pre with
  | nil =>
    intro _
    simp [rangeUpdate, hfriend]
  | cons entry pre ih =>
    intro hpre
    obtain ⟨p, fr⟩ := entry
    have hne : fr.CardNo ≠ cardNo := hpre (p, fr) (List.mem_cons_self _ _)
    have hrest := ih fun x hx => hpre x (List.mem_cons_of_mem _ hx)
    show rangeUpdate cardNo f ((p, fr) :: (pre ++ (pos, friend) :: suf)) = _
    rw [rangeUpdate, if_neg hne, hrest]
    rfl

theorem activeState_contextWith (game : GameContext) (ps : PlayerState)
    (battleArea : List (String × Friend)) (hps : activeState game = some ps) :
    activeState (contextWith game battleArea) = some { ps with BattleArea := battleArea } := by
  unfold activeState createGameContext.GetPlayerState at hps ⊢
  unfold contextWith withBattleArea
  cases hg : game.Game.GameState with
  | none => rw [hg] at hps; exact absurd hps (by simp)
  | some gs =>
    rw [hg] at hps
    by_cases h1 : game.ActivePlayer = 1
    · simp only [h1, if_true, Option.some.injEq] at hps ⊢
      rw [← hps]
    · simp only [h1, if_false, Option.some.injEq] at hps ⊢
      rw [← hps]

theorem opponentState_contextWith (game : GameContext)
    (battleArea : List (String × Friend)) :
    opponentState (contextWith game battleArea) = opponentState game := by
  unfold opponentState createGameContext.GetPlayerState createGameContext.GetOpponentPlayer
  unfold contextWith withBattleArea
  cases hg : game.Game.GameState with
  | none => simp [hg]
  | some gs =>
    by_cases h1 : game.ActivePlayer = 1
    · simp [h1]
    · simp [h1]

theorem contextWith_twice (game : GameContext) (first second : List (String × Friend)) :
    contextWith (contextWith game first) second = contextWith game second := by
  unfold contextWith withBattleArea
  cases hg : game.Game.GameState with
  | none => simp [hg]
  | some gs =>
    by_cases h1 : game.ActivePlayer = 1
    · simp [h1]
    · simp [h1]

theorem contextWith_self (game : GameContext) (ps : PlayerState)
    (hps : activeState game = some ps) : contextWith game ps.BattleArea = game := by
  obtain ⟨⟨gid, p1, p2, turn, phase, active, status, winner, state⟩, player⟩ := game
  unfold activeState createGameContext.GetPlayerState at hps
  unfold contextWith withBattleArea
  cases state with
  | none => exact absurd hps (by simp)
  | some gs =>
    by_cases h1 : player = 1
    · simp only [h1, if_true, Option.some.injEq] at hps ⊢
      subst hps
      rfl
    · simp only [h1, if_false, Option.some.injEq] at hps ⊢
      subst hps
      rfl

theorem contextWith_eta (game : GameContext) (battleArea : List (String × Friend)) :
    GameContext.mk (contextWith game battleArea).Game game.ActivePlayer =
      contextWith game battleArea := by
  unfold contextWith
  cases game.Game.GameState <;> rfl

theorem ModifyPower_append (game : GameContext) (ps : PlayerState) (amount : Int)
    (pre suf : List (String × Friend)) (pos : String) (friend : Friend)
    (hps : activeState game = some ps) (hba : ps.BattleArea = pre ++ (pos, friend) :: suf)
    (hpre : ∀ entry ∈ pre, entry.2.CardNo ≠ friend.CardNo) :
    createGameContext.ModifyPower game.Game game.ActivePlayer friend.CardNo amount =
      ((contextWith game (pre ++ (pos, createGameContext.addPower amount friend) :: suf)).Game, none) := by
  unfold activeState createGameContext.GetPlayerState at hps
  unfold createGameContext.ModifyPower updateFriend contextWith withBattleArea
  cases hg : game.Game.GameState with
  | none => rw [hg] at hps; exact absurd hps (by simp)
  | some gs =>
    rw [hg] at hps
    have hup := rangeUpdate_append friend.CardNo (createGameContext.addPower amount) pos friend suf rfl pre hpre
    by_cases h1 : game.ActivePlayer = 1
    · simp only [h1, if_true, Option.some.injEq] at hps ⊢
      rw [hps, hba, hup]
    · simp only [h1, if_false, Option.some.injEq] at hps ⊢
      rw [hps, hba, hup]

theorem boostLoop_append (amount : Int) (suf : List (String × Friend)) :
    ∀ (pre : List (String × Friend)) (game : GameContext) (ps : PlayerState),
      activeState game = some ps → ps.BattleArea = pre ++ suf →
      ((pre ++ suf).map fun entry => entry.2.CardNo).Nodup →
      boostLoop game amount (suf.map fun entry => entry.2.CardNo) =
        (contextWith game
          (pre ++ suf.map fun entry => (entry.1, createGameContext.addPower amount entry.2)), none) := by
  induction suf with
  | nil =>
    intro pre game ps hps hba _
    simp only [List.map_nil, boostLoop, List.append_nil] at hba ⊢
    rw [← hba, contextWith_self game ps hps]
  | cons entry suf ih =>
    intro pre game ps hps hba hnodup
    obtain ⟨pos, friend⟩ := entry
    have hpre : ∀ x ∈ pre, x.2.CardNo ≠ friend.CardNo := by
      intro x hx heq
      rw [List.map_append, List.map_cons] at hnodup
      have hdis := (List.nodup_append.mp hnodup).2.2
      exact hdis (List.mem_map_of_mem (fun entry => entry.2.CardNo) hx)
        (heq ▸ List.mem_cons_self _ _)
    have hstep := ModifyPower_append game ps amount pre suf pos friend hps hba hpre
    simp only [List.map_cons, boostLoop, hstep]
    have hps1 := activeState_contextWith game ps
      (pre ++ (pos, createGameContext.addPower amount friend) :: suf) hps
    have hcard : (createGameContext.addPower amount friend).CardNo = friend.CardNo := rfl
    have hnodup1 : (((pre ++ [(pos, createGameContext.addPower amount friend)]) ++ suf).map
        fun entry => entry.2.CardNo).Nodup := by
      simpa [hcard] using hnodup
    have hrec := ih (pre ++ [(pos, createGameContext.addPower amount friend)])
      (contextWith game (pre ++ (pos, createGameContext.addPower amount friend) :: suf)) _ hps1
      (by simp) hnodup1
    have hctx := contextWith_eta game (pre ++ (pos, createGameContext.addPower amount friend) :: suf)
    rw [hctx, hrec, contextWith_twice]
    simp

theorem fieldCount_values (playerState oppState : PlayerState) (source : Card) :
    FieldCountPowerBoostEffect.fieldCount playerState oppState source =
        (if playerState.FieldCard.isSome ∧ playerState.FieldCard ≠ some source.CardNo then 1
          else 0) +
        (if oppState.FieldCard.isSome then 1 else 0) ∧
    (FieldCountPowerBoostEffect.fieldCount playerState oppState source = 0 ∨
      FieldCountPowerBoostEffect.fieldCount playerState oppState source = 1 ∨
      FieldCountPowerBoostEffect.fieldCount playerState oppState source = 2) := by
  unfold FieldCountPowerBoostEffect.fieldCount
  cases h1 : playerState.FieldCard with
  | none => cases h2 : oppState.FieldCard <;> simp
  | some fieldCard =>
    by_cases h3 : fieldCard = source.CardNo <;> cases h2 : oppState.FieldCard <;> simp [h3]

theorem addPower_of_fits (amount : Int) (friend : Friend) (h0 : 0 ≤ friend.Power + amount)
    (h1 : friend.Power + amount ≤ maxInt) :
    createGameContext.addPower amount friend =
      { friend with Power := friend.Power + amount } := by
  have hmin : minInt ≤ 0 := by decide
  unfold createGameContext.addPower
  simp only [wrapInt_of_fits (le_trans hmin h0) h1, if_neg (not_lt.mpr h0)]

/-- C37, counterexample: player 1 has the friend F-002 of power 5 and the field
card F-089, player 2 has the field card F-090, the source is F-097, so two field
cards count. With the power per field 9223372036854775807 the product wraps to
-2 and the power after Apply is 3, not 5 + 2 × 9223372036854775807; no power is
negative before or after. With the effect of F-097 (1000 per field) and a
friend of power 9223372036854775807 the sum wraps below zero and the power
after Apply is 0. -/
theorem FieldCount_boost_wraps :
    (fieldsContext 5).ActivePlayer = 1 ∧
    ((activeState (fieldsContext 5)).bind fun playerState =>
      (opponentState (fieldsContext 5)).map fun oppState =>
        FieldCountPowerBoostEffect.fieldCount playerState oppState
          (EventHandler.loadCard "F-097")) = some 2 ∧
    powersOf (fieldsContext 5) = some [5] ∧
    (brimEffect.Apply (fieldsContext 5) (EventHandler.loadCard "F-097") []).map
        (fun r => (r.2, powersOf r.1)) = some (none, some [3]) ∧
    5 + 2 * brimEffect.PowerPerField = 18446744073709551619 ∧
    (NewTokumoFestivalEffect.Apply (fieldsContext 9223372036854775807)
        (EventHandler.loadCard "F-097") []).map
        (fun r => (r.2, powersOf r.1)) = some (none, some [0]) := by
  decide

/-- C37, amended: let the friends in the battle area of the active player of
the context have pairwise distinct card numbers, let k be the count of the
field card of this player when it is not the source card plus the field card
of the opponent when present, and let k × PowerPerField fit 64 bits and every
power plus k × PowerPerField be non-negative and fit 64 bits. Then k is 0, 1 or
2, Apply returns no error, the state of the active player afterwards is the
old one with k × PowerPerField added to the power of every friend, and the
state of the opponent is as before. -/
theorem FieldCount_boost_adds (e : FieldCountPowerBoostEffect) (game : GameContext)
    (source : Card) (targets : List Target) (playerState oppState : PlayerState)
    (hps : activeState game = some playerState) (hopp : opponentState game = some oppState)
    (hnodup : (playerState.BattleArea.map fun entry => entry.2.CardNo).Nodup)
    (hfit : minInt ≤
        FieldCountPowerBoostEffect.fieldCount playerState oppState source * e.PowerPerField ∧
      FieldCountPowerBoostEffect.fieldCount playerState oppState source * e.PowerPerField ≤
        maxInt)
    (hpow : ∀ entry ∈ playerState.BattleArea,
      0 ≤ entry.2.Power +
        FieldCountPowerBoostEffect.fieldCount playerState oppState source * e.PowerPerField ∧
      entry.2.Power +
        FieldCountPowerBoostEffect.fieldCount playerState oppState source * e.PowerPerField ≤
          maxInt) :
    FieldCountPowerBoostEffect.fieldCount playerState oppState source =
        (if playerState.FieldCard.isSome ∧ playerState.FieldCard ≠ some source.CardNo then 1
          else 0) +
        (if oppState.FieldCard.isSome then 1 else 0) ∧
    (FieldCountPowerBoostEffect.fieldCount playerState oppState source = 0 ∨
      FieldCountPowerBoostEffect.fieldCount playerState oppState source = 1 ∨
      FieldCountPowerBoostEffect.fieldCount playerState oppState source = 2) ∧
    ∃ after : GameContext, e.Apply game source targets = some (after, none) ∧
      activeState after = some
        { playerState with
          BattleArea := boosted
            (FieldCountPowerBoostEffect.fieldCount playerState oppState source * e.PowerPerField)
            playerState.BattleArea } ∧
      opponentState after = some oppState := by
  obtain ⟨hk, hk3⟩ := fieldCount_values playerState oppState source
  refine ⟨hk, hk3, ?_⟩
  have hloop := boostLoop_append
    (FieldCountPowerBoostEffect.fieldCount playerState oppState source * e.PowerPerField)
    playerState.BattleArea [] game playerState hps rfl hnodup
  have hmap : (playerState.BattleArea.map fun entry =>
      (entry.1, createGameContext.addPower
        (FieldCountPowerBoostEffect.fieldCount playerState oppState source * e.PowerPerField)
        entry.2)) =
      boosted
        (FieldCountPowerBoostEffect.fieldCount playerState oppState source * e.PowerPerField)
        playerState.BattleArea := by
    unfold boosted
    apply List.map_congr_left
    intro entry hentry
    rw [addPower_of_fits _ _ (hpow entry hentry).1 (hpow entry hentry).2]
  rw [List.nil_append, hmap] at hloop
  refine ⟨_, ?_, activeState_contextWith game playerState _ hps, ?_⟩
  · unfold FieldCountPowerBoostEffect.Apply
    simp only [hps, hopp, wrapInt_of_fits hfit.1 hfit.2, hloop]
  · rw [opponentState_contextWith, hopp]

/-- Witness of C37: the effect of F-097 for player 1 on `festivalGame`, where
player 1 has the friend F-002 of power 2000 and the field card F-097 itself and
player 2 has the field card F-090: one field card counts. -/
theorem FieldCount_boost_adds_witness :
    activeState { Game := festivalGame, ActivePlayer := 1 } = some festivalPlayer ∧
    (NewTokumoFestivalEffect.Apply { Game := festivalGame, ActivePlayer := 1 }
        (EventHandler.loadCard "F-097") []).map (fun r => (r.2, powersOf r.1)) =
      some (none, some [3000]) ∧
    ∃ after : GameContext,
      NewTokumoFestivalEffect.Apply { Game := festivalGame, ActivePlayer := 1 }
        (EventHandler.loadCard "F-097") [] = some (after, none) ∧
      activeState after = some
        { festivalPlayer with
          BattleArea := boosted
            (FieldCountPowerBoostEffect.fieldCount festivalPlayer
              { samplePlayer with FieldCard := some "F-090" } (EventHandler.loadCard "F-097") *
              NewTokumoFestivalEffect.PowerPerField)
            festivalPlayer.BattleArea } ∧
      opponentState after = some { samplePlayer with FieldCard := some "F-090" } :=
  ⟨by decide, by decide,
    (FieldCount_boost_adds NewTokumoFestivalEffect { Game := festivalGame, ActivePlayer := 1 }
      (EventHandler.loadCard "F-097") [] festivalPlayer
      { samplePlayer with FieldCard := some "F-090" } (by decide) (by decide) (by decide)
      (by decide) (by decide)).2.2⟩

/-! ## The lookup of the card in PlayCard -/

/-- C25: playFriend is reached from the request PlayCard alone, after PlayCard
has looked the card up with the same card service and the same card number.
When this lookup returns an error, PlayCard returns that error before it calls
playFriend and before any write: the table of games is as before, the record
read from the store is as read, and the game of the handler is the game it had
(the record read, for a handler created by the call); so the played card is
still in the hand and the battle area is as before. On a service whose lookup
of the card succeeds, playFriend returns no error. -/
theorem failed_lookup_keeps_game (s : GameService) (gameID : String) (playerID : Nat)
    (cardNo position : String) (targets : List String) (gameModel : Game) (player : Int)
    (err : String)
    (hdb : s.db gameID = some gameModel)
    (hplayer : GameService.playerNumber gameModel playerID = some player)
    (herr : s.cardService.GetCardByNo cardNo = .error err) :
    (∃ s1 h1, s.PlayCard gameID playerID cardNo position targets = some (s1, some err) ∧
      s1.db = s.db ∧ s1.db gameID = some gameModel ∧
      s1.eventHandler gameID = some h1 ∧
      h1.context.Game =
        (match s.eventHandler gameID with
         | some h0 => h0.context.Game
         | none => gameModel) ∧
      ∀ k, k ≠ gameID → s1.eventHandler k = s.eventHandler k) ∧
    ∀ (s2 : GameService) (card : Card), s2.cardService.GetCardByNo cardNo = .ok card →
      ∀ (game g1 : Game) (p : Int) (pos e : String),
        s2.playFriend game p cardNo pos ≠ some (g1, some e) := by
  constructor
  · unfold GameService.PlayCard
    simp only [hdb, GameService.getHandler_gameModel, hplayer, herr]
    refine ⟨_, (s.getHandler gameID gameModel).handler, rfl, rfl, hdb, ?_, ?_, ?_⟩
    · simp [GameService.putHandler]
    · unfold GameService.getHandler
      cases s.eventHandler gameID <;> rfl
    · intro k hk
      simp [GameService.putHandler, hk]
  · intro s2 card hcard game g1 p pos e hplay
    have h := (GameService.playFriend_of_known hcard hplay).1
    exact absurd h (by simp)

/-- Witness of C25: player 1 of a match, who holds the card F-777, asks to play
it; the card table does not know the card. The request returns the error of
the lookup and the stored match still has F-777 in the hand of player 1 and an
empty battle area. -/
theorem failed_lookup_keeps_game_witness :
    ((sampleService (handContext ["F-777"]).Game).PlayCard "g1" 1 "F-777" "a" []).map
        (fun r => (r.2, (r.1.db "g1").bind fun g =>
          (playerOf g 1).map fun ps => (ps.Hand, ps.BattleArea.length))) =
      some (some "record not found", some (["F-777"], 0)) ∧
    ∃ s1 h1, (sampleService (handContext ["F-777"]).Game).PlayCard "g1" 1 "F-777" "a" [] =
        some (s1, some "record not found") ∧
      s1.db = (sampleService (handContext ["F-777"]).Game).db ∧
      s1.db "g1" = some (handContext ["F-777"]).Game ∧
      s1.eventHandler "g1" = some h1 ∧
      h1.context.Game =
        (match (sampleService (handContext ["F-777"]).Game).eventHandler "g1" with
         | some h0 => h0.context.Game
         | none => (handContext ["F-777"]).Game) ∧
      ∀ k, k ≠ "g1" → s1.eventHandler k =
        (sampleService (handContext ["F-777"]).Game).eventHandler k :=
  ⟨by decide,
    (failed_lookup_keeps_game (sampleService (handContext ["F-777"]).Game) "g1" 1 "F-777" "a" []
      (handContext ["F-777"]).Game 1 "record not found" rfl rfl rfl).1⟩

end CardGame
